import Mathlib

/-!
# Bandwidth-estimation core: probe bitrate estimator, rate statistics, rate tracker

A shallow embedding of

* `modules/congestion_controller/goog_cc/probe_bitrate_estimator.cc`
* `rtc_base/rate_statistics.cc`
* `rtc_base/rate_tracker.cc`

together with the properties proved about them.

Conventions of the embedding.

* `int64_t` and `int` values that the code only adds, subtracts and compares are
  mathematical integers (`Int`); signed overflow is undefined behaviour in C++ and is
  outside the model.  In `RateStatistics` the accumulated count of an object whose
  overflow flag is clear is the sum of the bucket sums and stays within `int64_t`
  (`Reachable.accumulated_count_bounds`); once the flag is set the subtractions of the
  purge can leave that range, and what is proved of the count then holds of the
  mathematical value only.  The one place where the code narrows an `int64_t` to an `int`
  (`active_window_size` in `RateStatistics::Rate`) is modelled by an explicit
  reduction modulo `2^32`.  Indices and counts of type `size_t` are natural numbers below
  `2^64`: a negative `int64_t` converted to `size_t`, a negative difference of two
  `size_t` values, and a sum or product of `size_t` values that reaches `2^64` wrap
  around by `2^64`.  Integer division and remainder of `int64_t` values round toward zero
  (`Int.tdiv`, `Int.tmod`).
* The `float` arithmetic of `RateStatistics::Rate` is IEEE 754 single precision: every
  operation rounds its exact result to the nearest `float` (section "Single-precision
  arithmetic").  The other floating-point arithmetic, the ratios of the probe estimator and
  the `double` results of `RateTracker`, is idealised as exact rational arithmetic (`ℚ`);
  the literals `.80`, `2.0f`, `0.9f`, `0.95f` stand for `4/5`, `2`, `9/10`, `19/20`, and
  conversions between integers and these values are exact, except that a conversion to an
  integer discards the fractional part.  The one floating-point division whose divisor can
  be 0 (`ratio` in `HandleProbeAndEstimateBitrate`) keeps its floating-point outcome.
* `RTC_DCHECK` assertions are not executed (a release build).
* Member functions take the object as first argument and return the new object next to
  their result.
* The event log of the probe estimator only receives diagnostics and never influences a
  result; it is not part of the state.
-/

namespace webrtc

/-! ## Unit types -/

/-- Modelled from the spec: the unit library (`Timestamp`, `TimeDelta`) is not among the
sources.  A time value is a count of microseconds or one of the two infinities; a cluster
that has recorded nothing holds `first = +∞` and `last = -∞`, so that the first feedback
sets both the minimum and the maximum ("tracking minimum send time and maximum send time
seen"). -/
inductive TimeValue where
  | MinusInfinity
  | Micros (us : Int)
  | PlusInfinity
deriving DecidableEq, Repr

/-- A point in time. -/
abbrev Timestamp := TimeValue

/-- A difference of two points in time. -/
abbrev TimeDelta := TimeValue

namespace TimeValue

/-- Strict order of time values, the infinities being the least and greatest element. -/
def lt : TimeValue → TimeValue → Bool
  | MinusInfinity, MinusInfinity => false
  | MinusInfinity, _ => true
  | Micros _, MinusInfinity => false
  | Micros a, Micros b => decide (a < b)
  | Micros _, PlusInfinity => true
  | PlusInfinity, _ => false

/-- Non-strict order of time values. -/
def le (a b : TimeValue) : Bool := !(lt b a)

instance : LT TimeValue := ⟨fun a b => lt a b = true⟩
instance : LE TimeValue := ⟨fun a b => le a b = true⟩
instance (a b : TimeValue) : Decidable (a < b) := inferInstanceAs (Decidable (lt a b = true))
instance (a b : TimeValue) : Decidable (a ≤ b) := inferInstanceAs (Decidable (le a b = true))

/-- Sum `Timestamp + TimeDelta`; an infinite operand makes the result infinite. -/
def add : TimeValue → TimeValue → TimeValue
  | Micros a, Micros d => Micros (a + d)
  | PlusInfinity, _ => PlusInfinity
  | MinusInfinity, _ => MinusInfinity
  | Micros _, PlusInfinity => PlusInfinity
  | Micros _, MinusInfinity => MinusInfinity

/-- Difference `Timestamp - Timestamp`; an infinite operand makes the result infinite. -/
def sub : TimeValue → TimeValue → TimeValue
  | Micros a, Micros b => Micros (a - b)
  | PlusInfinity, _ => PlusInfinity
  | MinusInfinity, _ => MinusInfinity
  | Micros _, MinusInfinity => PlusInfinity
  | Micros _, PlusInfinity => MinusInfinity

/-- Constant `TimeDelta::Zero()`. -/
def Zero : TimeDelta := Micros 0

/-- Constructor `TimeDelta::Seconds(n)`. -/
def Seconds (n : Int) : TimeDelta := Micros (n * 1000000)

end TimeValue

/-- Modelled from the spec: the unit library is not among the sources; sizes are exact
numbers of bytes ("exact, unit-tagged numeric quantities"). -/
abbrev DataSize := ℚ

/-- Modelled from the spec: the unit library is not among the sources; rates are exact
numbers of bits per second. -/
abbrev DataRate := ℚ

/-- Modelled from the spec: `DataSize / TimeDelta` of the missing unit library, the exact
quotient in bits per second (a byte is 8 bits, a second 1000000 microseconds).  The code
divides by finite positive intervals only; other intervals give 0 here. -/
def DataSize.div (size : DataSize) (duration : TimeDelta) : DataRate :=
  match duration with
  | TimeValue.Micros us => size * 8000000 / (us : ℚ)
  | _ => 0

/-- Conversion of a floating-point value to `int`: the fractional part is discarded. -/
def truncToInt (q : ℚ) : Int := if 0 ≤ q then ⌊q⌋ else ⌈q⌉

/-! ## Probe bitrate estimator -/

/-- Constant `kMinReceivedProbesRatio`. -/
def kMinReceivedProbesRatio : ℚ := 4 / 5

/-- Constant `kMinReceivedBytesRatio`. -/
def kMinReceivedBytesRatio : ℚ := 4 / 5

/-- Constant `kMaxValidRatio`. -/
def kMaxValidRatio : ℚ := 2

/-- Constant `kMinRatioForUnsaturatedLink`. -/
def kMinRatioForUnsaturatedLink : ℚ := 9 / 10

/-- Constant `kTargetUtilizationFraction`. -/
def kTargetUtilizationFraction : ℚ := 19 / 20

/-- Constant `kMaxClusterHistory`. -/
def kMaxClusterHistory : TimeDelta := TimeValue.Seconds 1

/-- Constant `kMaxProbeInterval`. -/
def kMaxProbeInterval : TimeDelta := TimeValue.Seconds 1

/-- Pacing information of a sent packet (the fields the estimator reads). -/
structure PacedPacketInfo where
  probe_cluster_id : Int
  probe_cluster_min_probes : Int
  probe_cluster_min_bytes : Int
deriving DecidableEq, Repr

/-- Constant `PacedPacketInfo::kNotAProbe`, the cluster id of a packet that is not a probe. -/
def PacedPacketInfo.kNotAProbe : Int := -1

/-- A sent packet (the fields the estimator reads). -/
structure SentPacket where
  send_time : Timestamp
  size : DataSize
  pacing_info : PacedPacketInfo
deriving DecidableEq, Repr

/-- Feedback about one packet. -/
structure PacketResult where
  sent_packet : SentPacket
  receive_time : Timestamp
deriving DecidableEq, Repr

/-- Modelled from the spec: the header declaring `AggregatedCluster` is not among the
sources.  The aggregate of the feedback of one probe cluster; a new cluster has recorded
nothing. -/
structure AggregatedCluster where
  num_probes : Int := 0
  first_send : Timestamp := TimeValue.PlusInfinity
  last_send : Timestamp := TimeValue.MinusInfinity
  first_receive : Timestamp := TimeValue.PlusInfinity
  last_receive : Timestamp := TimeValue.MinusInfinity
  size_last_send : DataSize := 0
  size_first_receive : DataSize := 0
  size_total : DataSize := 0
deriving DecidableEq, Repr

namespace AggregatedCluster

/-- Lines 72-92 of `HandleProbeAndEstimateBitrate`: record one feedback in a cluster. -/
def record (cluster : AggregatedCluster) (packet_feedback : PacketResult) :
    AggregatedCluster :=
  let c1 :=
    if packet_feedback.sent_packet.send_time < cluster.first_send then
      { cluster with first_send := packet_feedback.sent_packet.send_time }
    else cluster
  let c2 :=
    if packet_feedback.sent_packet.send_time > c1.last_send then
      { c1 with last_send := packet_feedback.sent_packet.send_time,
                size_last_send := packet_feedback.sent_packet.size }
    else c1
  let c3 :=
    if packet_feedback.receive_time < c2.first_receive then
      { c2 with first_receive := packet_feedback.receive_time,
                size_first_receive := packet_feedback.sent_packet.size }
    else c2
  let c4 :=
    if packet_feedback.receive_time > c3.last_receive then
      { c3 with last_receive := packet_feedback.receive_time }
    else c3
  { c4 with size_total := c4.size_total + packet_feedback.sent_packet.size,
            num_probes := c4.num_probes + 1 }

/-- The local `send_interval` (line 114). -/
def send_interval (cluster : AggregatedCluster) : TimeDelta :=
  TimeValue.sub cluster.last_send cluster.first_send

/-- The local `receive_interval` (line 116). -/
def receive_interval (cluster : AggregatedCluster) : TimeDelta :=
  TimeValue.sub cluster.last_receive cluster.first_receive

/-- The local `send_rate` (lines 142-144): the last sent packet is left out. -/
def send_rate (cluster : AggregatedCluster) : DataRate :=
  DataSize.div (cluster.size_total - cluster.size_last_send) cluster.send_interval

/-- The local `receive_rate` (lines 152-154): the first received packet is left out. -/
def receive_rate (cluster : AggregatedCluster) : DataRate :=
  DataSize.div (cluster.size_total - cluster.size_first_receive) cluster.receive_interval

/-- The local `ratio` (line 157) when `send_rate` is not 0. -/
def ratio (cluster : AggregatedCluster) : ℚ :=
  cluster.receive_rate / cluster.send_rate

/-- The comparison `ratio > kMaxValidRatio` of line 160.  The quotient is a `double`: for a
`send_rate` of 0 it is `+∞` when `receive_rate` is positive, which exceeds every bound, and
otherwise `-∞` or not a number, which exceed none. -/
def ratioExceeds (cluster : AggregatedCluster) (bound : ℚ) : Bool :=
  if cluster.send_rate = 0 then decide (0 < cluster.receive_rate)
  else decide (cluster.ratio > bound)

end AggregatedCluster

/-- The estimator: the clusters by id (`std::map<int, AggregatedCluster>`) and the last
estimate. -/
structure ProbeBitrateEstimator where
  clusters_ : Int → Option AggregatedCluster
  estimated_data_rate_ : Option DataRate

namespace ProbeBitrateEstimator

/-- The constructor: no clusters, no estimate. -/
def new : ProbeBitrateEstimator :=
  { clusters_ := fun _ => none, estimated_data_rate_ := none }

/-- Member `EraseOldClusters`: every cluster with `last_receive + kMaxClusterHistory < timestamp`
is erased. -/
def EraseOldClusters (self : ProbeBitrateEstimator) (timestamp : Timestamp) :
    ProbeBitrateEstimator :=
  { self with
    clusters_ := fun id =>
      match self.clusters_ id with
      | none => none
      | some c =>
        if TimeValue.add c.last_receive kMaxClusterHistory < timestamp then none else some c }

/-- The local `min_probes` (lines 100-102), an `int`. -/
def min_probes (packet_feedback : PacketResult) : Int :=
  truncToInt (packet_feedback.sent_packet.pacing_info.probe_cluster_min_probes *
    kMinReceivedProbesRatio)

/-- The local `min_size` (lines 105-108). -/
def min_size (packet_feedback : PacketResult) : DataSize :=
  (packet_feedback.sent_packet.pacing_info.probe_cluster_min_bytes : ℚ) *
    kMinReceivedBytesRatio

/-- The cluster of the feedback after lines 68-92: old clusters erased, the cluster looked
up or created, the feedback recorded. -/
def fedCluster (self : ProbeBitrateEstimator) (packet_feedback : PacketResult) :
    AggregatedCluster :=
  (((self.EraseOldClusters packet_feedback.receive_time).clusters_
      packet_feedback.sent_packet.pacing_info.probe_cluster_id).getD {}).record
    packet_feedback

/-- Member `HandleProbeAndEstimateBitrate`. -/
def HandleProbeAndEstimateBitrate (self : ProbeBitrateEstimator)
    (packet_feedback : PacketResult) : Option DataRate × ProbeBitrateEstimator :=
  let cluster_id := packet_feedback.sent_packet.pacing_info.probe_cluster_id
  let self1 := self.EraseOldClusters packet_feedback.receive_time
  let cluster := self.fedCluster packet_feedback
  let self2 : ProbeBitrateEstimator :=
    { self1 with clusters_ := Function.update self1.clusters_ cluster_id (some cluster) }
  if cluster.num_probes < min_probes packet_feedback ∨
      cluster.size_total < min_size packet_feedback then
    (none, self2)
  else
    let send_interval := cluster.send_interval
    let receive_interval := cluster.receive_interval
    if send_interval ≤ TimeValue.Zero ∨ send_interval > kMaxProbeInterval ∨
        receive_interval ≤ TimeValue.Zero ∨ receive_interval > kMaxProbeInterval then
      (none, self2)
    else
      let send_rate := cluster.send_rate
      let receive_rate := cluster.receive_rate
      if cluster.ratioExceeds kMaxValidRatio = true then
        (none, self2)
      else
        let res := min send_rate receive_rate
        let res :=
          if receive_rate < kMinRatioForUnsaturatedLink * send_rate then
            kTargetUtilizationFraction * receive_rate
          else res
        (some res, { self2 with estimated_data_rate_ := some res })

/-- Member `FetchAndResetLastEstimatedBitrate`. -/
def FetchAndResetLastEstimatedBitrate (self : ProbeBitrateEstimator) :
    Option DataRate × ProbeBitrateEstimator :=
  (self.estimated_data_rate_, { self with estimated_data_rate_ := none })

end ProbeBitrateEstimator

/-! ### A concrete probe cluster -/

namespace ProbeExample

/-- Cluster 0, configured with 3 probes and 2000 bytes. -/
def info : PacedPacketInfo :=
  { probe_cluster_id := 0, probe_cluster_min_probes := 3, probe_cluster_min_bytes := 2000 }

/-- First probe: 1000 bytes, sent and received at 0 ms. -/
def feedback1 : PacketResult :=
  { sent_packet := { send_time := TimeValue.Micros 0, size := 1000, pacing_info := info },
    receive_time := TimeValue.Micros 0 }

/-- Second probe: 1000 bytes, sent and received at 10 ms. -/
def feedback2 : PacketResult :=
  { sent_packet := { send_time := TimeValue.Micros 10000, size := 1000, pacing_info := info },
    receive_time := TimeValue.Micros 10000 }

/-- The estimator after the first probe. -/
def estimator1 : ProbeBitrateEstimator :=
  (ProbeBitrateEstimator.new.HandleProbeAndEstimateBitrate feedback1).2

/-- The cluster after the second probe. -/
def cluster2 : AggregatedCluster :=
  { num_probes := 2,
    first_send := TimeValue.Micros 0, last_send := TimeValue.Micros 10000,
    first_receive := TimeValue.Micros 0, last_receive := TimeValue.Micros 10000,
    size_last_send := 1000, size_first_receive := 1000, size_total := 2000 }

end ProbeExample

/-! ## Rate statistics -/

/-- The largest `int64_t`, `std::numeric_limits<int64_t>::max()`. -/
def kInt64Max : Int := 9223372036854775807

/-- The least `int64_t`. -/
def kInt64Min : Int := -9223372036854775808

/-- Conversion of an `int64_t` to `int`: the value modulo `2^32` in the range
`[-2^31, 2^31)`. -/
def toInt32 (x : Int) : Int := (x + 2147483648) % 4294967296 - 2147483648


/-! ### Single-precision arithmetic

The type `float` of the sources is IEEE 754 single precision: a significand of 24 bits and
exponents from -126 to 127.  Every conversion to `float` and every operation on `float`
values rounds its exact result once to the nearest `float`, a tie going to the one with an
even significand; a product and a sum that follows it are rounded one after the other, not
fused.  A `float` is the rational number it stands for; `2^128` and `-2^128` stand for the
infinite values.  The scale of a `RateStatistics` is a finite `float`, and then no
operation of `Rate` gives a value that is not a number. -/

/-- Rounding of a rational number to the nearest integer, a tie going to the even one. -/
def roundHalfEven (x : ℚ) : Int :=
  if x - ⌊x⌋ < 1 / 2 then ⌊x⌋
  else if 1 / 2 < x - ⌊x⌋ then ⌊x⌋ + 1
  else if ⌊x⌋ % 2 = 0 then ⌊x⌋
  else ⌊x⌋ + 1

/-- The exponent of the binade of `q` in single precision: the integer `e` with
`2^e <= |q| < 2^(e+1)`, and -126 for the subnormal numbers (0 rounds to 0 whatever its
exponent is taken to be). -/
def floatExponent (q : ℚ) : Int := max (Int.log 2 |q|) (-126)

/-- The value that stands for an infinite `float`: the least power of 2 above every finite
one. -/
def kFloatInfinity : ℚ := 2 ^ 128

/-- Rounding to `float` (round to nearest, ties to even): the nearest multiple of
`2^(e - 23)`, `e` the exponent of the binade; a result of magnitude `2^128` or more is
infinite. -/
def roundToFloat (q : ℚ) : ℚ :=
  let quantum : ℚ := 2 ^ (floatExponent q - 23)
  let rounded : ℚ := (roundHalfEven (q / quantum) : ℚ) * quantum
  if rounded ≥ kFloatInfinity then kFloatInfinity
  else if rounded ≤ -kFloatInfinity then -kFloatInfinity
  else rounded

/-- Conversion of a `float` to `int64_t` (`rtc::dchecked_cast<int64_t>`): the fractional
part is discarded.  For a value outside the range of `int64_t` the conversion is undefined
in C++; the value here is the one that the conversion instruction of x86-64 gives, the
least `int64_t`. -/
def floatToInt64 (x : ℚ) : Int :=
  if (kInt64Min : ℚ) ≤ x ∧ x < 2 ^ 63 then truncToInt x else kInt64Min

/-! ### The class -/

/-- One bucket of `RateStatistics`: the samples of one millisecond. -/
structure RateStatistics.Bucket where
  sum : Int
  num_samples : Int
  timestamp : Int
deriving DecidableEq, Repr

/-- The constructor `Bucket(timestamp)`: an empty bucket. -/
def RateStatistics.Bucket.new (timestamp : Int) : RateStatistics.Bucket :=
  { sum := 0, num_samples := 0, timestamp := timestamp }

/-- The members of `RateStatistics`; `buckets_` is the deque, front first, and
`first_timestamp_ = -1` means that no first timestamp is recorded.  The member `scale_`
holds the scale that the constructor is given, a `float` in the code; `Rate` converts it to
`float` (`static_cast<float>(scale_)`), which changes nothing if it is one. -/
structure RateStatistics where
  buckets_ : List RateStatistics.Bucket
  accumulated_count_ : Int
  first_timestamp_ : Int
  overflow_ : Bool
  num_samples_ : Int
  scale_ : ℚ
  max_window_size_ms_ : Int
  current_window_size_ms_ : Int
deriving DecidableEq, Repr

namespace RateStatistics

/-- The constructor `RateStatistics(window_size_ms, scale)`.  It does not mention
`overflow_`: the member's initial value is in the class declaration, which is not among
the sources.  Modelled from the spec: the flag is set "by a saturating accumulation"
only, so a new object has it cleared. -/
def new (window_size_ms : Int) (scale : ℚ) : RateStatistics :=
  { buckets_ := [],
    accumulated_count_ := 0,
    first_timestamp_ := -1,
    overflow_ := false,
    num_samples_ := 0,
    scale_ := scale,
    max_window_size_ms_ := window_size_ms,
    current_window_size_ms_ := window_size_ms }

/-- Member `Reset`. -/
def Reset (self : RateStatistics) : RateStatistics :=
  { self with
    accumulated_count_ := 0,
    overflow_ := false,
    num_samples_ := 0,
    first_timestamp_ := -1,
    current_window_size_ms_ := self.max_window_size_ms_,
    buckets_ := [] }

/-- The loop of `EraseOld` on the deque, `accumulated_count_` and `num_samples_`: while the
front bucket is older than `new_oldest_time` it is subtracted and popped.  The subtraction
is the one of mathematical integers; it stays within `int64_t` as long as the overflow flag
is clear, when the buckets removed sum to a value from 0 to `accumulated_count_`
(`EraseOld_sum_nonneg`, `Reachable.accumulated_count_bounds`). -/
def eraseOldLoop (new_oldest_time : Int) : List Bucket → Int → Int → List Bucket × Int × Int
  | [], accumulated_count, num_samples => ([], accumulated_count, num_samples)
  | oldest_bucket :: rest, accumulated_count, num_samples =>
    if oldest_bucket.timestamp < new_oldest_time then
      eraseOldLoop new_oldest_time rest (accumulated_count - oldest_bucket.sum)
        (num_samples - oldest_bucket.num_samples)
    else (oldest_bucket :: rest, accumulated_count, num_samples)

/-- Member `EraseOld`. -/
def EraseOld (self : RateStatistics) (now_ms : Int) : RateStatistics :=
  let new_oldest_time := now_ms - self.current_window_size_ms_ + 1
  let r := eraseOldLoop new_oldest_time self.buckets_ self.accumulated_count_ self.num_samples_
  { self with buckets_ := r.1, accumulated_count_ := r.2.1, num_samples_ := r.2.2 }

/-- Whether the two assertions in the loop of `EraseOld`,
`accumulated_count_ >= oldest_bucket.sum` and `num_samples_ >= oldest_bucket.num_samples`,
hold in every iteration. -/
def eraseOldChecks (new_oldest_time : Int) : List Bucket → Int → Int → Bool
  | [], _, _ => true
  | oldest_bucket :: rest, accumulated_count, num_samples =>
    if oldest_bucket.timestamp < new_oldest_time then
      decide (accumulated_count ≥ oldest_bucket.sum) &&
        decide (num_samples ≥ oldest_bucket.num_samples) &&
        eraseOldChecks new_oldest_time rest (accumulated_count - oldest_bucket.sum)
          (num_samples - oldest_bucket.num_samples)
    else true

/-- Whether the assertions of `EraseOld(now_ms)` hold when it runs on `self`. -/
def EraseOldChecks (self : RateStatistics) (now_ms : Int) : Bool :=
  eraseOldChecks (now_ms - self.current_window_size_ms_ + 1) self.buckets_
    self.accumulated_count_ self.num_samples_

/-- Lines 66-77 of `Update`: a bucket is appended unless the back bucket has timestamp
`now_ms`; an earlier `now_ms` is aligned to the back bucket's timestamp first. -/
def appendBucket (buckets : List Bucket) (now_ms : Int) : List Bucket :=
  match buckets.getLast? with
  | none => buckets ++ [Bucket.new now_ms]
  | some back =>
    if now_ms ≠ back.timestamp then
      if now_ms < back.timestamp then buckets ++ [Bucket.new back.timestamp]
      else buckets ++ [Bucket.new now_ms]
    else buckets

/-- Lines 78-81 of `Update`: the sample is added to the back bucket. -/
def addToBack (buckets : List Bucket) (count : Int) : List Bucket :=
  match buckets.getLast? with
  | none => buckets
  | some last_bucket =>
    buckets.dropLast ++
      [{ last_bucket with sum := last_bucket.sum + count,
                          num_samples := last_bucket.num_samples + 1 }]

/-- Member `Update`. -/
def Update (self : RateStatistics) (count now_ms : Int) : RateStatistics :=
  let self1 := self.EraseOld now_ms
  let first_timestamp :=
    if self1.first_timestamp_ = -1 then now_ms else self1.first_timestamp_
  let buckets := addToBack (appendBucket self1.buckets_ now_ms) count
  if kInt64Max - self1.accumulated_count_ > count then
    { self1 with
      first_timestamp_ := first_timestamp,
      buckets_ := buckets,
      accumulated_count_ := self1.accumulated_count_ + count,
      num_samples_ := self1.num_samples_ + 1 }
  else
    { self1 with
      first_timestamp_ := first_timestamp,
      buckets_ := buckets,
      overflow_ := true,
      num_samples_ := self1.num_samples_ + 1 }

/-- The local `active_window_size` of `Rate` (lines 98-111), an `int`, computed on the
object after the purge. -/
def active_window_size (self : RateStatistics) (now_ms : Int) : Int :=
  if self.first_timestamp_ ≠ -1 then
    if self.first_timestamp_ ≤ now_ms - self.current_window_size_ms_ then
      toInt32 self.current_window_size_ms_
    else toInt32 (now_ms - self.first_timestamp_ + 1)
  else 0

/-- Member `Rate`; it purges the object, which is returned next to the rate.  The locals
`scale` and `result` are of type `float`: the integers `active_window_size` and
`accumulated_count_` are converted to `float`, and the quotient, the product and the sum
are rounded to `float` each; `result` is compared with the `float` nearest to the largest
`int64_t`, which is `2^63`. -/
def Rate (self : RateStatistics) (now_ms : Int) : Option Int × RateStatistics :=
  let self1 := self.EraseOld now_ms
  let active_window_size := self1.active_window_size now_ms
  if self1.num_samples_ = 0 ∨ active_window_size ≤ 1 ∨
      (self1.num_samples_ ≤ 1 ∧ active_window_size < self1.current_window_size_ms_) ∨
      self1.overflow_ = true then
    (none, self1)
  else
    let scale : ℚ :=
      roundToFloat (roundToFloat self1.scale_ / roundToFloat (active_window_size : ℚ))
    let result : ℚ :=
      roundToFloat (roundToFloat (roundToFloat (self1.accumulated_count_ : ℚ) * scale) + 1 / 2)
    if result > roundToFloat (kInt64Max : ℚ) then (none, self1)
    else (some (floatToInt64 result), self1)

/-- Member `SetWindowSize`. -/
def SetWindowSize (self : RateStatistics) (window_size_ms now_ms : Int) :
    Bool × RateStatistics :=
  if window_size_ms ≤ 0 ∨ window_size_ms > self.max_window_size_ms_ then (false, self)
  else
    let self1 : RateStatistics :=
      if self.first_timestamp_ ≠ -1 then
        { self with
          first_timestamp_ := max self.first_timestamp_ (now_ms - window_size_ms + 1) }
      else self
    let self2 : RateStatistics := { self1 with current_window_size_ms_ := window_size_ms }
    (true, self2.EraseOld now_ms)

/-- One call of the public interface. -/
inductive Call where
  | Update (count now_ms : Int)
  | Rate (now_ms : Int)
  | SetWindowSize (window_size_ms now_ms : Int)
  | Reset
deriving DecidableEq, Repr

/-- The object after a call. -/
def Call.apply (self : RateStatistics) : Call → RateStatistics
  | Call.Update count now_ms => self.Update count now_ms
  | Call.Rate now_ms => (self.Rate now_ms).2
  | Call.SetWindowSize window_size_ms now_ms => (self.SetWindowSize window_size_ms now_ms).2
  | Call.Reset => self.Reset

/-- The precondition of a call: `Update` takes a count `>= 0`. -/
def Call.valid : Call → Bool
  | Call.Update count _ => decide (0 ≤ count)
  | _ => true

/-- Whether a call is `Reset`. -/
def Call.isReset : Call → Bool
  | Call.Reset => true
  | _ => false

/-- The object after a sequence of calls. -/
def run (self : RateStatistics) (calls : List Call) : RateStatistics :=
  calls.foldl Call.apply self

/-- The states reached from a freshly constructed object by valid calls. -/
def Reachable (self : RateStatistics) : Prop :=
  ∃ (window_size_ms : Int) (scale : ℚ) (calls : List Call),
    (∀ c ∈ calls, c.valid = true) ∧ self = run (new window_size_ms scale) calls

/-- The sum of the `sum` fields of a bucket sequence. -/
def sumOfSums (buckets : List Bucket) : Int := (buckets.map Bucket.sum).sum

/-- The sum of the `num_samples` fields of a bucket sequence. -/
def sumOfSamples (buckets : List Bucket) : Int := (buckets.map Bucket.num_samples).sum


/-- The active window size as the specification states it, without the conversion to
`int`: the current window if the first timestamp is at least a window old, the time since
the first timestamp plus one otherwise, 0 if no first timestamp is recorded. -/
def specActiveWindowSize (self : RateStatistics) (now_ms : Int) : Int :=
  if self.first_timestamp_ ≠ -1 then
    if self.first_timestamp_ ≤ now_ms - self.current_window_size_ms_ then
      self.current_window_size_ms_
    else now_ms - self.first_timestamp_ + 1
  else 0

/-- The exact value of `accumulated_count * (scale / window) + 0.5`, for a given window:
the scaled result of the specification. -/
def scaledResult (self : RateStatistics) (window : Int) : ℚ :=
  (self.accumulated_count_ : ℚ) * (self.scale_ / (window : ℚ)) + 1 / 2

/-- The value of the local `result` of `Rate` (lines 125-126) for a given active window
size: `accumulated_count * (scale / window) + 0.5` as single-precision arithmetic
evaluates it. -/
def floatResult (self : RateStatistics) (window : Int) : ℚ :=
  roundToFloat (roundToFloat (roundToFloat (self.accumulated_count_ : ℚ) *
    roundToFloat (roundToFloat self.scale_ / roundToFloat (window : ℚ))) + 1 / 2)

/-- A window of 1000 ms: a sample of 10000 at 0 ms and an empty sample at 2 ms. -/
def exampleThirds : RateStatistics :=
  run (new 1000 8000) [Call.Update 10000 0, Call.Update 0 2]

/-- A window of 1000 ms: a sample of 8070450532247928 at 0 ms and an empty sample at
6 ms. -/
def exampleNearMax : RateStatistics :=
  run (new 1000 8000) [Call.Update 8070450532247928 0, Call.Update 0 6]

/-- A window of `2^32` ms: three samples, the last two at `2^32` ms. -/
def exampleHugeWindow : RateStatistics :=
  run (new 4294967296 8000)
    [Call.Update 1 0, Call.Update 1 4294967296, Call.Update 1 4294967296]

/-- A window of 1000 ms: two samples at `2^32 + 8` ms. -/
def exampleLateSamples : RateStatistics :=
  run (new 1000 8000) [Call.Update 1 4294967304, Call.Update 1 4294967304]

/-- A window of 1000 ms: samples at 0 ms and 500 ms. -/
def exampleTwoSamples : RateStatistics :=
  run (new 1000 8000) [Call.Update 1 0, Call.Update 1 500]


/-- A window of 1000 ms: two samples of `2^63 - 2` at 0 ms and 1 ms; the second one
overflows the accumulator. -/
def exampleOverflow : RateStatistics :=
  run (new 1000 8000)
    [Call.Update (kInt64Max - 1) 0, Call.Update (kInt64Max - 1) 1]


/-- The buckets are ordered by time: no bucket has a later timestamp than one behind it. -/
def OrderedByTime (buckets : List Bucket) : Prop :=
  buckets.Pairwise (fun a b => a.timestamp ≤ b.timestamp)

end RateStatistics

/-- The estimator after a sequence of feedbacks. -/
def ProbeBitrateEstimator.feed (self : ProbeBitrateEstimator)
    (feedbacks : List PacketResult) : ProbeBitrateEstimator :=
  feedbacks.foldl (fun s f => (s.HandleProbeAndEstimateBitrate f).2) self

/-! ### A cluster configured with 5 probes and 1000 bytes -/

namespace ProbeExample

/-- Cluster 0, configured with 5 probes and 1000 bytes. -/
def info5 : PacedPacketInfo :=
  { probe_cluster_id := 0, probe_cluster_min_probes := 5, probe_cluster_min_bytes := 1000 }

/-- A probe of cluster 0 (5 probes, 1000 bytes) with times in milliseconds. -/
def probe5 (send_ms receive_ms : Int) (size : DataSize) : PacketResult :=
  { sent_packet :=
      { send_time := TimeValue.Micros (send_ms * 1000), size := size, pacing_info := info5 },
    receive_time := TimeValue.Micros (receive_ms * 1000) }

/-- Three probes of 300 bytes, sent and received at 0, 10 and 20 ms. -/
def threeProbes : List PacketResult :=
  [probe5 0 0 300, probe5 10 10 300, probe5 20 20 300]

/-- The cluster after the three probes of 300 bytes. -/
def cluster3 : AggregatedCluster :=
  { num_probes := 3,
    first_send := TimeValue.Micros 0, last_send := TimeValue.Micros 20000,
    first_receive := TimeValue.Micros 0, last_receive := TimeValue.Micros 20000,
    size_last_send := 300, size_first_receive := 300, size_total := 900 }

/-- A late probe of 300 bytes, sent and received at 2000 ms. -/
def lateProbe : PacketResult := probe5 2000 2000 300

/-- A fourth probe of 300 bytes, sent and received at 30 ms: 1200 bytes in total. -/
def fourthProbe : PacketResult := probe5 30 30 300

/-- Four probes of 100, 400, 400 and 400 bytes, sent at 0, 25, 50, 75 ms and received at
0, 30, 60, 90 ms. -/
def fourProbes : List PacketResult :=
  [probe5 0 0 100, probe5 25 30 400, probe5 50 60 400, probe5 75 90 400]

/-- A fifth probe of 200 bytes, sent at 100 ms and received at 120 ms: 1500 bytes in
total. -/
def fifthProbe : PacketResult := probe5 100 120 200

/-- The cluster after the five probes: 5 probes, 1500 bytes, intervals of 100 ms and
120 ms. -/
def cluster5 : AggregatedCluster :=
  { num_probes := 5,
    first_send := TimeValue.Micros 0, last_send := TimeValue.Micros 100000,
    first_receive := TimeValue.Micros 0, last_receive := TimeValue.Micros 120000,
    size_last_send := 200, size_first_receive := 100, size_total := 1500 }

end ProbeExample

namespace RateStatistics

/-- A window of 1000 ms: one sample at 0 ms. -/
def exampleOneSample : RateStatistics := (new 1000 8000).Update 1 0

/-- A window of 1000 ms: one sample of 5 at 0 ms, before a second sample at 0 ms. -/
def exampleBeforeSecondSample : RateStatistics := (new 1000 8000).Update 5 0

end RateStatistics

/-! ## Rate tracker

The class `rtc::RateTracker` of `rtc_base/rate_tracker.cc`.  The clock `Time()` is an
argument `current_time` of every member that reads it; a call reads the same time
throughout.  The constructor's `RTC_CHECK`s make `bucket_milliseconds > 0` and
`bucket_count > 0` preconditions of every object, and `bucket_count + 1` fits in a
`size_t`.  The clock is `rtc::TimeMillis()`, whose readings are not negative. -/

/-- Constant `kTimeUnset`. -/
def kTimeUnset : Int := -1

/-- Conversion of an `int64_t` to `size_t` (64 bits): a negative value wraps around by
`2^64`. -/
def toSizeT (x : Int) : Nat := if 0 ≤ x then x.toNat else (x + 18446744073709551616).toNat

/-- Subtraction of two `size_t` values: a negative difference wraps around by `2^64`. -/
def sizeSub (a b : Nat) : Nat := if b ≤ a then a - b else a + 18446744073709551616 - b

/-- Conversion of a `size_t` to `int64_t`: a value of `2^63` or more wraps around by
`2^64`. -/
def sizeToInt64 (n : Nat) : Int :=
  if n < 9223372036854775808 then (n : Int) else (n : Int) - 18446744073709551616

/-- The members of `RateTracker`; `sample_buckets_` is the array of `bucket_count_ + 1`
counters, by index, and `total_sample_count_` is an unsigned counter of type `size_t` (the
constructor sets it to `0u`). -/
structure RateTracker where
  bucket_milliseconds_ : Int
  bucket_count_ : Nat
  sample_buckets_ : Nat → Int
  total_sample_count_ : Nat
  bucket_start_time_milliseconds_ : Int
  initialization_time_milliseconds_ : Int
  current_bucket_ : Nat

namespace RateTracker

/-- The constructor `RateTracker(bucket_milliseconds, bucket_count)`.  The array is
allocated and not written: `uninitialized` is its content.  The members
`initialization_time_milliseconds_` and `current_bucket_` are not set by the constructor
either; no member reads them before `EnsureInitialized` has set them. -/
def new (bucket_milliseconds : Int) (bucket_count : Nat) (uninitialized : Nat → Int) :
    RateTracker :=
  { bucket_milliseconds_ := bucket_milliseconds,
    bucket_count_ := bucket_count,
    sample_buckets_ := uninitialized,
    total_sample_count_ := 0,
    bucket_start_time_milliseconds_ := kTimeUnset,
    initialization_time_milliseconds_ := 0,
    current_bucket_ := 0 }

/-- Member `NextBucketIndex`. -/
def NextBucketIndex (self : RateTracker) (bucket_index : Nat) : Nat :=
  (bucket_index + 1) % (self.bucket_count_ + 1)

/-- Member `EnsureInitialized`. -/
def EnsureInitialized (self : RateTracker) (current_time : Int) : RateTracker :=
  if self.bucket_start_time_milliseconds_ = kTimeUnset then
    { self with
      initialization_time_milliseconds_ := current_time,
      bucket_start_time_milliseconds_ := current_time,
      current_bucket_ := 0,
      sample_buckets_ := Function.update self.sample_buckets_ 0 0 }
  else self

/-- The loop of `AddSamples` (lines 125-132) with `remaining` iterations left: while the
current time is past the end of the current bucket, the next bucket is entered and
zeroed. -/
def advance (current_time : Int) : Nat → RateTracker → RateTracker
  | 0, self => self
  | remaining + 1, self =>
    if current_time ≥ self.bucket_start_time_milliseconds_ + self.bucket_milliseconds_ then
      advance current_time remaining
        { self with
          bucket_start_time_milliseconds_ :=
            self.bucket_start_time_milliseconds_ + self.bucket_milliseconds_,
          current_bucket_ := self.NextBucketIndex self.current_bucket_,
          sample_buckets_ :=
            Function.update self.sample_buckets_
              (self.NextBucketIndex self.current_bucket_) 0 }
    else self

/-- Member `AddSamples`.  The sum `total_sample_count_ += sample_count` is a sum of
`size_t` values: `sample_count` is converted to `size_t`, and the sum wraps around at
`2^64`. -/
def AddSamples (self : RateTracker) (sample_count current_time : Int) : RateTracker :=
  let self1 := self.EnsureInitialized current_time
  let self2 := advance current_time (self1.bucket_count_ + 1) self1
  let bucket_start_time_milliseconds :=
    self2.bucket_start_time_milliseconds_ +
      self2.bucket_milliseconds_ *
        Int.tdiv (current_time - self2.bucket_start_time_milliseconds_)
          self2.bucket_milliseconds_
  { self2 with
    bucket_start_time_milliseconds_ := bucket_start_time_milliseconds,
    sample_buckets_ :=
      Function.update self2.sample_buckets_ self2.current_bucket_
        (self2.sample_buckets_ self2.current_bucket_ + sample_count),
    total_sample_count_ :=
      (self2.total_sample_count_ + toSizeT sample_count) % 18446744073709551616 }

/-- The tracker after a sequence of `AddSamples(sample_count)` calls, each given with its
time. -/
def addAll (self : RateTracker) (samples : List (Int × Int)) : RateTracker :=
  samples.foldl (fun s p => s.AddSamples p.1 p.2) self

/-- Lines 38-81 of `ComputeRateForInterval`: `none` where the function returns 0.0 early,
otherwise the locals `buckets_to_skip`, `milliseconds_to_skip` and
`available_interval_milliseconds`. -/
def skip (self : RateTracker) (interval_milliseconds current_time : Int) :
    Option (Nat × Int × Int) :=
  if self.bucket_start_time_milliseconds_ = kTimeUnset then none
  else
    let available_interval_milliseconds :=
      min interval_milliseconds (self.bucket_milliseconds_ * (self.bucket_count_ : Int))
    if current_time >
        self.initialization_time_milliseconds_ + available_interval_milliseconds then
      let time_to_skip :=
        current_time - self.bucket_start_time_milliseconds_ +
          (self.bucket_count_ : Int) * self.bucket_milliseconds_ -
          available_interval_milliseconds
      let buckets_to_skip := toSizeT (Int.tdiv time_to_skip self.bucket_milliseconds_)
      let milliseconds_to_skip := Int.tmod time_to_skip self.bucket_milliseconds_
      if buckets_to_skip > self.bucket_count_ ∨ available_interval_milliseconds = 0 then none
      else some (buckets_to_skip, milliseconds_to_skip, available_interval_milliseconds)
    else
      let buckets_to_skip := sizeSub self.bucket_count_ self.current_bucket_
      let available_interval_milliseconds :=
        current_time - self.initialization_time_milliseconds_
      if available_interval_milliseconds < self.bucket_milliseconds_ then none
      else if buckets_to_skip > self.bucket_count_ ∨ available_interval_milliseconds = 0 then
        none
      else some (buckets_to_skip, 0, available_interval_milliseconds)

/-- The loop of lines 90-93 with `fuel` iterations allowed: the sum of the buckets from
index `i` on, in ring order, until index `stop` is reached; `none` if that takes more
iterations. -/
def sumLoop (self : RateTracker) (stop : Nat) : Nat → Nat → Option Int
  | 0, i => if i = stop then some 0 else none
  | fuel + 1, i =>
    if i = stop then some 0
    else (sumLoop self stop fuel (self.NextBucketIndex i)).map (self.sample_buckets_ i + ·)

/-- The local `total_samples` (lines 82-93): the part of the start bucket that lies in the
interval, then the buckets that the loop adds. -/
def total_samples (self : RateTracker) (buckets_to_skip : Nat) (milliseconds_to_skip : Int) :
    Option Int :=
  let start_bucket := self.NextBucketIndex (self.current_bucket_ + buckets_to_skip)
  (sumLoop self (self.NextBucketIndex self.current_bucket_) (self.bucket_count_ + 1)
      (self.NextBucketIndex start_bucket)).map
    (Int.tdiv
      (self.sample_buckets_ start_bucket *
          (self.bucket_milliseconds_ - milliseconds_to_skip) +
        self.bucket_milliseconds_ / 2)
      self.bucket_milliseconds_ + ·)

/-- Member `ComputeRateForInterval`, in samples per second; `none` only if the loop does
not end within `bucket_count_ + 1` iterations. -/
def ComputeRateForInterval (self : RateTracker) (interval_milliseconds current_time : Int) :
    Option ℚ :=
  match self.skip interval_milliseconds current_time with
  | none => some 0
  | some (buckets_to_skip, milliseconds_to_skip, available_interval_milliseconds) =>
    (self.total_samples buckets_to_skip milliseconds_to_skip).map
      (fun total => ((total * 1000 : Int) : ℚ) / (available_interval_milliseconds : ℚ))

/-- A tracker with buckets of 10 ms, one bucket of history and 10 samples added at 0 ms. -/
def exampleTen : RateTracker := (new 10 1 (fun _ => 0)).AddSamples 10 0

/-- A tracker with buckets of 10 ms and two buckets of history: 5 samples at 0 ms and 7
samples at 10 ms. -/
def exampleTwoBuckets : RateTracker :=
  (new 10 2 (fun _ => 0)).addAll [(5, 0), (7, 10)]


/-- Member `ComputeTotalRate`, in samples per second.  The product
`total_sample_count_ * 1000` is a product of `size_t` values, which wraps around at `2^64`
before it is converted to `double`. -/
def ComputeTotalRate (self : RateTracker) (current_time : Int) : ℚ :=
  if self.bucket_start_time_milliseconds_ = kTimeUnset then 0
  else if current_time ≤ self.initialization_time_milliseconds_ then 0
  else ((self.total_sample_count_ * 1000 % 18446744073709551616 : Nat) : ℚ) /
    ((current_time - self.initialization_time_milliseconds_ : Int) : ℚ)

/-- Member `TotalSampleCount`: the counter, converted to `int64_t`. -/
def TotalSampleCount (self : RateTracker) : Int := sizeToInt64 self.total_sample_count_

/-- A tracker with buckets of 10 ms and one bucket of history: 18446744073709552 samples
added at 0 ms. -/
def exampleManySamples : RateTracker :=
  (new 10 1 (fun _ => 0)).addAll [(18446744073709552, 0)]

/-- A tracker with buckets of 10 ms and one bucket of history: 3 samples at 0 ms and
4 samples at 1005 ms, more than 100 bucket durations later. -/
def exampleLongPause : RateTracker :=
  ((new 10 1 (fun _ => 0)).addAll [(3, 0)]).AddSamples 4 1005

end RateTracker

namespace RateStatistics

/-- Calls of all four kinds: two samples, a query, a rejected and a successful change of
the window, a sample that arrives out of order, a reset and two samples at 2000 ms. -/
def exampleMixedCalls : List Call :=
  [Call.Update 1 0, Call.Update 2 500, Call.Rate 600, Call.SetWindowSize 2000 600,
    Call.SetWindowSize 100 600, Call.Update 3 550, Call.Reset, Call.Update 4 2000,
    Call.Update 5 2000]

end RateStatistics

/-- Whether a time value is finite. -/
def TimeValue.IsFinite : TimeValue → Bool
  | TimeValue.Micros _ => true
  | _ => false

/-- Whether the send time and the receive time of a feedback are finite. -/
def PacketResult.IsFinite (packet_feedback : PacketResult) : Bool :=
  packet_feedback.sent_packet.send_time.IsFinite && packet_feedback.receive_time.IsFinite

/-- The cluster that has recorded the feedbacks of a list, in order, since it was
created: lines 72-92 of `HandleProbeAndEstimateBitrate` for each of them. -/
def AggregatedCluster.recordAll (feedbacks : List PacketResult) : AggregatedCluster :=
  feedbacks.foldl AggregatedCluster.record {}

/-- The feedbacks of a list that belong to the cluster `id`. -/
def feedbacksOf (id : Int) (feedbacks : List PacketResult) : List PacketResult :=
  feedbacks.filter (fun f => decide (f.sent_packet.pacing_info.probe_cluster_id = id))

namespace ProbeExample

/-- A first probe of cluster 0 (3 probes, 2000 bytes): 1000 bytes, sent at 0 ms and
received at 30 ms. -/
def feedbackSlow : PacketResult :=
  { sent_packet := { send_time := TimeValue.Micros 0, size := 1000, pacing_info := info },
    receive_time := TimeValue.Micros 30000 }

/-- A second probe of cluster 0: 1000 bytes, sent at 20 ms and received at 40 ms, so that
the probes arrive closer together than they were sent. -/
def feedbackFast : PacketResult :=
  { sent_packet := { send_time := TimeValue.Micros 20000, size := 1000, pacing_info := info },
    receive_time := TimeValue.Micros 40000 }

/-- The cluster after the two probes `feedbackSlow` and `feedbackFast`. -/
def clusterFast : AggregatedCluster :=
  { num_probes := 2,
    first_send := TimeValue.Micros 0, last_send := TimeValue.Micros 20000,
    first_receive := TimeValue.Micros 30000, last_receive := TimeValue.Micros 40000,
    size_last_send := 1000, size_first_receive := 1000, size_total := 2000 }

end ProbeExample

namespace ProbeBitrateEstimator

/-- One call of the public interface of the estimator. -/
inductive Call where
  | Handle (packet_feedback : PacketResult)
  | Fetch

/-- The estimator after a call. -/
def Call.apply (self : ProbeBitrateEstimator) : Call → ProbeBitrateEstimator
  | Call.Handle packet_feedback => (self.HandleProbeAndEstimateBitrate packet_feedback).2
  | Call.Fetch => self.FetchAndResetLastEstimatedBitrate.2

/-- What a call returns. -/
def Call.result (self : ProbeBitrateEstimator) : Call → Option DataRate
  | Call.Handle packet_feedback => (self.HandleProbeAndEstimateBitrate packet_feedback).1
  | Call.Fetch => self.FetchAndResetLastEstimatedBitrate.1

/-- The estimator after a sequence of calls. -/
def run (self : ProbeBitrateEstimator) (calls : List Call) : ProbeBitrateEstimator :=
  calls.foldl Call.apply self

/-- The calls of a sequence, each with what it returned, in order. -/
def results (self : ProbeBitrateEstimator) : List Call → List (Call × Option DataRate)
  | [] => []
  | c :: rest => (c, Call.result self c) :: results (Call.apply self c) rest

/-- The estimate of the most recent successful `HandleProbeAndEstimateBitrate` call that
has not been fetched yet, as the specification describes what
`FetchAndResetLastEstimatedBitrate` returns; the calls are given with their results, the
most recent call first.  A `FetchAndResetLastEstimatedBitrate` call consumes what was
there before it, and a `HandleProbeAndEstimateBitrate` call that returned nothing is
passed over. -/
def mostRecentUnfetched : List (Call × Option DataRate) → Option DataRate
  | [] => none
  | (Call.Fetch, _) :: _ => none
  | (Call.Handle _, some r) :: _ => some r
  | (Call.Handle _, none) :: earlier => mostRecentUnfetched earlier

end ProbeBitrateEstimator

namespace RateTracker

/-- The slots that the loop of `AddSamples` sets to 0 (line 131), in order, with
`remaining` iterations left. -/
def advanceZeroed (current_time : Int) : Nat → RateTracker → List Nat
  | 0, _ => []
  | remaining + 1, self =>
    if current_time ≥ self.bucket_start_time_milliseconds_ + self.bucket_milliseconds_ then
      self.NextBucketIndex self.current_bucket_ ::
        advanceZeroed current_time remaining
          { self with
            bucket_start_time_milliseconds_ :=
              self.bucket_start_time_milliseconds_ + self.bucket_milliseconds_,
            current_bucket_ := self.NextBucketIndex self.current_bucket_,
            sample_buckets_ :=
              Function.update self.sample_buckets_
                (self.NextBucketIndex self.current_bucket_) 0 }
    else []

/-- The slots that an `AddSamples` call at the time `current_time` sets to 0: slot 0 when
the call initialises the tracker (`EnsureInitialized`), then the slots that the loop
enters. -/
def zeroedBy (self : RateTracker) (current_time : Int) : List Nat :=
  (if self.bucket_start_time_milliseconds_ = kTimeUnset then [0] else []) ++
    advanceZeroed current_time ((self.EnsureInitialized current_time).bucket_count_ + 1)
      (self.EnsureInitialized current_time)

/-- The slots that a sequence of `AddSamples` calls sets to 0. -/
def zeroedAll (self : RateTracker) : List (Int × Int) → List Nat
  | [] => []
  | p :: rest => self.zeroedBy p.2 ++ zeroedAll (self.AddSamples p.1 p.2) rest

/-- The slots that the loop of `ComputeRateForInterval` reads (line 92), from index `i`
until index `stop` is reached, with `fuel` iterations allowed. -/
def readLoop (self : RateTracker) (stop : Nat) : Nat → Nat → List Nat
  | 0, _ => []
  | fuel + 1, i =>
    if i = stop then [] else i :: readLoop self stop fuel (self.NextBucketIndex i)

/-- The slots that `ComputeRateForInterval` reads: none where it returns 0.0 early,
otherwise the start bucket (line 84) and the slots of the loop. -/
def readSlots (self : RateTracker) (interval_milliseconds current_time : Int) : List Nat :=
  match self.skip interval_milliseconds current_time with
  | none => []
  | some (buckets_to_skip, _, _) =>
    self.NextBucketIndex (self.current_bucket_ + buckets_to_skip) ::
      readLoop self (self.NextBucketIndex self.current_bucket_) (self.bucket_count_ + 1)
        (self.NextBucketIndex
          (self.NextBucketIndex (self.current_bucket_ + buckets_to_skip)))

/-- The tracker with another content of the array. -/
def withBuckets (self : RateTracker) (sample_buckets : Nat → Int) : RateTracker :=
  { self with sample_buckets_ := sample_buckets }

/-- What the slots set to 0 so far say about a tracker: the current bucket is an index of
the ring, and either every slot of the ring has been set to 0, or the slots up to the
current bucket have and the current bucket starts `current_bucket` bucket durations after
the initialisation time (the ring has not wrapped). -/
def ZeroedInvariant (self : RateTracker) (zeroed : List Nat) : Prop :=
  self.current_bucket_ ≤ self.bucket_count_ ∧
    ((∀ i, i ≤ self.bucket_count_ → i ∈ zeroed) ∨
      ((∀ i, i ≤ self.current_bucket_ → i ∈ zeroed) ∧
        self.bucket_start_time_milliseconds_ =
          self.initialization_time_milliseconds_ +
            (self.current_bucket_ : Int) * self.bucket_milliseconds_))

/-- A tracker with buckets of 10 ms and three buckets of history whose array holds 99 in
every slot when it is allocated: 5 samples at 0 ms and 7 samples at 10 ms. -/
def exampleGarbage : RateTracker :=
  (new 10 3 (fun _ => 99)).addAll [(5, 0), (7, 10)]

end RateTracker

/-! ## Theorems: probe bitrate estimator -/

namespace TimeValue

theorem not_le_iff (a b : TimeValue) : ¬ (a ≤ b) ↔ b < a := by
  show ¬ (le a b = true) ↔ lt b a = true
  unfold le
  cases lt b a <;> simp

theorem not_lt_iff (a b : TimeValue) : ¬ (a < b) ↔ b ≤ a := by
  show ¬ (lt a b = true) ↔ le b a = true
  unfold le
  cases lt a b <;> simp

@[simp] theorem Micros_lt_Micros (a b : Int) : (Micros a < Micros b) ↔ a < b := by
  show lt _ _ = true ↔ _
  simp [lt]

@[simp] theorem Micros_le_Micros (a b : Int) : (Micros a ≤ Micros b) ↔ a ≤ b := by
  show le _ _ = true ↔ _
  simp [le, lt]

@[simp] theorem Micros_lt_PlusInfinity (a : Int) : Micros a < PlusInfinity := by
  show lt _ _ = true
  rfl

@[simp] theorem MinusInfinity_lt_Micros (a : Int) : MinusInfinity < Micros a := by
  show lt _ _ = true
  rfl

@[simp] theorem not_PlusInfinity_lt (x : TimeValue) : ¬ (PlusInfinity < x) := by
  show ¬ (lt _ _ = true)
  simp [lt]

@[simp] theorem not_lt_MinusInfinity (x : TimeValue) : ¬ (x < MinusInfinity) := by
  show ¬ (lt _ _ = true)
  cases x <;> simp [lt]

@[simp] theorem le_PlusInfinity (x : TimeValue) : x ≤ PlusInfinity := by
  show le _ _ = true
  simp [le, lt]

@[simp] theorem MinusInfinity_le (x : TimeValue) : MinusInfinity ≤ x := by
  show le _ _ = true
  cases x <;> simp [le, lt]

@[simp] theorem not_PlusInfinity_le_Micros (a : Int) : ¬ (PlusInfinity ≤ Micros a) := by
  show ¬ (le _ _ = true)
  simp [le, lt]

@[simp] theorem not_Micros_le_MinusInfinity (a : Int) : ¬ (Micros a ≤ MinusInfinity) := by
  show ¬ (le _ _ = true)
  simp [le, lt]

theorem mem_Ioc_iff (x : TimeValue) (hi : Int) :
    (Micros 0 < x ∧ x ≤ Micros hi) ↔ ∃ us : Int, x = Micros us ∧ 0 < us ∧ us ≤ hi := by
  cases x with
  | MinusInfinity => simp [LT.lt, LE.le, lt, le]
  | PlusInfinity => simp [LT.lt, LE.le, lt, le]
  | Micros us =>
    show (lt _ _ = true ∧ le _ _ = true) ↔ _
    simp [lt, le]

end TimeValue

namespace AggregatedCluster

theorem ratioExceeds_iff (c : AggregatedCluster) (bound : ℚ) :
    c.ratioExceeds bound = true ↔
      ((c.send_rate = 0 ∧ 0 < c.receive_rate) ∨
        (c.send_rate ≠ 0 ∧ c.receive_rate / c.send_rate > bound)) := by
  unfold ratioExceeds ratio
  by_cases h : c.send_rate = 0
  · simp [h]
  · simp [h]

theorem ratio_gt_two_ne_zero (c : AggregatedCluster)
    (h : c.receive_rate / c.send_rate > 2) :
    c.send_rate ≠ 0 ∧ c.receive_rate / c.send_rate > kMaxValidRatio := by
  refine ⟨?_, h⟩
  intro hz
  rw [hz, div_zero] at h
  exact absurd h (by norm_num)

end AggregatedCluster

namespace ProbeBitrateEstimator

/-- In every branch the call stores the fed cluster under the feedback's cluster id. -/
theorem HandleProbeAndEstimateBitrate_clusters (self : ProbeBitrateEstimator)
    (packet_feedback : PacketResult) :
    (self.HandleProbeAndEstimateBitrate packet_feedback).2.clusters_ =
      Function.update (self.EraseOldClusters packet_feedback.receive_time).clusters_
        packet_feedback.sent_packet.pacing_info.probe_cluster_id
        (some (self.fedCluster packet_feedback)) := by
  unfold HandleProbeAndEstimateBitrate
  simp only
  split_ifs <;> rfl

theorem HandleProbeAndEstimateBitrate_fed (self : ProbeBitrateEstimator)
    (packet_feedback : PacketResult) :
    (self.HandleProbeAndEstimateBitrate packet_feedback).2.clusters_
        packet_feedback.sent_packet.pacing_info.probe_cluster_id =
      some (self.fedCluster packet_feedback) := by
  rw [HandleProbeAndEstimateBitrate_clusters, Function.update_same]

/-- The result of the call as a function of the fed cluster. -/
theorem HandleProbeAndEstimateBitrate_result (self : ProbeBitrateEstimator)
    (packet_feedback : PacketResult) :
    (self.HandleProbeAndEstimateBitrate packet_feedback).1 =
      let c := self.fedCluster packet_feedback
      if c.num_probes < min_probes packet_feedback ∨ c.size_total < min_size packet_feedback
      then none
      else if c.send_interval ≤ TimeValue.Zero ∨ c.send_interval > kMaxProbeInterval ∨
          c.receive_interval ≤ TimeValue.Zero ∨ c.receive_interval > kMaxProbeInterval
      then none
      else if c.ratioExceeds kMaxValidRatio = true then none
      else if c.receive_rate < kMinRatioForUnsaturatedLink * c.send_rate
      then some (kTargetUtilizationFraction * c.receive_rate)
      else some (min c.send_rate c.receive_rate) := by
  unfold HandleProbeAndEstimateBitrate
  simp only
  split_ifs <;> rfl

/-- A returned estimate comes from a fed cluster with valid intervals and ratio, and is
computed from its two rates. -/
theorem HandleProbeAndEstimateBitrate_some_valid (self : ProbeBitrateEstimator)
    (packet_feedback : PacketResult) (r : DataRate)
    (h : (self.HandleProbeAndEstimateBitrate packet_feedback).1 = some r) :
    (∃ s : Int, (self.fedCluster packet_feedback).send_interval = TimeValue.Micros s ∧
        0 < s ∧ s ≤ 1000000) ∧
      (∃ t : Int, (self.fedCluster packet_feedback).receive_interval = TimeValue.Micros t ∧
        0 < t ∧ t ≤ 1000000) ∧
      ¬ ((self.fedCluster packet_feedback).ratioExceeds kMaxValidRatio = true) ∧
      r = (if (self.fedCluster packet_feedback).receive_rate <
            kMinRatioForUnsaturatedLink * (self.fedCluster packet_feedback).send_rate then
          kTargetUtilizationFraction * (self.fedCluster packet_feedback).receive_rate
        else min (self.fedCluster packet_feedback).send_rate
          (self.fedCluster packet_feedback).receive_rate) := by
  rw [HandleProbeAndEstimateBitrate_result] at h
  simp only at h
  split_ifs at h with h1 h2 h3 h4
  all_goals
    simp only [not_or, TimeValue.not_le_iff] at h2
    obtain ⟨hs0, hs1, hr0, hr1⟩ := h2
    refine ⟨?_, ?_, h3, ?_⟩
    · exact (TimeValue.mem_Ioc_iff _ _).1 ⟨hs0, (TimeValue.not_lt_iff _ _).1 hs1⟩
    · exact (TimeValue.mem_Ioc_iff _ _).1 ⟨hr0, (TimeValue.not_lt_iff _ _).1 hr1⟩
    · first
      | rw [if_pos h4]; exact (Option.some.inj h).symm
      | rw [if_neg h4]; exact (Option.some.inj h).symm

/-- C1: if `HandleProbeAndEstimateBitrate` returns an estimate, the cluster stored for the
feedback's id has a send interval `last_send - first_send` and a receive interval
`last_receive - first_receive` that are finite, greater than 0 and at most 1 s (1000000
microseconds), and its ratio `receive_rate / send_rate` is at most 2 (a `send_rate` of 0
then goes with a `receive_rate` that is not positive); conversely a call whose stored
cluster has an interval `≤ 0` or `> 1 s`, or a ratio `> 2`, returns no estimate. -/
theorem HandleProbeAndEstimateBitrate_some_only_if_valid (self : ProbeBitrateEstimator)
    (packet_feedback : PacketResult) :
    ∃ c : AggregatedCluster,
      (self.HandleProbeAndEstimateBitrate packet_feedback).2.clusters_
          packet_feedback.sent_packet.pacing_info.probe_cluster_id = some c ∧
      c.send_interval = TimeValue.sub c.last_send c.first_send ∧
      c.receive_interval = TimeValue.sub c.last_receive c.first_receive ∧
      (∀ r, (self.HandleProbeAndEstimateBitrate packet_feedback).1 = some r →
        (∃ s : Int, c.send_interval = TimeValue.Micros s ∧ 0 < s ∧ s ≤ 1000000) ∧
        (∃ t : Int, c.receive_interval = TimeValue.Micros t ∧ 0 < t ∧ t ≤ 1000000) ∧
        (c.send_rate = 0 → c.receive_rate ≤ 0) ∧
        c.receive_rate / c.send_rate ≤ 2) ∧
      ((c.send_interval ≤ TimeValue.Zero ∨ c.send_interval > TimeValue.Seconds 1 ∨
        c.receive_interval ≤ TimeValue.Zero ∨ c.receive_interval > TimeValue.Seconds 1 ∨
        c.receive_rate / c.send_rate > 2) →
        (self.HandleProbeAndEstimateBitrate packet_feedback).1 = none) := by
  refine ⟨self.fedCluster packet_feedback, HandleProbeAndEstimateBitrate_fed _ _, rfl, rfl,
    ?_, ?_⟩
  · intro r hr
    obtain ⟨hs, ht, h3, _⟩ := HandleProbeAndEstimateBitrate_some_valid self packet_feedback r hr
    refine ⟨hs, ht, ?_, ?_⟩
    · intro hz
      by_contra hpos
      exact h3 ((AggregatedCluster.ratioExceeds_iff _ _).2 (Or.inl ⟨hz, not_le.1 hpos⟩))
    · by_contra hgt
      exact h3 ((AggregatedCluster.ratioExceeds_iff _ _).2
        (Or.inr (AggregatedCluster.ratio_gt_two_ne_zero _ (not_le.1 hgt))))
  · intro h
    rw [HandleProbeAndEstimateBitrate_result]
    simp only
    split_ifs with h1 h2 h3 h4
    · rfl
    · rfl
    · rfl
    all_goals
      exfalso
      rcases h with h | h | h | h | h
      · exact h2 (Or.inl h)
      · exact h2 (Or.inr (Or.inl h))
      · exact h2 (Or.inr (Or.inr (Or.inl h)))
      · exact h2 (Or.inr (Or.inr (Or.inr h)))
      · exact h3 ((AggregatedCluster.ratioExceeds_iff _ _).2
          (Or.inr (AggregatedCluster.ratio_gt_two_ne_zero _ h)))

end ProbeBitrateEstimator

namespace ProbeExample

open ProbeBitrateEstimator

theorem estimator1_cluster :
    estimator1.clusters_ 0 = some
      { num_probes := 1,
        first_send := TimeValue.Micros 0, last_send := TimeValue.Micros 0,
        first_receive := TimeValue.Micros 0, last_receive := TimeValue.Micros 0,
        size_last_send := 1000, size_first_receive := 1000, size_total := 1000 } := by
  have h := HandleProbeAndEstimateBitrate_fed ProbeBitrateEstimator.new feedback1
  have e : feedback1.sent_packet.pacing_info.probe_cluster_id = 0 := rfl
  rw [e] at h
  rw [estimator1, h]
  norm_num [fedCluster, EraseOldClusters, ProbeBitrateEstimator.new, AggregatedCluster.record,
    feedback1, info]

theorem fedCluster_feedback2 : estimator1.fedCluster feedback2 = cluster2 := by
  have e : feedback2.sent_packet.pacing_info.probe_cluster_id = 0 := rfl
  unfold fedCluster EraseOldClusters
  simp only [e, estimator1_cluster]
  norm_num [AggregatedCluster.record, feedback2, info, cluster2, kMaxClusterHistory,
    TimeValue.add, TimeValue.Seconds]

theorem handle_feedback2 :
    (estimator1.HandleProbeAndEstimateBitrate feedback2).1 = some 800000 := by
  have hp : min_probes feedback2 = 2 := by
    norm_num [min_probes, feedback2, info, kMinReceivedProbesRatio, truncToInt]
  have hs : cluster2.send_rate = 800000 := by
    norm_num [AggregatedCluster.send_rate, AggregatedCluster.send_interval, cluster2,
      TimeValue.sub, DataSize.div]
  have hr : cluster2.receive_rate = 800000 := by
    norm_num [AggregatedCluster.receive_rate, AggregatedCluster.receive_interval, cluster2,
      TimeValue.sub, DataSize.div]
  rw [HandleProbeAndEstimateBitrate_result, fedCluster_feedback2]
  simp only [hp, hs, hr, AggregatedCluster.ratio, AggregatedCluster.ratioExceeds]
  norm_num [cluster2, min_size, feedback2, info, kMinReceivedBytesRatio,
    AggregatedCluster.send_interval, AggregatedCluster.receive_interval, TimeValue.sub,
    TimeValue.Zero, kMaxProbeInterval, TimeValue.Seconds, kMaxValidRatio,
    kMinRatioForUnsaturatedLink]

end ProbeExample

namespace ProbeBitrateEstimator

theorem HandleProbeAndEstimateBitrate_some_only_if_valid_witness :
    (ProbeExample.estimator1.HandleProbeAndEstimateBitrate ProbeExample.feedback2).1 =
        some 800000 ∧
      (∃ s : Int, ProbeExample.cluster2.send_interval = TimeValue.Micros s ∧
        0 < s ∧ s ≤ 1000000) ∧
      (∃ t : Int, ProbeExample.cluster2.receive_interval = TimeValue.Micros t ∧
        0 < t ∧ t ≤ 1000000) ∧
      (ProbeExample.cluster2.send_rate = 0 → ProbeExample.cluster2.receive_rate ≤ 0) ∧
      ProbeExample.cluster2.receive_rate / ProbeExample.cluster2.send_rate ≤ 2 := by
  obtain ⟨c, hc, _, _, h, _⟩ :=
    HandleProbeAndEstimateBitrate_some_only_if_valid ProbeExample.estimator1
      ProbeExample.feedback2
  rw [HandleProbeAndEstimateBitrate_fed, ProbeExample.fedCluster_feedback2] at hc
  cases hc
  exact ⟨ProbeExample.handle_feedback2, h _ ProbeExample.handle_feedback2⟩

/-- C3 (as stated, refuted): cluster 0 is configured with 3 probes and 2000 bytes; after
the second probe it holds 2 probes, fewer than `0.80 * 3 = 2.4`, and 2000 bytes, and the
call returns an estimate. -/
theorem HandleProbeAndEstimateBitrate_below_80_percent_counterexample :
    0 < ProbeExample.feedback2.sent_packet.pacing_info.probe_cluster_min_probes ∧
      0 < ProbeExample.feedback2.sent_packet.pacing_info.probe_cluster_min_bytes ∧
      (ProbeExample.estimator1.HandleProbeAndEstimateBitrate
        ProbeExample.feedback2).2.clusters_ 0 = some ProbeExample.cluster2 ∧
      (ProbeExample.cluster2.num_probes : ℚ) <
        (4 / 5 : ℚ) *
          ProbeExample.feedback2.sent_packet.pacing_info.probe_cluster_min_probes ∧
      (ProbeExample.estimator1.HandleProbeAndEstimateBitrate ProbeExample.feedback2).1 =
        some 800000 := by
  refine ⟨by decide, by decide, ?_, ?_, ProbeExample.handle_feedback2⟩
  · have h := HandleProbeAndEstimateBitrate_fed ProbeExample.estimator1 ProbeExample.feedback2
    rw [ProbeExample.fedCluster_feedback2] at h
    exact h
  · norm_num [ProbeExample.cluster2, ProbeExample.feedback2, ProbeExample.info]

/-- C3 (amended): for every feedback with `probe_cluster_min_probes > 0`, the call returns
no estimate whenever, after recording the feedback, the cluster's `num_probes` is less
than `0.80 * probe_cluster_min_probes` rounded down to an integer, or its `size_total` is
less than `0.80 * probe_cluster_min_bytes`. -/
theorem HandleProbeAndEstimateBitrate_none_below_threshold (self : ProbeBitrateEstimator)
    (packet_feedback : PacketResult)
    (hp : 0 < packet_feedback.sent_packet.pacing_info.probe_cluster_min_probes) :
    ∃ c : AggregatedCluster,
      (self.HandleProbeAndEstimateBitrate packet_feedback).2.clusters_
          packet_feedback.sent_packet.pacing_info.probe_cluster_id = some c ∧
      ((c.num_probes <
          ⌊(4 / 5 : ℚ) * packet_feedback.sent_packet.pacing_info.probe_cluster_min_probes⌋ ∨
        c.size_total <
          (4 / 5 : ℚ) * packet_feedback.sent_packet.pacing_info.probe_cluster_min_bytes) →
        (self.HandleProbeAndEstimateBitrate packet_feedback).1 = none) := by
  refine ⟨self.fedCluster packet_feedback, HandleProbeAndEstimateBitrate_fed _ _, ?_⟩
  intro h
  have hq : (0 : ℚ) ≤
      (packet_feedback.sent_packet.pacing_info.probe_cluster_min_probes : ℚ) *
        kMinReceivedProbesRatio := by
    have : (0 : ℚ) < packet_feedback.sent_packet.pacing_info.probe_cluster_min_probes := by
      exact_mod_cast hp
    unfold kMinReceivedProbesRatio
    positivity
  have hmp : min_probes packet_feedback =
      ⌊(4 / 5 : ℚ) * packet_feedback.sent_packet.pacing_info.probe_cluster_min_probes⌋ := by
    unfold min_probes truncToInt
    rw [if_pos hq, kMinReceivedProbesRatio, mul_comm]
  have hms : min_size packet_feedback =
      (4 / 5 : ℚ) * packet_feedback.sent_packet.pacing_info.probe_cluster_min_bytes := by
    unfold min_size
    rw [kMinReceivedBytesRatio, mul_comm]
  rw [HandleProbeAndEstimateBitrate_result]
  simp only [hmp, hms]
  rw [if_pos h]

theorem HandleProbeAndEstimateBitrate_none_below_threshold_witness :
    0 < ProbeExample.feedback1.sent_packet.pacing_info.probe_cluster_min_probes ∧
      (1 : Int) < ⌊(4 / 5 : ℚ) * (3 : Int)⌋ ∧
      (ProbeBitrateEstimator.new.HandleProbeAndEstimateBitrate ProbeExample.feedback1).1 =
        none := by
  have h1 : (1 : Int) < ⌊(4 / 5 : ℚ) * (3 : Int)⌋ := by norm_num
  obtain ⟨c, hc, h⟩ :=
    HandleProbeAndEstimateBitrate_none_below_threshold ProbeBitrateEstimator.new
      ProbeExample.feedback1 (by decide)
  have hc1 : (ProbeBitrateEstimator.new.HandleProbeAndEstimateBitrate
      ProbeExample.feedback1).2.clusters_ 0 = some c := hc
  have e := ProbeExample.estimator1_cluster
  rw [ProbeExample.estimator1, hc1] at e
  have hn : c.num_probes = 1 := by rw [Option.some.inj e]
  refine ⟨by decide, h1, h (Or.inl ?_)⟩
  rw [hn]
  exact h1

end ProbeBitrateEstimator

/-! ## Theorems: single-precision arithmetic -/

theorem abs_roundHalfEven_sub_le (x : ℚ) : |(roundHalfEven x : ℚ) - x| ≤ 1 / 2 := by
  have h1 := Int.floor_le x
  have h2 := Int.lt_floor_add_one x
  unfold roundHalfEven
  rw [abs_le]
  split_ifs with a b c
  · constructor <;> linarith
  · push_cast
    constructor <;> linarith
  · constructor <;> linarith
  · push_cast
    constructor <;> linarith

theorem roundHalfEven_eq_of_abs_lt (x : ℚ) (m : Int) (h : |x - m| < 1 / 2) :
    roundHalfEven x = m := by
  have hr := abs_roundHalfEven_sub_le x
  rw [abs_lt] at h
  rw [abs_le] at hr
  have h1 : ((roundHalfEven x - m : Int) : ℚ) < 1 := by
    push_cast
    linarith
  have h2 : (-1 : ℚ) < ((roundHalfEven x - m : Int) : ℚ) := by
    push_cast
    linarith
  have h3 : roundHalfEven x - m < 1 := by exact_mod_cast h1
  have h4 : -1 < roundHalfEven x - m := by exact_mod_cast h2
  omega

theorem roundHalfEven_intCast (m : Int) : roundHalfEven (m : ℚ) = m :=
  roundHalfEven_eq_of_abs_lt _ m (by simp)

/-- The exponent of a number in a binade of the normal range. -/
theorem floatExponent_eq (q : ℚ) (e : Int) (he : -126 ≤ e) (hlo : (2 : ℚ) ^ e ≤ |q|)
    (hhi : |q| < (2 : ℚ) ^ (e + 1)) : floatExponent q = e := by
  have hpos : (0 : ℚ) < |q| := lt_of_lt_of_le (by positivity) hlo
  have h1 : e ≤ Int.log 2 |q| := by
    rw [← Int.zpow_le_iff_le_log (by norm_num) hpos]
    simpa using hlo
  have h2 : Int.log 2 |q| < e + 1 := by
    rw [← Int.lt_zpow_iff_log_lt (by norm_num) hpos]
    simpa using hhi
  unfold floatExponent
  omega

/-- The exponent of a number below the normal range. -/
theorem floatExponent_subnormal (q : ℚ) (hpos : 0 < |q|)
    (hhi : |q| < (2 : ℚ) ^ (-126 : Int)) : floatExponent q = -126 := by
  unfold floatExponent
  have h2 : Int.log 2 |q| < -126 := by
    rw [← Int.lt_zpow_iff_log_lt (by norm_num) hpos]
    simpa using hhi
  omega

/-- Rounding to `float` of a number `q` of the binade with exponent `e`: the multiple
`m * 2^(e - 23)`, where `m` is `q / 2^(e - 23)` rounded to an integer. -/
theorem roundToFloat_eq_of_roundHalfEven (q : ℚ) (m e : Int) (he : -126 ≤ e) (he' : e ≤ 126)
    (hlo : (2 : ℚ) ^ e ≤ |q|) (hhi : |q| < (2 : ℚ) ^ (e + 1))
    (hR : roundHalfEven (q / (2 : ℚ) ^ (e - 23)) = m) :
    roundToFloat q = (m : ℚ) * (2 : ℚ) ^ (e - 23) := by
  have hm : |q / (2 : ℚ) ^ (e - 23) - m| ≤ 1 / 2 := by
    rw [← hR, abs_sub_comm]
    exact abs_roundHalfEven_sub_le _
  have hq : (0 : ℚ) < (2 : ℚ) ^ (e - 23) := by positivity
  have hbound : |q / (2 : ℚ) ^ (e - 23)| < (2 : ℚ) ^ (24 : Int) := by
    rw [abs_div, abs_of_pos hq, div_lt_iff₀ hq, ← zpow_add₀ (by norm_num)]
    have : (24 : Int) + (e - 23) = e + 1 := by ring
    rw [this]
    exact hhi
  have hmabs : |(m : ℚ)| < (2 : ℚ) ^ (24 : Int) + 1 / 2 := by
    have := abs_sub_abs_le_abs_sub (m : ℚ) (q / (2 : ℚ) ^ (e - 23))
    rw [abs_sub_comm] at hm
    linarith
  have hmint : |m| ≤ 2 ^ 24 := by
    have h1 : ((|m| : Int) : ℚ) < (2 : ℚ) ^ (24 : Int) + 1 / 2 := by
      push_cast
      exact hmabs
    have h2 : ((|m| : Int) : ℚ) < ((2 ^ 24 + 1 : Int) : ℚ) := by
      have : ((2 ^ 24 + 1 : Int) : ℚ) = (2 : ℚ) ^ (24 : Int) + 1 := by norm_num
      rw [this]
      linarith
    have h3 : |m| < 2 ^ 24 + 1 := by exact_mod_cast h2
    omega
  have hval : |(m : ℚ) * (2 : ℚ) ^ (e - 23)| < kFloatInfinity := by
    rw [abs_mul, abs_of_pos hq]
    have h1 : |(m : ℚ)| ≤ (2 : ℚ) ^ (24 : Int) := by
      have : ((|m| : Int) : ℚ) ≤ ((2 ^ 24 : Int) : ℚ) := Int.cast_le.2 hmint
      rw [Int.cast_abs] at this
      norm_num at this ⊢
      exact this
    have h2 : |(m : ℚ)| * (2 : ℚ) ^ (e - 23) ≤ (2 : ℚ) ^ (24 : Int) * (2 : ℚ) ^ (e - 23) :=
      mul_le_mul_of_nonneg_right h1 (le_of_lt hq)
    rw [← zpow_add₀ (by norm_num)] at h2
    have h3 : (2 : ℚ) ^ ((24 : Int) + (e - 23)) ≤ (2 : ℚ) ^ (127 : Int) :=
      zpow_le_zpow_right₀ (by norm_num) (by omega)
    have h4 : (2 : ℚ) ^ (127 : Int) < kFloatInfinity := by
      unfold kFloatInfinity
      norm_num
    linarith
  rw [abs_lt] at hval
  unfold roundToFloat
  simp only [floatExponent_eq q e he hlo hhi, hR]
  rw [if_neg (by linarith [hval.2]), if_neg (by linarith [hval.1])]

/-- Rounding to `float` of a number `q` of the binade with exponent `e`: the multiple
`m * 2^(e - 23)` that is less than half a step away from `q`. -/
theorem roundToFloat_eq_of_near (q : ℚ) (m e : Int) (he : -126 ≤ e) (he' : e ≤ 126)
    (hlo : (2 : ℚ) ^ e ≤ |q|) (hhi : |q| < (2 : ℚ) ^ (e + 1))
    (hm : |q / (2 : ℚ) ^ (e - 23) - m| < 1 / 2) :
    roundToFloat q = (m : ℚ) * (2 : ℚ) ^ (e - 23) :=
  roundToFloat_eq_of_roundHalfEven q m e he he' hlo hhi (roundHalfEven_eq_of_abs_lt _ m hm)

/-- A tie between two integers goes to the even one. -/
theorem roundHalfEven_of_tie (x : ℚ) (m : Int) (hx : x = (m : ℚ) + 1 / 2)
    (hm : m % 2 = 0) : roundHalfEven x = m := by
  have hfloor : ⌊x⌋ = m := by
    rw [Int.floor_eq_iff, hx]
    constructor <;> linarith
  unfold roundHalfEven
  rw [hfloor, hx]
  have h1 : ¬ ((m : ℚ) + 1 / 2 - (m : ℚ) < 1 / 2) := by
    rw [add_sub_cancel_left]
    exact lt_irrefl _
  have h2 : ¬ (1 / 2 < (m : ℚ) + 1 / 2 - (m : ℚ)) := by
    rw [add_sub_cancel_left]
    exact lt_irrefl _
  rw [if_neg h1, if_neg h2, if_pos hm]

/-- Rounding to `float` of a number `q` of the binade with exponent `e` that lies halfway
between two multiples of `2^(e - 23)`: the even multiple. -/
theorem roundToFloat_eq_of_tie (q : ℚ) (m e : Int) (he : -126 ≤ e) (he' : e ≤ 126)
    (hlo : (2 : ℚ) ^ e ≤ |q|) (hhi : |q| < (2 : ℚ) ^ (e + 1))
    (hq : q / (2 : ℚ) ^ (e - 23) = (m : ℚ) + 1 / 2) (hm : m % 2 = 0) :
    roundToFloat q = (m : ℚ) * (2 : ℚ) ^ (e - 23) :=
  roundToFloat_eq_of_roundHalfEven q m e he he' hlo hhi (roundHalfEven_of_tie _ m hq hm)

theorem roundToFloat_zero : roundToFloat 0 = 0 := by
  have h : roundHalfEven (0 : ℚ) = 0 := roundHalfEven_intCast 0
  unfold roundToFloat
  simp only [zero_div, h, Int.cast_zero, zero_mul, kFloatInfinity]
  norm_num

/-- An integer of magnitude below `2^24` is a `float`. -/
theorem roundToFloat_intCast (n : Int) (h : |n| < 2 ^ 24) : roundToFloat (n : ℚ) = n := by
  by_cases h0 : n = 0
  · rw [h0, Int.cast_zero]
    exact roundToFloat_zero
  · have hpos : (0 : ℚ) < |(n : ℚ)| := abs_pos.2 (Int.cast_ne_zero.2 h0)
    have hone : (1 : ℚ) ≤ |(n : ℚ)| := by
      have : (1 : Int) ≤ |n| := Int.one_le_abs h0
      have h1 : ((1 : Int) : ℚ) ≤ ((|n| : Int) : ℚ) := Int.cast_le.2 this
      rw [Int.cast_abs] at h1
      simpa using h1
    have hlt : |(n : ℚ)| < (2 : ℚ) ^ (24 : Int) := by
      have h1 : ((|n| : Int) : ℚ) < ((2 ^ 24 : Int) : ℚ) := Int.cast_lt.2 h
      rw [Int.cast_abs] at h1
      norm_num at h1 ⊢
      exact h1
    have hE0 : 0 ≤ Int.log 2 |(n : ℚ)| := by
      rw [← Int.zpow_le_iff_le_log (by norm_num) hpos]
      simpa using hone
    have hE24 : Int.log 2 |(n : ℚ)| < 24 := by
      rw [← Int.lt_zpow_iff_log_lt (by norm_num) hpos]
      simpa using hlt
    have hlo : (2 : ℚ) ^ Int.log 2 |(n : ℚ)| ≤ |(n : ℚ)| := by
      simpa using Int.zpow_log_le_self (b := 2) (by norm_num) hpos
    have hhi : |(n : ℚ)| < (2 : ℚ) ^ (Int.log 2 |(n : ℚ)| + 1) := by
      simpa using Int.lt_zpow_succ_log_self (b := 2) (by norm_num) |(n : ℚ)|
    obtain ⟨k, hk⟩ := Int.eq_ofNat_of_zero_le (show 0 ≤ 23 - Int.log 2 |(n : ℚ)| by omega)
    have hquant : (2 : ℚ) ^ (Int.log 2 |(n : ℚ)| - 23) = ((2 : ℚ) ^ k)⁻¹ := by
      have : Int.log 2 |(n : ℚ)| - 23 = -(k : Int) := by omega
      rw [this, zpow_neg, zpow_natCast]
    have hk0 : (0 : ℚ) < (2 : ℚ) ^ k := by positivity
    have hm : |(n : ℚ) / (2 : ℚ) ^ (Int.log 2 |(n : ℚ)| - 23) - ((n * 2 ^ k : Int) : ℚ)| <
        1 / 2 := by
      rw [hquant]
      push_cast
      rw [div_inv_eq_mul, sub_self, abs_zero]
      norm_num
    rw [roundToFloat_eq_of_near (n : ℚ) (n * 2 ^ k) (Int.log 2 |(n : ℚ)|) (by omega)
      (by omega) hlo hhi hm, hquant]
    push_cast
    field_simp

/-- The rounding error of a number of magnitude at most `2^127`: at most `2^(-24)` of the
number in the normal range and at most `2^(-150)` below it. -/
theorem abs_roundToFloat_sub_le (q : ℚ) (hq : |q| ≤ (2 : ℚ) ^ (127 : Int)) :
    |roundToFloat q - q| ≤ |q| / 2 ^ 24 + (2 : ℚ) ^ (-150 : Int) := by
  by_cases h0 : q = 0
  · rw [h0, roundToFloat_zero]
    norm_num
  · have hpos : (0 : ℚ) < |q| := abs_pos.2 h0
    have hqt : (0 : ℚ) < (2 : ℚ) ^ (floatExponent q - 23) := by positivity
    have herr : |(roundHalfEven (q / (2 : ℚ) ^ (floatExponent q - 23)) : ℚ) *
        (2 : ℚ) ^ (floatExponent q - 23) - q| ≤ (2 : ℚ) ^ (floatExponent q - 23) / 2 := by
      have h1 := abs_roundHalfEven_sub_le (q / (2 : ℚ) ^ (floatExponent q - 23))
      have h2 : (roundHalfEven (q / (2 : ℚ) ^ (floatExponent q - 23)) : ℚ) *
          (2 : ℚ) ^ (floatExponent q - 23) - q =
          ((roundHalfEven (q / (2 : ℚ) ^ (floatExponent q - 23)) : ℚ) -
            q / (2 : ℚ) ^ (floatExponent q - 23)) * (2 : ℚ) ^ (floatExponent q - 23) := by
        field_simp
      rw [h2, abs_mul, abs_of_pos hqt]
      have := mul_le_mul_of_nonneg_right h1 (le_of_lt hqt)
      linarith
    have hquant : (2 : ℚ) ^ (floatExponent q - 23) / 2 ≤
        |q| / 2 ^ 24 + (2 : ℚ) ^ (-150 : Int) := by
      by_cases hlog : -126 ≤ Int.log 2 |q|
      · have hE : floatExponent q = Int.log 2 |q| := by
          unfold floatExponent
          omega
        have hlo : (2 : ℚ) ^ Int.log 2 |q| ≤ |q| := by
          simpa using Int.zpow_log_le_self (b := 2) (by norm_num) hpos
        have hsplit : (2 : ℚ) ^ (Int.log 2 |q| - 23) / 2 =
            (2 : ℚ) ^ Int.log 2 |q| / 2 ^ 24 := by
          rw [zpow_sub₀ (by norm_num)]
          norm_num
          ring
        rw [hE, hsplit]
        have h3 : (2 : ℚ) ^ Int.log 2 |q| / 2 ^ 24 ≤ |q| / 2 ^ 24 :=
          div_le_div_of_nonneg_right hlo (by positivity)
        have h4 : (0 : ℚ) < (2 : ℚ) ^ (-150 : Int) := by positivity
        linarith
      · have hE : floatExponent q = -126 := by
          unfold floatExponent
          omega
        rw [hE]
        have h3 : (2 : ℚ) ^ ((-126 : Int) - 23) / 2 = (2 : ℚ) ^ (-150 : Int) := by norm_num
        rw [h3]
        have h4 : (0 : ℚ) ≤ |q| / 2 ^ 24 := by positivity
        linarith
    have hsmall : |q| / 2 ^ 24 + (2 : ℚ) ^ (-150 : Int) + |q| < kFloatInfinity := by
      have h5 : |q| / 2 ^ 24 ≤ (2 : ℚ) ^ (127 : Int) / 2 ^ 24 :=
        div_le_div_of_nonneg_right hq (by positivity)
      unfold kFloatInfinity
      norm_num at h5 hq ⊢
      linarith
    have habs : |(roundHalfEven (q / (2 : ℚ) ^ (floatExponent q - 23)) : ℚ) *
        (2 : ℚ) ^ (floatExponent q - 23)| < kFloatInfinity := by
      have := abs_sub_abs_le_abs_sub
        ((roundHalfEven (q / (2 : ℚ) ^ (floatExponent q - 23)) : ℚ) *
          (2 : ℚ) ^ (floatExponent q - 23)) q
      linarith
    rw [abs_lt] at habs
    unfold roundToFloat
    simp only
    rw [if_neg (by linarith [habs.2]), if_neg (by linarith [habs.1])]
    linarith

/-- Rounding to `float` keeps the sign. -/
theorem roundToFloat_nonneg (q : ℚ) (hq : 0 ≤ q) : 0 ≤ roundToFloat q := by
  have hqt : (0 : ℚ) < (2 : ℚ) ^ (floatExponent q - 23) := by positivity
  have hx : 0 ≤ q / (2 : ℚ) ^ (floatExponent q - 23) := div_nonneg hq (le_of_lt hqt)
  have hfloor : 0 ≤ ⌊q / (2 : ℚ) ^ (floatExponent q - 23)⌋ := Int.floor_nonneg.2 hx
  have hr : 0 ≤ roundHalfEven (q / (2 : ℚ) ^ (floatExponent q - 23)) := by
    unfold roundHalfEven
    split_ifs <;> omega
  have hprod : (0 : ℚ) ≤ (roundHalfEven (q / (2 : ℚ) ^ (floatExponent q - 23)) : ℚ) *
      (2 : ℚ) ^ (floatExponent q - 23) :=
    mul_nonneg (by exact_mod_cast hr) (le_of_lt hqt)
  have hinf : (0 : ℚ) < kFloatInfinity := by
    unfold kFloatInfinity
    norm_num
  unfold roundToFloat
  simp only
  split_ifs with h1 h2
  · exact le_of_lt hinf
  · linarith
  · exact hprod

/-- The rounding error of a number in the normal range: at most `2^(-24)` of it. -/
theorem abs_roundToFloat_sub_le_of_normal (q : ℚ) (hlo : (2 : ℚ) ^ (-126 : Int) ≤ |q|)
    (hq : |q| ≤ (2 : ℚ) ^ (127 : Int)) : |roundToFloat q - q| ≤ |q| / 2 ^ 24 := by
  have hpos : (0 : ℚ) < |q| := lt_of_lt_of_le (by positivity) hlo
  have hlog : -126 ≤ Int.log 2 |q| := by
    rw [← Int.zpow_le_iff_le_log (by norm_num) hpos]
    simpa using hlo
  have hE : floatExponent q = Int.log 2 |q| := by
    unfold floatExponent
    omega
  have hqt : (0 : ℚ) < (2 : ℚ) ^ (floatExponent q - 23) := by positivity
  have herr : |(roundHalfEven (q / (2 : ℚ) ^ (floatExponent q - 23)) : ℚ) *
      (2 : ℚ) ^ (floatExponent q - 23) - q| ≤ (2 : ℚ) ^ (floatExponent q - 23) / 2 := by
    have h1 := abs_roundHalfEven_sub_le (q / (2 : ℚ) ^ (floatExponent q - 23))
    have h2 : (roundHalfEven (q / (2 : ℚ) ^ (floatExponent q - 23)) : ℚ) *
        (2 : ℚ) ^ (floatExponent q - 23) - q =
        ((roundHalfEven (q / (2 : ℚ) ^ (floatExponent q - 23)) : ℚ) -
          q / (2 : ℚ) ^ (floatExponent q - 23)) * (2 : ℚ) ^ (floatExponent q - 23) := by
      field_simp
    rw [h2, abs_mul, abs_of_pos hqt]
    have := mul_le_mul_of_nonneg_right h1 (le_of_lt hqt)
    linarith
  have hquant : (2 : ℚ) ^ (floatExponent q - 23) / 2 ≤ |q| / 2 ^ 24 := by
    have hlo2 : (2 : ℚ) ^ Int.log 2 |q| ≤ |q| := by
      simpa using Int.zpow_log_le_self (b := 2) (by norm_num) hpos
    have hsplit : (2 : ℚ) ^ (Int.log 2 |q| - 23) / 2 =
        (2 : ℚ) ^ Int.log 2 |q| / 2 ^ 24 := by
      rw [zpow_sub₀ (by norm_num)]
      norm_num
      ring
    rw [hE, hsplit]
    exact div_le_div_of_nonneg_right hlo2 (by positivity)
  have hsmall : |q| / 2 ^ 24 + |q| < kFloatInfinity := by
    have h5 : |q| / 2 ^ 24 ≤ (2 : ℚ) ^ (127 : Int) / 2 ^ 24 :=
      div_le_div_of_nonneg_right hq (by positivity)
    unfold kFloatInfinity
    norm_num at h5 hq ⊢
    linarith
  have habs : |(roundHalfEven (q / (2 : ℚ) ^ (floatExponent q - 23)) : ℚ) *
      (2 : ℚ) ^ (floatExponent q - 23)| < kFloatInfinity := by
    have := abs_sub_abs_le_abs_sub
      ((roundHalfEven (q / (2 : ℚ) ^ (floatExponent q - 23)) : ℚ) *
        (2 : ℚ) ^ (floatExponent q - 23)) q
    linarith
  rw [abs_lt] at habs
  unfold roundToFloat
  simp only
  rw [if_neg (by linarith [habs.2]), if_neg (by linarith [habs.1])]
  linarith

/-- Rounding to an integer does not go below an integer that the number reaches. -/
theorem le_roundHalfEven (x : ℚ) (m : Int) (h : (m : ℚ) ≤ x) : m ≤ roundHalfEven x := by
  have hfloor : m ≤ ⌊x⌋ := Int.le_floor.2 h
  unfold roundHalfEven
  split_ifs <;> omega

/-- Rounding to `float` does not go below a power of two that the number reaches. -/
theorem zpow_le_roundToFloat (q : ℚ) (k : Int) (hk : -126 ≤ k) (hk' : k ≤ 128)
    (h : (2 : ℚ) ^ k ≤ q) : (2 : ℚ) ^ k ≤ roundToFloat q := by
  have hkpos : (0 : ℚ) < (2 : ℚ) ^ k := by positivity
  have hqpos : 0 < q := lt_of_lt_of_le hkpos h
  have habs : |q| = q := abs_of_pos hqpos
  have hlogk : k ≤ Int.log 2 |q| := by
    rw [← Int.zpow_le_iff_le_log (by norm_num) (by rw [habs]; exact hqpos), habs]
    simpa using h
  have hE : floatExponent q = Int.log 2 |q| := by
    unfold floatExponent
    omega
  have hlo : (2 : ℚ) ^ Int.log 2 |q| ≤ q := by
    have := Int.zpow_log_le_self (b := 2) (r := |q|) (by norm_num)
      (by rw [habs]; exact hqpos)
    rw [habs] at this ⊢
    simpa using this
  have hqt : (0 : ℚ) < (2 : ℚ) ^ (floatExponent q - 23) := by positivity
  have hdiv : (((2 : Int) ^ 23 : Int) : ℚ) ≤ q / (2 : ℚ) ^ (floatExponent q - 23) := by
    rw [le_div_iff₀ hqt, hE]
    have : (((2 : Int) ^ 23 : Int) : ℚ) * (2 : ℚ) ^ (Int.log 2 |q| - 23) =
        (2 : ℚ) ^ Int.log 2 |q| := by
      rw [zpow_sub₀ (by norm_num)]
      norm_num
      ring
    rw [this]
    exact hlo
  have hR := le_roundHalfEven _ _ hdiv
  have hrounded : (2 : ℚ) ^ k ≤
      (roundHalfEven (q / (2 : ℚ) ^ (floatExponent q - 23)) : ℚ) *
        (2 : ℚ) ^ (floatExponent q - 23) := by
    have h1 : (((2 : Int) ^ 23 : Int) : ℚ) ≤
        (roundHalfEven (q / (2 : ℚ) ^ (floatExponent q - 23)) : ℚ) := Int.cast_le.2 hR
    have h2 := mul_le_mul_of_nonneg_right h1 (le_of_lt hqt)
    have h3 : (((2 : Int) ^ 23 : Int) : ℚ) * (2 : ℚ) ^ (floatExponent q - 23) =
        (2 : ℚ) ^ Int.log 2 |q| := by
      rw [hE, zpow_sub₀ (by norm_num)]
      norm_num
      ring
    rw [h3] at h2
    have h4 : (2 : ℚ) ^ k ≤ (2 : ℚ) ^ Int.log 2 |q| :=
      zpow_le_zpow_right₀ (by norm_num) hlogk
    exact le_trans h4 h2
  have hinf : (2 : ℚ) ^ k ≤ kFloatInfinity := by
    unfold kFloatInfinity
    have : (2 : ℚ) ^ k ≤ (2 : ℚ) ^ (128 : Int) := zpow_le_zpow_right₀ (by norm_num) hk'
    norm_num at this ⊢
    exact this
  unfold roundToFloat
  simp only
  split_ifs with h1 h2
  · exact hinf
  · have : (0 : ℚ) < kFloatInfinity := lt_of_lt_of_le hkpos hinf
    linarith
  · exact hrounded

theorem two_zpow_127 : (2 : ℚ) ^ (127 : Int) = 2 ^ 127 := by
  exact_mod_cast zpow_natCast (2 : ℚ) 127

theorem two_zpow_64 : (2 : ℚ) ^ (64 : Int) = 2 ^ 64 := by
  exact_mod_cast zpow_natCast (2 : ℚ) 64

theorem two_zpow_neg_126 : (2 : ℚ) ^ (-126 : Int) = 1 / 2 ^ 126 := by
  rw [zpow_neg, one_div]
  exact_mod_cast congrArg Inv.inv (zpow_natCast (2 : ℚ) 126)

theorem two_zpow_neg_150 : (2 : ℚ) ^ (-150 : Int) = 1 / 2 ^ 150 := by
  rw [zpow_neg, one_div]
  exact_mod_cast congrArg Inv.inv (zpow_natCast (2 : ℚ) 150)

/-- The rounding error of a number from 0 to `2^127`, as two bounds. -/
theorem roundToFloat_bounds (q : ℚ) (h0 : 0 ≤ q) (hq : q ≤ 2 ^ 127) :
    q * (1 - 1 / 2 ^ 24) - 1 / 2 ^ 150 ≤ roundToFloat q ∧
      roundToFloat q ≤ q * (1 + 1 / 2 ^ 24) + 1 / 2 ^ 150 ∧ 0 ≤ roundToFloat q := by
  have h := abs_roundToFloat_sub_le q (by rw [abs_of_nonneg h0, two_zpow_127]; exact hq)
  rw [abs_of_nonneg h0, abs_le, two_zpow_neg_150] at h
  refine ⟨by linarith [h.1], by linarith [h.2], roundToFloat_nonneg q h0⟩

/-- The rounding error of a number from `1/2` to `2^127`, as two bounds. -/
theorem roundToFloat_bounds_of_normal (q : ℚ) (h0 : 1 / 2 ≤ q) (hq : q ≤ 2 ^ 127) :
    q * (1 - 1 / 2 ^ 24) ≤ roundToFloat q ∧ roundToFloat q ≤ q * (1 + 1 / 2 ^ 24) := by
  have hnn : 0 ≤ q := by linarith
  have h := abs_roundToFloat_sub_le_of_normal q
    (by
      rw [abs_of_nonneg hnn, two_zpow_neg_126]
      have h2 : (2 : ℚ) ^ 1 ≤ 2 ^ 126 := pow_le_pow_right₀ (by norm_num) (by norm_num)
      have : (1 : ℚ) / 2 ^ 126 ≤ 1 / 2 :=
        one_div_le_one_div_of_le (by norm_num) (by linarith)
      linarith)
    (by rw [abs_of_nonneg hnn, two_zpow_127]; exact hq)
  rw [abs_of_nonneg hnn, abs_le] at h
  exact ⟨by linarith [h.1], by linarith [h.2]⟩

/-- The rounding error of an integer from 0 to `2^63`, as two bounds. -/
theorem roundToFloat_intCast_bounds (n : Int) (h0 : 0 ≤ n) (hn : n ≤ 2 ^ 63) :
    (n : ℚ) * (1 - 1 / 2 ^ 24) ≤ roundToFloat n ∧
      roundToFloat n ≤ (n : ℚ) * (1 + 1 / 2 ^ 24) ∧ 0 ≤ roundToFloat (n : ℚ) := by
  by_cases hz : n = 0
  · rw [hz, Int.cast_zero, roundToFloat_zero]
    norm_num
  · have h1 : (1 : ℚ) ≤ n := by exact_mod_cast (by omega : (1 : Int) ≤ n)
    have h2 : (n : ℚ) ≤ 2 ^ 63 := by exact_mod_cast hn
    obtain ⟨a, b⟩ := roundToFloat_bounds_of_normal n (by linarith) (by linarith)
    exact ⟨a, b, roundToFloat_nonneg _ (by linarith)⟩

/-- Bounds of a quotient `S / A` of two rounded numbers. -/
theorem quotient_bounds_of_rounded (scale a S A : ℚ) (hs0 : 0 ≤ scale) (ha : 2 ≤ a)
    (hS1 : scale * (1 - 1 / 2 ^ 24) - 1 / 2 ^ 150 ≤ S)
    (hS2 : S ≤ scale * (1 + 1 / 2 ^ 24) + 1 / 2 ^ 150) (hS0 : 0 ≤ S)
    (hA1 : a * (1 - 1 / 2 ^ 24) ≤ A) (hA2 : A ≤ a * (1 + 1 / 2 ^ 24)) :
    0 ≤ S / A ∧ scale / a * (1 - 2 / 2 ^ 24) - 1 / 2 ^ 150 ≤ S / A ∧
      S / A ≤ scale / a * (1 + 3 / 2 ^ 24) + 1 / 2 ^ 150 := by
  have ha0 : 0 < a := by linarith
  have hA0 : 0 < A := by linarith
  have hx : scale / a * a = scale := by field_simp
  have hx0 : 0 ≤ scale / a := div_nonneg hs0 (le_of_lt ha0)
  refine ⟨div_nonneg hS0 (le_of_lt hA0), ?_, ?_⟩
  · by_cases hneg : scale / a * (1 - 2 / 2 ^ 24) - 1 / 2 ^ 150 ≤ 0
    · exact le_trans hneg (div_nonneg hS0 (le_of_lt hA0))
    · rw [le_div_iff₀ hA0]
      have h1 := mul_le_mul_of_nonneg_left hA2 (le_of_lt (not_le.1 hneg))
      have h2 : (scale / a * (1 - 2 / 2 ^ 24) - 1 / 2 ^ 150) * (a * (1 + 1 / 2 ^ 24)) =
          scale / a * a * ((1 - 2 / 2 ^ 24) * (1 + 1 / 2 ^ 24)) -
            1 / 2 ^ 150 * a * (1 + 1 / 2 ^ 24) := by ring
      rw [h2, hx] at h1
      linarith
  · rw [div_le_iff₀ hA0]
    have hB : 0 ≤ scale / a * (1 + 3 / 2 ^ 24) + 1 / 2 ^ 150 := by positivity
    have h1 := mul_le_mul_of_nonneg_left hA1 hB
    have h2 : (scale / a * (1 + 3 / 2 ^ 24) + 1 / 2 ^ 150) * (a * (1 - 1 / 2 ^ 24)) =
        scale / a * a * ((1 + 3 / 2 ^ 24) * (1 - 1 / 2 ^ 24)) +
          1 / 2 ^ 150 * a * (1 - 1 / 2 ^ 24) := by ring
    rw [h2, hx] at h1
    linarith

/-- Bounds of a product `C * s` of two rounded numbers. -/
theorem product_bounds_of_rounded (acc x0 C s : ℚ) (hacc0 : 0 ≤ acc) (hacc : acc ≤ 2 ^ 63)
    (hx0 : 0 ≤ x0) (hC1 : acc * (1 - 1 / 2 ^ 24) ≤ C) (hC2 : C ≤ acc * (1 + 1 / 2 ^ 24))
    (hC0 : 0 ≤ C) (hs0 : 0 ≤ s) (hs1 : x0 * (1 - 3 / 2 ^ 24) - 2 / 2 ^ 150 ≤ s)
    (hs2 : s ≤ x0 * (1 + 5 / 2 ^ 24) + 3 / 2 ^ 150) :
    0 ≤ C * s ∧ acc * x0 * (1 - 4 / 2 ^ 24) - 1 / 2 ^ 80 ≤ C * s ∧
      C * s ≤ acc * x0 * (1 + 7 / 2 ^ 24) + 1 / 2 ^ 80 := by
  have hx : 0 ≤ acc * x0 := mul_nonneg hacc0 hx0
  refine ⟨mul_nonneg hC0 hs0, ?_, ?_⟩
  · have h1 := mul_le_mul_of_nonneg_left hs1 hC0
    have h2 := mul_le_mul_of_nonneg_right hC1 hx0
    have h3 : C * (x0 * (1 - 3 / 2 ^ 24) - 2 / 2 ^ 150) =
        C * x0 * (1 - 3 / 2 ^ 24) - C * (2 / 2 ^ 150) := by ring
    have h4 : acc * (1 - 1 / 2 ^ 24) * x0 = acc * x0 * (1 - 1 / 2 ^ 24) := by ring
    rw [h3] at h1
    rw [h4] at h2
    linarith
  · have h1 := mul_le_mul_of_nonneg_left hs2 hC0
    have h2 := mul_le_mul_of_nonneg_right hC2 hx0
    have h3 : C * (x0 * (1 + 5 / 2 ^ 24) + 3 / 2 ^ 150) =
        C * x0 * (1 + 5 / 2 ^ 24) + C * (3 / 2 ^ 150) := by ring
    have h4 : acc * (1 + 1 / 2 ^ 24) * x0 = acc * x0 * (1 + 1 / 2 ^ 24) := by ring
    rw [h3] at h1
    rw [h4] at h2
    linarith

/-- The product `accumulated_count_ * scale` of `RateStatistics::Rate` in single precision,
against the exact product: the relative error is at most `7 / 2^24`. -/
theorem floatProduct_bounds (acc a : Int) (scale : ℚ) (hacc0 : 0 ≤ acc) (hacc : acc ≤ 2 ^ 63)
    (ha : 2 ≤ a) (ha31 : a ≤ 2 ^ 31) (hs0 : 0 ≤ scale) (hs : scale ≤ 2 ^ 127) :
    0 ≤ roundToFloat (acc : ℚ) * roundToFloat (roundToFloat scale / roundToFloat (a : ℚ)) ∧
      (acc : ℚ) * (scale / (a : ℚ)) * (1 - 4 / 2 ^ 24) - 1 / 2 ^ 80 ≤
        roundToFloat (acc : ℚ) * roundToFloat (roundToFloat scale / roundToFloat (a : ℚ)) ∧
      roundToFloat (acc : ℚ) * roundToFloat (roundToFloat scale / roundToFloat (a : ℚ)) ≤
        (acc : ℚ) * (scale / (a : ℚ)) * (1 + 7 / 2 ^ 24) + 1 / 2 ^ 80 := by
  have haq : (2 : ℚ) ≤ a := by exact_mod_cast ha
  have haq31 : (a : ℚ) ≤ 2 ^ 31 := by exact_mod_cast ha31
  have ha0 : (0 : ℚ) < a := by linarith
  have hacc0q : (0 : ℚ) ≤ acc := by exact_mod_cast hacc0
  have haccq : (acc : ℚ) ≤ 2 ^ 63 := by exact_mod_cast hacc
  have hx0 : 0 ≤ scale / (a : ℚ) := div_nonneg hs0 (le_of_lt ha0)
  have hx0le : scale / (a : ℚ) ≤ 2 ^ 126 := by
    rw [div_le_iff₀ ha0]
    have : (2 : ℚ) ^ 126 * 2 ≤ 2 ^ 126 * a := mul_le_mul_of_nonneg_left haq (by positivity)
    linarith
  obtain ⟨hS1, hS2, hS0⟩ := roundToFloat_bounds scale hs0 hs
  obtain ⟨hA1, hA2⟩ := roundToFloat_bounds_of_normal (a : ℚ) (by linarith) (by linarith)
  obtain ⟨hq0, hq1, hq2⟩ := quotient_bounds_of_rounded scale a _ _ hs0 haq hS1 hS2 hS0 hA1 hA2
  obtain ⟨hs1, hs2, hs3⟩ := roundToFloat_bounds _ hq0 (by linarith)
  obtain ⟨hC1, hC2, hC0⟩ := roundToFloat_intCast_bounds acc hacc0 hacc
  exact product_bounds_of_rounded acc _ _ _ hacc0q haccq hx0 hC1 hC2 hC0 hs3
    (by linarith) (by linarith)

/-- The value `result` of `RateStatistics::Rate` in single precision, against the exact
value `x + 1/2` with `x = accumulated_count_ * (scale_ / active_window_size)`: if `x` is at
most `2^65`, the error is at most `11 / 2^24` of `x`, plus `2^(-24)`. -/
theorem floatResult_bounds_of_le (acc a : Int) (scale : ℚ) (hacc0 : 0 ≤ acc)
    (hacc : acc ≤ 2 ^ 63) (ha : 2 ≤ a) (ha31 : a ≤ 2 ^ 31) (hs0 : 0 ≤ scale)
    (hs : scale ≤ 2 ^ 127) (hx : (acc : ℚ) * (scale / (a : ℚ)) ≤ 2 ^ 65) :
    (acc : ℚ) * (scale / (a : ℚ)) * (1 - 6 / 2 ^ 24) + 1 / 2 - 1 / 2 ^ 24 ≤
        roundToFloat (roundToFloat (roundToFloat (acc : ℚ) *
          roundToFloat (roundToFloat scale / roundToFloat (a : ℚ))) + 1 / 2) ∧
      roundToFloat (roundToFloat (roundToFloat (acc : ℚ) *
          roundToFloat (roundToFloat scale / roundToFloat (a : ℚ))) + 1 / 2) ≤
        (acc : ℚ) * (scale / (a : ℚ)) * (1 + 11 / 2 ^ 24) + 1 / 2 + 1 / 2 ^ 24 := by
  have hx0 : 0 ≤ (acc : ℚ) * (scale / (a : ℚ)) := by
    have h1 : (0 : ℚ) ≤ acc := by exact_mod_cast hacc0
    have h2 : (0 : ℚ) < a := by exact_mod_cast (by omega : (0 : Int) < a)
    exact mul_nonneg h1 (div_nonneg hs0 (le_of_lt h2))
  obtain ⟨hw0, hw1, hw2⟩ := floatProduct_bounds acc a scale hacc0 hacc ha ha31 hs0 hs
  obtain ⟨hp1, hp2, hp0⟩ := roundToFloat_bounds _ hw0 (by linarith)
  obtain ⟨hr1, hr2⟩ := roundToFloat_bounds_of_normal
    (roundToFloat (roundToFloat (acc : ℚ) *
      roundToFloat (roundToFloat scale / roundToFloat (a : ℚ))) + 1 / 2)
    (by linarith) (by linarith)
  constructor
  · linarith
  · linarith

/-- If the value `result` of `RateStatistics::Rate` in single precision is below `2^64`,
the exact value it stands for is at most `2^65`. -/
theorem le_of_floatResult_lt (acc a : Int) (scale : ℚ) (hacc0 : 0 ≤ acc)
    (hacc : acc ≤ 2 ^ 63) (ha : 2 ≤ a) (ha31 : a ≤ 2 ^ 31) (hs0 : 0 ≤ scale)
    (hs : scale ≤ 2 ^ 127)
    (hr : roundToFloat (roundToFloat (roundToFloat (acc : ℚ) *
      roundToFloat (roundToFloat scale / roundToFloat (a : ℚ))) + 1 / 2) < 2 ^ 64) :
    (acc : ℚ) * (scale / (a : ℚ)) ≤ 2 ^ 65 := by
  obtain ⟨hw0, hw1, hw2⟩ := floatProduct_bounds acc a scale hacc0 hacc ha ha31 hs0 hs
  have hw : roundToFloat (acc : ℚ) *
      roundToFloat (roundToFloat scale / roundToFloat (a : ℚ)) < 2 ^ 64 := by
    by_contra hge
    have h1 := zpow_le_roundToFloat
      (roundToFloat (acc : ℚ) * roundToFloat (roundToFloat scale / roundToFloat (a : ℚ))) 64
      (by norm_num) (by norm_num) (by rw [two_zpow_64]; exact not_lt.1 hge)
    rw [two_zpow_64] at h1
    have h2 := zpow_le_roundToFloat
      (roundToFloat (roundToFloat (acc : ℚ) *
        roundToFloat (roundToFloat scale / roundToFloat (a : ℚ))) + 1 / 2) 64
      (by norm_num) (by norm_num) (by linarith)
    rw [two_zpow_64] at h2
    linarith
  linarith

/-- A number that is an integer of magnitude below `2^24` is a `float`. -/
theorem roundToFloat_of_eq_intCast (q : ℚ) (n : Int) (hq : q = (n : ℚ)) (h : |n| < 2 ^ 24) :
    roundToFloat q = q := by
  rw [hq]
  exact roundToFloat_intCast n h

/-- The `float` nearest to the largest `int64_t` is `2^63`. -/
theorem roundToFloat_kInt64Max : roundToFloat (kInt64Max : ℚ) = 2 ^ 63 := by
  rw [roundToFloat_eq_of_near (kInt64Max : ℚ) 16777216 62 (by norm_num) (by norm_num)
    (by norm_num [kInt64Max, abs_of_pos]) (by norm_num [kInt64Max, abs_of_pos])
    (by norm_num [kInt64Max, abs_lt])]
  norm_num

/-- The conversion to `int64_t` of a value from 0 to below `2^63` rounds down. -/
theorem floatToInt64_of_nonneg (x : ℚ) (h0 : 0 ≤ x) (h : x < 2 ^ 63) :
    floatToInt64 x = ⌊x⌋ := by
  have hmin : (kInt64Min : ℚ) ≤ x := by
    have : (kInt64Min : ℚ) ≤ 0 := by norm_num [kInt64Min]
    linarith
  unfold floatToInt64 truncToInt
  rw [if_pos ⟨hmin, h⟩, if_pos h0]

/-! ## Theorems: rate statistics -/

namespace RateStatistics

theorem toInt32_of_fits (x : Int) (h1 : -2147483648 ≤ x) (h2 : x ≤ 2147483647) :
    toInt32 x = x := by
  unfold toInt32
  omega

@[simp] theorem EraseOld_overflow (self : RateStatistics) (now_ms : Int) :
    (self.EraseOld now_ms).overflow_ = self.overflow_ := rfl

@[simp] theorem EraseOld_first_timestamp (self : RateStatistics) (now_ms : Int) :
    (self.EraseOld now_ms).first_timestamp_ = self.first_timestamp_ := rfl

@[simp] theorem EraseOld_current_window (self : RateStatistics) (now_ms : Int) :
    (self.EraseOld now_ms).current_window_size_ms_ = self.current_window_size_ms_ := rfl

@[simp] theorem EraseOld_max_window (self : RateStatistics) (now_ms : Int) :
    (self.EraseOld now_ms).max_window_size_ms_ = self.max_window_size_ms_ := rfl

@[simp] theorem EraseOld_scale (self : RateStatistics) (now_ms : Int) :
    (self.EraseOld now_ms).scale_ = self.scale_ := rfl

theorem Rate_snd (self : RateStatistics) (now_ms : Int) :
    (self.Rate now_ms).2 = self.EraseOld now_ms := by
  unfold Rate
  simp only
  split_ifs <;> rfl

/-- When one of the four conditions holds after the purge, `Rate` returns nothing. -/
theorem Rate_none_of_condition (self : RateStatistics) (now_ms : Int)
    (h : (self.EraseOld now_ms).num_samples_ = 0 ∨
      (self.EraseOld now_ms).active_window_size now_ms ≤ 1 ∨
      ((self.EraseOld now_ms).num_samples_ ≤ 1 ∧
        (self.EraseOld now_ms).active_window_size now_ms <
          (self.EraseOld now_ms).current_window_size_ms_) ∨
      (self.EraseOld now_ms).overflow_ = true) :
    (self.Rate now_ms).1 = none := by
  unfold Rate
  simp only
  rw [if_pos h]

/-- When none of the four conditions holds after the purge, `Rate` returns the
single-precision result without its fractional part, unless it exceeds `2^63`. -/
theorem Rate_of_not_condition (self : RateStatistics) (now_ms : Int)
    (h : ¬ ((self.EraseOld now_ms).num_samples_ = 0 ∨
      (self.EraseOld now_ms).active_window_size now_ms ≤ 1 ∨
      ((self.EraseOld now_ms).num_samples_ ≤ 1 ∧
        (self.EraseOld now_ms).active_window_size now_ms <
          (self.EraseOld now_ms).current_window_size_ms_) ∨
      (self.EraseOld now_ms).overflow_ = true)) :
    (self.Rate now_ms).1 =
      if (self.EraseOld now_ms).floatResult
          ((self.EraseOld now_ms).active_window_size now_ms) > 2 ^ 63 then none
      else some (floatToInt64 ((self.EraseOld now_ms).floatResult
        ((self.EraseOld now_ms).active_window_size now_ms))) := by
  unfold Rate floatResult
  simp only
  rw [if_neg h, roundToFloat_kInt64Max]
  split_ifs <;> rfl

/-- The single-precision result from the results of its six roundings. -/
theorem floatResult_eq (self : RateStatistics) (window : Int) (S A s C p r : ℚ)
    (hS : roundToFloat self.scale_ = S) (hA : roundToFloat (window : ℚ) = A)
    (hs : roundToFloat (S / A) = s) (hC : roundToFloat (self.accumulated_count_ : ℚ) = C)
    (hp : roundToFloat (C * s) = p) (hr : roundToFloat (p + 1 / 2) = r) :
    self.floatResult window = r := by
  unfold floatResult
  rw [hS, hA, hs, hC, hp, hr]

/-- The rate that `Rate` returns when none of the four conditions holds and the
single-precision result is a number from 0 to below `2^63`. -/
theorem Rate_of_floatResult (self : RateStatistics) (now_ms : Int) (r : ℚ)
    (h : ¬ ((self.EraseOld now_ms).num_samples_ = 0 ∨
      (self.EraseOld now_ms).active_window_size now_ms ≤ 1 ∨
      ((self.EraseOld now_ms).num_samples_ ≤ 1 ∧
        (self.EraseOld now_ms).active_window_size now_ms <
          (self.EraseOld now_ms).current_window_size_ms_) ∨
      (self.EraseOld now_ms).overflow_ = true))
    (hr : (self.EraseOld now_ms).floatResult
      ((self.EraseOld now_ms).active_window_size now_ms) = r)
    (h0 : 0 ≤ r) (h63 : r < 2 ^ 63) : (self.Rate now_ms).1 = some ⌊r⌋ := by
  rw [Rate_of_not_condition self now_ms h, hr, if_neg (not_lt.2 (le_of_lt h63)),
    floatToInt64_of_nonneg r h0 h63]

/-- The scale 8000 of the examples is a `float`. -/
theorem roundToFloat_8000 : roundToFloat 8000 = 8000 := by
  simpa using roundToFloat_intCast 8000 (by norm_num)

theorem active_window_size_of_fits (self : RateStatistics) (now_ms : Int)
    (h1 : -2147483648 ≤ self.specActiveWindowSize now_ms)
    (h2 : self.specActiveWindowSize now_ms ≤ 2147483647) :
    self.active_window_size now_ms = self.specActiveWindowSize now_ms := by
  unfold active_window_size
  unfold specActiveWindowSize at h1 h2 ⊢
  split_ifs at h1 h2 ⊢
  · exact toInt32_of_fits _ h1 h2
  · exact toInt32_of_fits _ h1 h2
  · rfl

/-- The active window size of `Rate` is an `int`. -/
theorem active_window_size_le (self : RateStatistics) (now_ms : Int) :
    self.active_window_size now_ms ≤ 2147483647 := by
  unfold active_window_size toInt32
  split_ifs <;> omega

/-- The conversion to `int64_t` of a value within the range of `int64_t` discards the
fractional part. -/
theorem floatToInt64_of_range (x : ℚ) (hmin : (kInt64Min : ℚ) ≤ x) (h : x < 2 ^ 63) :
    floatToInt64 x = truncToInt x := by
  unfold floatToInt64
  rw [if_pos ⟨hmin, h⟩]

/-- The exact quotient `accumulated_count * (scale / window)` is not negative when the
count and the scale are not. -/
theorem quotient_nonneg (self : RateStatistics) (window : Int)
    (hacc0 : 0 ≤ self.accumulated_count_) (hw : 2 ≤ window) (hs0 : 0 ≤ self.scale_) :
    0 ≤ (self.accumulated_count_ : ℚ) * (self.scale_ / (window : ℚ)) := by
  have h1 : (0 : ℚ) ≤ self.accumulated_count_ := by exact_mod_cast hacc0
  have h2 : (0 : ℚ) < window := by exact_mod_cast (by omega : (0 : Int) < window)
  exact mul_nonneg h1 (div_nonneg hs0 (le_of_lt h2))

/-- Single precision against exact arithmetic in `Rate`: for a count from 0 to the largest
`int64_t`, a window from 2 to the largest `int` and a scale from 0 to `2^127`, a
single-precision result `r` below `2^64` differs from the exact value `x + 1/2`, where
`x = accumulated_count * (scale / window)`, by at most `11 / 2^24` of `x`, plus
`2^(-24)`. -/
theorem floatResult_bounds (self : RateStatistics) (window : Int)
    (hacc0 : 0 ≤ self.accumulated_count_) (hacc : self.accumulated_count_ ≤ kInt64Max)
    (hw : 2 ≤ window) (hw31 : window ≤ 2147483647) (hs0 : 0 ≤ self.scale_)
    (hs : self.scale_ ≤ 2 ^ 127) (hr : self.floatResult window < 2 ^ 64) :
    (self.accumulated_count_ : ℚ) * (self.scale_ / (window : ℚ)) * (1 - 6 / 2 ^ 24) +
          1 / 2 - 1 / 2 ^ 24 ≤ self.floatResult window ∧
      self.floatResult window ≤
        (self.accumulated_count_ : ℚ) * (self.scale_ / (window : ℚ)) * (1 + 11 / 2 ^ 24) +
          1 / 2 + 1 / 2 ^ 24 := by
  have h63 : self.accumulated_count_ ≤ 2 ^ 63 := by
    unfold kInt64Max at hacc
    norm_num
    omega
  have h31 : window ≤ 2 ^ 31 := by
    norm_num
    omega
  unfold floatResult at hr ⊢
  exact floatResult_bounds_of_le _ _ _ hacc0 h63 hw h31 hs0 hs
    (le_of_floatResult_lt _ _ _ hacc0 h63 hw h31 hs0 hs hr)

/-- The single-precision result stays below `2^63` when the exact quotient does so with a
margin of `2^(-20)` of it, plus 1. -/
theorem floatResult_lt (self : RateStatistics) (window : Int)
    (hacc0 : 0 ≤ self.accumulated_count_) (hacc : self.accumulated_count_ ≤ kInt64Max)
    (hw : 2 ≤ window) (hw31 : window ≤ 2147483647) (hs0 : 0 ≤ self.scale_)
    (hs : self.scale_ ≤ 2 ^ 127)
    (hx : (self.accumulated_count_ : ℚ) * (self.scale_ / (window : ℚ)) * (1 + 1 / 2 ^ 20) +
      1 ≤ 2 ^ 63) :
    self.floatResult window < 2 ^ 63 := by
  have h63 : self.accumulated_count_ ≤ 2 ^ 63 := by
    unfold kInt64Max at hacc
    norm_num
    omega
  have h31 : window ≤ 2 ^ 31 := by
    norm_num
    omega
  have hx0 := quotient_nonneg self window hacc0 hw hs0
  have h := (floatResult_bounds_of_le _ _ _ hacc0 h63 hw h31 hs0 hs (by linarith)).2
  unfold floatResult
  linarith

/-- The single-precision result exceeds `2^63` when the exact quotient is at least
`2^63 + 2^44`. -/
theorem floatResult_gt (self : RateStatistics) (window : Int)
    (hacc0 : 0 ≤ self.accumulated_count_) (hacc : self.accumulated_count_ ≤ kInt64Max)
    (hw : 2 ≤ window) (hw31 : window ≤ 2147483647) (hs0 : 0 ≤ self.scale_)
    (hs : self.scale_ ≤ 2 ^ 127)
    (hx : 2 ^ 63 + 2 ^ 44 ≤ (self.accumulated_count_ : ℚ) * (self.scale_ / (window : ℚ))) :
    2 ^ 63 < self.floatResult window := by
  by_cases hr : self.floatResult window < 2 ^ 64
  · have h := (floatResult_bounds self window hacc0 hacc hw hw31 hs0 hs hr).1
    linarith
  · have := not_lt.1 hr
    linarith

/-- The rate that `Rate` returns for a single-precision result below `2^63`, against the
exact quotient `x = accumulated_count * (scale / window)`: the difference is at most
`2^(-20)` of `x`, plus 1. -/
theorem abs_floatToInt64_sub_le (self : RateStatistics) (window : Int)
    (hacc0 : 0 ≤ self.accumulated_count_) (hacc : self.accumulated_count_ ≤ kInt64Max)
    (hw : 2 ≤ window) (hw31 : window ≤ 2147483647) (hs0 : 0 ≤ self.scale_)
    (hs : self.scale_ ≤ 2 ^ 127) (hr : self.floatResult window < 2 ^ 63) :
    0 ≤ self.floatResult window ∧
      floatToInt64 (self.floatResult window) = truncToInt (self.floatResult window) ∧
      0 ≤ floatToInt64 (self.floatResult window) ∧
      floatToInt64 (self.floatResult window) ≤ kInt64Max ∧
      |((floatToInt64 (self.floatResult window) : Int) : ℚ) -
          (self.accumulated_count_ : ℚ) * (self.scale_ / (window : ℚ))| ≤
        (self.accumulated_count_ : ℚ) * (self.scale_ / (window : ℚ)) / 2 ^ 20 + 1 := by
  have hx0 := quotient_nonneg self window hacc0 hw hs0
  obtain ⟨hlo, hhi⟩ := floatResult_bounds self window hacc0 hacc hw hw31 hs0 hs (by linarith)
  have hr0 : 0 ≤ self.floatResult window := by linarith
  have hv := floatToInt64_of_nonneg _ hr0 hr
  have h1 := Int.floor_le (self.floatResult window)
  have h2 := Int.lt_floor_add_one (self.floatResult window)
  have hnn : 0 ≤ ⌊self.floatResult window⌋ := Int.floor_nonneg.2 hr0
  have hmax : ⌊self.floatResult window⌋ ≤ kInt64Max := by
    have h3 : ((⌊self.floatResult window⌋ : Int) : ℚ) < ((9223372036854775808 : Int) : ℚ) := by
      push_cast
      linarith
    have h4 : ⌊self.floatResult window⌋ < 9223372036854775808 := by exact_mod_cast h3
    unfold kInt64Max
    omega
  have ht : truncToInt (self.floatResult window) = ⌊self.floatResult window⌋ := by
    unfold truncToInt
    rw [if_pos hr0]
  rw [hv]
  refine ⟨hr0, ht.symm, hnn, hmax, ?_⟩
  rw [abs_le]
  constructor <;> linarith

/-- The purge of `exampleNearMax` at 6 ms keeps both samples. -/
theorem exampleNearMax_EraseOld : exampleNearMax.EraseOld 6 =
    { buckets_ := [{ sum := 8070450532247928, num_samples := 1, timestamp := 0 },
        { sum := 0, num_samples := 1, timestamp := 6 }],
      accumulated_count_ := 8070450532247928, first_timestamp_ := 0, overflow_ := false,
      num_samples_ := 2, scale_ := 8000, max_window_size_ms_ := 1000,
      current_window_size_ms_ := 1000 } := by rfl

/-- The single-precision result for a count of 8070450532247928, a scale of 8000 and a
window of 7 ms is `2^63 + 2^40`. -/
theorem exampleNearMax_floatResult :
    (exampleNearMax.EraseOld 6).floatResult 7 = 9223373136366403584 := by
  rw [exampleNearMax_EraseOld]
  exact floatResult_eq _ 7 8000 7 (4681143 / 4096) 8070450781356032 9223373136366403584
    9223373136366403584 roundToFloat_8000
    (by simpa using roundToFloat_intCast 7 (by norm_num))
    (by
      rw [roundToFloat_eq_of_near (8000 / 7) 9362286 10 (by norm_num) (by norm_num)
        (by norm_num [abs_of_pos]) (by norm_num [abs_of_pos]) (by norm_num [abs_lt])]
      norm_num)
    (by
      show roundToFloat ((8070450532247928 : Int) : ℚ) = 8070450781356032
      rw [roundToFloat_eq_of_near ((8070450532247928 : Int) : ℚ) 15032386 52 (by norm_num)
        (by norm_num) (by norm_num [abs_of_pos]) (by norm_num [abs_of_pos])
        (by norm_num [abs_lt])]
      norm_num)
    (by
      rw [roundToFloat_eq_of_near (8070450781356032 * (4681143 / 4096)) 8388609 63
        (by norm_num) (by norm_num) (by norm_num [abs_of_pos]) (by norm_num [abs_of_pos])
        (by norm_num [abs_lt])]
      norm_num)
    (by
      rw [roundToFloat_eq_of_near (9223373136366403584 + 1 / 2) 8388609 63
        (by norm_num) (by norm_num) (by norm_num [abs_of_pos]) (by norm_num [abs_of_pos])
        (by norm_num [abs_lt])]
      norm_num)

/-- C4 (as stated, refuted).  With a window of `2^32` ms, two samples in the window, a first
timestamp a full window old and no overflow, none of the four conditions holds and the
scaled result is within the `int64_t` range, yet `Rate` returns nothing.  With a window of
1000 ms and two samples at `2^32 + 8` ms, the active window size of the specification at
17 ms is negative, yet `Rate(17)` returns 1600.  With a window of 1000 ms, a sample of
8070450532247928 at 0 ms and an empty sample at 6 ms, none of the four conditions holds at
6 ms and the scaled result `8070450532247928 * 8000 / 7 + 0.5` is within the `int64_t`
range, yet `Rate(6)` returns nothing: in single precision the result is `2^63 + 2^40`. -/
theorem Rate_active_window_counterexample :
    (¬ ((exampleHugeWindow.EraseOld 4294967296).num_samples_ = 0 ∨
        (exampleHugeWindow.EraseOld 4294967296).specActiveWindowSize 4294967296 ≤ 1 ∨
        ((exampleHugeWindow.EraseOld 4294967296).num_samples_ ≤ 1 ∧
          (exampleHugeWindow.EraseOld 4294967296).specActiveWindowSize 4294967296 <
            (exampleHugeWindow.EraseOld 4294967296).current_window_size_ms_) ∨
        (exampleHugeWindow.EraseOld 4294967296).overflow_ = true) ∧
      (kInt64Min : ℚ) ≤ (exampleHugeWindow.EraseOld 4294967296).scaledResult
        ((exampleHugeWindow.EraseOld 4294967296).specActiveWindowSize 4294967296) ∧
      (exampleHugeWindow.EraseOld 4294967296).scaledResult
        ((exampleHugeWindow.EraseOld 4294967296).specActiveWindowSize 4294967296) ≤
          (kInt64Max : ℚ) ∧
      (exampleHugeWindow.Rate 4294967296).1 = none) ∧
    ((exampleLateSamples.EraseOld 17).specActiveWindowSize 17 ≤ 1 ∧
      (exampleLateSamples.Rate 17).1 = some 1600) ∧
    (¬ ((exampleNearMax.EraseOld 6).num_samples_ = 0 ∨
        (exampleNearMax.EraseOld 6).specActiveWindowSize 6 ≤ 1 ∨
        ((exampleNearMax.EraseOld 6).num_samples_ ≤ 1 ∧
          (exampleNearMax.EraseOld 6).specActiveWindowSize 6 <
            (exampleNearMax.EraseOld 6).current_window_size_ms_) ∨
        (exampleNearMax.EraseOld 6).overflow_ = true) ∧
      (kInt64Min : ℚ) ≤ (exampleNearMax.EraseOld 6).scaledResult
        ((exampleNearMax.EraseOld 6).specActiveWindowSize 6) ∧
      (exampleNearMax.EraseOld 6).scaledResult
        ((exampleNearMax.EraseOld 6).specActiveWindowSize 6) ≤ (kInt64Max : ℚ) ∧
      (exampleNearMax.Rate 6).1 = none) := by
  have e1 : exampleHugeWindow.EraseOld 4294967296 =
      { buckets_ := [{ sum := 2, num_samples := 2, timestamp := 4294967296 }],
        accumulated_count_ := 2, first_timestamp_ := 0, overflow_ := false,
        num_samples_ := 2, scale_ := 8000, max_window_size_ms_ := 4294967296,
        current_window_size_ms_ := 4294967296 } := by rfl
  have e2 : exampleLateSamples.EraseOld 17 =
      { buckets_ := [{ sum := 2, num_samples := 2, timestamp := 4294967304 }],
        accumulated_count_ := 2, first_timestamp_ := 4294967304, overflow_ := false,
        num_samples_ := 2, scale_ := 8000, max_window_size_ms_ := 1000,
        current_window_size_ms_ := 1000 } := by rfl
  have a1 : (exampleHugeWindow.EraseOld 4294967296).specActiveWindowSize 4294967296 =
      4294967296 := by
    rw [e1]; decide
  have a3 : (exampleNearMax.EraseOld 6).specActiveWindowSize 6 = 7 := by
    rw [exampleNearMax_EraseOld]; decide
  have a3' : (exampleNearMax.EraseOld 6).active_window_size 6 = 7 := by
    rw [exampleNearMax_EraseOld]; decide
  refine ⟨⟨?_, ?_, ?_, ?_⟩, ⟨?_, ?_⟩, ?_, ?_, ?_, ?_⟩
  · rw [a1, e1]; decide
  · rw [a1, e1]; norm_num [scaledResult, kInt64Min]
  · rw [a1, e1]; norm_num [scaledResult, kInt64Max]
  · apply Rate_none_of_condition
    rw [e1]
    decide
  · rw [e2]; decide
  · have ha : (exampleLateSamples.EraseOld 17).active_window_size 17 = 10 := by
      rw [e2]; decide
    have hc : ¬ ((exampleLateSamples.EraseOld 17).num_samples_ = 0 ∨
        (exampleLateSamples.EraseOld 17).active_window_size 17 ≤ 1 ∨
        ((exampleLateSamples.EraseOld 17).num_samples_ ≤ 1 ∧
          (exampleLateSamples.EraseOld 17).active_window_size 17 <
            (exampleLateSamples.EraseOld 17).current_window_size_ms_) ∨
        (exampleLateSamples.EraseOld 17).overflow_ = true) := by
      rw [ha, e2]; decide
    have hr : (exampleLateSamples.EraseOld 17).floatResult
        ((exampleLateSamples.EraseOld 17).active_window_size 17) = 3201 / 2 := by
      rw [ha, e2]
      exact floatResult_eq _ 10 8000 10 800 2 1600 (3201 / 2) roundToFloat_8000
        (by simpa using roundToFloat_intCast 10 (by norm_num))
        (by
          rw [roundToFloat_of_eq_intCast (8000 / 10) 800 (by norm_num) (by norm_num)]
          norm_num)
        (by simpa using roundToFloat_intCast 2 (by norm_num))
        (by
          rw [roundToFloat_of_eq_intCast (2 * 800) 1600 (by norm_num) (by norm_num)]
          norm_num)
        (by
          rw [roundToFloat_eq_of_near (1600 + 1 / 2) 13111296 10 (by norm_num) (by norm_num)
            (by norm_num [abs_of_pos]) (by norm_num [abs_of_pos]) (by norm_num [abs_lt])]
          norm_num)
    rw [Rate_of_floatResult _ 17 _ hc hr (by norm_num) (by norm_num)]
    norm_num [Int.floor_eq_iff]
  · rw [a3, exampleNearMax_EraseOld]; decide
  · rw [a3, exampleNearMax_EraseOld]; norm_num [scaledResult, kInt64Min]
  · rw [a3, exampleNearMax_EraseOld]; norm_num [scaledResult, kInt64Max]
  · have hc : ¬ ((exampleNearMax.EraseOld 6).num_samples_ = 0 ∨
        (exampleNearMax.EraseOld 6).active_window_size 6 ≤ 1 ∨
        ((exampleNearMax.EraseOld 6).num_samples_ ≤ 1 ∧
          (exampleNearMax.EraseOld 6).active_window_size 6 <
            (exampleNearMax.EraseOld 6).current_window_size_ms_) ∨
        (exampleNearMax.EraseOld 6).overflow_ = true) := by
      rw [a3', exampleNearMax_EraseOld]; decide
    rw [Rate_of_not_condition _ 6 hc, a3', exampleNearMax_floatResult, if_pos (by norm_num)]

/-- C4 (amended): provided the active window size of the specification fits in a 32-bit
`int`, `Rate(now)` returns nothing whenever, after the purge, no samples are recorded, or
the active window size is `<= 1`, or `num_samples <= 1` and the active window size is less
than the current window, or the overflow flag is set.  When none of them holds and the
scaled result as `Rate` computes it, in single precision, is within the `int64_t` range
(at least `-2^63` and below `2^63`), `Rate` returns it without its fractional part; that
is the case whenever the count after the purge is an `int64_t` that is not negative, the
scale is from 0 to `2^127` and the exact quotient `x = accumulated_count * scale / window`
satisfies `x * (1 + 2^(-20)) + 1 <= 2^63`. -/
theorem Rate_none_conditions (self : RateStatistics) (now_ms : Int)
    (h1 : -2147483648 ≤ (self.EraseOld now_ms).specActiveWindowSize now_ms)
    (h2 : (self.EraseOld now_ms).specActiveWindowSize now_ms ≤ 2147483647) :
    (((self.EraseOld now_ms).num_samples_ = 0 ∨
        (self.EraseOld now_ms).specActiveWindowSize now_ms ≤ 1 ∨
        ((self.EraseOld now_ms).num_samples_ ≤ 1 ∧
          (self.EraseOld now_ms).specActiveWindowSize now_ms <
            (self.EraseOld now_ms).current_window_size_ms_) ∨
        (self.EraseOld now_ms).overflow_ = true) →
      (self.Rate now_ms).1 = none) ∧
    (¬ ((self.EraseOld now_ms).num_samples_ = 0 ∨
        (self.EraseOld now_ms).specActiveWindowSize now_ms ≤ 1 ∨
        ((self.EraseOld now_ms).num_samples_ ≤ 1 ∧
          (self.EraseOld now_ms).specActiveWindowSize now_ms <
            (self.EraseOld now_ms).current_window_size_ms_) ∨
        (self.EraseOld now_ms).overflow_ = true) →
      ((kInt64Min : ℚ) ≤ (self.EraseOld now_ms).floatResult
          ((self.EraseOld now_ms).specActiveWindowSize now_ms) →
        (self.EraseOld now_ms).floatResult
          ((self.EraseOld now_ms).specActiveWindowSize now_ms) < 2 ^ 63 →
        (self.Rate now_ms).1 = some (truncToInt ((self.EraseOld now_ms).floatResult
          ((self.EraseOld now_ms).specActiveWindowSize now_ms)))) ∧
      (0 ≤ (self.EraseOld now_ms).accumulated_count_ →
        (self.EraseOld now_ms).accumulated_count_ ≤ kInt64Max →
        0 ≤ self.scale_ → self.scale_ ≤ 2 ^ 127 →
        ((self.EraseOld now_ms).accumulated_count_ : ℚ) *
            (self.scale_ / ((self.EraseOld now_ms).specActiveWindowSize now_ms : ℚ)) *
            (1 + 1 / 2 ^ 20) + 1 ≤ 2 ^ 63 →
        ∃ v : Int, (self.Rate now_ms).1 = some v)) := by
  have ha := active_window_size_of_fits (self.EraseOld now_ms) now_ms h1 h2
  constructor
  · intro h
    apply Rate_none_of_condition
    rw [ha]
    exact h
  · intro h
    have hc : ¬ ((self.EraseOld now_ms).num_samples_ = 0 ∨
        (self.EraseOld now_ms).active_window_size now_ms ≤ 1 ∨
        ((self.EraseOld now_ms).num_samples_ ≤ 1 ∧
          (self.EraseOld now_ms).active_window_size now_ms <
            (self.EraseOld now_ms).current_window_size_ms_) ∨
        (self.EraseOld now_ms).overflow_ = true) := by
      rw [ha]
      exact h
    have hw : 2 ≤ (self.EraseOld now_ms).specActiveWindowSize now_ms := by
      simp only [not_or] at h
      omega
    constructor
    · intro hmin hmax
      rw [Rate_of_not_condition self now_ms hc, ha, if_neg (not_lt.2 (le_of_lt hmax)),
        floatToInt64_of_range _ hmin hmax]
    · intro hacc0 hacc hs0 hs hx
      have hlt := floatResult_lt (self.EraseOld now_ms) _ hacc0 hacc hw h2 hs0 hs hx
      rw [Rate_of_not_condition self now_ms hc, ha, if_neg (not_lt.2 (le_of_lt hlt))]
      exact ⟨_, rfl⟩

theorem Rate_none_conditions_witness :
    (-2147483648 ≤ (exampleTwoSamples.EraseOld 500).specActiveWindowSize 500 ∧
      (exampleTwoSamples.EraseOld 500).specActiveWindowSize 500 ≤ 2147483647) ∧
    ¬ ((exampleTwoSamples.EraseOld 500).num_samples_ = 0 ∨
        (exampleTwoSamples.EraseOld 500).specActiveWindowSize 500 ≤ 1 ∨
        ((exampleTwoSamples.EraseOld 500).num_samples_ ≤ 1 ∧
          (exampleTwoSamples.EraseOld 500).specActiveWindowSize 500 <
            (exampleTwoSamples.EraseOld 500).current_window_size_ms_) ∨
        (exampleTwoSamples.EraseOld 500).overflow_ = true) ∧
    ∃ v : Int, (exampleTwoSamples.Rate 500).1 = some v := by
  have e : exampleTwoSamples.EraseOld 500 =
      { buckets_ := [{ sum := 1, num_samples := 1, timestamp := 0 },
          { sum := 1, num_samples := 1, timestamp := 500 }],
        accumulated_count_ := 2, first_timestamp_ := 0, overflow_ := false,
        num_samples_ := 2, scale_ := 8000, max_window_size_ms_ := 1000,
        current_window_size_ms_ := 1000 } := by rfl
  have ha : (exampleTwoSamples.EraseOld 500).specActiveWindowSize 500 = 501 := by
    rw [e]; decide
  have hc : ¬ ((exampleTwoSamples.EraseOld 500).num_samples_ = 0 ∨
        (exampleTwoSamples.EraseOld 500).specActiveWindowSize 500 ≤ 1 ∨
        ((exampleTwoSamples.EraseOld 500).num_samples_ ≤ 1 ∧
          (exampleTwoSamples.EraseOld 500).specActiveWindowSize 500 <
            (exampleTwoSamples.EraseOld 500).current_window_size_ms_) ∨
        (exampleTwoSamples.EraseOld 500).overflow_ = true) := by
    rw [ha, e]; decide
  have hf1 : -2147483648 ≤ (exampleTwoSamples.EraseOld 500).specActiveWindowSize 500 := by
    rw [ha]; decide
  have hf2 : (exampleTwoSamples.EraseOld 500).specActiveWindowSize 500 ≤ 2147483647 := by
    rw [ha]; decide
  have hs : exampleTwoSamples.scale_ = 8000 := rfl
  refine ⟨⟨hf1, hf2⟩, hc,
    ((Rate_none_conditions exampleTwoSamples 500 hf1 hf2).2 hc).2 ?_ ?_ ?_ ?_ ?_⟩
  · rw [e]; decide
  · rw [e]; decide
  · rw [hs]; norm_num
  · rw [hs]; norm_num
  · rw [ha, hs, e]; norm_num


theorem Update_overflow (self : RateStatistics) (count now_ms : Int) :
    (self.Update count now_ms).overflow_ =
      if kInt64Max - (self.EraseOld now_ms).accumulated_count_ > count then self.overflow_
      else true := by
  unfold Update
  simp only
  split_ifs <;> rfl

theorem Update_accumulated_count (self : RateStatistics) (count now_ms : Int) :
    (self.Update count now_ms).accumulated_count_ =
      if kInt64Max - (self.EraseOld now_ms).accumulated_count_ > count then
        (self.EraseOld now_ms).accumulated_count_ + count
      else (self.EraseOld now_ms).accumulated_count_ := by
  unfold Update
  simp only
  split_ifs <;> rfl

theorem Update_buckets (self : RateStatistics) (count now_ms : Int) :
    (self.Update count now_ms).buckets_ =
      addToBack (appendBucket (self.EraseOld now_ms).buckets_ now_ms) count := by
  unfold Update
  simp only
  split_ifs <;> rfl

theorem Update_overflow_of_overflow (self : RateStatistics) (count now_ms : Int)
    (h : self.overflow_ = true) : (self.Update count now_ms).overflow_ = true := by
  rw [Update_overflow]
  split_ifs
  · exact h
  · rfl

theorem SetWindowSize_overflow (self : RateStatistics) (window_size_ms now_ms : Int) :
    (self.SetWindowSize window_size_ms now_ms).2.overflow_ = self.overflow_ := by
  unfold SetWindowSize
  split_ifs <;> rfl

theorem Rate_none_of_overflow (self : RateStatistics) (now_ms : Int)
    (h : self.overflow_ = true) : (self.Rate now_ms).1 = none := by
  unfold Rate
  simp only
  rw [if_pos]
  right; right; right
  exact h

theorem apply_overflow (self : RateStatistics) (c : Call) (hc : c.isReset = false)
    (h : self.overflow_ = true) : (Call.apply self c).overflow_ = true := by
  cases c with
  | Update count now_ms => exact Update_overflow_of_overflow self count now_ms h
  | Rate now_ms =>
    show (self.Rate now_ms).2.overflow_ = true
    rw [Rate_snd]
    exact h
  | SetWindowSize window_size_ms now_ms =>
    show (self.SetWindowSize window_size_ms now_ms).2.overflow_ = true
    rw [SetWindowSize_overflow]
    exact h
  | Reset => exact absurd hc (by decide)

theorem run_overflow (calls : List Call) (hcalls : ∀ c ∈ calls, c.isReset = false)
    (self : RateStatistics) (h : self.overflow_ = true) :
    (run self calls).overflow_ = true := by
  induction calls generalizing self with
  | nil => exact h
  | cons c rest ih =>
    show (run (Call.apply self c) rest).overflow_ = true
    apply ih
    · intro d hd
      exact hcalls d (List.mem_cons_of_mem _ hd)
    · exact apply_overflow self c (hcalls c (List.mem_cons_self _ _)) h

/-- C5: once an `Update` has set the overflow flag, after every sequence of further
`Update`, `Rate` and `SetWindowSize` calls (no `Reset`) the flag is still set, it survives
one more purge, and `Rate(now)` returns nothing for every `now`. -/
theorem overflow_sticky (self : RateStatistics) (count now_ms : Int)
    (h : (self.Update count now_ms).overflow_ = true) (calls : List Call)
    (hcalls : ∀ c ∈ calls, c.isReset = false) (now : Int) :
    (run (self.Update count now_ms) calls).overflow_ = true ∧
      ((run (self.Update count now_ms) calls).EraseOld now).overflow_ = true ∧
      ((run (self.Update count now_ms) calls).Rate now).1 = none := by
  have h1 := run_overflow calls hcalls _ h
  exact ⟨h1, h1, Rate_none_of_overflow _ now h1⟩

theorem overflow_sticky_witness :
    (((new 1000 8000).Update (kInt64Max - 1) 0).overflow_ = false ∧
      (((new 1000 8000).Update (kInt64Max - 1) 0).Update (kInt64Max - 1) 1).overflow_ =
        true) ∧
    ((run (((new 1000 8000).Update (kInt64Max - 1) 0).Update (kInt64Max - 1) 1)
        [Call.Update 5 2, Call.Rate 3, Call.SetWindowSize 500 2000]).overflow_ = true ∧
      ((run (((new 1000 8000).Update (kInt64Max - 1) 0).Update (kInt64Max - 1) 1)
        [Call.Update 5 2, Call.Rate 3, Call.SetWindowSize 500 2000]).EraseOld
          5000).overflow_ = true ∧
      ((run (((new 1000 8000).Update (kInt64Max - 1) 0).Update (kInt64Max - 1) 1)
        [Call.Update 5 2, Call.Rate 3, Call.SetWindowSize 500 2000]).Rate 5000).1 = none) :=
  ⟨⟨by decide, by decide⟩,
    overflow_sticky ((new 1000 8000).Update (kInt64Max - 1) 0) (kInt64Max - 1) 1 (by decide)
      [Call.Update 5 2, Call.Rate 3, Call.SetWindowSize 500 2000] (by decide) 5000⟩

/-- The flag after `Update`: it is set when it was set before or when
`accumulated_count + count` reaches the largest `int64_t`. -/
theorem Update_overflow_iff (self : RateStatistics) (count now_ms : Int) :
    (self.Update count now_ms).overflow_ = true ↔
      (self.overflow_ = true ∨
        kInt64Max ≤ (self.EraseOld now_ms).accumulated_count_ + count) := by
  rw [Update_overflow]
  split_ifs with h
  · constructor
    · exact Or.inl
    · rintro (h' | h')
      · exact h'
      · omega
  · simp only [true_iff]
    right
    omega

/-- C6 (the code at the failing input): on a fresh object `Update(2^63 - 1, 0)` sets the
overflow flag and leaves `accumulated_count` at 0, although `0 + (2^63 - 1)` does not
exceed the largest `int64_t`. -/
theorem Update_overflow_at_int64_max :
    ((new 1000 8000).EraseOld 0).accumulated_count_ + kInt64Max ≤ kInt64Max ∧
      (new 1000 8000).overflow_ = false ∧
      ((new 1000 8000).Update kInt64Max 0).overflow_ = true ∧
      ((new 1000 8000).Update kInt64Max 0).accumulated_count_ = 0 := by
  decide

/-- C7 (the code at the failing input): after `Update(1, 10)` and the out-of-order
`Update(1, 5)` the deque holds two buckets with timestamp 10. -/
theorem Update_out_of_order_duplicate_timestamp :
    (run (new 1000 8000) [Call.Update 1 10, Call.Update 1 5]).buckets_ =
      [{ sum := 1, num_samples := 1, timestamp := 10 },
        { sum := 1, num_samples := 1, timestamp := 10 }] := by
  decide

/-- C8 (the code at the failing input): after two samples of `2^63 - 2` at 0 ms and 1 ms the
buckets sum to `2^64 - 4` while `accumulated_count` is `2^63 - 2`; in the purge of
`Rate(1001)` the assertion `accumulated_count >= oldest_bucket.sum` fails and
`accumulated_count` ends at `-(2^63 - 2)`. -/
theorem sum_invariant_broken_after_overflow :
    sumOfSums exampleOverflow.buckets_ = 18446744073709551612 ∧
      exampleOverflow.accumulated_count_ = 9223372036854775806 ∧
      exampleOverflow.EraseOldChecks 1001 = false ∧
      (exampleOverflow.Rate 1001).2.accumulated_count_ = -9223372036854775806 := by
  refine ⟨by decide, by decide, by decide, ?_⟩
  rw [Rate_snd]
  decide

/-- C9: `SetWindowSize(w, now)` returns false if and only if `w <= 0` or
`w > max_window_size`, and then the whole object is unchanged. -/
theorem SetWindowSize_false_iff (self : RateStatistics) (window_size_ms now_ms : Int) :
    ((self.SetWindowSize window_size_ms now_ms).1 = false ↔
        (window_size_ms ≤ 0 ∨ window_size_ms > self.max_window_size_ms_)) ∧
      ((self.SetWindowSize window_size_ms now_ms).1 = false →
        (self.SetWindowSize window_size_ms now_ms).2 = self) := by
  by_cases h : window_size_ms ≤ 0 ∨ window_size_ms > self.max_window_size_ms_
  · rw [SetWindowSize, if_pos h]
    exact ⟨⟨fun _ => h, fun _ => rfl⟩, fun _ => rfl⟩
  · rw [SetWindowSize, if_neg h]
    exact ⟨⟨fun hf => absurd hf (by simp), fun hw => absurd hw h⟩,
      fun hf => absurd hf (by simp)⟩

theorem SetWindowSize_false_iff_witness :
    (exampleTwoSamples.SetWindowSize 1001 550).1 = false ∧
      (exampleTwoSamples.SetWindowSize 1001 550).2 = exampleTwoSamples ∧
      (exampleTwoSamples.SetWindowSize 0 550).1 = false ∧
      (exampleTwoSamples.SetWindowSize 100 550).1 = true :=
  ⟨by decide,
    (SetWindowSize_false_iff exampleTwoSamples 1001 550).2 (by decide),
    ((SetWindowSize_false_iff exampleTwoSamples 0 550).1).2 (Or.inl (by decide)),
    by decide⟩


/-- What the loop of `EraseOld` does: it removes a prefix of buckets older than
`new_oldest_time`, stops at a bucket that is not older, and subtracts what it removes. -/
theorem eraseOldLoop_spec (new_oldest_time : Int) (buckets : List Bucket)
    (accumulated_count num_samples : Int) :
    ∃ removed : List Bucket,
      buckets = removed ++ (eraseOldLoop new_oldest_time buckets accumulated_count
        num_samples).1 ∧
      (∀ b ∈ removed, b.timestamp < new_oldest_time) ∧
      (∀ b, (eraseOldLoop new_oldest_time buckets accumulated_count num_samples).1.head? =
        some b → new_oldest_time ≤ b.timestamp) ∧
      (eraseOldLoop new_oldest_time buckets accumulated_count num_samples).2.1 =
        accumulated_count - sumOfSums removed ∧
      (eraseOldLoop new_oldest_time buckets accumulated_count num_samples).2.2 =
        num_samples - sumOfSamples removed := by
  induction buckets generalizing accumulated_count num_samples with
  | nil => exact ⟨[], rfl, by simp, by simp [eraseOldLoop], by simp [eraseOldLoop, sumOfSums],
      by simp [eraseOldLoop, sumOfSamples]⟩
  | cons b rest ih =>
    by_cases hb : b.timestamp < new_oldest_time
    · obtain ⟨removed, h1, h2, h3, h4, h5⟩ :=
        ih (accumulated_count - b.sum) (num_samples - b.num_samples)
      refine ⟨b :: removed, ?_, ?_, ?_, ?_, ?_⟩
      · simp only [eraseOldLoop, if_pos hb, List.cons_append]
        rw [← h1]
      · intro x hx
        rcases List.mem_cons.1 hx with rfl | hx
        · exact hb
        · exact h2 x hx
      · simpa only [eraseOldLoop, if_pos hb] using h3
      · simp only [eraseOldLoop, if_pos hb, h4, sumOfSums, List.map_cons, List.sum_cons]
        omega
      · simp only [eraseOldLoop, if_pos hb, h5, sumOfSamples, List.map_cons, List.sum_cons]
        omega
    · refine ⟨[], ?_, ?_, ?_, ?_, ?_⟩
      · simp [eraseOldLoop, if_neg hb]
      · simp
      · intro x hx
        simp only [eraseOldLoop, if_neg hb, List.head?_cons, Option.some.injEq] at hx
        rw [← hx]
        exact not_lt.1 hb
      · simp [eraseOldLoop, if_neg hb, sumOfSums]
      · simp [eraseOldLoop, if_neg hb, sumOfSamples]

theorem OrderedByTime.of_append_right {removed kept : List Bucket}
    (h : OrderedByTime (removed ++ kept)) : OrderedByTime kept :=
  (List.pairwise_append.1 h).2.1

theorem OrderedByTime.le_of_head {b : Bucket} {kept : List Bucket} (h : OrderedByTime kept)
    (hb : kept.head? = some b) : ∀ x ∈ kept, b.timestamp ≤ x.timestamp := by
  cases kept with
  | nil => simp at hb
  | cons y rest =>
    simp only [List.head?_cons, Option.some.injEq] at hb
    subst hb
    intro x hx
    rcases List.mem_cons.1 hx with rfl | hx
    · exact le_refl _
    · exact List.rel_of_pairwise_cons h hx

theorem OrderedByTime.concat {front : List Bucket} {b c : Bucket}
    (h : OrderedByTime (front ++ [b])) (hbc : b.timestamp ≤ c.timestamp) :
    OrderedByTime (front ++ [b] ++ [c]) := by
  unfold OrderedByTime at h ⊢
  rw [List.pairwise_append]
  refine ⟨h, List.pairwise_singleton _ _, ?_⟩
  intro x hx y hy
  rw [List.mem_singleton] at hy
  subst hy
  rcases List.mem_append.1 hx with hx | hx
  · exact le_trans ((List.pairwise_append.1 h).2.2 x hx b (List.mem_singleton_self b)) hbc
  · rw [List.mem_singleton] at hx
    subst hx
    exact hbc

theorem OrderedByTime.replace_back {front : List Bucket} {b c : Bucket}
    (h : OrderedByTime (front ++ [b])) (hbc : b.timestamp = c.timestamp) :
    OrderedByTime (front ++ [c]) := by
  unfold OrderedByTime at h ⊢
  rw [List.pairwise_append] at h ⊢
  refine ⟨h.1, List.pairwise_singleton _ _, ?_⟩
  intro x hx y hy
  rw [List.mem_singleton] at hy
  subst hy
  rw [← hbc]
  exact h.2.2 x hx b (List.mem_singleton_self b)

theorem eq_nil_or_append_singleton (buckets : List Bucket) :
    buckets = [] ∨ ∃ front b, buckets = front ++ [b] := by
  rcases List.eq_nil_or_concat buckets with h | ⟨front, b, h⟩
  · exact Or.inl h
  · exact Or.inr ⟨front, b, by rw [h, List.concat_eq_append]⟩

theorem getLast?_append_singleton (front : List Bucket) (b : Bucket) :
    (front ++ [b]).getLast? = some b := by
  simp

theorem appendBucket_ordered (buckets : List Bucket) (now_ms : Int)
    (h : OrderedByTime buckets) : OrderedByTime (appendBucket buckets now_ms) := by
  rcases eq_nil_or_append_singleton buckets with rfl | ⟨front, b, rfl⟩
  · simp [appendBucket, OrderedByTime]
  · simp only [appendBucket, getLast?_append_singleton]
    split_ifs with h1 h2
    · exact h.concat (le_refl _)
    · exact h.concat (by simp only [Bucket.new]; omega)
    · exact h

theorem addToBack_ordered (buckets : List Bucket) (count : Int)
    (h : OrderedByTime buckets) : OrderedByTime (addToBack buckets count) := by
  rcases eq_nil_or_append_singleton buckets with rfl | ⟨front, b, rfl⟩
  · simp [addToBack, OrderedByTime]
  · simp only [addToBack, getLast?_append_singleton, List.dropLast_concat]
    exact h.replace_back rfl

theorem EraseOld_ordered (self : RateStatistics) (now_ms : Int)
    (h : OrderedByTime self.buckets_) : OrderedByTime (self.EraseOld now_ms).buckets_ := by
  obtain ⟨removed, h1, _⟩ :=
    eraseOldLoop_spec (now_ms - self.current_window_size_ms_ + 1) self.buckets_
      self.accumulated_count_ self.num_samples_
  rw [h1] at h
  exact h.of_append_right

theorem apply_ordered (self : RateStatistics) (c : Call) (h : OrderedByTime self.buckets_) :
    OrderedByTime (Call.apply self c).buckets_ := by
  cases c with
  | Update count now_ms =>
    show OrderedByTime (self.Update count now_ms).buckets_
    rw [Update_buckets]
    exact addToBack_ordered _ _ (appendBucket_ordered _ _ (EraseOld_ordered self now_ms h))
  | Rate now_ms =>
    show OrderedByTime (self.Rate now_ms).2.buckets_
    rw [Rate_snd]
    exact EraseOld_ordered self now_ms h
  | SetWindowSize window_size_ms now_ms =>
    show OrderedByTime (self.SetWindowSize window_size_ms now_ms).2.buckets_
    unfold SetWindowSize
    split_ifs
    · exact h
    · exact EraseOld_ordered _ now_ms h
    · exact EraseOld_ordered _ now_ms h
  | Reset => exact List.Pairwise.nil

theorem run_ordered (calls : List Call) (self : RateStatistics)
    (h : OrderedByTime self.buckets_) : OrderedByTime (run self calls).buckets_ := by
  induction calls generalizing self with
  | nil => exact h
  | cons c rest ih => exact ih _ (apply_ordered self c h)

/-- In every reachable state the buckets are ordered by time (not strictly). -/
theorem Reachable.ordered {self : RateStatistics} (h : Reachable self) :
    OrderedByTime self.buckets_ := by
  obtain ⟨w, scale, calls, _, rfl⟩ := h
  exact run_ordered calls _ List.Pairwise.nil


theorem sumOfSums_append (front back : List Bucket) :
    sumOfSums (front ++ back) = sumOfSums front + sumOfSums back := by
  simp [sumOfSums]

theorem appendBucket_ne_nil (buckets : List Bucket) (now_ms : Int) :
    appendBucket buckets now_ms ≠ [] := by
  rcases eq_nil_or_append_singleton buckets with rfl | ⟨front, b, rfl⟩
  · simp [appendBucket]
  · simp only [appendBucket, getLast?_append_singleton]
    split_ifs <;> simp

theorem sumOfSums_appendBucket (buckets : List Bucket) (now_ms : Int) :
    sumOfSums (appendBucket buckets now_ms) = sumOfSums buckets := by
  rcases eq_nil_or_append_singleton buckets with rfl | ⟨front, b, rfl⟩
  · simp [appendBucket, sumOfSums, Bucket.new]
  · simp only [appendBucket, getLast?_append_singleton]
    split_ifs <;> simp [sumOfSums, Bucket.new]

theorem sumOfSums_addToBack (buckets : List Bucket) (count : Int) (h : buckets ≠ []) :
    sumOfSums (addToBack buckets count) = sumOfSums buckets + count := by
  rcases eq_nil_or_append_singleton buckets with rfl | ⟨front, b, rfl⟩
  · exact absurd rfl h
  · simp only [addToBack, getLast?_append_singleton, List.dropLast_concat, sumOfSums_append]
    simp only [sumOfSums, List.map_cons, List.map_nil, List.sum_cons, List.sum_nil]
    omega

theorem EraseOld_sum (self : RateStatistics) (now_ms : Int)
    (h : sumOfSums self.buckets_ = self.accumulated_count_) :
    sumOfSums (self.EraseOld now_ms).buckets_ = (self.EraseOld now_ms).accumulated_count_ := by
  obtain ⟨removed, h1, _, _, h4, _⟩ :=
    eraseOldLoop_spec (now_ms - self.current_window_size_ms_ + 1) self.buckets_
      self.accumulated_count_ self.num_samples_
  have hb := congrArg sumOfSums h1
  rw [sumOfSums_append] at hb
  show sumOfSums (eraseOldLoop _ _ _ _).1 = (eraseOldLoop _ _ _ _).2.1
  rw [h4]
  omega

theorem apply_sum (self : RateStatistics) (c : Call)
    (h : self.overflow_ = false → sumOfSums self.buckets_ = self.accumulated_count_) :
    (Call.apply self c).overflow_ = false →
      sumOfSums (Call.apply self c).buckets_ = (Call.apply self c).accumulated_count_ := by
  cases c with
  | Update count now_ms =>
    show (self.Update count now_ms).overflow_ = false →
      sumOfSums (self.Update count now_ms).buckets_ =
        (self.Update count now_ms).accumulated_count_
    rw [Update_overflow, Update_buckets, Update_accumulated_count]
    split_ifs with hg
    · intro ho
      rw [sumOfSums_addToBack _ _ (appendBucket_ne_nil _ _), sumOfSums_appendBucket,
        EraseOld_sum self now_ms (h ho)]
    · intro ho
      exact absurd ho (by simp)
  | Rate now_ms =>
    show (self.Rate now_ms).2.overflow_ = false →
      sumOfSums (self.Rate now_ms).2.buckets_ = (self.Rate now_ms).2.accumulated_count_
    rw [Rate_snd]
    intro ho
    exact EraseOld_sum self now_ms (h ho)
  | SetWindowSize window_size_ms now_ms =>
    show (self.SetWindowSize window_size_ms now_ms).2.overflow_ = false →
      sumOfSums (self.SetWindowSize window_size_ms now_ms).2.buckets_ =
        (self.SetWindowSize window_size_ms now_ms).2.accumulated_count_
    rw [SetWindowSize_overflow]
    intro ho
    unfold SetWindowSize
    split_ifs
    · exact h ho
    · exact EraseOld_sum _ now_ms (h ho)
    · exact EraseOld_sum _ now_ms (h ho)
  | Reset =>
    intro _
    rfl

theorem run_sum (calls : List Call) (self : RateStatistics)
    (h : self.overflow_ = false → sumOfSums self.buckets_ = self.accumulated_count_) :
    (run self calls).overflow_ = false →
      sumOfSums (run self calls).buckets_ = (run self calls).accumulated_count_ := by
  induction calls generalizing self with
  | nil => exact h
  | cons c rest ih => exact ih _ (apply_sum self c h)

/-- In every reachable state whose overflow flag is not set, the `sum` fields of the buckets
add up to `accumulated_count`. -/
theorem Reachable.sum_eq_of_not_overflow {self : RateStatistics} (h : Reachable self)
    (ho : self.overflow_ = false) : sumOfSums self.buckets_ = self.accumulated_count_ := by
  obtain ⟨w, scale, calls, _, rfl⟩ := h
  exact run_sum calls _ (fun _ => rfl) ho


theorem sumOfSums_nonneg (buckets : List Bucket) (h : ∀ b ∈ buckets, 0 ≤ b.sum) :
    0 ≤ sumOfSums buckets := by
  induction buckets with
  | nil => simp [sumOfSums]
  | cons b rest ih =>
    have h1 := h b (List.mem_cons_self _ _)
    have h2 := ih (fun x hx => h x (List.mem_cons_of_mem _ hx))
    simp only [sumOfSums, List.map_cons, List.sum_cons] at h2 ⊢
    omega

theorem appendBucket_sum_nonneg (buckets : List Bucket) (now_ms : Int)
    (h : ∀ b ∈ buckets, 0 ≤ b.sum) : ∀ b ∈ appendBucket buckets now_ms, 0 ≤ b.sum := by
  have hnew : ∀ (t : Int) (x : Bucket), x ∈ buckets ++ [Bucket.new t] → 0 ≤ x.sum := by
    intro t x hx
    rcases List.mem_append.1 hx with hx | hx
    · exact h x hx
    · rw [List.mem_singleton] at hx
      rw [hx]
      exact le_refl _
  unfold appendBucket
  cases buckets.getLast? with
  | none => exact hnew now_ms
  | some back =>
    simp only
    split_ifs
    · exact hnew back.timestamp
    · exact hnew now_ms
    · exact h

theorem addToBack_sum_nonneg (buckets : List Bucket) (count : Int) (hc : 0 ≤ count)
    (h : ∀ b ∈ buckets, 0 ≤ b.sum) : ∀ b ∈ addToBack buckets count, 0 ≤ b.sum := by
  rcases eq_nil_or_append_singleton buckets with rfl | ⟨front, b, rfl⟩
  · simp [addToBack]
  · simp only [addToBack, getLast?_append_singleton, List.dropLast_concat]
    intro x hx
    rcases List.mem_append.1 hx with hx | hx
    · exact h x (List.mem_append_left _ hx)
    · rw [List.mem_singleton] at hx
      rw [hx]
      have := h b (List.mem_append_right _ (List.mem_singleton_self b))
      show 0 ≤ b.sum + count
      omega

/-- A purge keeps the bucket sums and does not raise the accumulated count when no bucket
sum is negative. -/
theorem EraseOld_sum_nonneg (self : RateStatistics) (now_ms : Int)
    (h : ∀ b ∈ self.buckets_, 0 ≤ b.sum) :
    (∀ b ∈ (self.EraseOld now_ms).buckets_, 0 ≤ b.sum) ∧
      (self.EraseOld now_ms).accumulated_count_ ≤ self.accumulated_count_ := by
  obtain ⟨removed, h1, _, _, h4, _⟩ :=
    eraseOldLoop_spec (now_ms - self.current_window_size_ms_ + 1) self.buckets_
      self.accumulated_count_ self.num_samples_
  constructor
  · intro b hb
    apply h b
    rw [h1]
    exact List.mem_append_right _ hb
  · have hr : 0 ≤ sumOfSums removed := by
      apply sumOfSums_nonneg
      intro b hb
      apply h b
      rw [h1]
      exact List.mem_append_left _ hb
    show (eraseOldLoop _ _ _ _).2.1 ≤ _
    rw [h4]
    omega

theorem apply_sum_nonneg (self : RateStatistics) (c : Call) (hc : c.valid = true)
    (h : (∀ b ∈ self.buckets_, 0 ≤ b.sum) ∧ self.accumulated_count_ < kInt64Max) :
    (∀ b ∈ (Call.apply self c).buckets_, 0 ≤ b.sum) ∧
      (Call.apply self c).accumulated_count_ < kInt64Max := by
  cases c with
  | Update count now_ms =>
    have hcount : 0 ≤ count := by simpa [Call.valid] using hc
    obtain ⟨e1, e2⟩ := EraseOld_sum_nonneg self now_ms h.1
    show (∀ b ∈ (self.Update count now_ms).buckets_, 0 ≤ b.sum) ∧
      (self.Update count now_ms).accumulated_count_ < kInt64Max
    rw [Update_buckets, Update_accumulated_count]
    refine ⟨addToBack_sum_nonneg _ _ hcount (appendBucket_sum_nonneg _ _ e1), ?_⟩
    split_ifs with hg
    · omega
    · exact lt_of_le_of_lt e2 h.2
  | Rate now_ms =>
    show (∀ b ∈ (self.Rate now_ms).2.buckets_, 0 ≤ b.sum) ∧
      (self.Rate now_ms).2.accumulated_count_ < kInt64Max
    rw [Rate_snd]
    obtain ⟨e1, e2⟩ := EraseOld_sum_nonneg self now_ms h.1
    exact ⟨e1, lt_of_le_of_lt e2 h.2⟩
  | SetWindowSize window_size_ms now_ms =>
    show (∀ b ∈ (self.SetWindowSize window_size_ms now_ms).2.buckets_, 0 ≤ b.sum) ∧
      (self.SetWindowSize window_size_ms now_ms).2.accumulated_count_ < kInt64Max
    have key : ∀ other : RateStatistics, other.buckets_ = self.buckets_ →
        other.accumulated_count_ = self.accumulated_count_ →
        (∀ b ∈ (other.EraseOld now_ms).buckets_, 0 ≤ b.sum) ∧
          (other.EraseOld now_ms).accumulated_count_ < kInt64Max := by
      intro other hb ha
      obtain ⟨e1, e2⟩ := EraseOld_sum_nonneg other now_ms (by rw [hb]; exact h.1)
      rw [ha] at e2
      exact ⟨e1, lt_of_le_of_lt e2 h.2⟩
    unfold SetWindowSize
    split_ifs
    · exact h
    · exact key _ rfl rfl
    · exact key _ rfl rfl
  | Reset =>
    have h0 : (Call.apply self Call.Reset).accumulated_count_ < kInt64Max := by
      show (0 : Int) < kInt64Max
      decide
    refine ⟨?_, h0⟩
    intro b hb
    exact absurd hb (List.not_mem_nil b)

theorem run_sum_nonneg (calls : List Call) (hv : ∀ c ∈ calls, c.valid = true)
    (self : RateStatistics)
    (h : (∀ b ∈ self.buckets_, 0 ≤ b.sum) ∧ self.accumulated_count_ < kInt64Max) :
    (∀ b ∈ (run self calls).buckets_, 0 ≤ b.sum) ∧
      (run self calls).accumulated_count_ < kInt64Max := by
  induction calls generalizing self with
  | nil => exact h
  | cons c rest ih =>
    exact ih (fun d hd => hv d (List.mem_cons_of_mem _ hd)) _
      (apply_sum_nonneg self c (hv c (List.mem_cons_self _ _)) h)

/-- In every reachable state no bucket sum is negative and the accumulated count is below
the largest `int64_t`. -/
theorem Reachable.sum_nonneg {self : RateStatistics} (h : Reachable self) :
    (∀ b ∈ self.buckets_, 0 ≤ b.sum) ∧ self.accumulated_count_ < kInt64Max := by
  obtain ⟨w, scale, calls, hv, rfl⟩ := h
  have h0 : (new w scale).accumulated_count_ < kInt64Max := by
    show (0 : Int) < kInt64Max
    decide
  exact run_sum_nonneg calls hv _ ⟨fun b hb => absurd hb (List.not_mem_nil b), h0⟩

/-- In every reachable state whose overflow flag is not set, the accumulated count is an
`int64_t` that is not negative. -/
theorem Reachable.accumulated_count_bounds {self : RateStatistics} (h : Reachable self)
    (ho : self.overflow_ = false) :
    0 ≤ self.accumulated_count_ ∧ self.accumulated_count_ < kInt64Max := by
  refine ⟨?_, h.sum_nonneg.2⟩
  rw [← h.sum_eq_of_not_overflow ho]
  exact sumOfSums_nonneg _ h.sum_nonneg.1

/-- C10: when `SetWindowSize(w, now)` succeeds on a reachable object whose overflow flag is
not set (`0 < w` and `w <= max_window_size`), afterwards the current window is `w`, the
first timestamp is `max(first_timestamp, now - w + 1)` if one was recorded and still unset
otherwise, the deque is the old one without a front part `removed` that holds exactly the
buckets with timestamp `< now - w + 1`, and `accumulated_count` and `num_samples` are
reduced by the sums and sample counts of the removed buckets; the sum of the removed
buckets is from 0 to `accumulated_count`, so that the subtraction stays within
`int64_t`. -/
theorem SetWindowSize_success (self : RateStatistics) (hreach : Reachable self)
    (hov : self.overflow_ = false)
    (window_size_ms now_ms : Int) (hpos : 0 < window_size_ms)
    (hmax : window_size_ms ≤ self.max_window_size_ms_) :
    (self.SetWindowSize window_size_ms now_ms).1 = true ∧
      (self.SetWindowSize window_size_ms now_ms).2.current_window_size_ms_ =
        window_size_ms ∧
      (self.SetWindowSize window_size_ms now_ms).2.first_timestamp_ =
        (if self.first_timestamp_ ≠ -1 then
          max self.first_timestamp_ (now_ms - window_size_ms + 1)
        else -1) ∧
      ∃ removed : List Bucket,
        self.buckets_ = removed ++ (self.SetWindowSize window_size_ms now_ms).2.buckets_ ∧
        (∀ b ∈ removed, b.timestamp < now_ms - window_size_ms + 1) ∧
        (∀ b ∈ (self.SetWindowSize window_size_ms now_ms).2.buckets_,
          now_ms - window_size_ms + 1 ≤ b.timestamp) ∧
        (self.SetWindowSize window_size_ms now_ms).2.accumulated_count_ =
          self.accumulated_count_ - sumOfSums removed ∧
        (self.SetWindowSize window_size_ms now_ms).2.num_samples_ =
          self.num_samples_ - sumOfSamples removed ∧
        0 ≤ sumOfSums removed ∧ sumOfSums removed ≤ self.accumulated_count_ := by
  have hcond : ¬ (window_size_ms ≤ 0 ∨ window_size_ms > self.max_window_size_ms_) := by
    omega
  obtain ⟨removed, h1, h2, h3, h4, h5⟩ :=
    eraseOldLoop_spec (now_ms - window_size_ms + 1) self.buckets_
      self.accumulated_count_ self.num_samples_
  have hord : OrderedByTime
      (eraseOldLoop (now_ms - window_size_ms + 1) self.buckets_ self.accumulated_count_
        self.num_samples_).1 := by
    have h := hreach.ordered
    rw [h1] at h
    exact h.of_append_right
  have hkept : ∀ b ∈ (eraseOldLoop (now_ms - window_size_ms + 1) self.buckets_
      self.accumulated_count_ self.num_samples_).1,
      now_ms - window_size_ms + 1 ≤ b.timestamp := by
    intro b hb
    cases hk : (eraseOldLoop (now_ms - window_size_ms + 1) self.buckets_
        self.accumulated_count_ self.num_samples_).1.head? with
    | none =>
      rw [List.head?_eq_none_iff] at hk
      rw [hk] at hb
      simp at hb
    | some f => exact le_trans (h3 f hk) (hord.le_of_head hk b hb)
  have hnn := hreach.sum_nonneg.1
  have hr0 : 0 ≤ sumOfSums removed := by
    apply sumOfSums_nonneg
    intro b hb
    apply hnn b
    rw [h1]
    exact List.mem_append_left _ hb
  have hk0 : 0 ≤ sumOfSums (eraseOldLoop (now_ms - window_size_ms + 1) self.buckets_
      self.accumulated_count_ self.num_samples_).1 := by
    apply sumOfSums_nonneg
    intro b hb
    apply hnn b
    rw [h1]
    exact List.mem_append_right _ hb
  have hle : sumOfSums removed ≤ self.accumulated_count_ := by
    have hs := hreach.sum_eq_of_not_overflow hov
    have hb := congrArg sumOfSums h1
    rw [sumOfSums_append] at hb
    omega
  rw [SetWindowSize, if_neg hcond]
  by_cases hf : self.first_timestamp_ ≠ -1
  · rw [if_pos hf, if_pos hf]
    exact ⟨rfl, rfl, rfl, removed, h1, h2, hkept, h4, h5, hr0, hle⟩
  · rw [if_neg hf, if_neg hf]
    exact ⟨rfl, rfl, not_not.1 hf, removed, h1, h2, hkept, h4, h5, hr0, hle⟩

theorem SetWindowSize_success_witness :
    (Reachable exampleTwoSamples ∧ exampleTwoSamples.overflow_ = false ∧ (0 : Int) < 100 ∧
      100 ≤ exampleTwoSamples.max_window_size_ms_) ∧
    (exampleTwoSamples.SetWindowSize 100 550).1 = true ∧
      (exampleTwoSamples.SetWindowSize 100 550).2.current_window_size_ms_ = 100 ∧
      (exampleTwoSamples.SetWindowSize 100 550).2.first_timestamp_ =
        (if exampleTwoSamples.first_timestamp_ ≠ -1 then
          max exampleTwoSamples.first_timestamp_ (550 - 100 + 1)
        else -1) ∧
      ∃ removed : List Bucket,
        exampleTwoSamples.buckets_ =
          removed ++ (exampleTwoSamples.SetWindowSize 100 550).2.buckets_ ∧
        (∀ b ∈ removed, b.timestamp < 550 - 100 + 1) ∧
        (∀ b ∈ (exampleTwoSamples.SetWindowSize 100 550).2.buckets_,
          550 - 100 + 1 ≤ b.timestamp) ∧
        (exampleTwoSamples.SetWindowSize 100 550).2.accumulated_count_ =
          exampleTwoSamples.accumulated_count_ - sumOfSums removed ∧
        (exampleTwoSamples.SetWindowSize 100 550).2.num_samples_ =
          exampleTwoSamples.num_samples_ - sumOfSamples removed ∧
        0 ≤ sumOfSums removed ∧ sumOfSums removed ≤ exampleTwoSamples.accumulated_count_ :=
  have hr : Reachable exampleTwoSamples :=
    ⟨1000, 8000, [Call.Update 1 0, Call.Update 1 500], by decide, rfl⟩
  ⟨⟨hr, by decide, by decide, by decide⟩,
    SetWindowSize_success exampleTwoSamples hr (by decide) 100 550 (by decide) (by decide)⟩

end RateStatistics

/-! ## Theorems: probe bitrate estimator, continued -/

namespace TimeValue

theorem le_refl' (x : TimeValue) : x ≤ x := by
  cases x <;> simp

theorem le_add_Seconds_one {x y : TimeValue} (h : x ≤ y) :
    x ≤ add y (Seconds 1) := by
  cases x <;> cases y <;> simp_all [add, Seconds]
  omega

end TimeValue

namespace AggregatedCluster

theorem record_num_probes (c : AggregatedCluster) (packet_feedback : PacketResult) :
    (c.record packet_feedback).num_probes = c.num_probes + 1 := by
  unfold record
  simp only
  split_ifs <;> rfl

theorem record_last_receive (c : AggregatedCluster) (packet_feedback : PacketResult) :
    (c.record packet_feedback).last_receive =
      if packet_feedback.receive_time > c.last_receive then packet_feedback.receive_time
      else c.last_receive := by
  unfold record
  simp only
  split_ifs <;> rfl

theorem receive_time_le_record (c : AggregatedCluster) (packet_feedback : PacketResult) :
    packet_feedback.receive_time ≤ (c.record packet_feedback).last_receive := by
  rw [record_last_receive]
  split_ifs with h
  · exact TimeValue.le_refl' _
  · exact (TimeValue.not_lt_iff _ _).1 h

end AggregatedCluster

namespace ProbeBitrateEstimator

theorem EraseOldClusters_clusters (self : ProbeBitrateEstimator) (timestamp : Timestamp)
    (id : Int) :
    (self.EraseOldClusters timestamp).clusters_ id =
      match self.clusters_ id with
      | none => none
      | some c =>
        if TimeValue.add c.last_receive kMaxClusterHistory < timestamp then none
        else some c := rfl

theorem fedCluster_of_none (self : ProbeBitrateEstimator) (packet_feedback : PacketResult)
    (h : self.clusters_ packet_feedback.sent_packet.pacing_info.probe_cluster_id = none) :
    self.fedCluster packet_feedback = ({} : AggregatedCluster).record packet_feedback := by
  unfold fedCluster
  rw [EraseOldClusters_clusters, h]
  rfl

theorem fedCluster_of_kept (self : ProbeBitrateEstimator) (packet_feedback : PacketResult)
    (c : AggregatedCluster)
    (h : self.clusters_ packet_feedback.sent_packet.pacing_info.probe_cluster_id = some c)
    (hk : ¬ (TimeValue.add c.last_receive kMaxClusterHistory <
      packet_feedback.receive_time)) :
    self.fedCluster packet_feedback = c.record packet_feedback := by
  unfold fedCluster
  rw [EraseOldClusters_clusters, h]
  simp only [if_neg hk, Option.getD_some]

theorem fedCluster_of_erased (self : ProbeBitrateEstimator) (packet_feedback : PacketResult)
    (c : AggregatedCluster)
    (h : self.clusters_ packet_feedback.sent_packet.pacing_info.probe_cluster_id = some c)
    (hk : TimeValue.add c.last_receive kMaxClusterHistory < packet_feedback.receive_time) :
    self.fedCluster packet_feedback = ({} : AggregatedCluster).record packet_feedback := by
  unfold fedCluster
  rw [EraseOldClusters_clusters, h]
  simp only [if_pos hk]
  rfl

/-- The fed cluster holds one probe, or one probe more than the cluster held before. -/
theorem fedCluster_num_probes (self : ProbeBitrateEstimator)
    (packet_feedback : PacketResult) :
    (self.fedCluster packet_feedback).num_probes = 1 ∨
      ∃ c, self.clusters_ packet_feedback.sent_packet.pacing_info.probe_cluster_id = some c ∧
        (self.fedCluster packet_feedback).num_probes = c.num_probes + 1 := by
  cases h : self.clusters_ packet_feedback.sent_packet.pacing_info.probe_cluster_id with
  | none =>
    left
    rw [fedCluster_of_none self packet_feedback h, AggregatedCluster.record_num_probes]
    rfl
  | some c =>
    by_cases hk : TimeValue.add c.last_receive kMaxClusterHistory <
        packet_feedback.receive_time
    · left
      rw [fedCluster_of_erased self packet_feedback c h hk,
        AggregatedCluster.record_num_probes]
      rfl
    · right
      exact ⟨c, rfl, by
        rw [fedCluster_of_kept self packet_feedback c h hk,
          AggregatedCluster.record_num_probes]⟩

theorem HandleProbeAndEstimateBitrate_estimate (self : ProbeBitrateEstimator)
    (packet_feedback : PacketResult) (r : DataRate)
    (h : (self.HandleProbeAndEstimateBitrate packet_feedback).1 = some r) :
    (self.HandleProbeAndEstimateBitrate packet_feedback).2.estimated_data_rate_ =
      some r := by
  unfold HandleProbeAndEstimateBitrate at h ⊢
  simp only at h ⊢
  split_ifs at h ⊢
  all_goals exact h

/-- C11: for every estimator state two consecutive `FetchAndResetLastEstimatedBitrate`
calls return the stored estimate and then nothing; in particular, after a
`HandleProbeAndEstimateBitrate` call that returned `r`, they return `r` and then
nothing. -/
theorem FetchAndResetLastEstimatedBitrate_one_shot (self : ProbeBitrateEstimator) :
    self.FetchAndResetLastEstimatedBitrate.1 = self.estimated_data_rate_ ∧
      self.FetchAndResetLastEstimatedBitrate.2.FetchAndResetLastEstimatedBitrate.1 = none ∧
      ∀ (packet_feedback : PacketResult) (r : DataRate),
        (self.HandleProbeAndEstimateBitrate packet_feedback).1 = some r →
        (self.HandleProbeAndEstimateBitrate
            packet_feedback).2.FetchAndResetLastEstimatedBitrate.1 = some r ∧
          (self.HandleProbeAndEstimateBitrate
            packet_feedback).2.FetchAndResetLastEstimatedBitrate.2.FetchAndResetLastEstimatedBitrate.1 =
              none := by
  refine ⟨rfl, rfl, ?_⟩
  intro packet_feedback r h
  exact ⟨HandleProbeAndEstimateBitrate_estimate self packet_feedback r h, rfl⟩

theorem FetchAndResetLastEstimatedBitrate_one_shot_witness :
    (ProbeExample.estimator1.HandleProbeAndEstimateBitrate ProbeExample.feedback2).1 =
        some 800000 ∧
      (ProbeExample.estimator1.HandleProbeAndEstimateBitrate
          ProbeExample.feedback2).2.FetchAndResetLastEstimatedBitrate.1 = some 800000 ∧
      (ProbeExample.estimator1.HandleProbeAndEstimateBitrate
          ProbeExample.feedback2).2.FetchAndResetLastEstimatedBitrate.2.FetchAndResetLastEstimatedBitrate.1 =
        none :=
  ⟨ProbeExample.handle_feedback2,
    (FetchAndResetLastEstimatedBitrate_one_shot ProbeExample.estimator1).2.2
      ProbeExample.feedback2 800000 ProbeExample.handle_feedback2⟩


/-- With 5 configured probes the local `min_probes` is 4 and with 1000 configured bytes the
local `min_size` is 800 bytes. -/
theorem min_probes_five (packet_feedback : PacketResult)
    (h : packet_feedback.sent_packet.pacing_info.probe_cluster_min_probes = 5) :
    min_probes packet_feedback = 4 := by
  unfold min_probes
  rw [h]
  norm_num [kMinReceivedProbesRatio, truncToInt]

theorem min_size_thousand (packet_feedback : PacketResult)
    (h : packet_feedback.sent_packet.pacing_info.probe_cluster_min_bytes = 1000) :
    min_size packet_feedback = 800 := by
  unfold min_size
  rw [h]
  norm_num [kMinReceivedBytesRatio]

theorem HandleProbeAndEstimateBitrate_none_of_few_probes (self : ProbeBitrateEstimator)
    (packet_feedback : PacketResult)
    (h : (self.fedCluster packet_feedback).num_probes < min_probes packet_feedback) :
    (self.HandleProbeAndEstimateBitrate packet_feedback).1 = none := by
  rw [HandleProbeAndEstimateBitrate_result]
  simp only
  rw [if_pos (Or.inl h)]

theorem stored_of_none (self : ProbeBitrateEstimator) (packet_feedback : PacketResult)
    (h : self.clusters_ packet_feedback.sent_packet.pacing_info.probe_cluster_id = none) :
    (self.HandleProbeAndEstimateBitrate packet_feedback).2.clusters_
        packet_feedback.sent_packet.pacing_info.probe_cluster_id =
      some (({} : AggregatedCluster).record packet_feedback) := by
  rw [HandleProbeAndEstimateBitrate_fed, fedCluster_of_none self packet_feedback h]

theorem stored_of_kept (self : ProbeBitrateEstimator) (packet_feedback : PacketResult)
    (c : AggregatedCluster)
    (h : self.clusters_ packet_feedback.sent_packet.pacing_info.probe_cluster_id = some c)
    (hk : ¬ (TimeValue.add c.last_receive kMaxClusterHistory <
      packet_feedback.receive_time)) :
    (self.HandleProbeAndEstimateBitrate packet_feedback).2.clusters_
        packet_feedback.sent_packet.pacing_info.probe_cluster_id =
      some (c.record packet_feedback) := by
  rw [HandleProbeAndEstimateBitrate_fed, fedCluster_of_kept self packet_feedback c h hk]

end ProbeBitrateEstimator

namespace ProbeExample

open ProbeBitrateEstimator

theorem feed_threeProbes_cluster :
    (feed ProbeBitrateEstimator.new threeProbes).clusters_ 0 = some cluster3 := by
  have h1 := stored_of_none ProbeBitrateEstimator.new (probe5 0 0 300) rfl
  have h2 := stored_of_kept _ (probe5 10 10 300) _ h1 (by
    norm_num [AggregatedCluster.record, probe5, kMaxClusterHistory, TimeValue.add,
      TimeValue.Seconds])
  have h3 := stored_of_kept _ (probe5 20 20 300) _ h2 (by
    norm_num [AggregatedCluster.record, probe5, kMaxClusterHistory, TimeValue.add,
      TimeValue.Seconds])
  have e : (feed ProbeBitrateEstimator.new threeProbes).clusters_ 0 = _ := h3
  rw [e]
  norm_num [AggregatedCluster.record, probe5, cluster3]


/-- The cluster after the four probes of 300 bytes. -/
theorem fedCluster_fourthProbe :
    (feed ProbeBitrateEstimator.new threeProbes).fedCluster fourthProbe =
      { num_probes := 4,
        first_send := TimeValue.Micros 0, last_send := TimeValue.Micros 30000,
        first_receive := TimeValue.Micros 0, last_receive := TimeValue.Micros 30000,
        size_last_send := 300, size_first_receive := 300, size_total := 1200 } := by
  rw [fedCluster_of_kept _ fourthProbe _ feed_threeProbes_cluster (by
    norm_num [fourthProbe, probe5, cluster3, kMaxClusterHistory, TimeValue.add,
      TimeValue.Seconds])]
  norm_num [AggregatedCluster.record, fourthProbe, probe5, cluster3]

theorem handle_fourthProbe :
    ((feed ProbeBitrateEstimator.new threeProbes).HandleProbeAndEstimateBitrate
      fourthProbe).1 = some 240000 := by
  have hp : min_probes fourthProbe = 4 := min_probes_five _ rfl
  have hm : min_size fourthProbe = 800 := min_size_thousand _ rfl
  rw [HandleProbeAndEstimateBitrate_result, fedCluster_fourthProbe]
  simp only [hp, hm]
  norm_num [AggregatedCluster.send_rate, AggregatedCluster.receive_rate,
    AggregatedCluster.send_interval, AggregatedCluster.receive_interval, TimeValue.sub,
    DataSize.div, AggregatedCluster.ratio, AggregatedCluster.ratioExceeds,
    TimeValue.Zero, kMaxProbeInterval, TimeValue.Seconds, kMaxValidRatio,
    kMinRatioForUnsaturatedLink]

theorem feed_fourProbes_cluster :
    (feed ProbeBitrateEstimator.new fourProbes).clusters_ 0 = some
      { num_probes := 4,
        first_send := TimeValue.Micros 0, last_send := TimeValue.Micros 75000,
        first_receive := TimeValue.Micros 0, last_receive := TimeValue.Micros 90000,
        size_last_send := 400, size_first_receive := 100, size_total := 1300 } := by
  have h1 := stored_of_none ProbeBitrateEstimator.new (probe5 0 0 100) rfl
  have h2 := stored_of_kept _ (probe5 25 30 400) _ h1 (by
    norm_num [AggregatedCluster.record, probe5, kMaxClusterHistory, TimeValue.add,
      TimeValue.Seconds])
  have h3 := stored_of_kept _ (probe5 50 60 400) _ h2 (by
    norm_num [AggregatedCluster.record, probe5, kMaxClusterHistory, TimeValue.add,
      TimeValue.Seconds])
  have h4 := stored_of_kept _ (probe5 75 90 400) _ h3 (by
    norm_num [AggregatedCluster.record, probe5, kMaxClusterHistory, TimeValue.add,
      TimeValue.Seconds])
  have e : (feed ProbeBitrateEstimator.new fourProbes).clusters_ 0 = _ := h4
  rw [e]
  norm_num [AggregatedCluster.record, probe5]

theorem fedCluster_fifthProbe :
    (feed ProbeBitrateEstimator.new fourProbes).fedCluster fifthProbe = cluster5 := by
  rw [fedCluster_of_kept _ fifthProbe _ feed_fourProbes_cluster (by
    norm_num [fifthProbe, probe5, kMaxClusterHistory, TimeValue.add, TimeValue.Seconds])]
  norm_num [AggregatedCluster.record, fifthProbe, probe5, cluster5]

end ProbeExample

namespace ProbeBitrateEstimator

/-- C12 (as stated, refuted): cluster 0 is new and configured with 5 probes and 1000 bytes;
after four probes of 300 bytes, sent and received 10 ms apart, the cluster holds 4 probes
and 1200 bytes and the fourth call returns 240000 bits per second. -/
theorem HandleProbeAndEstimateBitrate_four_of_five_counterexample :
    ProbeExample.fourthProbe.sent_packet.pacing_info.probe_cluster_min_probes = 5 ∧
      ProbeExample.fourthProbe.sent_packet.pacing_info.probe_cluster_min_bytes = 1000 ∧
      ProbeBitrateEstimator.new.clusters_ 0 = none ∧
      ((ProbeBitrateEstimator.new.feed ProbeExample.threeProbes).fedCluster
        ProbeExample.fourthProbe).num_probes = 4 ∧
      ((ProbeBitrateEstimator.new.feed ProbeExample.threeProbes).fedCluster
        ProbeExample.fourthProbe).size_total = 1200 ∧
      ((ProbeBitrateEstimator.new.feed
        ProbeExample.threeProbes).HandleProbeAndEstimateBitrate ProbeExample.fourthProbe).1 =
          some 240000 := by
  refine ⟨rfl, rfl, rfl, ?_, ?_, ProbeExample.handle_fourthProbe⟩
  · rw [ProbeExample.fedCluster_fourthProbe]
  · rw [ProbeExample.fedCluster_fourthProbe]

/-- C12 (amended): for a new cluster configured with 5 probes and 1000 bytes, each of the
first three `HandleProbeAndEstimateBitrate` calls returns nothing, whatever the times and
sizes of the probes, because the probe count is below the threshold 4 (`0.80 * 5` as an
`int`); the fourth call returns nothing exactly when the cluster then holds fewer than 4
probes or fewer than 800 bytes, or an interval or the ratio is invalid. -/
theorem HandleProbeAndEstimateBitrate_five_probes_threshold (self : ProbeBitrateEstimator)
    (id : Int) (f1 f2 f3 f4 : PacketResult) (hnew : self.clusters_ id = none)
    (h1 : f1.sent_packet.pacing_info = ⟨id, 5, 1000⟩)
    (h2 : f2.sent_packet.pacing_info = ⟨id, 5, 1000⟩)
    (h3 : f3.sent_packet.pacing_info = ⟨id, 5, 1000⟩)
    (h4 : f4.sent_packet.pacing_info = ⟨id, 5, 1000⟩) :
    (self.HandleProbeAndEstimateBitrate f1).1 = none ∧
      ((self.feed [f1]).HandleProbeAndEstimateBitrate f2).1 = none ∧
      ((self.feed [f1, f2]).HandleProbeAndEstimateBitrate f3).1 = none ∧
      (((self.feed [f1, f2, f3]).HandleProbeAndEstimateBitrate f4).1 = none ↔
        (((self.feed [f1, f2, f3]).fedCluster f4).num_probes < 4 ∨
          ((self.feed [f1, f2, f3]).fedCluster f4).size_total < 800 ∨
          ((self.feed [f1, f2, f3]).fedCluster f4).send_interval ≤ TimeValue.Zero ∨
          ((self.feed [f1, f2, f3]).fedCluster f4).send_interval > TimeValue.Seconds 1 ∨
          ((self.feed [f1, f2, f3]).fedCluster f4).receive_interval ≤ TimeValue.Zero ∨
          ((self.feed [f1, f2, f3]).fedCluster f4).receive_interval > TimeValue.Seconds 1 ∨
          ((self.feed [f1, f2, f3]).fedCluster f4).ratioExceeds kMaxValidRatio = true)) := by
  have e1 : f1.sent_packet.pacing_info.probe_cluster_id = id := by rw [h1]
  have e2 : f2.sent_packet.pacing_info.probe_cluster_id = id := by rw [h2]
  have e3 : f3.sent_packet.pacing_info.probe_cluster_id = id := by rw [h3]
  have m1 : min_probes f1 = 4 := min_probes_five f1 (by rw [h1])
  have m2 : min_probes f2 = 4 := min_probes_five f2 (by rw [h2])
  have m3 : min_probes f3 = 4 := min_probes_five f3 (by rw [h3])
  have m4 : min_probes f4 = 4 := min_probes_five f4 (by rw [h4])
  have b4 : min_size f4 = 800 := min_size_thousand f4 (by rw [h4])
  -- the first call
  have n1 : (self.fedCluster f1).num_probes = 1 := by
    rw [fedCluster_of_none self f1 (by rw [e1]; exact hnew),
      AggregatedCluster.record_num_probes]
    rfl
  have s1 : (self.feed [f1]).clusters_ id = some (self.fedCluster f1) := by
    have h := HandleProbeAndEstimateBitrate_fed self f1
    rw [e1] at h
    exact h
  -- the second call
  have n2 : ((self.feed [f1]).fedCluster f2).num_probes ≤ 2 := by
    rcases fedCluster_num_probes (self.feed [f1]) f2 with h | ⟨c, hc, h⟩
    · omega
    · rw [e2, s1] at hc
      rw [h, ← Option.some.inj hc, n1]
      decide
  have s2 : (self.feed [f1, f2]).clusters_ id = some ((self.feed [f1]).fedCluster f2) := by
    have h := HandleProbeAndEstimateBitrate_fed (self.feed [f1]) f2
    rw [e2] at h
    exact h
  -- the third call
  have n3 : ((self.feed [f1, f2]).fedCluster f3).num_probes ≤ 3 := by
    rcases fedCluster_num_probes (self.feed [f1, f2]) f3 with h | ⟨c, hc, h⟩
    · omega
    · rw [e3, s2] at hc
      rw [h, ← Option.some.inj hc]
      omega
  refine ⟨?_, ?_, ?_, ?_⟩
  · exact HandleProbeAndEstimateBitrate_none_of_few_probes self f1 (by rw [n1, m1]; decide)
  · exact HandleProbeAndEstimateBitrate_none_of_few_probes _ f2 (by rw [m2]; omega)
  · exact HandleProbeAndEstimateBitrate_none_of_few_probes _ f3 (by rw [m3]; omega)
  · rw [HandleProbeAndEstimateBitrate_result]
    simp only [m4, b4]
    constructor
    · intro h
      by_contra hcon
      simp only [not_or] at hcon
      obtain ⟨c1, c2, c3, c4, c5, c6, c7⟩ := hcon
      rw [if_neg (by simp only [not_or]; exact ⟨c1, c2⟩),
        if_neg (by simp only [not_or]; exact ⟨c3, c4, c5, c6⟩), if_neg c7] at h
      split_ifs at h
    · rintro (h | h | h | h | h | h | h)
      · rw [if_pos (Or.inl h)]
      · rw [if_pos (Or.inr h)]
      all_goals
        split_ifs with g1 g2
        all_goals first
          | rfl
          | exact absurd (Or.inl h) g2
          | exact absurd (Or.inr (Or.inl h)) g2
          | exact absurd (Or.inr (Or.inr (Or.inl h))) g2
          | exact absurd (Or.inr (Or.inr (Or.inr h))) g2

theorem HandleProbeAndEstimateBitrate_five_probes_threshold_witness :
    (ProbeBitrateEstimator.new.HandleProbeAndEstimateBitrate
        (ProbeExample.probe5 0 0 300)).1 = none ∧
      ((ProbeBitrateEstimator.new.feed
        [ProbeExample.probe5 0 0 300]).HandleProbeAndEstimateBitrate
          (ProbeExample.probe5 10 10 300)).1 = none ∧
      ((ProbeBitrateEstimator.new.feed
        [ProbeExample.probe5 0 0 300,
          ProbeExample.probe5 10 10 300]).HandleProbeAndEstimateBitrate
            (ProbeExample.probe5 20 20 300)).1 = none :=
  have h := HandleProbeAndEstimateBitrate_five_probes_threshold ProbeBitrateEstimator.new 0
    (ProbeExample.probe5 0 0 300) (ProbeExample.probe5 10 10 300)
    (ProbeExample.probe5 20 20 300) ProbeExample.fourthProbe rfl rfl rfl rfl rfl
  ⟨h.1, h.2.1, h.2.2.1⟩


/-- C13: for a cluster configured with 5 probes and 1000 bytes whose state after the
feedback is 5 probes, 1500 bytes in total, a send interval of 100 ms with a last sent
packet of 200 bytes and a receive interval of 120 ms with a first received packet of 100
bytes, the call returns `0.95 * receive_rate` with `receive_rate = 1400 B / 120 ms`, the
saturation branch and not `min(send_rate, receive_rate)`; the estimate lies between 88666
and 88667 bits per second, that is between 11083 and 11084 bytes per second. -/
theorem HandleProbeAndEstimateBitrate_saturation_scenario (self : ProbeBitrateEstimator)
    (packet_feedback : PacketResult) (c : AggregatedCluster)
    (hprobes : packet_feedback.sent_packet.pacing_info.probe_cluster_min_probes = 5)
    (hbytes : packet_feedback.sent_packet.pacing_info.probe_cluster_min_bytes = 1000)
    (hc : (self.HandleProbeAndEstimateBitrate packet_feedback).2.clusters_
      packet_feedback.sent_packet.pacing_info.probe_cluster_id = some c)
    (hnum : c.num_probes = 5) (htotal : c.size_total = 1500)
    (hsend : c.send_interval = TimeValue.Micros 100000) (hlast : c.size_last_send = 200)
    (hreceive : c.receive_interval = TimeValue.Micros 120000)
    (hfirst : c.size_first_receive = 100) :
    c.send_rate = 1300 * 8000000 / 100000 ∧
      c.receive_rate = 1400 * 8000000 / 120000 ∧
      c.receive_rate < (9 / 10 : ℚ) * c.send_rate ∧
      (self.HandleProbeAndEstimateBitrate packet_feedback).1 =
        some ((19 / 20 : ℚ) * c.receive_rate) ∧
      (19 / 20 : ℚ) * c.receive_rate ≠ min c.send_rate c.receive_rate ∧
      (88666 : ℚ) < (19 / 20 : ℚ) * c.receive_rate ∧
      (19 / 20 : ℚ) * c.receive_rate < 88667 ∧
      (11083 : ℚ) < (19 / 20 : ℚ) * c.receive_rate / 8 ∧
      (19 / 20 : ℚ) * c.receive_rate / 8 < 11084 := by
  rw [HandleProbeAndEstimateBitrate_fed] at hc
  have hfed := Option.some.inj hc
  have hs : c.send_rate = 104000 := by
    norm_num [AggregatedCluster.send_rate, hsend, htotal, hlast, DataSize.div]
  have hr : c.receive_rate = 280000 / 3 := by
    norm_num [AggregatedCluster.receive_rate, hreceive, htotal, hfirst, DataSize.div]
  have hp : min_probes packet_feedback = 4 := min_probes_five _ hprobes
  have hm : min_size packet_feedback = 800 := min_size_thousand _ hbytes
  refine ⟨by rw [hs]; norm_num, by rw [hr]; norm_num, by rw [hs, hr]; norm_num, ?_,
    by rw [hs, hr]; norm_num, by rw [hr]; norm_num, by rw [hr]; norm_num,
    by rw [hr]; norm_num, by rw [hr]; norm_num⟩
  rw [HandleProbeAndEstimateBitrate_result, hfed]
  simp only [hp, hm, hnum, htotal, hsend, hreceive, AggregatedCluster.ratioExceeds,
    AggregatedCluster.ratio, hs, hr]
  norm_num [TimeValue.Zero, kMaxProbeInterval, TimeValue.Seconds, kMaxValidRatio,
    kMinRatioForUnsaturatedLink, kTargetUtilizationFraction]


theorem HandleProbeAndEstimateBitrate_saturation_scenario_witness :
    (ProbeExample.fifthProbe.sent_packet.pacing_info.probe_cluster_min_probes = 5 ∧
      ProbeExample.fifthProbe.sent_packet.pacing_info.probe_cluster_min_bytes = 1000 ∧
      ((ProbeBitrateEstimator.new.feed ProbeExample.fourProbes).HandleProbeAndEstimateBitrate
        ProbeExample.fifthProbe).2.clusters_ 0 = some ProbeExample.cluster5 ∧
      ProbeExample.cluster5.num_probes = 5 ∧ ProbeExample.cluster5.size_total = 1500 ∧
      ProbeExample.cluster5.send_interval = TimeValue.Micros 100000 ∧
      ProbeExample.cluster5.size_last_send = 200 ∧
      ProbeExample.cluster5.receive_interval = TimeValue.Micros 120000 ∧
      ProbeExample.cluster5.size_first_receive = 100) ∧
    ((ProbeBitrateEstimator.new.feed ProbeExample.fourProbes).HandleProbeAndEstimateBitrate
      ProbeExample.fifthProbe).1 = some ((19 / 20 : ℚ) * ProbeExample.cluster5.receive_rate) := by
  have hc : ((ProbeBitrateEstimator.new.feed
      ProbeExample.fourProbes).HandleProbeAndEstimateBitrate
        ProbeExample.fifthProbe).2.clusters_ 0 = some ProbeExample.cluster5 := by
    have h := HandleProbeAndEstimateBitrate_fed
      (ProbeBitrateEstimator.new.feed ProbeExample.fourProbes) ProbeExample.fifthProbe
    rw [ProbeExample.fedCluster_fifthProbe] at h
    exact h
  have hs : ProbeExample.cluster5.send_interval = TimeValue.Micros 100000 := by
    norm_num [AggregatedCluster.send_interval, ProbeExample.cluster5, TimeValue.sub]
  have hr : ProbeExample.cluster5.receive_interval = TimeValue.Micros 120000 := by
    norm_num [AggregatedCluster.receive_interval, ProbeExample.cluster5, TimeValue.sub]
  exact ⟨⟨rfl, rfl, hc, rfl, rfl, hs, rfl, hr, rfl⟩,
    (HandleProbeAndEstimateBitrate_saturation_scenario
      (ProbeBitrateEstimator.new.feed ProbeExample.fourProbes) ProbeExample.fifthProbe
      ProbeExample.cluster5 rfl rfl hc rfl rfl hs rfl hr rfl).2.2.2.1⟩

/-- C20: after every `HandleProbeAndEstimateBitrate(feedback)` call, every cluster the
estimator holds satisfies `last_receive + 1 s >= feedback.receive_time`; a cluster other
than the fed one is removed exactly when `last_receive + 1 s < feedback.receive_time` and
is unchanged otherwise; and a fed cluster that had aged out is restarted from the empty
aggregate, so that it holds 1 probe after the call. -/
theorem HandleProbeAndEstimateBitrate_retention (self : ProbeBitrateEstimator)
    (packet_feedback : PacketResult) :
    (∀ (id : Int) (c : AggregatedCluster),
        (self.HandleProbeAndEstimateBitrate packet_feedback).2.clusters_ id = some c →
        TimeValue.add c.last_receive (TimeValue.Seconds 1) ≥ packet_feedback.receive_time) ∧
      (∀ id : Int, id ≠ packet_feedback.sent_packet.pacing_info.probe_cluster_id →
        (self.HandleProbeAndEstimateBitrate packet_feedback).2.clusters_ id =
          match self.clusters_ id with
          | none => none
          | some c =>
            if TimeValue.add c.last_receive (TimeValue.Seconds 1) <
                packet_feedback.receive_time then none
            else some c) ∧
      (∀ c : AggregatedCluster,
        self.clusters_ packet_feedback.sent_packet.pacing_info.probe_cluster_id = some c →
        TimeValue.add c.last_receive (TimeValue.Seconds 1) < packet_feedback.receive_time →
        (self.HandleProbeAndEstimateBitrate packet_feedback).2.clusters_
            packet_feedback.sent_packet.pacing_info.probe_cluster_id =
          some (({} : AggregatedCluster).record packet_feedback) ∧
        (({} : AggregatedCluster).record packet_feedback).num_probes = 1) := by
  refine ⟨?_, ?_, ?_⟩
  · intro id c hc
    rw [HandleProbeAndEstimateBitrate_clusters] at hc
    by_cases hid : id = packet_feedback.sent_packet.pacing_info.probe_cluster_id
    · subst hid
      rw [Function.update_same] at hc
      rw [← Option.some.inj hc]
      unfold fedCluster
      exact TimeValue.le_add_Seconds_one (AggregatedCluster.receive_time_le_record _ _)
    · rw [Function.update_noteq hid, EraseOldClusters_clusters] at hc
      cases hs : self.clusters_ id with
      | none => simp [hs] at hc
      | some c0 =>
        simp only [hs] at hc
        split_ifs at hc with hk
        rw [← Option.some.inj hc]
        exact (TimeValue.not_lt_iff _ _).1 hk
  · intro id hid
    rw [HandleProbeAndEstimateBitrate_clusters, Function.update_noteq hid,
      EraseOldClusters_clusters]
    rfl
  · intro c hc hk
    refine ⟨?_, ?_⟩
    · rw [HandleProbeAndEstimateBitrate_fed, fedCluster_of_erased self packet_feedback c hc hk]
    · rw [AggregatedCluster.record_num_probes]
      rfl


theorem HandleProbeAndEstimateBitrate_retention_witness :
    ((ProbeBitrateEstimator.new.feed ProbeExample.threeProbes).clusters_ 0 =
        some ProbeExample.cluster3 ∧
      TimeValue.add ProbeExample.cluster3.last_receive (TimeValue.Seconds 1) <
        ProbeExample.lateProbe.receive_time) ∧
    ((ProbeBitrateEstimator.new.feed ProbeExample.threeProbes).HandleProbeAndEstimateBitrate
        ProbeExample.lateProbe).2.clusters_ 0 =
      some (({} : AggregatedCluster).record ProbeExample.lateProbe) ∧
    (({} : AggregatedCluster).record ProbeExample.lateProbe).num_probes = 1 := by
  have hk : TimeValue.add ProbeExample.cluster3.last_receive (TimeValue.Seconds 1) <
      ProbeExample.lateProbe.receive_time := by
    norm_num [ProbeExample.cluster3, ProbeExample.lateProbe, ProbeExample.probe5,
      TimeValue.add, TimeValue.Seconds]
  exact ⟨⟨ProbeExample.feed_threeProbes_cluster, hk⟩,
    (HandleProbeAndEstimateBitrate_retention
      (ProbeBitrateEstimator.new.feed ProbeExample.threeProbes) ProbeExample.lateProbe).2.2
      ProbeExample.cluster3 ProbeExample.feed_threeProbes_cluster hk⟩

end ProbeBitrateEstimator

/-! ## Theorems: rate statistics, continued -/

namespace RateStatistics

theorem toInt32_le (x : Int) (h : -2147483648 ≤ x) : toInt32 x ≤ x := by
  unfold toInt32
  omega

theorem Update_num_samples (self : RateStatistics) (count now_ms : Int) :
    (self.Update count now_ms).num_samples_ = (self.EraseOld now_ms).num_samples_ + 1 := by
  unfold Update
  simp only
  split_ifs <;> rfl

theorem Update_first_timestamp (self : RateStatistics) (count now_ms : Int) :
    (self.Update count now_ms).first_timestamp_ =
      if self.first_timestamp_ = -1 then now_ms else self.first_timestamp_ := by
  have h : (self.Update count now_ms).first_timestamp_ =
      if (self.EraseOld now_ms).first_timestamp_ = -1 then now_ms
      else (self.EraseOld now_ms).first_timestamp_ := by
    unfold Update
    simp only
    split_ifs <;> rfl
  rw [h, EraseOld_first_timestamp]

theorem Update_current_window (self : RateStatistics) (count now_ms : Int) :
    (self.Update count now_ms).current_window_size_ms_ = self.current_window_size_ms_ := by
  unfold Update
  simp only
  split_ifs <;> rfl

theorem Update_scale (self : RateStatistics) (count now_ms : Int) :
    (self.Update count now_ms).scale_ = self.scale_ := by
  unfold Update
  simp only
  split_ifs <;> rfl

/-- A purge that finds no old bucket at the front changes nothing. -/
theorem EraseOld_of_head_ge (self : RateStatistics) (now_ms : Int)
    (h : ∀ b, self.buckets_.head? = some b →
      now_ms - self.current_window_size_ms_ + 1 ≤ b.timestamp) :
    self.EraseOld now_ms = self := by
  unfold EraseOld
  cases hb : self.buckets_ with
  | nil => simp [eraseOldLoop, ← hb]
  | cons b rest =>
    have hge := h b (by rw [hb]; rfl)
    simp only [eraseOldLoop, if_neg (not_lt.2 hge)]
    rw [← hb]

/-- The purge stops at a bucket that is not old. -/
theorem EraseOld_head_ge (self : RateStatistics) (now_ms : Int) :
    ∀ b, (self.EraseOld now_ms).buckets_.head? = some b →
      now_ms - self.current_window_size_ms_ + 1 ≤ b.timestamp := by
  obtain ⟨_, _, _, h3, _⟩ :=
    eraseOldLoop_spec (now_ms - self.current_window_size_ms_ + 1) self.buckets_
      self.accumulated_count_ self.num_samples_
  exact h3

theorem appendBucket_head (buckets : List Bucket) (now_ms : Int) (b : Bucket)
    (h : (appendBucket buckets now_ms).head? = some b) :
    buckets.head? = some b ∨ (buckets = [] ∧ b.timestamp = now_ms) := by
  cases hb : buckets with
  | nil =>
    right
    rw [hb] at h
    simp only [appendBucket, List.getLast?_nil, List.nil_append, List.head?_cons,
      Option.some.injEq] at h
    exact ⟨rfl, by rw [← h]; rfl⟩
  | cons x rest =>
    left
    rw [hb] at h
    unfold appendBucket at h
    split at h
    · simpa using h
    · split_ifs at h <;> simpa using h

theorem addToBack_head_timestamp (buckets : List Bucket) (count : Int) (b : Bucket)
    (h : (addToBack buckets count).head? = some b) :
    ∃ b0, buckets.head? = some b0 ∧ b0.timestamp = b.timestamp := by
  rcases eq_nil_or_append_singleton buckets with rfl | ⟨front, x, rfl⟩
  · simp [addToBack] at h
  · simp only [addToBack, getLast?_append_singleton, List.dropLast_concat] at h
    cases front with
    | nil =>
      simp only [List.nil_append, List.head?_cons, Option.some.injEq] at h
      exact ⟨x, rfl, by rw [← h]⟩
    | cons y rest =>
      simp only [List.cons_append, List.head?_cons, Option.some.injEq] at h
      exact ⟨y, rfl, by rw [h]⟩

/-- A purge right after `Update`, for the same time, changes nothing when the window is at
least 1 ms. -/
theorem EraseOld_Update_same (self : RateStatistics) (count now_ms : Int)
    (hw : 1 ≤ self.current_window_size_ms_) :
    (self.Update count now_ms).EraseOld now_ms = self.Update count now_ms := by
  apply EraseOld_of_head_ge
  intro b hb
  rw [Update_current_window]
  rw [Update_buckets] at hb
  obtain ⟨b0, hb0, hts⟩ := addToBack_head_timestamp _ _ _ hb
  rcases appendBucket_head _ _ _ hb0 with h | ⟨_, h⟩
  · have := EraseOld_head_ge self now_ms b0 h
    omega
  · omega


theorem Update_new (window_size_ms : Int) (scale : ℚ) (count now_ms : Int) :
    ((new window_size_ms scale).Update count now_ms).buckets_ =
        [{ sum := count, num_samples := 1, timestamp := now_ms }] ∧
      ((new window_size_ms scale).Update count now_ms).num_samples_ = 1 ∧
      ((new window_size_ms scale).Update count now_ms).first_timestamp_ = now_ms ∧
      ((new window_size_ms scale).Update count now_ms).current_window_size_ms_ =
        window_size_ms := by
  refine ⟨?_, ?_, ?_, ?_⟩
  · rw [Update_buckets]
    simp [EraseOld, eraseOldLoop, new, appendBucket, addToBack, Bucket.new]
  · rw [Update_num_samples]
    rfl
  · rw [Update_first_timestamp]
    rfl
  · rw [Update_current_window]
    rfl

/-- C17 (as stated, refuted): with a window of 1000 ms and a single `Update(1, 0)`,
`Rate(999)` is queried before the window has elapsed (`999 - 0 < 1000`) and returns 8. -/
theorem Rate_single_sample_counterexample :
    (0 : Int) ≤ 999 ∧ (999 : Int) - 0 < 1000 ∧
      (((new 1000 8000).Update 1 0).Rate 999).1 = some 8 := by
  refine ⟨by decide, by decide, ?_⟩
  have e : ((new 1000 8000).Update 1 0).EraseOld 999 =
      { buckets_ := [{ sum := 1, num_samples := 1, timestamp := 0 }],
        accumulated_count_ := 1, first_timestamp_ := 0, overflow_ := false,
        num_samples_ := 1, scale_ := 8000, max_window_size_ms_ := 1000,
        current_window_size_ms_ := 1000 } := by rfl
  have ha : (((new 1000 8000).Update 1 0).EraseOld 999).active_window_size 999 = 1000 := by
    rw [e]; decide
  have hc : ¬ ((((new 1000 8000).Update 1 0).EraseOld 999).num_samples_ = 0 ∨
      (((new 1000 8000).Update 1 0).EraseOld 999).active_window_size 999 ≤ 1 ∨
      ((((new 1000 8000).Update 1 0).EraseOld 999).num_samples_ ≤ 1 ∧
        (((new 1000 8000).Update 1 0).EraseOld 999).active_window_size 999 <
          (((new 1000 8000).Update 1 0).EraseOld 999).current_window_size_ms_) ∨
      (((new 1000 8000).Update 1 0).EraseOld 999).overflow_ = true) := by
    rw [ha, e]; decide
  have hr : (((new 1000 8000).Update 1 0).EraseOld 999).floatResult
      ((((new 1000 8000).Update 1 0).EraseOld 999).active_window_size 999) = 17 / 2 := by
    rw [ha, e]
    exact floatResult_eq _ 1000 8000 1000 8 1 8 (17 / 2) roundToFloat_8000
      (by simpa using roundToFloat_intCast 1000 (by norm_num))
      (by
        rw [roundToFloat_of_eq_intCast (8000 / 1000) 8 (by norm_num) (by norm_num)]
        norm_num)
      (by simpa using roundToFloat_intCast 1 (by norm_num))
      (by
        rw [roundToFloat_of_eq_intCast (1 * 8) 8 (by norm_num) (by norm_num)]
        norm_num)
      (by
        rw [roundToFloat_eq_of_near (8 + 1 / 2) 8912896 3 (by norm_num) (by norm_num)
          (by norm_num [abs_of_pos]) (by norm_num [abs_of_pos]) (by norm_num [abs_lt])]
        norm_num)
  rw [Rate_of_floatResult _ 999 _ hc hr (by norm_num) (by norm_num)]
  norm_num [Int.floor_eq_iff]

/-- C17 (amended): for a freshly constructed object with window `W` and a single
`Update(c, t0)`, `Rate(now)` returns nothing for every `now` with `t0 <= now` and
`now - t0 + 1 < W` (the active window is shorter than the window), and for every `now` with
`now - t0 >= W` (the sample has aged out). -/
theorem Rate_single_sample (window_size_ms : Int) (scale : ℚ) (count t0 now : Int) :
    (t0 ≤ now → now - t0 + 1 < window_size_ms →
        (((new window_size_ms scale).Update count t0).Rate now).1 = none) ∧
      (now - t0 ≥ window_size_ms →
        (((new window_size_ms scale).Update count t0).Rate now).1 = none) := by
  obtain ⟨hb, hn, hf, hw⟩ := Update_new window_size_ms scale count t0
  constructor
  · intro h1 h2
    have hk : ((new window_size_ms scale).Update count t0).EraseOld now =
        (new window_size_ms scale).Update count t0 := by
      apply EraseOld_of_head_ge
      intro b hb'
      rw [hb] at hb'
      simp only [List.head?_cons, Option.some.injEq] at hb'
      rw [hw, ← hb']
      show now - window_size_ms + 1 ≤ t0
      omega
    apply Rate_none_of_condition
    rw [hk, hn, hw]
    by_cases ht : t0 = -1
    · right; left
      unfold active_window_size
      rw [hf, if_neg (by simpa using ht)]
      decide
    · right; right; left
      refine ⟨le_refl _, ?_⟩
      unfold active_window_size
      rw [hf, hw, if_pos ht, if_neg (by omega)]
      have := toInt32_le (now - t0 + 1) (by omega)
      omega
  · intro h
    apply Rate_none_of_condition
    left
    have hlt : t0 < now - window_size_ms + 1 := by omega
    show (eraseOldLoop _ _ _ _).2.2 = 0
    rw [hw, hb, hn]
    simp [eraseOldLoop, hlt]

theorem Rate_single_sample_witness :
    ((0 : Int) ≤ 500 ∧ (500 : Int) - 0 + 1 < 1000 ∧
        (((new 1000 8000).Update 1 0).Rate 500).1 = none) ∧
      ((1000 : Int) - 0 ≥ 1000 ∧ (((new 1000 8000).Update 1 0).Rate 1000).1 = none) :=
  ⟨⟨by decide, by decide,
      (Rate_single_sample 1000 8000 1 0 500).1 (by decide) (by decide)⟩,
    ⟨by decide, (Rate_single_sample 1000 8000 1 0 1000).2 (by decide)⟩⟩


/-- The purge of `exampleTwoSamples` at 500 ms keeps both samples. -/
theorem exampleTwoSamples_EraseOld : exampleTwoSamples.EraseOld 500 =
    { buckets_ := [{ sum := 1, num_samples := 1, timestamp := 0 },
        { sum := 1, num_samples := 1, timestamp := 500 }],
      accumulated_count_ := 2, first_timestamp_ := 0, overflow_ := false,
      num_samples_ := 2, scale_ := 8000, max_window_size_ms_ := 1000,
      current_window_size_ms_ := 1000 } := by rfl

/-- With two samples of 1 at 0 ms and 500 ms, a window of 1000 ms and a scale of 8000,
`Rate(500)` returns 32. -/
theorem Rate_exampleTwoSamples : (exampleTwoSamples.Rate 500).1 = some 32 := by
  have ha : (exampleTwoSamples.EraseOld 500).active_window_size 500 = 501 := by
    rw [exampleTwoSamples_EraseOld]; decide
  have hc : ¬ ((exampleTwoSamples.EraseOld 500).num_samples_ = 0 ∨
      (exampleTwoSamples.EraseOld 500).active_window_size 500 ≤ 1 ∨
      ((exampleTwoSamples.EraseOld 500).num_samples_ ≤ 1 ∧
        (exampleTwoSamples.EraseOld 500).active_window_size 500 <
          (exampleTwoSamples.EraseOld 500).current_window_size_ms_) ∨
      (exampleTwoSamples.EraseOld 500).overflow_ = true) := by
    rw [ha, exampleTwoSamples_EraseOld]; decide
  have hr : (exampleTwoSamples.EraseOld 500).floatResult
      ((exampleTwoSamples.EraseOld 500).active_window_size 500) = 1062867 / 32768 := by
    rw [ha, exampleTwoSamples_EraseOld]
    exact floatResult_eq _ 501 8000 501 (16743729 / 1048576) 2 (16743729 / 524288)
      (1062867 / 32768) roundToFloat_8000
      (by simpa using roundToFloat_intCast 501 (by norm_num))
      (by
        rw [roundToFloat_eq_of_near (8000 / 501) 16743729 3 (by norm_num) (by norm_num)
          (by norm_num [abs_of_pos]) (by norm_num [abs_of_pos]) (by norm_num [abs_lt])]
        norm_num)
      (by simpa using roundToFloat_intCast 2 (by norm_num))
      (by
        rw [roundToFloat_eq_of_near (2 * (16743729 / 1048576)) 16743729 4 (by norm_num)
          (by norm_num) (by norm_num [abs_of_pos]) (by norm_num [abs_of_pos])
          (by norm_num [abs_lt])]
        norm_num)
      (by
        rw [roundToFloat_eq_of_tie (16743729 / 524288 + 1 / 2) 8502936 5 (by norm_num)
          (by norm_num) (by norm_num [abs_of_pos]) (by norm_num [abs_of_pos])
          (by norm_num) (by decide)]
        norm_num)
  rw [Rate_of_floatResult _ 500 _ hc hr (by norm_num) (by norm_num)]
  norm_num [Int.floor_eq_iff]

/-- C18 (as stated, refuted): the window is 1000 ms.  After `Update(5, 0)` on an object that
holds one sample at 0 ms, the object holds 2 samples and `Rate(0)` returns nothing.  After
`Update(1, 500)` on an object that holds one sample at 0 ms, the object holds 2 samples and
`Rate(500)` returns 32, while `c * scale / window` is `1 * 8000 / 1000 = 8`. -/
theorem Rate_after_Update_counterexample :
    ((2 : Int) ≤ exampleBeforeSecondSample.current_window_size_ms_ ∧
      (2 : Int) ≤ (exampleBeforeSecondSample.Update 5 0).num_samples_ ∧
      ((exampleBeforeSecondSample.Update 5 0).Rate 0).1 = none) ∧
    ((2 : Int) ≤ exampleOneSample.current_window_size_ms_ ∧
      (2 : Int) ≤ (exampleOneSample.Update 1 500).num_samples_ ∧
      ((exampleOneSample.Update 1 500).Rate 500).1 = some 32 ∧
      (1 : ℚ) * exampleOneSample.scale_ / exampleOneSample.current_window_size_ms_ = 8) := by
  have e1 : (exampleBeforeSecondSample.Update 5 0).EraseOld 0 =
      { buckets_ := [{ sum := 10, num_samples := 2, timestamp := 0 }],
        accumulated_count_ := 10, first_timestamp_ := 0, overflow_ := false,
        num_samples_ := 2, scale_ := 8000, max_window_size_ms_ := 1000,
        current_window_size_ms_ := 1000 } := by rfl
  refine ⟨⟨by decide, by decide, ?_⟩, by decide, by decide, ?_, ?_⟩
  · unfold Rate
    rw [e1]
    norm_num [active_window_size, toInt32]
  · exact Rate_exampleTwoSamples
  · have h1 : exampleOneSample.scale_ = 8000 := rfl
    have h2 : exampleOneSample.current_window_size_ms_ = 1000 := rfl
    rw [h1, h2]
    norm_num

/-- C18 (amended): for an object whose current window is at least 2 ms and whose scale is
from 0 to `2^127`, if after `Update(c, t)` it holds at least 2 samples, the overflow flag is
not set, the active window size `a` (the current window if the first timestamp is a window
old, else `t - first_timestamp + 1`) is greater than 1 and fits in a 32-bit `int`, the
accumulated count is an `int64_t` that is not negative, and the exact quotient
`x = accumulated_count * scale / a` satisfies `x * (1 + 2^(-20)) + 1 <= 2^63`, then
`Rate(t)` returns the single-precision value of `accumulated_count * (scale / a) + 0.5`
without its fractional part, and this rate differs from `x` by at most `x / 2^20 + 1`: it
is `x` up to the rounding of single precision and of the conversion to an integer; `x` is
`c * scale / window` when `c` is the whole accumulated count and the window is full. -/
theorem Rate_after_Update (self : RateStatistics) (count now_ms : Int)
    (hw : 2 ≤ self.current_window_size_ms_)
    (h2 : 2 ≤ (self.Update count now_ms).num_samples_)
    (hov : (self.Update count now_ms).overflow_ = false)
    (ha1 : 1 < (self.Update count now_ms).specActiveWindowSize now_ms)
    (ha2 : (self.Update count now_ms).specActiveWindowSize now_ms ≤ 2147483647)
    (hacc0 : 0 ≤ (self.Update count now_ms).accumulated_count_)
    (hacc : (self.Update count now_ms).accumulated_count_ ≤ kInt64Max)
    (hs0 : 0 ≤ self.scale_) (hs : self.scale_ ≤ 2 ^ 127)
    (hres : ((self.Update count now_ms).accumulated_count_ : ℚ) *
        ((self.Update count now_ms).scale_ /
          ((self.Update count now_ms).specActiveWindowSize now_ms : ℚ)) *
        (1 + 1 / 2 ^ 20) + 1 ≤ 2 ^ 63) :
    ((self.Update count now_ms).Rate now_ms).1 =
        some (truncToInt ((self.Update count now_ms).floatResult
          ((self.Update count now_ms).specActiveWindowSize now_ms))) ∧
      |((truncToInt ((self.Update count now_ms).floatResult
            ((self.Update count now_ms).specActiveWindowSize now_ms)) : Int) : ℚ) -
          ((self.Update count now_ms).accumulated_count_ : ℚ) *
            ((self.Update count now_ms).scale_ /
              ((self.Update count now_ms).specActiveWindowSize now_ms : ℚ))| ≤
        ((self.Update count now_ms).accumulated_count_ : ℚ) *
            ((self.Update count now_ms).scale_ /
              ((self.Update count now_ms).specActiveWindowSize now_ms : ℚ)) / 2 ^ 20 + 1 ∧
      ((self.Update count now_ms).accumulated_count_ = count →
        (self.Update count now_ms).specActiveWindowSize now_ms =
          self.current_window_size_ms_ →
        ((self.Update count now_ms).accumulated_count_ : ℚ) *
            ((self.Update count now_ms).scale_ /
              ((self.Update count now_ms).specActiveWindowSize now_ms : ℚ)) =
          (count : ℚ) * (self.scale_ / (self.current_window_size_ms_ : ℚ))) := by
  have hk := EraseOld_Update_same self count now_ms (by omega)
  have ha : (self.Update count now_ms).active_window_size now_ms =
      (self.Update count now_ms).specActiveWindowSize now_ms :=
    active_window_size_of_fits _ _ (by omega) ha2
  have hsc : (self.Update count now_ms).scale_ = self.scale_ := Update_scale self count now_ms
  have hs0' : 0 ≤ (self.Update count now_ms).scale_ := by rw [hsc]; exact hs0
  have hs' : (self.Update count now_ms).scale_ ≤ 2 ^ 127 := by rw [hsc]; exact hs
  have hlt := floatResult_lt (self.Update count now_ms) _ hacc0 hacc (by omega) ha2 hs0' hs'
    hres
  obtain ⟨hr0, hv, _, _, habs⟩ := abs_floatToInt64_sub_le (self.Update count now_ms) _ hacc0
    hacc (by omega) ha2 hs0' hs' hlt
  have hc : ¬ (((self.Update count now_ms).EraseOld now_ms).num_samples_ = 0 ∨
      ((self.Update count now_ms).EraseOld now_ms).active_window_size now_ms ≤ 1 ∨
      (((self.Update count now_ms).EraseOld now_ms).num_samples_ ≤ 1 ∧
        ((self.Update count now_ms).EraseOld now_ms).active_window_size now_ms <
          ((self.Update count now_ms).EraseOld now_ms).current_window_size_ms_) ∨
      ((self.Update count now_ms).EraseOld now_ms).overflow_ = true) := by
    rw [hk, ha, hov]
    simp only [not_or, not_and, not_le, not_lt]
    exact ⟨by omega, ha1, fun h => absurd h (by omega), by simp⟩
  refine ⟨?_, ?_, ?_⟩
  · rw [Rate_of_not_condition _ _ hc, hk, ha, if_neg (not_lt.2 (le_of_lt hlt)), hv]
  · rw [← hv]
    exact habs
  · intro hacc' hwin
    rw [hacc', hwin, hsc]

theorem Rate_after_Update_witness :
    ((2 : Int) ≤ exampleOneSample.current_window_size_ms_ ∧
      (2 : Int) ≤ (exampleOneSample.Update 1 500).num_samples_ ∧
      (exampleOneSample.Update 1 500).overflow_ = false ∧
      1 < (exampleOneSample.Update 1 500).specActiveWindowSize 500 ∧
      (exampleOneSample.Update 1 500).specActiveWindowSize 500 ≤ 2147483647 ∧
      0 ≤ (exampleOneSample.Update 1 500).accumulated_count_ ∧
      (exampleOneSample.Update 1 500).accumulated_count_ ≤ kInt64Max ∧
      0 ≤ exampleOneSample.scale_ ∧ exampleOneSample.scale_ ≤ 2 ^ 127 ∧
      ((exampleOneSample.Update 1 500).accumulated_count_ : ℚ) *
          ((exampleOneSample.Update 1 500).scale_ /
            ((exampleOneSample.Update 1 500).specActiveWindowSize 500 : ℚ)) *
          (1 + 1 / 2 ^ 20) + 1 ≤ 2 ^ 63) ∧
    ((exampleOneSample.Update 1 500).Rate 500).1 =
      some (truncToInt ((exampleOneSample.Update 1 500).floatResult
        ((exampleOneSample.Update 1 500).specActiveWindowSize 500))) ∧
    |((truncToInt ((exampleOneSample.Update 1 500).floatResult
          ((exampleOneSample.Update 1 500).specActiveWindowSize 500)) : Int) : ℚ) -
        ((exampleOneSample.Update 1 500).accumulated_count_ : ℚ) *
          ((exampleOneSample.Update 1 500).scale_ /
            ((exampleOneSample.Update 1 500).specActiveWindowSize 500 : ℚ))| ≤
      ((exampleOneSample.Update 1 500).accumulated_count_ : ℚ) *
          ((exampleOneSample.Update 1 500).scale_ /
            ((exampleOneSample.Update 1 500).specActiveWindowSize 500 : ℚ)) / 2 ^ 20 + 1 := by
  have a : (exampleOneSample.Update 1 500).specActiveWindowSize 500 = 501 := by decide
  have e : exampleOneSample.Update 1 500 =
      { buckets_ := [{ sum := 1, num_samples := 1, timestamp := 0 },
          { sum := 1, num_samples := 1, timestamp := 500 }],
        accumulated_count_ := 2, first_timestamp_ := 0, overflow_ := false,
        num_samples_ := 2, scale_ := 8000, max_window_size_ms_ := 1000,
        current_window_size_ms_ := 1000 } := by rfl
  have hs : exampleOneSample.scale_ = 8000 := rfl
  have hs0 : 0 ≤ exampleOneSample.scale_ := by rw [hs]; norm_num
  have hs1 : exampleOneSample.scale_ ≤ 2 ^ 127 := by rw [hs]; norm_num
  have hres : ((exampleOneSample.Update 1 500).accumulated_count_ : ℚ) *
      ((exampleOneSample.Update 1 500).scale_ /
        ((exampleOneSample.Update 1 500).specActiveWindowSize 500 : ℚ)) *
      (1 + 1 / 2 ^ 20) + 1 ≤ 2 ^ 63 := by
    rw [a, e]
    norm_num
  have h := Rate_after_Update exampleOneSample 1 500 (by decide) (by decide) (by decide)
    (by decide) (by decide) (by decide) (by decide) hs0 hs1 hres
  exact ⟨⟨by decide, by decide, by decide, by decide, by decide, by decide, by decide, hs0,
    hs1, hres⟩, h.1, h.2.1⟩


theorem run_append (self : RateStatistics) (calls : List Call) (c : Call) :
    run self (calls ++ [c]) = Call.apply (run self calls) c := by
  simp [run, List.foldl_append]

/-- A valid call leads from a reachable state to a reachable state. -/
theorem Reachable.apply {self : RateStatistics} (h : Reachable self) (c : Call)
    (hc : c.valid = true) : Reachable (Call.apply self c) := by
  obtain ⟨w, scale, calls, hv, rfl⟩ := h
  refine ⟨w, scale, calls ++ [c], ?_, (run_append _ _ _).symm⟩
  intro d hd
  rcases List.mem_append.1 hd with hd | hd
  · exact hv d hd
  · rw [List.mem_singleton] at hd
    rw [hd]
    exact hc

/-- The purge of `exampleThirds` at 2 ms keeps both samples. -/
theorem exampleThirds_EraseOld : exampleThirds.EraseOld 2 =
    { buckets_ := [{ sum := 10000, num_samples := 1, timestamp := 0 },
        { sum := 0, num_samples := 1, timestamp := 2 }],
      accumulated_count_ := 10000, first_timestamp_ := 0, overflow_ := false,
      num_samples_ := 2, scale_ := 8000, max_window_size_ms_ := 1000,
      current_window_size_ms_ := 1000 } := by rfl

/-- The single-precision result for a count of 10000, a scale of 8000 and a window of 3 ms
is 26666668. -/
theorem exampleThirds_floatResult :
    (exampleThirds.EraseOld 2).floatResult 3 = 26666668 := by
  rw [exampleThirds_EraseOld]
  exact floatResult_eq _ 3 8000 3 (10922667 / 4096) 10000 26666668 26666668
    roundToFloat_8000
    (by simpa using roundToFloat_intCast 3 (by norm_num))
    (by
      rw [roundToFloat_eq_of_near (8000 / 3) 10922667 11 (by norm_num) (by norm_num)
        (by norm_num [abs_of_pos]) (by norm_num [abs_of_pos]) (by norm_num [abs_lt])]
      norm_num)
    (by simpa using roundToFloat_intCast 10000 (by norm_num))
    (by
      rw [roundToFloat_eq_of_near (10000 * (10922667 / 4096)) 13333334 24 (by norm_num)
        (by norm_num) (by norm_num [abs_of_pos]) (by norm_num [abs_of_pos])
        (by norm_num [abs_lt])]
      norm_num)
    (by
      rw [roundToFloat_eq_of_near (26666668 + 1 / 2) 13333334 24 (by norm_num)
        (by norm_num) (by norm_num [abs_of_pos]) (by norm_num [abs_of_pos])
        (by norm_num [abs_lt])]
      norm_num)

/-- C19 (as stated, refuted): with a window of 1000 ms and a scale of 8000, after a sample
of 10000 at 0 ms and an empty sample at 2 ms, the purge of `Rate(2)` leaves an accumulated
count of 10000 and the active window is 3 ms; the quotient rounded half-up is
`floor(10000 * 8000 / 3 + 0.5) = 26666667`, and `Rate(2)` returns 26666668. -/
theorem Rate_value_counterexample :
    Reachable exampleThirds ∧
      (exampleThirds.Rate 2).1 = some 26666668 ∧
      (exampleThirds.Rate 2).2.accumulated_count_ = 10000 ∧
      (exampleThirds.Rate 2).2.active_window_size 2 = 3 ∧
      (exampleThirds.Rate 2).2.scale_ = 8000 ∧
      ⌊((10000 : Int) : ℚ) * 8000 / ((3 : Int) : ℚ) + 1 / 2⌋ = 26666667 := by
  have ha : (exampleThirds.EraseOld 2).active_window_size 2 = 3 := by
    rw [exampleThirds_EraseOld]; decide
  have hc : ¬ ((exampleThirds.EraseOld 2).num_samples_ = 0 ∨
      (exampleThirds.EraseOld 2).active_window_size 2 ≤ 1 ∨
      ((exampleThirds.EraseOld 2).num_samples_ ≤ 1 ∧
        (exampleThirds.EraseOld 2).active_window_size 2 <
          (exampleThirds.EraseOld 2).current_window_size_ms_) ∨
      (exampleThirds.EraseOld 2).overflow_ = true) := by
    rw [ha, exampleThirds_EraseOld]; decide
  have hr : (exampleThirds.EraseOld 2).floatResult
      ((exampleThirds.EraseOld 2).active_window_size 2) = 26666668 := by
    rw [ha]
    exact exampleThirds_floatResult
  refine ⟨⟨1000, 8000, [Call.Update 10000 0, Call.Update 0 2], by decide, rfl⟩, ?_, ?_, ?_,
    ?_, ?_⟩
  · rw [Rate_of_floatResult _ 2 _ hc hr (by norm_num) (by norm_num)]
    norm_num [Int.floor_eq_iff]
  · rw [Rate_snd, exampleThirds_EraseOld]
  · rw [Rate_snd]
    exact ha
  · rw [Rate_snd, exampleThirds_EraseOld]
  · norm_num [Int.floor_eq_iff]

/-- C19 (amended): in every reachable state of an object whose scale is from 0 to `2^127`,
whenever `Rate(now)` returns `v`, the accumulated count after the purge is the sum of the
counts of the buckets still in the window and the single-precision result
`r = accumulated_count * (scale / active_window_size) + 0.5` is at most `2^63`; when `r` is
below `2^63`, `v` is `r` without its fractional part, an `int64_t` that is not negative,
and differs from the exact quotient `x = accumulated_count * scale / active_window_size` by
at most `x / 2^20 + 1`, so `v` is `x` rounded half-up only up to the rounding of single
precision.  `Rate` returns nothing whenever `r` exceeds `2^63`, the `float` nearest to the
largest `int64_t`, and that is the case whenever `x` is at least `2^63 + 2^44`. -/
theorem Rate_value (self : RateStatistics) (hreach : Reachable self) (hs0 : 0 ≤ self.scale_)
    (hs : self.scale_ ≤ 2 ^ 127) (now_ms : Int) :
    (∀ v : Int, (self.Rate now_ms).1 = some v →
      (self.Rate now_ms).2.accumulated_count_ = sumOfSums (self.Rate now_ms).2.buckets_ ∧
      (self.Rate now_ms).2.floatResult ((self.Rate now_ms).2.active_window_size now_ms) ≤
        2 ^ 63 ∧
      ((self.Rate now_ms).2.floatResult ((self.Rate now_ms).2.active_window_size now_ms) <
          2 ^ 63 →
        v = truncToInt ((self.Rate now_ms).2.floatResult
          ((self.Rate now_ms).2.active_window_size now_ms)) ∧
        0 ≤ v ∧ v ≤ kInt64Max ∧
        |(v : ℚ) - ((self.Rate now_ms).2.accumulated_count_ : ℚ) *
            (self.scale_ / ((self.Rate now_ms).2.active_window_size now_ms : ℚ))| ≤
          ((self.Rate now_ms).2.accumulated_count_ : ℚ) *
            (self.scale_ / ((self.Rate now_ms).2.active_window_size now_ms : ℚ)) / 2 ^ 20 +
            1)) ∧
    (2 ^ 63 < (self.Rate now_ms).2.floatResult
        ((self.Rate now_ms).2.active_window_size now_ms) →
      (self.Rate now_ms).1 = none) ∧
    (2 ^ 63 + 2 ^ 44 ≤ ((self.Rate now_ms).2.accumulated_count_ : ℚ) *
        (self.scale_ / ((self.Rate now_ms).2.active_window_size now_ms : ℚ)) →
      (self.Rate now_ms).1 = none) := by
  rw [Rate_snd]
  by_cases hcond : (self.EraseOld now_ms).num_samples_ = 0 ∨
      (self.EraseOld now_ms).active_window_size now_ms ≤ 1 ∨
      ((self.EraseOld now_ms).num_samples_ ≤ 1 ∧
        (self.EraseOld now_ms).active_window_size now_ms <
          (self.EraseOld now_ms).current_window_size_ms_) ∨
      (self.EraseOld now_ms).overflow_ = true
  · have hn := Rate_none_of_condition self now_ms hcond
    exact ⟨fun v hv => absurd (hn.symm.trans hv) (by simp), fun _ => hn, fun _ => hn⟩
  · have hr := Rate_of_not_condition self now_ms hcond
    have hov : (self.EraseOld now_ms).overflow_ = false := by
      simp only [not_or] at hcond
      simpa using hcond.2.2.2
    have hw : 2 ≤ (self.EraseOld now_ms).active_window_size now_ms := by
      simp only [not_or] at hcond
      omega
    have hw31 := active_window_size_le (self.EraseOld now_ms) now_ms
    have hre : Reachable (self.EraseOld now_ms) := by
      have := hreach.apply (Call.Rate now_ms) rfl
      rwa [show Call.apply self (Call.Rate now_ms) = (self.Rate now_ms).2 from rfl,
        Rate_snd] at this
    obtain ⟨hacc0, hacc⟩ := hre.accumulated_count_bounds hov
    have hs0' : 0 ≤ (self.EraseOld now_ms).scale_ := hs0
    have hs' : (self.EraseOld now_ms).scale_ ≤ 2 ^ 127 := hs
    refine ⟨?_, ?_, ?_⟩
    · intro v hv
      rw [hr] at hv
      split_ifs at hv with hbig
      have hv' : floatToInt64 ((self.EraseOld now_ms).floatResult
          ((self.EraseOld now_ms).active_window_size now_ms)) = v := Option.some.inj hv
      refine ⟨(hre.sum_eq_of_not_overflow hov).symm, not_lt.1 hbig, ?_⟩
      intro hlt
      obtain ⟨_, h1, h2, h3, h4⟩ := abs_floatToInt64_sub_le (self.EraseOld now_ms) _ hacc0
        (le_of_lt hacc) hw hw31 hs0' hs' hlt
      rw [hv'] at h1 h2 h3 h4
      exact ⟨h1, h2, h3, h4⟩
    · intro hbig
      rw [hr, if_pos hbig]
    · intro hx
      have hbig := floatResult_gt (self.EraseOld now_ms) _ hacc0 (le_of_lt hacc) hw hw31 hs0'
        hs' hx
      rw [hr, if_pos hbig]

theorem Rate_value_witness :
    (Reachable exampleTwoSamples ∧ 0 ≤ exampleTwoSamples.scale_ ∧
      exampleTwoSamples.scale_ ≤ 2 ^ 127) ∧
    (exampleTwoSamples.Rate 500).1 = some 32 ∧
      (exampleTwoSamples.Rate 500).2.accumulated_count_ =
        sumOfSums (exampleTwoSamples.Rate 500).2.buckets_ ∧
      (exampleTwoSamples.Rate 500).2.floatResult
        ((exampleTwoSamples.Rate 500).2.active_window_size 500) ≤ 2 ^ 63 := by
  have hr : Reachable exampleTwoSamples :=
    ⟨1000, 8000, [Call.Update 1 0, Call.Update 1 500], by decide, rfl⟩
  have hs : exampleTwoSamples.scale_ = 8000 := rfl
  have hs0 : 0 ≤ exampleTwoSamples.scale_ := by rw [hs]; norm_num
  have hs1 : exampleTwoSamples.scale_ ≤ 2 ^ 127 := by rw [hs]; norm_num
  have h := (Rate_value exampleTwoSamples hr hs0 hs1 500).1 32 Rate_exampleTwoSamples
  exact ⟨⟨hr, hs0, hs1⟩, Rate_exampleTwoSamples, h.1, h.2.1⟩

end RateStatistics

/-! ## Theorems: rate tracker -/

namespace RateTracker

theorem NextBucketIndex_lt (self : RateTracker) (i : Nat) :
    self.NextBucketIndex i < self.bucket_count_ + 1 :=
  Nat.mod_lt _ (Nat.succ_pos _)

theorem mod_of_lt_two_mul (x n : Nat) (h : x < 2 * n) :
    x % n = if x < n then x else x - n := by
  split_ifs with h1
  · exact Nat.mod_eq_of_lt h1
  · rw [Nat.mod_eq_sub_mod (by omega), Nat.mod_eq_of_lt (by omega)]

/-- The number of buckets from index `i` to index `stop` in a ring of `n` buckets. -/
theorem ring_distance_succ (n i stop : Nat) (hi : i < n) (hs : stop < n) (hne : i ≠ stop) :
    (stop + n - i) % n = (stop + n - (i + 1) % n) % n + 1 := by
  rw [mod_of_lt_two_mul (stop + n - i) n (by omega), mod_of_lt_two_mul (i + 1) n (by omega)]
  split_ifs with h1 h2 h2
  · rw [mod_of_lt_two_mul _ n (by omega)]
    split_ifs <;> omega
  · rw [mod_of_lt_two_mul _ n (by omega)]
    split_ifs <;> omega
  · rw [mod_of_lt_two_mul _ n (by omega)]
    split_ifs <;> omega
  · rw [mod_of_lt_two_mul _ n (by omega)]
    split_ifs <;> omega

/-- The loop ends within the fuel and adds the buckets from `i` up to, not including,
`stop` in ring order. -/
theorem sumLoop_eq (self : RateTracker) (stop : Nat) (hs : stop < self.bucket_count_ + 1)
    (fuel i : Nat) (hi : i < self.bucket_count_ + 1)
    (hf : (stop + (self.bucket_count_ + 1) - i) % (self.bucket_count_ + 1) ≤ fuel) :
    sumLoop self stop fuel i =
      some (∑ k ∈ Finset.range
          ((stop + (self.bucket_count_ + 1) - i) % (self.bucket_count_ + 1)),
        self.sample_buckets_ ((i + k) % (self.bucket_count_ + 1))) := by
  induction fuel generalizing i with
  | zero =>
    have h0 : (stop + (self.bucket_count_ + 1) - i) % (self.bucket_count_ + 1) = 0 := by
      omega
    have hi' : i = stop := by
      by_contra hne
      have := ring_distance_succ _ i stop hi hs hne
      omega
    rw [h0]
    simp [sumLoop, hi']
  | succ fuel ih =>
    by_cases hne : i = stop
    · subst hne
      have h0 : (i + (self.bucket_count_ + 1) - i) % (self.bucket_count_ + 1) = 0 := by
        rw [Nat.add_sub_cancel_left, Nat.mod_self]
      rw [h0]
      simp [sumLoop]
    · have hd := ring_distance_succ _ i stop hi hs hne
      have hn : self.NextBucketIndex i < self.bucket_count_ + 1 := NextBucketIndex_lt self i
      have hrec := ih (self.NextBucketIndex i) hn (by
        unfold NextBucketIndex
        omega)
      simp only [sumLoop, if_neg hne, hrec, Option.map_some']
      rw [hd, Finset.sum_range_succ']
      unfold NextBucketIndex
      simp only [Nat.add_zero, Nat.mod_eq_of_lt hi, Nat.mod_add_mod]
      congr 1
      rw [add_comm]
      congr 1
      apply Finset.sum_congr rfl
      intro k _
      congr 2
      omega


theorem ring_distance_shift (n start cur : Nat) (hs : start < n) (hc : cur < n) :
    ((cur + 1) % n + n - (start + 1) % n) % n = (cur + n - start) % n := by
  rw [mod_of_lt_two_mul (cur + 1) n (by omega), mod_of_lt_two_mul (start + 1) n (by omega),
    mod_of_lt_two_mul (cur + n - start) n (by omega)]
  split_ifs <;>
  · rw [mod_of_lt_two_mul _ n (by omega)]
    split_ifs <;> omega

/-- The ring distance from the start bucket to the current bucket is 0 exactly when they
are the same bucket, and otherwise the current bucket lies at that distance. -/
theorem ring_distance_last (n start cur : Nat) (hs : start < n) (hc : cur < n) :
    (start ≠ cur → 0 < (cur + n - start) % n ∧ (start + (cur + n - start) % n) % n = cur) ∧
      (start = cur → (cur + n - start) % n = 0) := by
  rw [mod_of_lt_two_mul (cur + n - start) n (by omega)]
  constructor
  · intro hne
    split_ifs with h
    · refine ⟨by omega, ?_⟩
      rw [mod_of_lt_two_mul _ n (by omega)]
      split_ifs <;> omega
    · refine ⟨by omega, ?_⟩
      rw [mod_of_lt_two_mul _ n (by omega)]
      split_ifs <;> omega
  · intro he
    split_ifs <;> omega

/-- The local `total_samples`: the rounded part of the start bucket plus the buckets after
it in ring order up to and including the current bucket. -/
theorem total_samples_eq (self : RateTracker)
    (hcur : self.current_bucket_ ≤ self.bucket_count_) (buckets_to_skip : Nat)
    (milliseconds_to_skip : Int) :
    self.total_samples buckets_to_skip milliseconds_to_skip =
      some (Int.tdiv
          (self.sample_buckets_
              (self.NextBucketIndex (self.current_bucket_ + buckets_to_skip)) *
              (self.bucket_milliseconds_ - milliseconds_to_skip) +
            self.bucket_milliseconds_ / 2)
          self.bucket_milliseconds_ +
        ∑ k ∈ Finset.range
            ((self.current_bucket_ + (self.bucket_count_ + 1) -
              self.NextBucketIndex (self.current_bucket_ + buckets_to_skip)) %
                (self.bucket_count_ + 1)),
          self.sample_buckets_
            ((self.NextBucketIndex (self.current_bucket_ + buckets_to_skip) + 1 + k) %
              (self.bucket_count_ + 1))) := by
  have hstart := NextBucketIndex_lt self (self.current_bucket_ + buckets_to_skip)
  unfold total_samples
  simp only
  rw [sumLoop_eq self _ (NextBucketIndex_lt self _) _ _ (NextBucketIndex_lt self _)
    (le_of_lt (Nat.lt_of_lt_of_le (Nat.mod_lt _ (Nat.succ_pos _)) (le_refl _)))]
  simp only [Option.map_some']
  have hshift := ring_distance_shift (self.bucket_count_ + 1)
    (self.NextBucketIndex (self.current_bucket_ + buckets_to_skip)) self.current_bucket_
    hstart (by omega)
  have e1 : self.NextBucketIndex self.current_bucket_ =
      (self.current_bucket_ + 1) % (self.bucket_count_ + 1) := rfl
  have e2 : self.NextBucketIndex
      (self.NextBucketIndex (self.current_bucket_ + buckets_to_skip)) =
      (self.NextBucketIndex (self.current_bucket_ + buckets_to_skip) + 1) %
        (self.bucket_count_ + 1) := rfl
  rw [e1, e2, hshift]
  simp only [Nat.mod_add_mod]

theorem ComputeRateForInterval_of_skip (self : RateTracker)
    (interval_milliseconds current_time : Int) (buckets_to_skip : Nat)
    (milliseconds_to_skip available : Int) (total : Int)
    (hskip : self.skip interval_milliseconds current_time =
      some (buckets_to_skip, milliseconds_to_skip, available))
    (htotal : self.total_samples buckets_to_skip milliseconds_to_skip = some total) :
    self.ComputeRateForInterval interval_milliseconds current_time =
      some (((total * 1000 : Int) : ℚ) / (available : ℚ)) := by
  unfold ComputeRateForInterval
  rw [hskip]
  simp only [htotal, Option.map_some']

theorem ComputeRateForInterval_of_skip_none (self : RateTracker)
    (interval_milliseconds current_time : Int)
    (hskip : self.skip interval_milliseconds current_time = none) :
    self.ComputeRateForInterval interval_milliseconds current_time = some 0 := by
  unfold ComputeRateForInterval
  rw [hskip]

/-- C16 (as stated, refuted): buckets of 10 ms, two buckets of history, 5 samples at 0 ms
and 7 samples at 10 ms.  For `ComputeRateForInterval(20)` at 10 ms the start bucket is
bucket 0 with 5 samples, the current bucket is bucket 1 with 7 samples and the available
interval is 10 ms; the result is `(5 + 7) * 1000 / 10 = 1200`, not `5 * 1000 / 10`. -/
theorem ComputeRateForInterval_current_bucket_counterexample :
    exampleTwoBuckets.skip 20 10 = some (1, 0, 10) ∧
      exampleTwoBuckets.current_bucket_ = 1 ∧
      exampleTwoBuckets.NextBucketIndex (exampleTwoBuckets.current_bucket_ + 1) = 0 ∧
      exampleTwoBuckets.sample_buckets_ 0 = 5 ∧
      exampleTwoBuckets.sample_buckets_ 1 = 7 ∧
      exampleTwoBuckets.ComputeRateForInterval 20 10 = some 1200 ∧
      (1200 : ℚ) ≠ ((5 * 1000 : Int) : ℚ) / ((10 : Int) : ℚ) := by
  have hs : exampleTwoBuckets.skip 20 10 = some (1, 0, 10) := by decide
  have ht : exampleTwoBuckets.total_samples 1 0 = some 12 := by decide
  refine ⟨hs, by decide, by decide, by decide, by decide, ?_, by norm_num⟩
  rw [ComputeRateForInterval_of_skip _ _ _ _ _ _ _ hs ht]
  norm_num

/-- C16 (amended): when `ComputeRateForInterval` does not return early, the sample total it
divides by the available interval is the start bucket's count scaled by
`(bucket_milliseconds - milliseconds_to_skip) / bucket_milliseconds` and rounded to the
nearest integer, plus the full counts of the `m` buckets that follow it in ring order up to
and including the current bucket; `m` is 0 exactly when the start bucket is the current
bucket. -/
theorem ComputeRateForInterval_total_samples (self : RateTracker)
    (hcur : self.current_bucket_ ≤ self.bucket_count_)
    (interval_milliseconds current_time : Int) (buckets_to_skip : Nat)
    (milliseconds_to_skip available : Int)
    (hskip : self.skip interval_milliseconds current_time =
      some (buckets_to_skip, milliseconds_to_skip, available)) :
    self.ComputeRateForInterval interval_milliseconds current_time =
        some ((((Int.tdiv
            (self.sample_buckets_
                (self.NextBucketIndex (self.current_bucket_ + buckets_to_skip)) *
                (self.bucket_milliseconds_ - milliseconds_to_skip) +
              self.bucket_milliseconds_ / 2)
            self.bucket_milliseconds_ +
          ∑ k ∈ Finset.range
              ((self.current_bucket_ + (self.bucket_count_ + 1) -
                self.NextBucketIndex (self.current_bucket_ + buckets_to_skip)) %
                  (self.bucket_count_ + 1)),
            self.sample_buckets_
              ((self.NextBucketIndex (self.current_bucket_ + buckets_to_skip) + 1 + k) %
                (self.bucket_count_ + 1))) * 1000 : Int) : ℚ) / (available : ℚ)) ∧
      (self.NextBucketIndex (self.current_bucket_ + buckets_to_skip) ≠
          self.current_bucket_ →
        0 < (self.current_bucket_ + (self.bucket_count_ + 1) -
            self.NextBucketIndex (self.current_bucket_ + buckets_to_skip)) %
              (self.bucket_count_ + 1) ∧
        (self.NextBucketIndex (self.current_bucket_ + buckets_to_skip) +
            (self.current_bucket_ + (self.bucket_count_ + 1) -
              self.NextBucketIndex (self.current_bucket_ + buckets_to_skip)) %
                (self.bucket_count_ + 1)) % (self.bucket_count_ + 1) =
          self.current_bucket_) ∧
      (self.NextBucketIndex (self.current_bucket_ + buckets_to_skip) =
          self.current_bucket_ →
        (self.current_bucket_ + (self.bucket_count_ + 1) -
            self.NextBucketIndex (self.current_bucket_ + buckets_to_skip)) %
              (self.bucket_count_ + 1) = 0) := by
  have hlast := ring_distance_last (self.bucket_count_ + 1)
    (self.NextBucketIndex (self.current_bucket_ + buckets_to_skip)) self.current_bucket_
    (NextBucketIndex_lt self _) (by omega)
  exact ⟨ComputeRateForInterval_of_skip self _ _ _ _ _ _ hskip
    (total_samples_eq self hcur _ _), hlast.1, hlast.2⟩

theorem ComputeRateForInterval_total_samples_witness :
    (exampleTwoBuckets.current_bucket_ ≤ exampleTwoBuckets.bucket_count_ ∧
      exampleTwoBuckets.skip 20 10 = some (1, 0, 10)) ∧
    exampleTwoBuckets.ComputeRateForInterval 20 10 =
      some ((((Int.tdiv
          (exampleTwoBuckets.sample_buckets_
              (exampleTwoBuckets.NextBucketIndex (exampleTwoBuckets.current_bucket_ + 1)) *
              (exampleTwoBuckets.bucket_milliseconds_ - 0) +
            exampleTwoBuckets.bucket_milliseconds_ / 2)
          exampleTwoBuckets.bucket_milliseconds_ +
        ∑ k ∈ Finset.range
            ((exampleTwoBuckets.current_bucket_ + (exampleTwoBuckets.bucket_count_ + 1) -
              exampleTwoBuckets.NextBucketIndex (exampleTwoBuckets.current_bucket_ + 1)) %
                (exampleTwoBuckets.bucket_count_ + 1)),
          exampleTwoBuckets.sample_buckets_
            ((exampleTwoBuckets.NextBucketIndex (exampleTwoBuckets.current_bucket_ + 1) +
              1 + k) % (exampleTwoBuckets.bucket_count_ + 1))) * 1000 : Int) : ℚ) /
        ((10 : Int) : ℚ)) :=
  ⟨⟨by decide, by decide⟩,
    (ComputeRateForInterval_total_samples exampleTwoBuckets (by decide) 20 10 1 0 10
      (by decide)).1⟩


theorem advance_fields (current_time : Int) (remaining : Nat) (self : RateTracker) :
    (advance current_time remaining self).bucket_milliseconds_ = self.bucket_milliseconds_ ∧
      (advance current_time remaining self).bucket_count_ = self.bucket_count_ ∧
      (advance current_time remaining self).initialization_time_milliseconds_ =
        self.initialization_time_milliseconds_ ∧
      (self.current_bucket_ ≤ self.bucket_count_ →
        (advance current_time remaining self).current_bucket_ ≤ self.bucket_count_) := by
  induction remaining generalizing self with
  | zero => exact ⟨rfl, rfl, rfl, fun h => h⟩
  | succ n ih =>
    unfold advance
    split_ifs with h
    · obtain ⟨h1, h2, h3, h4⟩ := ih
        { self with
          bucket_start_time_milliseconds_ :=
            self.bucket_start_time_milliseconds_ + self.bucket_milliseconds_,
          current_bucket_ := self.NextBucketIndex self.current_bucket_,
          sample_buckets_ :=
            Function.update self.sample_buckets_
              (self.NextBucketIndex self.current_bucket_) 0 }
      refine ⟨h1, h2, h3, fun _ => h4 ?_⟩
      exact Nat.lt_succ_iff.1 (NextBucketIndex_lt self _)
    · exact ⟨rfl, rfl, rfl, fun h => h⟩

theorem EnsureInitialized_fields (self : RateTracker) (current_time : Int) :
    (self.EnsureInitialized current_time).bucket_milliseconds_ = self.bucket_milliseconds_ ∧
      (self.EnsureInitialized current_time).bucket_count_ = self.bucket_count_ ∧
      (self.EnsureInitialized current_time).initialization_time_milliseconds_ =
        (if self.bucket_start_time_milliseconds_ = kTimeUnset then current_time
          else self.initialization_time_milliseconds_) ∧
      (self.current_bucket_ ≤ self.bucket_count_ →
        (self.EnsureInitialized current_time).current_bucket_ ≤ self.bucket_count_) := by
  unfold EnsureInitialized
  split_ifs
  · exact ⟨rfl, rfl, rfl, fun _ => Nat.zero_le _⟩
  · exact ⟨rfl, rfl, rfl, fun h => h⟩

theorem AddSamples_fields (self : RateTracker) (sample_count current_time : Int) :
    (self.AddSamples sample_count current_time).bucket_milliseconds_ =
        self.bucket_milliseconds_ ∧
      (self.AddSamples sample_count current_time).bucket_count_ = self.bucket_count_ ∧
      (self.AddSamples sample_count current_time).initialization_time_milliseconds_ =
        (if self.bucket_start_time_milliseconds_ = kTimeUnset then current_time
          else self.initialization_time_milliseconds_) ∧
      (self.current_bucket_ ≤ self.bucket_count_ →
        (self.AddSamples sample_count current_time).current_bucket_ ≤
          self.bucket_count_) := by
  obtain ⟨e1, e2, e3, e4⟩ := EnsureInitialized_fields self current_time
  obtain ⟨a1, a2, a3, a4⟩ := advance_fields current_time
    ((self.EnsureInitialized current_time).bucket_count_ + 1)
    (self.EnsureInitialized current_time)
  unfold AddSamples
  simp only
  refine ⟨a1.trans e1, a2.trans e2, a3.trans e3, fun h => ?_⟩
  exact le_of_le_of_eq (a4 (by rw [e2]; exact e4 h)) e2

/-- After `AddSamples` calls at times not before `t`, the tracker is not initialised or
its initialisation time is not before `t`; the configuration is unchanged and the current
bucket is an index of the ring. -/
theorem addAll_invariant (samples : List (Int × Int)) (t : Int)
    (htimes : ∀ p ∈ samples, t ≤ p.2) (self : RateTracker)
    (hinit : self.bucket_start_time_milliseconds_ = kTimeUnset ∨
      t ≤ self.initialization_time_milliseconds_)
    (hcur : self.current_bucket_ ≤ self.bucket_count_) :
    (self.addAll samples).bucket_milliseconds_ = self.bucket_milliseconds_ ∧
      (self.addAll samples).bucket_count_ = self.bucket_count_ ∧
      ((self.addAll samples).bucket_start_time_milliseconds_ = kTimeUnset ∨
        t ≤ (self.addAll samples).initialization_time_milliseconds_) ∧
      (self.addAll samples).current_bucket_ ≤ self.bucket_count_ := by
  induction samples generalizing self with
  | nil => exact ⟨rfl, rfl, hinit, hcur⟩
  | cons p rest ih =>
    obtain ⟨f1, f2, f3, f4⟩ := AddSamples_fields self p.1 p.2
    have hp : t ≤ p.2 := htimes p (List.mem_cons_self _ _)
    have hinit' : t ≤ (self.AddSamples p.1 p.2).initialization_time_milliseconds_ := by
      rw [f3]
      split_ifs with h
      · exact hp
      · rcases hinit with h' | h'
        · exact absurd h' h
        · exact h'
    obtain ⟨i1, i2, i3, i4⟩ := ih (fun q hq => htimes q (List.mem_cons_of_mem _ hq))
      (self.AddSamples p.1 p.2) (Or.inr hinit') (by rw [f2]; exact f4 hcur)
    show (addAll (self.AddSamples p.1 p.2) rest).bucket_milliseconds_ = _ ∧
      (addAll (self.AddSamples p.1 p.2) rest).bucket_count_ = _ ∧
      ((addAll (self.AddSamples p.1 p.2) rest).bucket_start_time_milliseconds_ = _ ∨
        t ≤ (addAll (self.AddSamples p.1 p.2) rest).initialization_time_milliseconds_) ∧
      (addAll (self.AddSamples p.1 p.2) rest).current_bucket_ ≤ _
    exact ⟨i1.trans f1, i2.trans f2, i3, by rw [← f2]; exact i4⟩

/-- C14 (as stated, refuted): buckets of 10 ms, 10 samples added at 0 ms; at 2 ms less than
one bucket duration has elapsed and `ComputeRateForInterval(1)` returns 9000. -/
theorem ComputeRateForInterval_short_interval_counterexample :
    0 < exampleTen.bucket_milliseconds_ ∧ 0 < exampleTen.bucket_count_ ∧
      (2 : Int) - 0 < exampleTen.bucket_milliseconds_ ∧
      exampleTen.ComputeRateForInterval 1 2 = some 9000 := by
  have hs : exampleTen.skip 1 2 = some (1, 1, 1) := by decide
  have ht : exampleTen.total_samples 1 1 = some 9 := by decide
  refine ⟨by decide, by decide, by decide, ?_⟩
  rw [ComputeRateForInterval_of_skip _ _ _ _ _ _ _ hs ht]
  norm_num

/-- C14 (amended): for every tracker (`bucket_milliseconds > 0`, `bucket_count > 0`) and
every history of `AddSamples` calls since its construction at time `t`, at a time `now`
with `now - t < bucket_milliseconds`, `ComputeRateForInterval(interval_ms)` returns 0.0 for
every `interval_ms >= now - t`, in particular for every
`interval_ms >= bucket_milliseconds`. -/
theorem ComputeRateForInterval_before_first_bucket (bucket_milliseconds : Int)
    (bucket_count : Nat) (uninitialized : Nat → Int) (hd : 0 < bucket_milliseconds)
    (hc : 0 < bucket_count) (samples : List (Int × Int)) (t now interval_ms : Int)
    (htimes : ∀ p ∈ samples, t ≤ p.2) (helapsed : now - t < bucket_milliseconds)
    (hint : now - t ≤ interval_ms) :
    ((new bucket_milliseconds bucket_count uninitialized).addAll
      samples).ComputeRateForInterval interval_ms now = some 0 := by
  obtain ⟨h1, h2, h3, _⟩ := addAll_invariant samples t htimes
    (new bucket_milliseconds bucket_count uninitialized) (Or.inl rfl) (Nat.zero_le _)
  have h5 : (new bucket_milliseconds bucket_count uninitialized).bucket_milliseconds_ =
      bucket_milliseconds := rfl
  have h6 : (new bucket_milliseconds bucket_count uninitialized).bucket_count_ =
      bucket_count := rfl
  rw [h5] at h1
  rw [h6] at h2
  apply ComputeRateForInterval_of_skip_none
  unfold skip
  rcases h3 with h3 | h3
  · rw [if_pos h3]
  · by_cases hu : ((new bucket_milliseconds bucket_count uninitialized).addAll
        samples).bucket_start_time_milliseconds_ = kTimeUnset
    · rw [if_pos hu]
    · have hdc : bucket_milliseconds ≤ bucket_milliseconds * (bucket_count : Int) := by
        have : (1 : Int) ≤ (bucket_count : Int) := by exact_mod_cast hc
        nlinarith
      have hmin : now - t ≤ min interval_ms (bucket_milliseconds * (bucket_count : Int)) :=
        le_min hint (by omega)
      simp only [h1, h2]
      rw [if_neg hu, if_neg (by omega), if_pos (by omega)]

theorem ComputeRateForInterval_before_first_bucket_witness :
    ((0 : Int) < 10 ∧ 0 < 1 ∧ (∀ p ∈ [((10 : Int), (0 : Int))], (0 : Int) ≤ p.2) ∧
      (2 : Int) - 0 < 10 ∧ (2 : Int) - 0 ≤ 10) ∧
    ((new 10 1 (fun _ => 0)).addAll [(10, 0)]).ComputeRateForInterval 10 2 = some 0 :=
  ⟨⟨by decide, by decide, by decide, by decide, by decide⟩,
    ComputeRateForInterval_before_first_bucket 10 1 (fun _ => 0) (by decide) (by decide)
      [(10, 0)] 0 2 10 (by decide) (by decide) (by decide)⟩


/-- The tracker after a first `AddSamples(sample_count)` at time `t0`. -/
theorem AddSamples_new (bucket_milliseconds : Int) (bucket_count : Nat)
    (uninitialized : Nat → Int) (hd : 0 < bucket_milliseconds) (sample_count t0 : Int) :
    (new bucket_milliseconds bucket_count uninitialized).AddSamples sample_count t0 =
      { bucket_milliseconds_ := bucket_milliseconds,
        bucket_count_ := bucket_count,
        sample_buckets_ :=
          Function.update (Function.update uninitialized 0 0) 0 (0 + sample_count),
        total_sample_count_ := (0 + toSizeT sample_count) % 18446744073709551616,
        bucket_start_time_milliseconds_ := t0,
        initialization_time_milliseconds_ := t0,
        current_bucket_ := 0 } := by
  have hno : ¬ (t0 ≥ t0 + bucket_milliseconds) := by omega
  simp [AddSamples, EnsureInitialized, new, advance, hno]

/-- C15: for every tracker with buckets of `d > 0` ms and any `bucket_count > 0`, if the
first and only call is `AddSamples(10)` at a time `t0`, `ComputeRateForInterval(d)` at the
time `t0 + d` returns `10000 / d` samples per second.  The time `t0` is a reading of the
clock, which is not negative; the proof needs only that it is not -1, the value that marks
a tracker as not initialised. -/
theorem ComputeRateForInterval_first_bucket (bucket_milliseconds : Int) (bucket_count : Nat)
    (uninitialized : Nat → Int) (hd : 0 < bucket_milliseconds) (hc : 0 < bucket_count)
    (t0 : Int) (ht : t0 ≠ -1) :
    ((new bucket_milliseconds bucket_count uninitialized).AddSamples 10
        t0).ComputeRateForInterval bucket_milliseconds (t0 + bucket_milliseconds) =
      some ((10000 : ℚ) / (bucket_milliseconds : ℚ)) := by
  have hdc : bucket_milliseconds ≤ bucket_milliseconds * (bucket_count : Int) := by
    have : (1 : Int) ≤ (bucket_count : Int) := by exact_mod_cast hc
    nlinarith
  have hskip : ((new bucket_milliseconds bucket_count uninitialized).AddSamples 10
      t0).skip bucket_milliseconds (t0 + bucket_milliseconds) =
      some (bucket_count, 0, bucket_milliseconds) := by
    have hss : sizeSub bucket_count 0 = bucket_count := by simp [sizeSub]
    rw [AddSamples_new _ _ _ hd]
    unfold skip
    simp only [min_eq_left hdc, hss]
    rw [if_neg (by simpa [kTimeUnset] using ht), if_neg (by omega), if_neg (by omega),
      if_neg (by omega), show t0 + bucket_milliseconds - t0 = bucket_milliseconds by omega]
  have hq : Int.tdiv (10 * bucket_milliseconds + bucket_milliseconds / 2)
      bucket_milliseconds = 10 := by
    rw [Int.tdiv_eq_ediv (by omega) (by omega), Int.add_comm,
      Int.add_mul_ediv_right _ _ (by omega), Int.ediv_eq_zero_of_lt (by omega) (by omega)]
    rfl
  have htotal : ((new bucket_milliseconds bucket_count uninitialized).AddSamples 10
      t0).total_samples bucket_count 0 = some 10 := by
    rw [AddSamples_new _ _ _ hd]
    have hn : (1 : Nat) % (bucket_count + 1) = 1 := Nat.mod_eq_of_lt (by omega)
    have hm : (0 + bucket_count + 1) % (bucket_count + 1) = 0 := by simp
    simp [total_samples, NextBucketIndex, sumLoop, hn]
    rw [hm, Function.update_same]
    exact hq
  rw [ComputeRateForInterval_of_skip _ _ _ _ _ _ _ hskip htotal]
  norm_num

theorem ComputeRateForInterval_first_bucket_witness :
    ((0 : Int) < 10 ∧ 0 < 1 ∧ (0 : Int) ≠ -1) ∧
      ((new 10 1 (fun _ => 0)).AddSamples 10 0).ComputeRateForInterval 10 (0 + 10) =
        some ((10000 : ℚ) / ((10 : Int) : ℚ)) :=
  ⟨⟨by decide, by decide, by decide⟩,
    ComputeRateForInterval_first_bucket 10 1 (fun _ => 0) (by decide) (by decide) 0
      (by decide)⟩


/-- The loop of `ComputeRateForInterval` always ends within `bucket_count_ + 1` iterations:
the function returns a rate in every state, for every interval and time. -/
theorem ComputeRateForInterval_returns (self : RateTracker)
    (interval_milliseconds current_time : Int) :
    ∃ r : ℚ, self.ComputeRateForInterval interval_milliseconds current_time = some r := by
  unfold ComputeRateForInterval
  cases self.skip interval_milliseconds current_time with
  | none => exact ⟨0, rfl⟩
  | some p =>
    obtain ⟨b, ms, a⟩ := p
    simp only [total_samples]
    rw [sumLoop_eq self _ (NextBucketIndex_lt self _) _ _ (NextBucketIndex_lt self _)
      (le_of_lt (Nat.mod_lt _ (Nat.succ_pos _)))]
    exact ⟨_, rfl⟩

end RateTracker

/-! ## Theorems: rate tracker, continued -/

namespace RateTracker

/-- C23: in every state and at every time, for every `interval_ms` that is at least
`bucket_duration_ms * bucket_count`, `ComputeRateForInterval(interval_ms)` returns what
`ComputeRateForInterval(bucket_duration_ms * bucket_count)` returns. -/
theorem ComputeRateForInterval_clamped (self : RateTracker)
    (interval_milliseconds current_time : Int)
    (h : self.bucket_milliseconds_ * (self.bucket_count_ : Int) ≤ interval_milliseconds) :
    self.ComputeRateForInterval interval_milliseconds current_time =
      self.ComputeRateForInterval (self.bucket_milliseconds_ * (self.bucket_count_ : Int))
        current_time := by
  have hs : self.skip interval_milliseconds current_time =
      self.skip (self.bucket_milliseconds_ * (self.bucket_count_ : Int)) current_time := by
    unfold skip
    rw [min_eq_right h, min_self]
  unfold ComputeRateForInterval
  rw [hs]

theorem ComputeRateForInterval_clamped_witness :
    exampleTwoBuckets.bucket_milliseconds_ * (exampleTwoBuckets.bucket_count_ : Int) = 20 ∧
      (20 : Int) ≤ 1000 ∧
      exampleTwoBuckets.ComputeRateForInterval 20 25 = some 500 ∧
      exampleTwoBuckets.ComputeRateForInterval 1000 25 =
        exampleTwoBuckets.ComputeRateForInterval
          (exampleTwoBuckets.bucket_milliseconds_ * (exampleTwoBuckets.bucket_count_ : Int))
          25 := by
  have hs : exampleTwoBuckets.skip 20 25 = some (1, 5, 20) := by decide
  have ht : exampleTwoBuckets.total_samples 1 5 = some 10 := by decide
  refine ⟨by decide, by decide, ?_,
    ComputeRateForInterval_clamped exampleTwoBuckets 1000 25 (by decide)⟩
  rw [ComputeRateForInterval_of_skip _ _ _ _ _ _ _ hs ht]
  norm_num

theorem addAll_append (self : RateTracker) (samples : List (Int × Int)) (p : Int × Int) :
    self.addAll (samples ++ [p]) = (self.addAll samples).AddSamples p.1 p.2 := by
  simp [addAll, List.foldl_append]

theorem AddSamples_total_sample_count (self : RateTracker) (sample_count current_time : Int) :
    (self.AddSamples sample_count current_time).total_sample_count_ =
      (self.total_sample_count_ + toSizeT sample_count) % 18446744073709551616 := by
  have ha : ∀ (remaining : Nat) (s : RateTracker),
      (advance current_time remaining s).total_sample_count_ = s.total_sample_count_ := by
    intro remaining
    induction remaining with
    | zero => intro s; rfl
    | succ n ih =>
      intro s
      unfold advance
      split_ifs
      · rw [ih]
      · rfl
  have he : (self.EnsureInitialized current_time).total_sample_count_ =
      self.total_sample_count_ := by
    unfold EnsureInitialized
    split_ifs <;> rfl
  unfold AddSamples
  simp only
  rw [ha, he]

/-- The lifetime total is the sum of all sample counts passed to `AddSamples`, modulo
`2^64`. -/
theorem addAll_total_sample_count (samples : List (Int × Int))
    (hcounts : ∀ p ∈ samples, 0 ≤ p.1) (self : RateTracker)
    (hlt : self.total_sample_count_ < 18446744073709551616) :
    ((self.addAll samples).total_sample_count_ : Int) =
      ((self.total_sample_count_ : Int) + (samples.map Prod.fst).sum) %
        18446744073709551616 := by
  induction samples generalizing self with
  | nil =>
    simp only [addAll, List.foldl_nil, List.map_nil, List.sum_nil, add_zero]
    omega
  | cons p rest ih =>
    have hp : 0 ≤ p.1 := hcounts p (List.mem_cons_self _ _)
    have hstep : ((self.AddSamples p.1 p.2).total_sample_count_ : Int) =
        ((self.total_sample_count_ : Int) + p.1) % 18446744073709551616 := by
      rw [AddSamples_total_sample_count]
      unfold toSizeT
      rw [if_pos hp]
      omega
    have hlt2 : (self.AddSamples p.1 p.2).total_sample_count_ < 18446744073709551616 := by
      rw [AddSamples_total_sample_count]
      exact Nat.mod_lt _ (by decide)
    have := ih (fun q hq => hcounts q (List.mem_cons_of_mem _ hq)) (self.AddSamples p.1 p.2)
      hlt2
    simp only [addAll, List.foldl_cons, List.map_cons, List.sum_cons] at this ⊢
    rw [this, hstep, Int.emod_add_emod, add_assoc]

theorem advance_bucket_start (current_time : Int) (remaining : Nat) (self : RateTracker)
    (hd : 0 < self.bucket_milliseconds_) :
    self.bucket_start_time_milliseconds_ ≤
        (advance current_time remaining self).bucket_start_time_milliseconds_ ∧
      (self.bucket_start_time_milliseconds_ ≤ current_time →
        (advance current_time remaining self).bucket_start_time_milliseconds_ ≤
          current_time) ∧
      ∃ steps : Nat,
        (advance current_time remaining self).bucket_start_time_milliseconds_ =
          self.bucket_start_time_milliseconds_ + steps * self.bucket_milliseconds_ := by
  induction remaining generalizing self with
  | zero => exact ⟨le_refl _, fun h => h, 0, by simp [advance]⟩
  | succ n ih =>
    unfold advance
    split_ifs with h
    · obtain ⟨h1, h2, steps, h3⟩ := ih
        { self with
          bucket_start_time_milliseconds_ :=
            self.bucket_start_time_milliseconds_ + self.bucket_milliseconds_,
          current_bucket_ := self.NextBucketIndex self.current_bucket_,
          sample_buckets_ :=
            Function.update self.sample_buckets_
              (self.NextBucketIndex self.current_bucket_) 0 } hd
      simp only at h1 h2 h3
      refine ⟨by omega, fun _ => h2 (by omega), steps + 1, ?_⟩
      rw [h3]
      push_cast
      ring
    · exact ⟨le_refl _, fun h => h, 0, by simp⟩

theorem le_mul_tdiv_of_nonpos (a d : Int) (hd : 0 < d) (h : a ≤ 0) :
    a ≤ d * Int.tdiv a d := by
  have e : a = -(-a) := by omega
  rw [e, Int.neg_tdiv, Int.tdiv_eq_ediv (by omega) (by omega), mul_neg]
  have h1 := Int.emod_add_ediv (-a) d
  have h2 := Int.emod_nonneg (-a) (ne_of_gt hd)
  omega

theorem mul_tdiv_bounds_of_nonneg (a d : Int) (hd : 0 < d) (h : 0 ≤ a) :
    d * Int.tdiv a d ≤ a ∧ a < d * Int.tdiv a d + d ∧ 0 ≤ Int.tdiv a d := by
  rw [Int.tdiv_eq_ediv h (by omega)]
  have h1 := Int.emod_add_ediv a d
  have h2 := Int.emod_nonneg a (ne_of_gt hd)
  have h3 := Int.emod_lt_of_pos a hd
  refine ⟨by omega, by omega, Int.ediv_nonneg h (by omega)⟩

/-- The bucket start after `AddSamples`, for an initialised tracker: the bucket start
after the loop, moved by whole bucket durations. -/
theorem AddSamples_bucket_start_eq (self : RateTracker) (sample_count current_time : Int) :
    (self.AddSamples sample_count current_time).bucket_start_time_milliseconds_ =
      (advance current_time ((self.EnsureInitialized current_time).bucket_count_ + 1)
          (self.EnsureInitialized current_time)).bucket_start_time_milliseconds_ +
        self.bucket_milliseconds_ *
          Int.tdiv (current_time -
            (advance current_time ((self.EnsureInitialized current_time).bucket_count_ + 1)
              (self.EnsureInitialized current_time)).bucket_start_time_milliseconds_)
            self.bucket_milliseconds_ := by
  obtain ⟨e1, _, _, _⟩ := EnsureInitialized_fields self current_time
  obtain ⟨a1, _, _, _⟩ := advance_fields current_time
    ((self.EnsureInitialized current_time).bucket_count_ + 1)
    (self.EnsureInitialized current_time)
  unfold AddSamples
  simp only
  rw [a1, e1]

/-- With times that are not negative, the bucket start of an initialised tracker is never
negative, so it never equals the marker -1, and the initialisation time stays. -/
theorem AddSamples_bucket_start_nonneg (self : RateTracker) (sample_count current_time : Int)
    (hd : 0 < self.bucket_milliseconds_) (ht : 0 ≤ current_time)
    (hs : 0 ≤ self.bucket_start_time_milliseconds_) :
    0 ≤ (self.AddSamples sample_count current_time).bucket_start_time_milliseconds_ ∧
      (self.AddSamples sample_count current_time).initialization_time_milliseconds_ =
        self.initialization_time_milliseconds_ ∧
      (self.AddSamples sample_count current_time).bucket_milliseconds_ =
        self.bucket_milliseconds_ := by
  have hne : ¬ (self.bucket_start_time_milliseconds_ = kTimeUnset) := by
    unfold kTimeUnset
    omega
  have he : self.EnsureInitialized current_time = self := by
    unfold EnsureInitialized
    rw [if_neg hne]
  obtain ⟨f1, _, f3, _⟩ := AddSamples_fields self sample_count current_time
  rw [if_neg hne] at f3
  refine ⟨?_, f3, f1⟩
  rw [AddSamples_bucket_start_eq, he]
  obtain ⟨h1, _, _⟩ := advance_bucket_start current_time (self.bucket_count_ + 1) self hd
  by_cases hc : 0 ≤ current_time -
      (advance current_time (self.bucket_count_ + 1) self).bucket_start_time_milliseconds_
  · have := (mul_tdiv_bounds_of_nonneg _ _ hd hc).2.2
    have := mul_nonneg (le_of_lt hd) this
    omega
  · have := le_mul_tdiv_of_nonpos _ _ hd (le_of_lt (not_le.1 hc))
    omega

theorem addAll_bucket_start_nonneg (samples : List (Int × Int))
    (htimes : ∀ p ∈ samples, 0 ≤ p.2) (self : RateTracker)
    (hd : 0 < self.bucket_milliseconds_) (hs : 0 ≤ self.bucket_start_time_milliseconds_) :
    0 ≤ (self.addAll samples).bucket_start_time_milliseconds_ ∧
      (self.addAll samples).initialization_time_milliseconds_ =
        self.initialization_time_milliseconds_ := by
  induction samples generalizing self with
  | nil => exact ⟨hs, rfl⟩
  | cons p rest ih =>
    obtain ⟨a1, a2, a3⟩ := AddSamples_bucket_start_nonneg self p.1 p.2 hd
      (htimes p (List.mem_cons_self _ _)) hs
    obtain ⟨r1, r2⟩ := ih (fun q hq => htimes q (List.mem_cons_of_mem _ hq))
      (self.AddSamples p.1 p.2) (by rw [a3]; exact hd) a1
    exact ⟨r1, r2.trans a2⟩


/-- C24 (as stated, refuted): buckets of 10 ms; `AddSamples(18446744073709552)` is called
once, at 0 ms.  At 1000 ms `TotalSampleCount` is 18446744073709552 and the initialisation
time is 0, so `TotalSampleCount * 1000 / (1000 - 0)` is 18446744073709552, but
`ComputeTotalRate` returns `384 / 1000`: the product `total_sample_count_ * 1000` wraps
around at `2^64`. -/
theorem ComputeTotalRate_wrap_counterexample :
    exampleManySamples.TotalSampleCount = 18446744073709552 ∧
      exampleManySamples.initialization_time_milliseconds_ = 0 ∧
      ¬ ((1000 : Int) ≤ exampleManySamples.initialization_time_milliseconds_) ∧
      exampleManySamples.ComputeTotalRate 1000 = 384 / 1000 ∧
      ((exampleManySamples.TotalSampleCount * 1000 : Int) : ℚ) /
        ((1000 - exampleManySamples.initialization_time_milliseconds_ : Int) : ℚ) =
          18446744073709552 := by
  have h1 : exampleManySamples.TotalSampleCount = 18446744073709552 := by decide
  have h2 : exampleManySamples.initialization_time_milliseconds_ = 0 := by decide
  have h3 : exampleManySamples.total_sample_count_ = 18446744073709552 := by decide
  have h4 : ¬ (exampleManySamples.bucket_start_time_milliseconds_ = kTimeUnset) := by decide
  refine ⟨h1, h2, by rw [h2]; decide, ?_, ?_⟩
  · unfold ComputeTotalRate
    rw [if_neg h4, if_neg (by rw [h2]; decide), h2, h3]
    norm_num
  · rw [h1, h2]
    norm_num

/-- C24 (amended): for a tracker with buckets of `d > 0` ms and `AddSamples` calls with
sample counts that are not negative, at times that are not negative (in any order), such
that the sum of all sample counts, times 1000, is below `2^64`: `TotalSampleCount` is the
sum of all sample counts passed to `AddSamples`; `ComputeTotalRate` returns 0.0 if no call
has been made; after a first call at time `t0` the initialisation time is `t0`, and
`ComputeTotalRate` at the time `now` returns 0.0 if `now <= t0` and
`TotalSampleCount * 1000 / (now - t0)` otherwise. -/
theorem ComputeTotalRate_value (bucket_milliseconds : Int) (bucket_count : Nat)
    (uninitialized : Nat → Int) (hd : 0 < bucket_milliseconds)
    (samples : List (Int × Int)) (hcounts : ∀ p ∈ samples, 0 ≤ p.1)
    (htimes : ∀ p ∈ samples, 0 ≤ p.2)
    (hsum : (samples.map Prod.fst).sum * 1000 < 18446744073709551616) (now : Int) :
    ((new bucket_milliseconds bucket_count uninitialized).addAll samples).TotalSampleCount =
        (samples.map Prod.fst).sum ∧
      (samples = [] →
        ((new bucket_milliseconds bucket_count uninitialized).addAll
          samples).ComputeTotalRate now = 0) ∧
      (∀ (p : Int × Int) (rest : List (Int × Int)), samples = p :: rest →
        ((new bucket_milliseconds bucket_count uninitialized).addAll
            samples).initialization_time_milliseconds_ = p.2 ∧
          ((new bucket_milliseconds bucket_count uninitialized).addAll
              samples).ComputeTotalRate now =
            if now ≤ p.2 then 0
            else ((((new bucket_milliseconds bucket_count uninitialized).addAll
                samples).TotalSampleCount * 1000 : Int) : ℚ) / ((now - p.2 : Int) : ℚ)) := by
  have hnn : 0 ≤ (samples.map Prod.fst).sum := by
    apply List.sum_nonneg
    intro x hx
    obtain ⟨p, hp, rfl⟩ := List.mem_map.1 hx
    exact hcounts p hp
  have htotal : (((new bucket_milliseconds bucket_count uninitialized).addAll
      samples).total_sample_count_ : Int) = (samples.map Prod.fst).sum := by
    rw [addAll_total_sample_count samples hcounts _
      (show (0 : Nat) < 18446744073709551616 by decide)]
    show ((0 : Nat) + (samples.map Prod.fst).sum : Int) % 18446744073709551616 = _
    omega
  have hcount : ((new bucket_milliseconds bucket_count uninitialized).addAll
      samples).TotalSampleCount = (samples.map Prod.fst).sum := by
    unfold TotalSampleCount sizeToInt64
    rw [if_pos (by omega)]
    exact htotal
  refine ⟨hcount, ?_, ?_⟩
  · intro he
    rw [he]
    rfl
  · intro p rest he
    have hp : 0 ≤ p.2 := htimes p (by rw [he]; exact List.mem_cons_self _ _)
    have hfirst := AddSamples_new bucket_milliseconds bucket_count uninitialized hd p.1 p.2
    have hrest : (new bucket_milliseconds bucket_count uninitialized).addAll samples =
        ((new bucket_milliseconds bucket_count uninitialized).AddSamples p.1 p.2).addAll
          rest := by
      rw [he]
      rfl
    obtain ⟨r1, r2⟩ := addAll_bucket_start_nonneg rest
      (fun q hq => htimes q (by rw [he]; exact List.mem_cons_of_mem _ hq))
      ((new bucket_milliseconds bucket_count uninitialized).AddSamples p.1 p.2)
      (by rw [hfirst]; exact hd) (by rw [hfirst]; exact hp)
    have hinit : ((new bucket_milliseconds bucket_count uninitialized).addAll
        samples).initialization_time_milliseconds_ = p.2 := by
      rw [hrest, r2, hfirst]
    refine ⟨hinit, ?_⟩
    have hne : ¬ (((new bucket_milliseconds bucket_count uninitialized).addAll
        samples).bucket_start_time_milliseconds_ = kTimeUnset) := by
      rw [hrest]
      unfold kTimeUnset
      omega
    have hprod : ((((new bucket_milliseconds bucket_count uninitialized).addAll
        samples).total_sample_count_ * 1000 % 18446744073709551616 : Nat) : ℚ) =
        (((samples.map Prod.fst).sum * 1000 : Int) : ℚ) := by
      have h1 : ((((new bucket_milliseconds bucket_count uninitialized).addAll
          samples).total_sample_count_ * 1000 % 18446744073709551616 : Nat) : Int) =
          (samples.map Prod.fst).sum * 1000 := by
        omega
      rw [← h1]
      norm_cast
    rw [hcount]
    unfold ComputeTotalRate
    rw [if_neg hne, hinit, hprod]

theorem ComputeTotalRate_value_witness :
    ((0 : Int) < 10 ∧ (∀ p ∈ [((5 : Int), (0 : Int)), (7, 10), (2, 1000)], 0 ≤ p.1) ∧
      (∀ p ∈ [((5 : Int), (0 : Int)), (7, 10), (2, 1000)], 0 ≤ p.2) ∧
      ([((5 : Int), (0 : Int)), (7, 10), (2, 1000)].map Prod.fst).sum * 1000 <
        18446744073709551616) ∧
      ((new 10 2 (fun _ => 0)).addAll [(5, 0), (7, 10), (2, 1000)]).TotalSampleCount = 14 ∧
      ((new 10 2 (fun _ => 0)).addAll
        [(5, 0), (7, 10), (2, 1000)]).initialization_time_milliseconds_ = 0 ∧
      ((new 10 2 (fun _ => 0)).addAll [(5, 0), (7, 10), (2, 1000)]).ComputeTotalRate 2000 =
        7 := by
  obtain ⟨h1, _, h3⟩ := ComputeTotalRate_value 10 2 (fun _ => 0) (by decide)
    [(5, 0), (7, 10), (2, 1000)] (by decide) (by decide) (by decide) 2000
  obtain ⟨h4, h5⟩ := h3 (5, 0) [(7, 10), (2, 1000)] rfl
  refine ⟨⟨by decide, by decide, by decide, by decide⟩, ?_, h4, ?_⟩
  · rw [h1]
    decide
  · rw [h5, h1]
    norm_num


/-- One `AddSamples` call at a time `now` that is not before the time `prev` of the
previous call: afterwards the current bucket contains `now`, and it starts a whole number
of bucket durations after the initialisation time. -/
theorem AddSamples_bucket_start_aligned (self : RateTracker) (sample_count prev now : Int)
    (hd : 0 < self.bucket_milliseconds_) (hclock : prev ≤ now)
    (hpre : self.bucket_start_time_milliseconds_ = kTimeUnset ∨
      (self.bucket_start_time_milliseconds_ ≤ prev ∧
        ∃ k : Nat, self.bucket_start_time_milliseconds_ -
          self.initialization_time_milliseconds_ = k * self.bucket_milliseconds_)) :
    (self.AddSamples sample_count now).bucket_milliseconds_ = self.bucket_milliseconds_ ∧
      (self.AddSamples sample_count now).bucket_start_time_milliseconds_ ≤ now ∧
      now < (self.AddSamples sample_count now).bucket_start_time_milliseconds_ +
        self.bucket_milliseconds_ ∧
      ∃ k : Nat, (self.AddSamples sample_count now).bucket_start_time_milliseconds_ -
        (self.AddSamples sample_count now).initialization_time_milliseconds_ =
          k * self.bucket_milliseconds_ := by
  obtain ⟨f1, _, f3, _⟩ := AddSamples_fields self sample_count now
  obtain ⟨e1, _, e3, _⟩ := EnsureInitialized_fields self now
  have hinit : (self.EnsureInitialized now).bucket_start_time_milliseconds_ ≤ now ∧
      ∃ k : Nat, (self.EnsureInitialized now).bucket_start_time_milliseconds_ -
        (self.AddSamples sample_count now).initialization_time_milliseconds_ =
          k * self.bucket_milliseconds_ := by
    rw [f3]
    by_cases hu : self.bucket_start_time_milliseconds_ = kTimeUnset
    · rw [if_pos hu]
      unfold EnsureInitialized
      rw [if_pos hu]
      exact ⟨le_refl _, 0, by simp⟩
    · rw [if_neg hu]
      unfold EnsureInitialized
      rw [if_neg hu]
      rcases hpre with h | ⟨h1, h2⟩
      · exact absurd h hu
      · exact ⟨by omega, h2⟩
  obtain ⟨hle, k, hk⟩ := hinit
  obtain ⟨_, a2, steps, a3⟩ := advance_bucket_start now
    ((self.EnsureInitialized now).bucket_count_ + 1) (self.EnsureInitialized now)
    (by rw [e1]; exact hd)
  have ha := a2 hle
  rw [e1] at a3
  obtain ⟨b1, b2, b3⟩ := mul_tdiv_bounds_of_nonneg
    (now - (advance now ((self.EnsureInitialized now).bucket_count_ + 1)
      (self.EnsureInitialized now)).bucket_start_time_milliseconds_)
    self.bucket_milliseconds_ hd (by omega)
  refine ⟨f1, ?_, ?_, ?_⟩
  · rw [AddSamples_bucket_start_eq]
    omega
  · rw [AddSamples_bucket_start_eq]
    omega
  · refine ⟨k + steps + (Int.tdiv
      (now - (advance now ((self.EnsureInitialized now).bucket_count_ + 1)
        (self.EnsureInitialized now)).bucket_start_time_milliseconds_)
      self.bucket_milliseconds_).toNat, ?_⟩
    rw [AddSamples_bucket_start_eq]
    push_cast
    rw [Int.toNat_of_nonneg b3]
    have e : (advance now ((self.EnsureInitialized now).bucket_count_ + 1)
        (self.EnsureInitialized now)).bucket_start_time_milliseconds_ -
        (self.AddSamples sample_count now).initialization_time_milliseconds_ =
        (k + steps) * self.bucket_milliseconds_ := by
      rw [a3, add_mul, ← hk]
      ring
    linear_combination e

/-- C26: for a tracker with buckets of `d > 0` ms and a clock that never goes back from
one `AddSamples` call to the next, after every `AddSamples` call, made at the time `now`,
`bucket_start_time <= now < bucket_start_time + d`, and
`bucket_start_time - initialization_time` is `k * d` for a natural number `k`; any number
of bucket durations may have passed since the previous call. -/
theorem AddSamples_bucket_start_invariant (bucket_milliseconds : Int) (bucket_count : Nat)
    (uninitialized : Nat → Int) (hd : 0 < bucket_milliseconds)
    (samples : List (Int × Int)) (sample_count now : Int)
    (hclock : List.Pairwise (fun p q : Int × Int => p.2 ≤ q.2)
      (samples ++ [(sample_count, now)])) :
    (((new bucket_milliseconds bucket_count uninitialized).addAll samples).AddSamples
        sample_count now).bucket_start_time_milliseconds_ ≤ now ∧
      now < (((new bucket_milliseconds bucket_count uninitialized).addAll samples).AddSamples
        sample_count now).bucket_start_time_milliseconds_ + bucket_milliseconds ∧
      ∃ k : Nat,
        (((new bucket_milliseconds bucket_count uninitialized).addAll samples).AddSamples
            sample_count now).bucket_start_time_milliseconds_ -
          (((new bucket_milliseconds bucket_count uninitialized).addAll samples).AddSamples
            sample_count now).initialization_time_milliseconds_ =
          k * bucket_milliseconds := by
  have key : ∀ (l : List (Int × Int)) (c t : Int),
      List.Pairwise (fun p q : Int × Int => p.2 ≤ q.2) (l ++ [(c, t)]) →
      (((new bucket_milliseconds bucket_count uninitialized).addAll l).AddSamples
          c t).bucket_milliseconds_ = bucket_milliseconds ∧
        (((new bucket_milliseconds bucket_count uninitialized).addAll l).AddSamples
          c t).bucket_start_time_milliseconds_ ≤ t ∧
        t < (((new bucket_milliseconds bucket_count uninitialized).addAll l).AddSamples
          c t).bucket_start_time_milliseconds_ + bucket_milliseconds ∧
        ∃ k : Nat,
          (((new bucket_milliseconds bucket_count uninitialized).addAll l).AddSamples
              c t).bucket_start_time_milliseconds_ -
            (((new bucket_milliseconds bucket_count uninitialized).addAll l).AddSamples
              c t).initialization_time_milliseconds_ = k * bucket_milliseconds := by
    intro l
    induction l using List.reverseRecOn with
    | nil =>
      intro c t _
      exact AddSamples_bucket_start_aligned
        (new bucket_milliseconds bucket_count uninitialized) c t t hd (le_refl _)
        (Or.inl rfl)
    | append_singleton rest p ih =>
      intro c t hp
      obtain ⟨hp1, _, hp3⟩ := List.pairwise_append.1 hp
      have hpt : p.2 ≤ t := hp3 p (by simp) (c, t) (by simp)
      obtain ⟨i1, i2, _, i4⟩ := ih p.1 p.2 hp1
      rw [addAll_append]
      have hstep := AddSamples_bucket_start_aligned
        (((new bucket_milliseconds bucket_count uninitialized).addAll rest).AddSamples
          p.1 p.2) c p.2 t (by rw [i1]; exact hd) hpt
        (Or.inr ⟨i2, by rw [i1]; exact i4⟩)
      rw [i1] at hstep
      exact hstep
  exact (key samples sample_count now hclock).2

theorem AddSamples_bucket_start_invariant_witness :
    ((0 : Int) < 10 ∧
      List.Pairwise (fun p q : Int × Int => p.2 ≤ q.2) ([(3, 0)] ++ [(4, 1005)])) ∧
      exampleLongPause.bucket_start_time_milliseconds_ = 1000 ∧
      exampleLongPause.initialization_time_milliseconds_ = 0 ∧
      (((new 10 1 (fun _ => 0)).addAll [(3, 0)]).AddSamples 4
          1005).bucket_start_time_milliseconds_ ≤ 1005 ∧
      1005 < (((new 10 1 (fun _ => 0)).addAll [(3, 0)]).AddSamples 4
          1005).bucket_start_time_milliseconds_ + 10 ∧
      ∃ k : Nat,
        (((new 10 1 (fun _ => 0)).addAll [(3, 0)]).AddSamples 4
            1005).bucket_start_time_milliseconds_ -
          (((new 10 1 (fun _ => 0)).addAll [(3, 0)]).AddSamples 4
            1005).initialization_time_milliseconds_ = k * 10 :=
  ⟨⟨by decide, by decide⟩, by decide, by decide,
    AddSamples_bucket_start_invariant 10 1 (fun _ => 0) (by decide) [(3, 0)] 4 1005 (by decide)⟩

end RateTracker

/-! ## Theorems: rate statistics, reset and invariants -/

namespace RateStatistics

/-- C22: `Reset` yields exactly the freshly constructed object with the same
`max_window_size` and `scale` (in every state, reachable or not): no buckets,
`accumulated_count = 0`, `num_samples = 0`, first timestamp unset, overflow flag cleared,
`current_window = max_window_size`; `Reset` is idempotent, and `Rate(now)` right after
`Reset` returns nothing for every `now`. -/
theorem Reset_eq_new (self : RateStatistics) (now_ms : Int) :
    self.Reset = new self.max_window_size_ms_ self.scale_ ∧
      (self.Reset.buckets_ = [] ∧ self.Reset.accumulated_count_ = 0 ∧
        self.Reset.num_samples_ = 0 ∧ self.Reset.first_timestamp_ = -1 ∧
        self.Reset.overflow_ = false ∧
        self.Reset.current_window_size_ms_ = self.max_window_size_ms_ ∧
        self.Reset.max_window_size_ms_ = self.max_window_size_ms_ ∧
        self.Reset.scale_ = self.scale_) ∧
      self.Reset.Reset = self.Reset ∧
      (self.Reset.Rate now_ms).1 = none := by
  refine ⟨rfl, ⟨rfl, rfl, rfl, rfl, rfl, rfl, rfl, rfl⟩, rfl, ?_⟩
  apply Rate_none_of_condition
  left
  rfl

theorem Update_max_window (self : RateStatistics) (count now_ms : Int) :
    (self.Update count now_ms).max_window_size_ms_ = self.max_window_size_ms_ := by
  unfold Update
  simp only
  split_ifs <;> rfl

theorem SetWindowSize_max_window (self : RateStatistics) (window_size_ms now_ms : Int) :
    (self.SetWindowSize window_size_ms now_ms).2.max_window_size_ms_ =
      self.max_window_size_ms_ := by
  unfold SetWindowSize
  split_ifs <;> rfl

theorem SetWindowSize_scale (self : RateStatistics) (window_size_ms now_ms : Int) :
    (self.SetWindowSize window_size_ms now_ms).2.scale_ = self.scale_ := by
  unfold SetWindowSize
  split_ifs <;> rfl

theorem SetWindowSize_current_window (self : RateStatistics) (window_size_ms now_ms : Int) :
    (self.SetWindowSize window_size_ms now_ms).2.current_window_size_ms_ =
      if window_size_ms ≤ 0 ∨ window_size_ms > self.max_window_size_ms_ then
        self.current_window_size_ms_
      else window_size_ms := by
  unfold SetWindowSize
  split_ifs <;> rfl

/-- No call changes `max_window_size` or `scale`, and every call keeps the current window
between 1 and `max_window_size`. -/
theorem apply_window (self : RateStatistics) (c : Call)
    (h : 0 < self.current_window_size_ms_ ∧
      self.current_window_size_ms_ ≤ self.max_window_size_ms_) :
    (Call.apply self c).max_window_size_ms_ = self.max_window_size_ms_ ∧
      (Call.apply self c).scale_ = self.scale_ ∧
      0 < (Call.apply self c).current_window_size_ms_ ∧
      (Call.apply self c).current_window_size_ms_ ≤ self.max_window_size_ms_ := by
  cases c with
  | Update count now_ms =>
    show (self.Update count now_ms).max_window_size_ms_ = _ ∧
      (self.Update count now_ms).scale_ = _ ∧
      0 < (self.Update count now_ms).current_window_size_ms_ ∧
      (self.Update count now_ms).current_window_size_ms_ ≤ _
    rw [Update_max_window, Update_scale, Update_current_window]
    exact ⟨rfl, rfl, h.1, h.2⟩
  | Rate now_ms =>
    show (self.Rate now_ms).2.max_window_size_ms_ = _ ∧
      (self.Rate now_ms).2.scale_ = _ ∧
      0 < (self.Rate now_ms).2.current_window_size_ms_ ∧
      (self.Rate now_ms).2.current_window_size_ms_ ≤ _
    rw [Rate_snd]
    exact ⟨rfl, rfl, h.1, h.2⟩
  | SetWindowSize window_size_ms now_ms =>
    show (self.SetWindowSize window_size_ms now_ms).2.max_window_size_ms_ = _ ∧
      (self.SetWindowSize window_size_ms now_ms).2.scale_ = _ ∧
      0 < (self.SetWindowSize window_size_ms now_ms).2.current_window_size_ms_ ∧
      (self.SetWindowSize window_size_ms now_ms).2.current_window_size_ms_ ≤ _
    rw [SetWindowSize_max_window, SetWindowSize_scale, SetWindowSize_current_window]
    refine ⟨rfl, rfl, ?_, ?_⟩
    · split_ifs with hr
      · exact h.1
      · omega
    · split_ifs with hr
      · exact h.2
      · omega
  | Reset =>
    refine ⟨rfl, rfl, ?_, le_refl _⟩
    show 0 < self.max_window_size_ms_
    omega

theorem run_window (calls : List Call) (self : RateStatistics)
    (h : 0 < self.current_window_size_ms_ ∧
      self.current_window_size_ms_ ≤ self.max_window_size_ms_) :
    (run self calls).max_window_size_ms_ = self.max_window_size_ms_ ∧
      (run self calls).scale_ = self.scale_ ∧
      0 < (run self calls).current_window_size_ms_ ∧
      (run self calls).current_window_size_ms_ ≤ self.max_window_size_ms_ := by
  induction calls generalizing self with
  | nil => exact ⟨rfl, rfl, h.1, h.2⟩
  | cons c rest ih =>
    obtain ⟨a1, a2, a3, a4⟩ := apply_window self c h
    obtain ⟨r1, r2, r3, r4⟩ := ih (Call.apply self c) ⟨a3, by rw [a1]; exact a4⟩
    exact ⟨r1.trans a1, r2.trans a2, r3, by rw [← a1]; exact r4⟩

/-- C27: for an object constructed with `max_window_size > 0`, after every sequence of
`Update`, `Rate`, `SetWindowSize` (successful or rejected) and `Reset` calls,
`0 < current_window <= max_window_size`, and `max_window_size` and `scale` are the values
given to the constructor. -/
theorem current_window_bounds (window_size_ms : Int) (scale : ℚ) (hw : 0 < window_size_ms)
    (calls : List Call) :
    0 < (run (new window_size_ms scale) calls).current_window_size_ms_ ∧
      (run (new window_size_ms scale) calls).current_window_size_ms_ ≤
        (run (new window_size_ms scale) calls).max_window_size_ms_ ∧
      (run (new window_size_ms scale) calls).max_window_size_ms_ = window_size_ms ∧
      (run (new window_size_ms scale) calls).scale_ = scale := by
  obtain ⟨r1, r2, r3, r4⟩ := run_window calls (new window_size_ms scale) ⟨hw, le_refl _⟩
  exact ⟨r3, by rw [r1]; exact r4, r1, r2⟩

theorem current_window_bounds_witness :
    (0 : Int) < 1000 ∧
      0 < (run (new 1000 8000) exampleMixedCalls).current_window_size_ms_ ∧
      (run (new 1000 8000) exampleMixedCalls).current_window_size_ms_ ≤
        (run (new 1000 8000) exampleMixedCalls).max_window_size_ms_ ∧
      (run (new 1000 8000) exampleMixedCalls).max_window_size_ms_ = 1000 ∧
      (run (new 1000 8000) exampleMixedCalls).scale_ = 8000 :=
  ⟨by decide, current_window_bounds 1000 8000 (by decide) exampleMixedCalls⟩


theorem sumOfSamples_append (front back : List Bucket) :
    sumOfSamples (front ++ back) = sumOfSamples front + sumOfSamples back := by
  simp [sumOfSamples]

/-- Lines 66-81 of `Update` add one sample to the deque and leave no bucket without a
sample. -/
theorem samples_addToBack_appendBucket (buckets : List Bucket) (count now_ms : Int)
    (h : ∀ b ∈ buckets, 1 ≤ b.num_samples) :
    sumOfSamples (addToBack (appendBucket buckets now_ms) count) = sumOfSamples buckets + 1 ∧
      ∀ b ∈ addToBack (appendBucket buckets now_ms) count, 1 ≤ b.num_samples := by
  rcases eq_nil_or_append_singleton buckets with rfl | ⟨front, x, rfl⟩
  · simp [appendBucket, addToBack, sumOfSamples, Bucket.new]
  · have hfront : ∀ b ∈ front, 1 ≤ b.num_samples :=
      fun b hb => h b (List.mem_append_left _ hb)
    have hx : 1 ≤ x.num_samples := h x (by simp)
    simp only [appendBucket, getLast?_append_singleton]
    split_ifs with h1 h2
    · simp only [addToBack, getLast?_append_singleton, List.dropLast_concat]
      refine ⟨by simp [sumOfSamples, Bucket.new]; omega, ?_⟩
      intro b hb
      simp only [List.mem_append, List.mem_singleton] at hb
      rcases hb with (hb | hb) | hb
      · exact hfront b hb
      · rw [hb]; exact hx
      · rw [hb]; simp [Bucket.new]
    · simp only [addToBack, getLast?_append_singleton, List.dropLast_concat]
      refine ⟨by simp [sumOfSamples, Bucket.new]; omega, ?_⟩
      intro b hb
      simp only [List.mem_append, List.mem_singleton] at hb
      rcases hb with (hb | hb) | hb
      · exact hfront b hb
      · rw [hb]; exact hx
      · rw [hb]; simp [Bucket.new]
    · simp only [addToBack, getLast?_append_singleton, List.dropLast_concat]
      refine ⟨by simp [sumOfSamples]; omega, ?_⟩
      intro b hb
      simp only [List.mem_append, List.mem_singleton] at hb
      rcases hb with hb | hb
      · exact hfront b hb
      · rw [hb]; simp only; omega

theorem EraseOld_samples (self : RateStatistics) (now_ms : Int)
    (h : sumOfSamples self.buckets_ = self.num_samples_ ∧
      ∀ b ∈ self.buckets_, 1 ≤ b.num_samples) :
    sumOfSamples (self.EraseOld now_ms).buckets_ = (self.EraseOld now_ms).num_samples_ ∧
      ∀ b ∈ (self.EraseOld now_ms).buckets_, 1 ≤ b.num_samples := by
  obtain ⟨removed, h1, _, _, _, h5⟩ :=
    eraseOldLoop_spec (now_ms - self.current_window_size_ms_ + 1) self.buckets_
      self.accumulated_count_ self.num_samples_
  have hb := congrArg sumOfSamples h1
  rw [sumOfSamples_append] at hb
  refine ⟨?_, ?_⟩
  · show sumOfSamples (eraseOldLoop _ _ _ _).1 = (eraseOldLoop _ _ _ _).2.2
    rw [h5]
    omega
  · intro b hmem
    apply h.2 b
    rw [h1]
    exact List.mem_append_right _ hmem

/-- Every call keeps the sample counts of the buckets in step with `num_samples`. -/
theorem apply_samples (self : RateStatistics) (c : Call)
    (h : sumOfSamples self.buckets_ = self.num_samples_ ∧
      ∀ b ∈ self.buckets_, 1 ≤ b.num_samples) :
    sumOfSamples (Call.apply self c).buckets_ = (Call.apply self c).num_samples_ ∧
      ∀ b ∈ (Call.apply self c).buckets_, 1 ≤ b.num_samples := by
  cases c with
  | Update count now_ms =>
    show sumOfSamples (self.Update count now_ms).buckets_ =
        (self.Update count now_ms).num_samples_ ∧
      ∀ b ∈ (self.Update count now_ms).buckets_, 1 ≤ b.num_samples
    rw [Update_buckets, Update_num_samples]
    obtain ⟨e1, e2⟩ := EraseOld_samples self now_ms h
    obtain ⟨a1, a2⟩ := samples_addToBack_appendBucket _ count now_ms e2
    exact ⟨by rw [a1, e1], a2⟩
  | Rate now_ms =>
    show sumOfSamples (self.Rate now_ms).2.buckets_ = (self.Rate now_ms).2.num_samples_ ∧
      ∀ b ∈ (self.Rate now_ms).2.buckets_, 1 ≤ b.num_samples
    rw [Rate_snd]
    exact EraseOld_samples self now_ms h
  | SetWindowSize window_size_ms now_ms =>
    show sumOfSamples (self.SetWindowSize window_size_ms now_ms).2.buckets_ =
        (self.SetWindowSize window_size_ms now_ms).2.num_samples_ ∧
      ∀ b ∈ (self.SetWindowSize window_size_ms now_ms).2.buckets_, 1 ≤ b.num_samples
    unfold SetWindowSize
    split_ifs
    · exact h
    · exact EraseOld_samples _ now_ms h
    · exact EraseOld_samples _ now_ms h
  | Reset =>
    refine ⟨rfl, ?_⟩
    intro b hb
    exact absurd hb (List.not_mem_nil b)

theorem run_samples (calls : List Call) (self : RateStatistics)
    (h : sumOfSamples self.buckets_ = self.num_samples_ ∧
      ∀ b ∈ self.buckets_, 1 ≤ b.num_samples) :
    sumOfSamples (run self calls).buckets_ = (run self calls).num_samples_ ∧
      ∀ b ∈ (run self calls).buckets_, 1 ≤ b.num_samples := by
  induction calls generalizing self with
  | nil => exact h
  | cons c rest ih => exact ih _ (apply_samples self c h)

/-- C25: in every state reached from a freshly constructed object by `Update`, `Rate`,
`SetWindowSize` and `Reset` calls, the `num_samples` fields of the buckets add up to the
running sample count `num_samples`, and every bucket holds at least one sample. -/
theorem num_samples_invariant (self : RateStatistics) (h : Reachable self) :
    sumOfSamples self.buckets_ = self.num_samples_ ∧
      ∀ b ∈ self.buckets_, 1 ≤ b.num_samples := by
  obtain ⟨w, scale, calls, _, rfl⟩ := h
  exact run_samples calls _ ⟨rfl, fun b hb => absurd hb (List.not_mem_nil b)⟩

theorem num_samples_invariant_witness :
    Reachable exampleTwoSamples ∧
      exampleTwoSamples.buckets_ =
        [{ sum := 1, num_samples := 1, timestamp := 0 },
          { sum := 1, num_samples := 1, timestamp := 500 }] ∧
      exampleTwoSamples.num_samples_ = 2 ∧
      sumOfSamples exampleTwoSamples.buckets_ = exampleTwoSamples.num_samples_ ∧
      ∀ b ∈ exampleTwoSamples.buckets_, 1 ≤ b.num_samples :=
  ⟨⟨1000, 8000, [Call.Update 1 0, Call.Update 1 500], by decide, rfl⟩, by decide, by decide,
    num_samples_invariant exampleTwoSamples
      ⟨1000, 8000, [Call.Update 1 0, Call.Update 1 500], by decide, rfl⟩⟩

/-- A second purge for the same time changes nothing. -/
theorem EraseOld_EraseOld (self : RateStatistics) (now_ms : Int) :
    (self.EraseOld now_ms).EraseOld now_ms = self.EraseOld now_ms := by
  apply EraseOld_of_head_ge
  intro b hb
  rw [EraseOld_current_window]
  exact EraseOld_head_ge self now_ms b hb

theorem Rate_fst_eq_of_EraseOld_eq (self other : RateStatistics) (now_ms : Int)
    (h : self.EraseOld now_ms = other.EraseOld now_ms) :
    (self.Rate now_ms).1 = (other.Rate now_ms).1 := by
  unfold Rate
  simp only [h]

/-- When the buckets are ordered by time and a purge changes nothing, no bucket is older
than the window. -/
theorem buckets_ge_of_EraseOld_eq (self : RateStatistics) (now_ms : Int)
    (ho : OrderedByTime self.buckets_) (h : self.EraseOld now_ms = self) :
    ∀ b ∈ self.buckets_, now_ms - self.current_window_size_ms_ + 1 ≤ b.timestamp := by
  intro b hb
  cases hl : self.buckets_ with
  | nil => rw [hl] at hb; exact absurd hb (List.not_mem_nil b)
  | cons x rest =>
    have hx : now_ms - self.current_window_size_ms_ + 1 ≤ x.timestamp := by
      apply EraseOld_head_ge self now_ms x
      rw [h, hl]
      rfl
    have := ho.le_of_head (b := x) (by rw [hl]; rfl) b hb
    omega

/-- C28: for every state reached from a constructed object and every `now`, a second
`Rate(now)` right after a first one returns the same result and leaves the state unchanged;
after `Rate(now)` and after `Update(count, now)` every bucket has a timestamp
`>= now - current_window + 1`.  The window given to the constructor is positive, which is
the precondition of the class. -/
theorem Rate_idempotent (window_size_ms : Int) (scale : ℚ) (hw : 0 < window_size_ms)
    (calls : List Call) (count now_ms : Int) :
    (((run (new window_size_ms scale) calls).Rate now_ms).2.Rate now_ms).1 =
        ((run (new window_size_ms scale) calls).Rate now_ms).1 ∧
      (((run (new window_size_ms scale) calls).Rate now_ms).2.Rate now_ms).2 =
        ((run (new window_size_ms scale) calls).Rate now_ms).2 ∧
      (∀ b ∈ ((run (new window_size_ms scale) calls).Rate now_ms).2.buckets_,
        now_ms - ((run (new window_size_ms scale) calls).Rate now_ms).2.current_window_size_ms_
          + 1 ≤ b.timestamp) ∧
      (∀ b ∈ ((run (new window_size_ms scale) calls).Update count now_ms).buckets_,
        now_ms -
          ((run (new window_size_ms scale) calls).Update count now_ms).current_window_size_ms_
          + 1 ≤ b.timestamp) := by
  have hord : OrderedByTime (run (new window_size_ms scale) calls).buckets_ :=
    run_ordered calls _ List.Pairwise.nil
  obtain ⟨_, _, hpos, _⟩ := run_window calls (new window_size_ms scale) ⟨hw, le_refl _⟩
  refine ⟨?_, ?_, ?_, ?_⟩
  · rw [Rate_snd]
    exact Rate_fst_eq_of_EraseOld_eq _ _ now_ms (EraseOld_EraseOld _ now_ms)
  · rw [Rate_snd, Rate_snd]
    exact EraseOld_EraseOld _ now_ms
  · rw [Rate_snd]
    exact buckets_ge_of_EraseOld_eq _ now_ms (EraseOld_ordered _ now_ms hord)
      (EraseOld_EraseOld _ now_ms)
  · exact buckets_ge_of_EraseOld_eq _ now_ms
      (apply_ordered _ (Call.Update count now_ms) hord)
      (EraseOld_Update_same _ count now_ms (by omega))

theorem Rate_idempotent_witness :
    (0 : Int) < 1000 ∧
      (exampleTwoSamples.Rate 1200).2.buckets_ =
        [{ sum := 1, num_samples := 1, timestamp := 500 }] ∧
      ((exampleTwoSamples.Rate 1200).2.Rate 1200).1 = (exampleTwoSamples.Rate 1200).1 ∧
      ((exampleTwoSamples.Rate 1200).2.Rate 1200).2 = (exampleTwoSamples.Rate 1200).2 ∧
      (∀ b ∈ (exampleTwoSamples.Rate 1200).2.buckets_,
        1200 - (exampleTwoSamples.Rate 1200).2.current_window_size_ms_ + 1 ≤ b.timestamp) ∧
      (∀ b ∈ (exampleTwoSamples.Update 7 1200).buckets_,
        1200 - (exampleTwoSamples.Update 7 1200).current_window_size_ms_ + 1 ≤
          b.timestamp) :=
  ⟨by decide, by rw [Rate_snd]; decide,
    Rate_idempotent 1000 8000 (by decide) [Call.Update 1 0, Call.Update 1 500] 7 1200⟩

end RateStatistics

/-! ## Theorems: probe bitrate estimator, the clusters held -/

namespace AggregatedCluster

theorem recordAll_append (feedbacks : List PacketResult) (packet_feedback : PacketResult) :
    recordAll (feedbacks ++ [packet_feedback]) =
      (recordAll feedbacks).record packet_feedback := by
  simp [recordAll, List.foldl_append]

end AggregatedCluster

namespace ProbeBitrateEstimator

theorem feed_append (self : ProbeBitrateEstimator) (feedbacks : List PacketResult)
    (packet_feedback : PacketResult) :
    self.feed (feedbacks ++ [packet_feedback]) =
      ((self.feed feedbacks).HandleProbeAndEstimateBitrate packet_feedback).2 := by
  simp [feed, List.foldl_append]

theorem feedbacksOf_append_same (feedbacks : List PacketResult)
    (packet_feedback : PacketResult) :
    feedbacksOf packet_feedback.sent_packet.pacing_info.probe_cluster_id
        (feedbacks ++ [packet_feedback]) =
      feedbacksOf packet_feedback.sent_packet.pacing_info.probe_cluster_id feedbacks ++
        [packet_feedback] := by
  simp [feedbacksOf, List.filter_append]

theorem feedbacksOf_append_other (feedbacks : List PacketResult)
    (packet_feedback : PacketResult) (id : Int)
    (h : id ≠ packet_feedback.sent_packet.pacing_info.probe_cluster_id) :
    feedbacksOf id (feedbacks ++ [packet_feedback]) = feedbacksOf id feedbacks := by
  simp [feedbacksOf, List.filter_append, Ne.symm h]

/-- The cluster that a call stores is the record of the feedback alone, or of the feedback
on top of the cluster held before. -/
theorem fedCluster_cases (self : ProbeBitrateEstimator) (packet_feedback : PacketResult) :
    self.fedCluster packet_feedback = ({} : AggregatedCluster).record packet_feedback ∨
      ∃ c, self.clusters_ packet_feedback.sent_packet.pacing_info.probe_cluster_id = some c ∧
        self.fedCluster packet_feedback = c.record packet_feedback := by
  cases h : self.clusters_ packet_feedback.sent_packet.pacing_info.probe_cluster_id with
  | none => exact Or.inl (fedCluster_of_none self packet_feedback h)
  | some c =>
    by_cases hk : TimeValue.add c.last_receive kMaxClusterHistory <
        packet_feedback.receive_time
    · exact Or.inl (fedCluster_of_erased self packet_feedback c h hk)
    · exact Or.inr ⟨c, rfl, fedCluster_of_kept self packet_feedback c h hk⟩

/-- A cluster that is held after a call under another id was held before the call. -/
theorem HandleProbeAndEstimateBitrate_other (self : ProbeBitrateEstimator)
    (packet_feedback : PacketResult) (id : Int) (c : AggregatedCluster)
    (hid : id ≠ packet_feedback.sent_packet.pacing_info.probe_cluster_id)
    (h : (self.HandleProbeAndEstimateBitrate packet_feedback).2.clusters_ id = some c) :
    self.clusters_ id = some c := by
  rw [HandleProbeAndEstimateBitrate_clusters, Function.update_noteq hid,
    EraseOldClusters_clusters] at h
  cases hc : self.clusters_ id with
  | none => rw [hc] at h; exact absurd h (by simp)
  | some c0 =>
    rw [hc] at h
    simp only at h
    split_ifs at h
    exact h

/-- Every cluster held after a sequence of feedbacks has recorded a non-empty final part of
the feedbacks of its id, and nothing else. -/
theorem feed_clusters_recordAll (feedbacks : List PacketResult) (id : Int)
    (c : AggregatedCluster)
    (h : (ProbeBitrateEstimator.new.feed feedbacks).clusters_ id = some c) :
    ∃ recorded : List PacketResult,
      recorded ≠ [] ∧ recorded <:+ feedbacksOf id feedbacks ∧
        c = AggregatedCluster.recordAll recorded := by
  induction feedbacks using List.reverseRecOn generalizing id c with
  | nil => exact absurd h (by simp [feed, ProbeBitrateEstimator.new])
  | append_singleton fs f ih =>
    rw [feed_append] at h
    by_cases hid : id = f.sent_packet.pacing_info.probe_cluster_id
    · subst hid
      rw [HandleProbeAndEstimateBitrate_fed] at h
      have hc : c = (ProbeBitrateEstimator.new.feed fs).fedCluster f :=
        (Option.some.inj h).symm
      rw [feedbacksOf_append_same]
      rcases fedCluster_cases (ProbeBitrateEstimator.new.feed fs) f with h0 | ⟨c0, h1, h2⟩
      · refine ⟨[f], by simp, List.suffix_append _ _, ?_⟩
        rw [hc, h0]
        rfl
      · obtain ⟨rec0, _, r2, r3⟩ := ih _ c0 h1
        refine ⟨rec0 ++ [f], by simp, ?_, ?_⟩
        · obtain ⟨front, hfront⟩ := r2
          exact ⟨front, by rw [← hfront, List.append_assoc]⟩
        · rw [hc, h2, r3, AggregatedCluster.recordAll_append]
    · rw [feedbacksOf_append_other fs f id hid]
      exact ih id c (HandleProbeAndEstimateBitrate_other _ f id c hid h)

end ProbeBitrateEstimator

namespace TimeValue

theorem le_trans' {a b c : TimeValue} (h1 : a ≤ b) (h2 : b ≤ c) : a ≤ c := by
  have h1' : le a b = true := h1
  have h2' : le b c = true := h2
  clear h1 h2
  show le a c = true
  cases a <;> cases b <;> cases c <;> simp_all [le, lt]
  omega

theorem le_of_lt' {a b : TimeValue} (h : a < b) : a ≤ b := by
  have h' : lt a b = true := h
  clear h
  show le a b = true
  cases a <;> cases b <;> simp_all [le, lt]
  omega

theorem lt_PlusInfinity_of_IsFinite {a : TimeValue} (h : a.IsFinite = true) :
    a < PlusInfinity := by
  cases a <;> simp_all [IsFinite]

theorem MinusInfinity_lt_of_IsFinite {a : TimeValue} (h : a.IsFinite = true) :
    MinusInfinity < a := by
  cases a <;> simp_all [IsFinite]

end TimeValue

namespace AggregatedCluster

theorem record_first_send (c : AggregatedCluster) (packet_feedback : PacketResult) :
    (c.record packet_feedback).first_send =
      if packet_feedback.sent_packet.send_time < c.first_send then
        packet_feedback.sent_packet.send_time
      else c.first_send := by
  unfold record
  simp only
  split_ifs <;> rfl

theorem record_last_send (c : AggregatedCluster) (packet_feedback : PacketResult) :
    (c.record packet_feedback).last_send =
      if packet_feedback.sent_packet.send_time > c.last_send then
        packet_feedback.sent_packet.send_time
      else c.last_send := by
  unfold record
  simp only
  split_ifs <;> rfl

theorem record_size_last_send (c : AggregatedCluster) (packet_feedback : PacketResult) :
    (c.record packet_feedback).size_last_send =
      if packet_feedback.sent_packet.send_time > c.last_send then
        packet_feedback.sent_packet.size
      else c.size_last_send := by
  unfold record
  simp only
  split_ifs <;> rfl

theorem record_first_receive (c : AggregatedCluster) (packet_feedback : PacketResult) :
    (c.record packet_feedback).first_receive =
      if packet_feedback.receive_time < c.first_receive then packet_feedback.receive_time
      else c.first_receive := by
  unfold record
  simp only
  split_ifs <;> rfl

theorem record_size_first_receive (c : AggregatedCluster) (packet_feedback : PacketResult) :
    (c.record packet_feedback).size_first_receive =
      if packet_feedback.receive_time < c.first_receive then packet_feedback.sent_packet.size
      else c.size_first_receive := by
  unfold record
  simp only
  split_ifs <;> rfl

theorem record_size_total (c : AggregatedCluster) (packet_feedback : PacketResult) :
    (c.record packet_feedback).size_total =
      c.size_total + packet_feedback.sent_packet.size := by
  unfold record
  simp only
  split_ifs <;> rfl


/-- Recording a feedback moves the first times down to it and the last times up to it. -/
theorem record_bounds (c : AggregatedCluster) (packet_feedback : PacketResult) :
    ((c.record packet_feedback).first_send ≤ c.first_send ∧
      (c.record packet_feedback).first_send ≤ packet_feedback.sent_packet.send_time ∧
      c.last_send ≤ (c.record packet_feedback).last_send ∧
      packet_feedback.sent_packet.send_time ≤ (c.record packet_feedback).last_send) ∧
    ((c.record packet_feedback).first_receive ≤ c.first_receive ∧
      (c.record packet_feedback).first_receive ≤ packet_feedback.receive_time ∧
      c.last_receive ≤ (c.record packet_feedback).last_receive ∧
      packet_feedback.receive_time ≤ (c.record packet_feedback).last_receive) := by
  rw [record_first_send, record_last_send, record_first_receive, record_last_receive]
  refine ⟨⟨?_, ?_, ?_, ?_⟩, ⟨?_, ?_, ?_, ?_⟩⟩
  · split_ifs with h
    · exact TimeValue.le_of_lt' h
    · exact TimeValue.le_refl' _
  · split_ifs with h
    · exact TimeValue.le_refl' _
    · exact (TimeValue.not_lt_iff _ _).1 h
  · split_ifs with h
    · exact TimeValue.le_of_lt' h
    · exact TimeValue.le_refl' _
  · split_ifs with h
    · exact TimeValue.le_refl' _
    · exact (TimeValue.not_lt_iff _ _).1 h
  · split_ifs with h
    · exact TimeValue.le_of_lt' h
    · exact TimeValue.le_refl' _
  · split_ifs with h
    · exact TimeValue.le_refl' _
    · exact (TimeValue.not_lt_iff _ _).1 h
  · split_ifs with h
    · exact TimeValue.le_of_lt' h
    · exact TimeValue.le_refl' _
  · split_ifs with h
    · exact TimeValue.le_refl' _
    · exact (TimeValue.not_lt_iff _ _).1 h

/-- The probe count and the total size of a cluster are the number and the total size of
the feedbacks recorded. -/
theorem recordAll_counts (feedbacks : List PacketResult) :
    (recordAll feedbacks).num_probes = feedbacks.length ∧
      (recordAll feedbacks).size_total =
        (feedbacks.map (fun f => f.sent_packet.size)).sum := by
  induction feedbacks using List.reverseRecOn with
  | nil => exact ⟨rfl, by simp [recordAll]⟩
  | append_singleton fs f ih =>
    rw [recordAll_append, record_num_probes, record_size_total, ih.1, ih.2]
    simp

/-- The first times of a cluster are lower bounds and the last times are upper bounds of
the times of the feedbacks recorded. -/
theorem recordAll_bounds (feedbacks : List PacketResult) :
    ∀ f ∈ feedbacks,
      (recordAll feedbacks).first_send ≤ f.sent_packet.send_time ∧
        f.sent_packet.send_time ≤ (recordAll feedbacks).last_send ∧
        (recordAll feedbacks).first_receive ≤ f.receive_time ∧
        f.receive_time ≤ (recordAll feedbacks).last_receive := by
  induction feedbacks using List.reverseRecOn with
  | nil => intro f hf; exact absurd hf (List.not_mem_nil f)
  | append_singleton fs g ih =>
    intro f hf
    rw [recordAll_append]
    obtain ⟨⟨s1, s2, s3, s4⟩, ⟨r1, r2, r3, r4⟩⟩ := record_bounds (recordAll fs) g
    rcases List.mem_append.1 hf with hf | hf
    · obtain ⟨i1, i2, i3, i4⟩ := ih f hf
      exact ⟨TimeValue.le_trans' s1 i1, TimeValue.le_trans' i2 s3,
        TimeValue.le_trans' r1 i3, TimeValue.le_trans' i4 r3⟩
    · rw [List.mem_singleton] at hf
      rw [hf]
      exact ⟨s2, s4, r2, r4⟩

/-- The first and last times of a cluster that has recorded feedbacks with finite times are
times of recorded feedbacks; `size_last_send` is the size of a feedback with the last send
time and `size_first_receive` the size of a feedback with the first receive time. -/
theorem recordAll_attained (feedbacks : List PacketResult)
    (hfinite : ∀ f ∈ feedbacks, f.IsFinite = true) (hne : feedbacks ≠ []) :
    (∃ f ∈ feedbacks, f.sent_packet.send_time = (recordAll feedbacks).first_send) ∧
      (∃ f ∈ feedbacks, f.sent_packet.send_time = (recordAll feedbacks).last_send ∧
        f.sent_packet.size = (recordAll feedbacks).size_last_send) ∧
      (∃ f ∈ feedbacks, f.receive_time = (recordAll feedbacks).first_receive ∧
        f.sent_packet.size = (recordAll feedbacks).size_first_receive) ∧
      (∃ f ∈ feedbacks, f.receive_time = (recordAll feedbacks).last_receive) := by
  induction feedbacks using List.reverseRecOn with
  | nil => exact absurd rfl hne
  | append_singleton fs g ih =>
    have hg : g.IsFinite = true := hfinite g (by simp)
    have hgs : g.sent_packet.send_time.IsFinite = true := by
      simp only [PacketResult.IsFinite, Bool.and_eq_true] at hg
      exact hg.1
    have hgr : g.receive_time.IsFinite = true := by
      simp only [PacketResult.IsFinite, Bool.and_eq_true] at hg
      exact hg.2
    have hmem : g ∈ fs ++ [g] := by simp
    rw [recordAll_append]
    by_cases hfs : fs = []
    · subst hfs
      have e : recordAll [] = ({} : AggregatedCluster) := rfl
      rw [e, record_first_send, record_last_send, record_size_last_send,
        record_first_receive, record_size_first_receive, record_last_receive]
      have h1 : g.sent_packet.send_time < ({} : AggregatedCluster).first_send :=
        TimeValue.lt_PlusInfinity_of_IsFinite hgs
      have h2 : g.sent_packet.send_time > ({} : AggregatedCluster).last_send :=
        TimeValue.MinusInfinity_lt_of_IsFinite hgs
      have h3 : g.receive_time < ({} : AggregatedCluster).first_receive :=
        TimeValue.lt_PlusInfinity_of_IsFinite hgr
      have h4 : g.receive_time > ({} : AggregatedCluster).last_receive :=
        TimeValue.MinusInfinity_lt_of_IsFinite hgr
      rw [if_pos h1, if_pos h2, if_pos h2, if_pos h3, if_pos h3, if_pos h4]
      exact ⟨⟨g, hmem, rfl⟩, ⟨g, hmem, rfl, rfl⟩, ⟨g, hmem, rfl, rfl⟩, ⟨g, hmem, rfl⟩⟩
    · obtain ⟨⟨a, ha, ha1⟩, ⟨b, hb, hb1, hb2⟩, ⟨x, hx, hx1, hx2⟩, ⟨y, hy, hy1⟩⟩ :=
        ih (fun f hf => hfinite f (List.mem_append_left _ hf)) hfs
      refine ⟨?_, ?_, ?_, ?_⟩
      · rw [record_first_send]
        split_ifs
        · exact ⟨g, hmem, rfl⟩
        · exact ⟨a, List.mem_append_left _ ha, ha1⟩
      · rw [record_last_send, record_size_last_send]
        split_ifs
        · exact ⟨g, hmem, rfl, rfl⟩
        · exact ⟨b, List.mem_append_left _ hb, hb1, hb2⟩
      · rw [record_first_receive, record_size_first_receive]
        split_ifs
        · exact ⟨g, hmem, rfl, rfl⟩
        · exact ⟨x, List.mem_append_left _ hx, hx1, hx2⟩
      · rw [record_last_receive]
        split_ifs
        · exact ⟨g, hmem, rfl⟩
        · exact ⟨y, List.mem_append_left _ hy, hy1⟩

/-- With sizes that are not negative, the two recorded packet sizes of a cluster lie
between 0 and its total size. -/
theorem recordAll_sizes (feedbacks : List PacketResult)
    (hsize : ∀ f ∈ feedbacks, 0 ≤ f.sent_packet.size) :
    (0 ≤ (recordAll feedbacks).size_last_send ∧
      (recordAll feedbacks).size_last_send ≤ (recordAll feedbacks).size_total) ∧
    (0 ≤ (recordAll feedbacks).size_first_receive ∧
      (recordAll feedbacks).size_first_receive ≤ (recordAll feedbacks).size_total) := by
  induction feedbacks using List.reverseRecOn with
  | nil => exact ⟨⟨le_refl _, le_refl _⟩, ⟨le_refl _, le_refl _⟩⟩
  | append_singleton fs g ih =>
    have hg : 0 ≤ g.sent_packet.size := hsize g (by simp)
    obtain ⟨⟨i1, i2⟩, ⟨i3, i4⟩⟩ := ih (fun f hf => hsize f (List.mem_append_left _ hf))
    rw [recordAll_append, record_size_last_send, record_size_first_receive,
      record_size_total]
    refine ⟨⟨?_, ?_⟩, ⟨?_, ?_⟩⟩
    · split_ifs <;> assumption
    · split_ifs <;> linarith only [hg, i1, i2, i3, i4]
    · split_ifs <;> assumption
    · split_ifs <;> linarith only [hg, i1, i2, i3, i4]

/-- The total size of feedbacks with sizes that are not negative is at least the size of
one of them, and at least the sizes of two different ones together. -/
theorem size_le_sum (feedbacks : List PacketResult)
    (hsize : ∀ f ∈ feedbacks, 0 ≤ f.sent_packet.size) :
    0 ≤ (feedbacks.map (fun f => f.sent_packet.size)).sum ∧
      (∀ a ∈ feedbacks,
        a.sent_packet.size ≤ (feedbacks.map (fun f => f.sent_packet.size)).sum) ∧
      (∀ a ∈ feedbacks, ∀ b ∈ feedbacks, a ≠ b →
        a.sent_packet.size + b.sent_packet.size ≤
          (feedbacks.map (fun f => f.sent_packet.size)).sum) := by
  induction feedbacks with
  | nil =>
    refine ⟨by simp, ?_, ?_⟩
    · intro a ha; exact absurd ha (List.not_mem_nil a)
    · intro a ha; exact absurd ha (List.not_mem_nil a)
  | cons x rest ih =>
    have hx : 0 ≤ x.sent_packet.size := hsize x (List.mem_cons_self _ _)
    obtain ⟨i0, i1, i2⟩ := ih (fun f hf => hsize f (List.mem_cons_of_mem _ hf))
    simp only [List.map_cons, List.sum_cons]
    refine ⟨by linarith, ?_, ?_⟩
    · intro a ha
      rcases List.mem_cons.1 ha with rfl | ha
      · linarith
      · have := i1 a ha
        linarith
    · intro a ha b hb hab
      rcases List.mem_cons.1 ha with ha | ha <;> rcases List.mem_cons.1 hb with hb | hb
      · exact absurd (ha.trans hb.symm) hab
      · have := i1 b hb
        rw [ha]
        linarith
      · have := i1 a ha
        rw [hb]
        linarith
      · have := i2 a ha b hb hab
        linarith

end AggregatedCluster

namespace ProbeBitrateEstimator

theorem mem_of_mem_suffix_feedbacksOf {recorded feedbacks : List PacketResult} {id : Int}
    (h : recorded <:+ feedbacksOf id feedbacks) : ∀ f ∈ recorded, f ∈ feedbacks := by
  intro f hf
  have := h.subset hf
  unfold feedbacksOf at this
  exact (List.mem_filter.1 this).1

/-- The cluster that a call stores, in an estimator that has handled a sequence of
feedbacks, has recorded a non-empty list of these feedbacks that ends with the feedback
of the call. -/
theorem fedCluster_recordAll (feedbacks : List PacketResult)
    (packet_feedback : PacketResult) :
    ∃ recorded : List PacketResult,
      (∀ f ∈ recorded ++ [packet_feedback], f ∈ feedbacks ++ [packet_feedback]) ∧
        (ProbeBitrateEstimator.new.feed feedbacks).fedCluster packet_feedback =
          AggregatedCluster.recordAll (recorded ++ [packet_feedback]) := by
  rcases fedCluster_cases (ProbeBitrateEstimator.new.feed feedbacks) packet_feedback with
    h0 | ⟨c0, h1, h2⟩
  · refine ⟨[], ?_, ?_⟩
    · intro f hf
      exact List.mem_append_right _ hf
    · rw [h0]
      rfl
  · obtain ⟨rec0, _, r2, r3⟩ := feed_clusters_recordAll feedbacks _ c0 h1
    refine ⟨rec0, ?_, ?_⟩
    · intro f hf
      rcases List.mem_append.1 hf with hf | hf
      · exact List.mem_append_left _ (mem_of_mem_suffix_feedbacksOf r2 f hf)
      · exact List.mem_append_right _ hf
    · rw [h2, r3, AggregatedCluster.recordAll_append]

end ProbeBitrateEstimator

namespace TimeValue

theorem exists_Micros_of_IsFinite {a : TimeValue} (h : a.IsFinite = true) :
    ∃ us : Int, a = Micros us := by
  cases a with
  | Micros us => exact ⟨us, rfl⟩
  | MinusInfinity => simp [IsFinite] at h
  | PlusInfinity => simp [IsFinite] at h

end TimeValue

namespace ProbeBitrateEstimator

/-- C21: after every sequence of feedbacks with finite timestamps and sizes that are not
negative, every cluster `c` that the estimator holds satisfies `last_send >= first_send`,
`last_receive >= first_receive`, `size_total >= size_last_send` and
`size_total >= size_first_receive`.  The cluster has recorded a non-empty final part
`recorded` of the feedbacks of its id (those since it was created or created again):
`first_send` and `last_send` are the least and the greatest send time in `recorded`,
`first_receive` and `last_receive` the least and the greatest receive time,
`size_last_send` and `size_first_receive` are sizes of feedbacks with these times,
`size_total` is the sum of the sizes and `num_probes` the number of feedbacks in
`recorded`. -/
theorem clusters_invariant (feedbacks : List PacketResult)
    (hfinite : ∀ f ∈ feedbacks, f.IsFinite = true)
    (hsize : ∀ f ∈ feedbacks, 0 ≤ f.sent_packet.size) (id : Int) (c : AggregatedCluster)
    (h : (ProbeBitrateEstimator.new.feed feedbacks).clusters_ id = some c) :
    (c.first_send ≤ c.last_send ∧ c.first_receive ≤ c.last_receive ∧
      c.size_last_send ≤ c.size_total ∧ c.size_first_receive ≤ c.size_total) ∧
    ∃ recorded : List PacketResult,
      recorded ≠ [] ∧ recorded <:+ feedbacksOf id feedbacks ∧
      c = AggregatedCluster.recordAll recorded ∧
      (∀ f ∈ recorded,
        c.first_send ≤ f.sent_packet.send_time ∧ f.sent_packet.send_time ≤ c.last_send ∧
        c.first_receive ≤ f.receive_time ∧ f.receive_time ≤ c.last_receive) ∧
      (∃ f ∈ recorded, f.sent_packet.send_time = c.first_send) ∧
      (∃ f ∈ recorded, f.sent_packet.send_time = c.last_send ∧
        f.sent_packet.size = c.size_last_send) ∧
      (∃ f ∈ recorded, f.receive_time = c.first_receive ∧
        f.sent_packet.size = c.size_first_receive) ∧
      (∃ f ∈ recorded, f.receive_time = c.last_receive) ∧
      c.size_total = (recorded.map (fun f => f.sent_packet.size)).sum ∧
      c.num_probes = recorded.length := by
  obtain ⟨recorded, hne, hsuf, hc⟩ := feed_clusters_recordAll feedbacks id c h
  have hmem := mem_of_mem_suffix_feedbacksOf hsuf
  have hbounds := AggregatedCluster.recordAll_bounds recorded
  obtain ⟨a1, a2, a3, a4⟩ := AggregatedCluster.recordAll_attained recorded
    (fun f hf => hfinite f (hmem f hf)) hne
  obtain ⟨⟨_, s2⟩, ⟨_, s4⟩⟩ := AggregatedCluster.recordAll_sizes recorded
    (fun f hf => hsize f (hmem f hf))
  obtain ⟨n1, n2⟩ := AggregatedCluster.recordAll_counts recorded
  rw [hc]
  refine ⟨⟨?_, ?_, s2, s4⟩, recorded, hne, hsuf, rfl, hbounds, a1, a2, a3, a4, n2, n1⟩
  · obtain ⟨f, hf, _⟩ := a1
    exact TimeValue.le_trans' (hbounds f hf).1 (hbounds f hf).2.1
  · obtain ⟨f, hf, _⟩ := a4
    exact TimeValue.le_trans' (hbounds f hf).2.2.1 (hbounds f hf).2.2.2

theorem clusters_invariant_witness :
    ((∀ f ∈ ProbeExample.threeProbes, f.IsFinite = true) ∧
      (∀ f ∈ ProbeExample.threeProbes, 0 ≤ f.sent_packet.size) ∧
      (ProbeBitrateEstimator.new.feed ProbeExample.threeProbes).clusters_ 0 =
        some ProbeExample.cluster3) ∧
    ((ProbeExample.cluster3.first_send ≤ ProbeExample.cluster3.last_send ∧
      ProbeExample.cluster3.first_receive ≤ ProbeExample.cluster3.last_receive ∧
      ProbeExample.cluster3.size_last_send ≤ ProbeExample.cluster3.size_total ∧
      ProbeExample.cluster3.size_first_receive ≤ ProbeExample.cluster3.size_total) ∧
    ∃ recorded : List PacketResult,
      recorded ≠ [] ∧ recorded <:+ feedbacksOf 0 ProbeExample.threeProbes ∧
      ProbeExample.cluster3 = AggregatedCluster.recordAll recorded ∧
      (∀ f ∈ recorded,
        ProbeExample.cluster3.first_send ≤ f.sent_packet.send_time ∧
        f.sent_packet.send_time ≤ ProbeExample.cluster3.last_send ∧
        ProbeExample.cluster3.first_receive ≤ f.receive_time ∧
        f.receive_time ≤ ProbeExample.cluster3.last_receive) ∧
      (∃ f ∈ recorded, f.sent_packet.send_time = ProbeExample.cluster3.first_send) ∧
      (∃ f ∈ recorded, f.sent_packet.send_time = ProbeExample.cluster3.last_send ∧
        f.sent_packet.size = ProbeExample.cluster3.size_last_send) ∧
      (∃ f ∈ recorded, f.receive_time = ProbeExample.cluster3.first_receive ∧
        f.sent_packet.size = ProbeExample.cluster3.size_first_receive) ∧
      (∃ f ∈ recorded, f.receive_time = ProbeExample.cluster3.last_receive) ∧
      ProbeExample.cluster3.size_total =
        (recorded.map (fun f => f.sent_packet.size)).sum ∧
      ProbeExample.cluster3.num_probes = recorded.length) := by
  have hfin : ∀ f ∈ ProbeExample.threeProbes, f.IsFinite = true := by decide
  have hsize : ∀ f ∈ ProbeExample.threeProbes, 0 ≤ f.sent_packet.size := by
    intro f hf
    simp only [ProbeExample.threeProbes, List.mem_cons, List.mem_singleton,
      List.not_mem_nil, or_false] at hf
    rcases hf with rfl | rfl | rfl <;> norm_num [ProbeExample.probe5]
  exact ⟨⟨hfin, hsize, ProbeExample.feed_threeProbes_cluster⟩,
    clusters_invariant ProbeExample.threeProbes hfin hsize 0 ProbeExample.cluster3
      ProbeExample.feed_threeProbes_cluster⟩

end ProbeBitrateEstimator

namespace ProbeExample

open ProbeBitrateEstimator

theorem fedCluster_feedbackFast :
    (ProbeBitrateEstimator.new.feed [feedbackSlow]).fedCluster feedbackFast =
      clusterFast := by
  have h1 := stored_of_none ProbeBitrateEstimator.new feedbackSlow rfl
  have e : ProbeBitrateEstimator.new.feed [feedbackSlow] =
      (ProbeBitrateEstimator.new.HandleProbeAndEstimateBitrate feedbackSlow).2 := rfl
  rw [e, fedCluster_of_kept _ feedbackFast _ h1 (by
    norm_num [AggregatedCluster.record, feedbackSlow, feedbackFast, kMaxClusterHistory,
      TimeValue.add, TimeValue.Seconds])]
  norm_num [AggregatedCluster.record, feedbackSlow, feedbackFast, clusterFast]

theorem clusterFast_intervals :
    clusterFast.send_interval = TimeValue.Micros 20000 ∧
      clusterFast.receive_interval = TimeValue.Micros 10000 := by
  constructor
  · norm_num [AggregatedCluster.send_interval, clusterFast, TimeValue.sub]
  · norm_num [AggregatedCluster.receive_interval, clusterFast, TimeValue.sub]

end ProbeExample

namespace TimeValue

theorem sub_Micros (a b : Int) : sub (Micros a) (Micros b) = Micros (a - b) := rfl

end TimeValue

namespace ProbeBitrateEstimator

/-- C29: when every feedback, the one of the call included, has finite timestamps and a
size of at least 1 byte, and the call gets past the interval check (both intervals of the
cluster are positive and at most 1 s), then `size_total > size_last_send` and
`size_total > size_first_receive` hold, `send_rate` is positive, so that the ratio check
compares the quotient `receive_rate / send_rate` with a divisor that is not 0, and
whenever `receive_rate < 0.9 * send_rate` (the saturation branch),
`send_rate > receive_rate` holds. -/
theorem HandleProbeAndEstimateBitrate_assertions (feedbacks : List PacketResult)
    (packet_feedback : PacketResult)
    (hfinite : ∀ f ∈ feedbacks ++ [packet_feedback], f.IsFinite = true)
    (hsize : ∀ f ∈ feedbacks ++ [packet_feedback], 1 ≤ f.sent_packet.size)
    (hinterval :
      ¬ (((ProbeBitrateEstimator.new.feed feedbacks).fedCluster
            packet_feedback).send_interval ≤ TimeValue.Zero ∨
        ((ProbeBitrateEstimator.new.feed feedbacks).fedCluster
            packet_feedback).send_interval > kMaxProbeInterval ∨
        ((ProbeBitrateEstimator.new.feed feedbacks).fedCluster
            packet_feedback).receive_interval ≤ TimeValue.Zero ∨
        ((ProbeBitrateEstimator.new.feed feedbacks).fedCluster
            packet_feedback).receive_interval > kMaxProbeInterval)) :
    ((ProbeBitrateEstimator.new.feed feedbacks).fedCluster packet_feedback).size_total >
        ((ProbeBitrateEstimator.new.feed feedbacks).fedCluster
          packet_feedback).size_last_send ∧
      ((ProbeBitrateEstimator.new.feed feedbacks).fedCluster packet_feedback).size_total >
        ((ProbeBitrateEstimator.new.feed feedbacks).fedCluster
          packet_feedback).size_first_receive ∧
      0 < ((ProbeBitrateEstimator.new.feed feedbacks).fedCluster
        packet_feedback).send_rate ∧
      (((ProbeBitrateEstimator.new.feed feedbacks).fedCluster
          packet_feedback).ratioExceeds kMaxValidRatio = true ↔
        ((ProbeBitrateEstimator.new.feed feedbacks).fedCluster packet_feedback).receive_rate /
          ((ProbeBitrateEstimator.new.feed feedbacks).fedCluster packet_feedback).send_rate >
            kMaxValidRatio) ∧
      (((ProbeBitrateEstimator.new.feed feedbacks).fedCluster packet_feedback).receive_rate <
          kMinRatioForUnsaturatedLink *
            ((ProbeBitrateEstimator.new.feed feedbacks).fedCluster
              packet_feedback).send_rate →
        ((ProbeBitrateEstimator.new.feed feedbacks).fedCluster packet_feedback).send_rate >
          ((ProbeBitrateEstimator.new.feed feedbacks).fedCluster
            packet_feedback).receive_rate) := by
  obtain ⟨rec0, hmem, hc⟩ := fedCluster_recordAll feedbacks packet_feedback
  rw [hc] at hinterval ⊢
  have hne : rec0 ++ [packet_feedback] ≠ [] := by simp
  have hfin : ∀ f ∈ rec0 ++ [packet_feedback], f.IsFinite = true :=
    fun f hf => hfinite f (hmem f hf)
  have hone : ∀ f ∈ rec0 ++ [packet_feedback], 1 ≤ f.sent_packet.size :=
    fun f hf => hsize f (hmem f hf)
  have hnonneg : ∀ f ∈ rec0 ++ [packet_feedback], 0 ≤ f.sent_packet.size :=
    fun f hf => le_trans zero_le_one (hone f hf)
  obtain ⟨⟨a, ha, ha1⟩, ⟨b, hb, hb1, hb2⟩, ⟨x, hx, hx1, hx2⟩, ⟨y, hy, hy1⟩⟩ :=
    AggregatedCluster.recordAll_attained _ hfin hne
  obtain ⟨_, htotal⟩ := AggregatedCluster.recordAll_counts (rec0 ++ [packet_feedback])
  obtain ⟨_, _, hpair⟩ := AggregatedCluster.size_le_sum _ hnonneg
  have fa := hfin a ha
  have fb := hfin b hb
  have fx := hfin x hx
  have fy := hfin y hy
  simp only [PacketResult.IsFinite, Bool.and_eq_true] at fa fb fx fy
  obtain ⟨ma, hma⟩ := TimeValue.exists_Micros_of_IsFinite fa.1
  obtain ⟨mb, hmb⟩ := TimeValue.exists_Micros_of_IsFinite fb.1
  obtain ⟨mx, hmx⟩ := TimeValue.exists_Micros_of_IsFinite fx.2
  obtain ⟨my, hmy⟩ := TimeValue.exists_Micros_of_IsFinite fy.2
  have hsi : (AggregatedCluster.recordAll (rec0 ++ [packet_feedback])).send_interval =
      TimeValue.Micros (mb - ma) := by
    unfold AggregatedCluster.send_interval
    rw [← hb1, ← ha1, hmb, hma, TimeValue.sub_Micros]
  have hri : (AggregatedCluster.recordAll (rec0 ++ [packet_feedback])).receive_interval =
      TimeValue.Micros (my - mx) := by
    unfold AggregatedCluster.receive_interval
    rw [← hy1, ← hx1, hmy, hmx, TimeValue.sub_Micros]
  rw [hsi, hri] at hinterval
  simp only [TimeValue.Zero, TimeValue.Micros_le_Micros, not_or, not_le] at hinterval
  obtain ⟨hs0, hs1, hr0, hr1⟩ := hinterval
  clear hs1 hr1
  have hab : a ≠ b := by
    intro e
    rw [e, hmb] at hma
    have := TimeValue.Micros.inj hma
    omega
  have hxy : x ≠ y := by
    intro e
    rw [e, hmy] at hmx
    have := TimeValue.Micros.inj hmx
    omega
  have h1 : (AggregatedCluster.recordAll (rec0 ++ [packet_feedback])).size_total >
      (AggregatedCluster.recordAll (rec0 ++ [packet_feedback])).size_last_send := by
    have := hpair a ha b hb hab
    have := hone a ha
    rw [htotal, ← hb2]
    linarith
  have h2 : (AggregatedCluster.recordAll (rec0 ++ [packet_feedback])).size_total >
      (AggregatedCluster.recordAll (rec0 ++ [packet_feedback])).size_first_receive := by
    have := hpair x hx y hy hxy
    have := hone y hy
    rw [htotal, ← hx2]
    linarith
  have h3 : 0 < (AggregatedCluster.recordAll (rec0 ++ [packet_feedback])).send_rate := by
    unfold AggregatedCluster.send_rate
    rw [hsi]
    simp only [DataSize.div]
    have hpos : (0 : ℚ) < ((mb - ma : Int) : ℚ) := by exact_mod_cast hs0
    apply div_pos _ hpos
    have : (0 : ℚ) < (AggregatedCluster.recordAll (rec0 ++ [packet_feedback])).size_total -
        (AggregatedCluster.recordAll (rec0 ++ [packet_feedback])).size_last_send := by
      linarith
    linarith
  refine ⟨h1, h2, h3, ?_, ?_⟩
  · rw [AggregatedCluster.ratioExceeds_iff]
    constructor
    · rintro (⟨h0, _⟩ | ⟨_, h⟩)
      · rw [h0] at h3
        exact absurd h3 (lt_irrefl _)
      · exact h
    · intro h
      exact Or.inr ⟨ne_of_gt h3, h⟩
  · intro hsat
    unfold kMinRatioForUnsaturatedLink at hsat
    linarith

theorem HandleProbeAndEstimateBitrate_assertions_witness :
    ((∀ f ∈ [ProbeExample.feedbackSlow] ++ [ProbeExample.feedbackFast],
        f.IsFinite = true) ∧
      (∀ f ∈ [ProbeExample.feedbackSlow] ++ [ProbeExample.feedbackFast],
        1 ≤ f.sent_packet.size) ∧
      (ProbeBitrateEstimator.new.feed [ProbeExample.feedbackSlow]).fedCluster
        ProbeExample.feedbackFast = ProbeExample.clusterFast ∧
      ProbeExample.clusterFast.send_interval = TimeValue.Micros 20000 ∧
      ProbeExample.clusterFast.receive_interval = TimeValue.Micros 10000) ∧
    ((ProbeBitrateEstimator.new.feed [ProbeExample.feedbackSlow]).fedCluster
          ProbeExample.feedbackFast).size_total >
        ((ProbeBitrateEstimator.new.feed [ProbeExample.feedbackSlow]).fedCluster
          ProbeExample.feedbackFast).size_last_send ∧
      0 < ((ProbeBitrateEstimator.new.feed [ProbeExample.feedbackSlow]).fedCluster
        ProbeExample.feedbackFast).send_rate := by
  have hfin : ∀ f ∈ [ProbeExample.feedbackSlow] ++ [ProbeExample.feedbackFast],
      f.IsFinite = true := by decide
  have hsize : ∀ f ∈ [ProbeExample.feedbackSlow] ++ [ProbeExample.feedbackFast],
      1 ≤ f.sent_packet.size := by
    intro f hf
    simp only [List.singleton_append, List.mem_cons, List.mem_singleton,
      List.not_mem_nil, or_false] at hf
    rcases hf with rfl | rfl <;>
      norm_num [ProbeExample.feedbackSlow, ProbeExample.feedbackFast]
  have hint : ¬ (((ProbeBitrateEstimator.new.feed [ProbeExample.feedbackSlow]).fedCluster
        ProbeExample.feedbackFast).send_interval ≤ TimeValue.Zero ∨
      ((ProbeBitrateEstimator.new.feed [ProbeExample.feedbackSlow]).fedCluster
        ProbeExample.feedbackFast).send_interval > kMaxProbeInterval ∨
      ((ProbeBitrateEstimator.new.feed [ProbeExample.feedbackSlow]).fedCluster
        ProbeExample.feedbackFast).receive_interval ≤ TimeValue.Zero ∨
      ((ProbeBitrateEstimator.new.feed [ProbeExample.feedbackSlow]).fedCluster
        ProbeExample.feedbackFast).receive_interval > kMaxProbeInterval) := by
    rw [ProbeExample.fedCluster_feedbackFast, ProbeExample.clusterFast_intervals.1,
      ProbeExample.clusterFast_intervals.2]
    norm_num [TimeValue.Zero, kMaxProbeInterval, TimeValue.Seconds]
  obtain ⟨h1, _, h3, _⟩ := HandleProbeAndEstimateBitrate_assertions
    [ProbeExample.feedbackSlow] ProbeExample.feedbackFast hfin hsize hint
  exact ⟨⟨hfin, hsize, ProbeExample.fedCluster_feedbackFast,
    ProbeExample.clusterFast_intervals.1, ProbeExample.clusterFast_intervals.2⟩, h1, h3⟩


end ProbeBitrateEstimator

/-! ## Theorems: probe bitrate estimator, the stored estimate -/

namespace ProbeBitrateEstimator

/-- A call that returns nothing leaves the stored estimate as it is. -/
theorem HandleProbeAndEstimateBitrate_none_estimate (self : ProbeBitrateEstimator)
    (packet_feedback : PacketResult)
    (h : (self.HandleProbeAndEstimateBitrate packet_feedback).1 = none) :
    (self.HandleProbeAndEstimateBitrate packet_feedback).2.estimated_data_rate_ =
      self.estimated_data_rate_ := by
  unfold HandleProbeAndEstimateBitrate at h ⊢
  simp only at h ⊢
  split_ifs at h ⊢
  all_goals rfl

theorem run_concat (self : ProbeBitrateEstimator) (calls : List Call) (c : Call) :
    run self (calls ++ [c]) = Call.apply (run self calls) c := by
  simp [run, List.foldl_append]

theorem results_concat (calls : List Call) (self : ProbeBitrateEstimator) (c : Call) :
    results self (calls ++ [c]) =
      results self calls ++ [(c, Call.result (run self calls) c)] := by
  induction calls generalizing self with
  | nil => rfl
  | cons x rest ih =>
    show (x, Call.result self x) :: results (Call.apply self x) (rest ++ [c]) = _
    rw [ih]
    rfl

/-- After every sequence of calls on a new estimator the stored estimate is the estimate
of the most recent successful call that has not been fetched yet. -/
theorem run_estimated_data_rate (calls : List Call) :
    (run ProbeBitrateEstimator.new calls).estimated_data_rate_ =
      mostRecentUnfetched (results ProbeBitrateEstimator.new calls).reverse := by
  induction calls using List.reverseRecOn with
  | nil => rfl
  | append_singleton rest c ih =>
    rw [run_concat, results_concat, List.reverse_append, List.reverse_singleton,
      List.singleton_append]
    cases c with
    | Fetch => rfl
    | Handle packet_feedback =>
      cases hres : Call.result (run ProbeBitrateEstimator.new rest)
          (Call.Handle packet_feedback) with
      | none =>
        simp only [mostRecentUnfetched]
        rw [← ih]
        exact HandleProbeAndEstimateBitrate_none_estimate _ packet_feedback hres
      | some r =>
        simp only [mostRecentUnfetched]
        exact HandleProbeAndEstimateBitrate_estimate _ packet_feedback r hres

end ProbeBitrateEstimator

namespace ProbeExample

open ProbeBitrateEstimator

/-- The estimator after the probes `feedback1` and `feedback2` holds the estimate of the
second call. -/
theorem estimator2_estimate :
    (estimator1.HandleProbeAndEstimateBitrate feedback2).2.estimated_data_rate_ =
      some 800000 :=
  HandleProbeAndEstimateBitrate_estimate estimator1 feedback2 800000 handle_feedback2

/-- A late probe of another configuration after the probes `feedback1` and `feedback2`:
the cluster holds at most 3 probes, fewer than the 4 that the call asks for. -/
theorem handle_lateProbe :
    ((estimator1.HandleProbeAndEstimateBitrate feedback2).2.HandleProbeAndEstimateBitrate
      lateProbe).1 = none := by
  apply HandleProbeAndEstimateBitrate_none_of_few_probes
  rw [min_probes_five lateProbe rfl]
  rcases fedCluster_num_probes (estimator1.HandleProbeAndEstimateBitrate feedback2).2
    lateProbe with h | ⟨c, hc, h⟩
  · rw [h]
    decide
  · have e : lateProbe.sent_packet.pacing_info.probe_cluster_id =
        feedback2.sent_packet.pacing_info.probe_cluster_id := rfl
    rw [e, HandleProbeAndEstimateBitrate_fed, fedCluster_feedback2] at hc
    rw [h, ← Option.some.inj hc]
    decide

end ProbeExample

namespace ProbeBitrateEstimator

/-- C31: a `HandleProbeAndEstimateBitrate` call that returns nothing leaves the stored
estimate unchanged and still stores the cluster with the feedback recorded in it, so that
a following `FetchAndResetLastEstimatedBitrate` returns what was stored before the call;
after every sequence of calls on a new estimator, `FetchAndResetLastEstimatedBitrate`
returns the estimate of the most recent successful `HandleProbeAndEstimateBitrate` call
if no `FetchAndResetLastEstimatedBitrate` came after it, and nothing otherwise. -/
theorem HandleProbeAndEstimateBitrate_none_keeps_estimate (self : ProbeBitrateEstimator)
    (packet_feedback : PacketResult)
    (h : (self.HandleProbeAndEstimateBitrate packet_feedback).1 = none)
    (calls : List Call) :
    (self.HandleProbeAndEstimateBitrate packet_feedback).2.estimated_data_rate_ =
        self.estimated_data_rate_ ∧
      (self.HandleProbeAndEstimateBitrate packet_feedback).2.clusters_
          packet_feedback.sent_packet.pacing_info.probe_cluster_id =
        some ((((self.EraseOldClusters packet_feedback.receive_time).clusters_
          packet_feedback.sent_packet.pacing_info.probe_cluster_id).getD {}).record
            packet_feedback) ∧
      (self.HandleProbeAndEstimateBitrate
          packet_feedback).2.FetchAndResetLastEstimatedBitrate.1 =
        self.estimated_data_rate_ ∧
      (run ProbeBitrateEstimator.new calls).FetchAndResetLastEstimatedBitrate.1 =
        mostRecentUnfetched (results ProbeBitrateEstimator.new calls).reverse := by
  refine ⟨HandleProbeAndEstimateBitrate_none_estimate self packet_feedback h,
    HandleProbeAndEstimateBitrate_fed self packet_feedback,
    HandleProbeAndEstimateBitrate_none_estimate self packet_feedback h,
    run_estimated_data_rate calls⟩

theorem HandleProbeAndEstimateBitrate_none_keeps_estimate_witness :
    (((ProbeExample.estimator1.HandleProbeAndEstimateBitrate
        ProbeExample.feedback2).2.HandleProbeAndEstimateBitrate
          ProbeExample.lateProbe).1 = none ∧
      (ProbeExample.estimator1.HandleProbeAndEstimateBitrate
        ProbeExample.feedback2).2.estimated_data_rate_ = some 800000) ∧
    ((ProbeExample.estimator1.HandleProbeAndEstimateBitrate
        ProbeExample.feedback2).2.HandleProbeAndEstimateBitrate
          ProbeExample.lateProbe).2.FetchAndResetLastEstimatedBitrate.1 = some 800000 ∧
    (run ProbeBitrateEstimator.new
        [Call.Handle ProbeExample.feedback1, Call.Handle ProbeExample.feedback2,
          Call.Handle ProbeExample.lateProbe]).FetchAndResetLastEstimatedBitrate.1 =
      mostRecentUnfetched (results ProbeBitrateEstimator.new
        [Call.Handle ProbeExample.feedback1, Call.Handle ProbeExample.feedback2,
          Call.Handle ProbeExample.lateProbe]).reverse ∧
    mostRecentUnfetched (results ProbeBitrateEstimator.new
        [Call.Handle ProbeExample.feedback1, Call.Handle ProbeExample.feedback2,
          Call.Handle ProbeExample.lateProbe]).reverse = some 800000 := by
  obtain ⟨_, _, h3, h4⟩ := HandleProbeAndEstimateBitrate_none_keeps_estimate
    (ProbeExample.estimator1.HandleProbeAndEstimateBitrate ProbeExample.feedback2).2
    ProbeExample.lateProbe ProbeExample.handle_lateProbe
    [Call.Handle ProbeExample.feedback1, Call.Handle ProbeExample.feedback2,
      Call.Handle ProbeExample.lateProbe]
  rw [ProbeExample.estimator2_estimate] at h3
  refine ⟨⟨ProbeExample.handle_lateProbe, ProbeExample.estimator2_estimate⟩, h3, h4, ?_⟩
  rw [← h4]
  exact h3

end ProbeBitrateEstimator

/-! ## Theorems: rate tracker, the slots read -/

namespace RateTracker

theorem zeroedAll_append (samples : List (Int × Int)) (self : RateTracker) (p : Int × Int) :
    zeroedAll self (samples ++ [p]) =
      zeroedAll self samples ++ (self.addAll samples).zeroedBy p.2 := by
  induction samples generalizing self with
  | nil => simp [zeroedAll, addAll]
  | cons x rest ih =>
    show self.zeroedBy x.2 ++ zeroedAll (self.AddSamples x.1 x.2) (rest ++ [p]) = _
    rw [ih]
    simp [zeroedAll, addAll]

/-- The loop of `AddSamples` keeps the invariant of the slots set to 0; when the ring has
not wrapped, the loop has ended because the current bucket contains the current time, or
it has used all its iterations. -/
theorem advance_ZeroedInvariant (current_time : Int) (remaining : Nat) (self : RateTracker)
    (zeroed : List Nat) (hd : 0 < self.bucket_milliseconds_)
    (h : ZeroedInvariant self zeroed) :
    (advance current_time remaining self).current_bucket_ ≤ self.bucket_count_ ∧
      ((∀ i, i ≤ self.bucket_count_ →
          i ∈ zeroed ++ advanceZeroed current_time remaining self) ∨
        ((∀ i, i ≤ (advance current_time remaining self).current_bucket_ →
            i ∈ zeroed ++ advanceZeroed current_time remaining self) ∧
          (advance current_time remaining self).bucket_start_time_milliseconds_ =
            self.initialization_time_milliseconds_ +
              ((advance current_time remaining self).current_bucket_ : Int) *
                self.bucket_milliseconds_ ∧
          (current_time <
              (advance current_time remaining self).bucket_start_time_milliseconds_ +
                self.bucket_milliseconds_ ∨
            (advance current_time remaining self).current_bucket_ =
              self.current_bucket_ + remaining))) := by
  induction remaining generalizing self zeroed with
  | zero =>
    obtain ⟨h1, h2⟩ := h
    simp only [advance, advanceZeroed, List.append_nil]
    refine ⟨h1, ?_⟩
    rcases h2 with hall | ⟨hpre, hal⟩
    · exact Or.inl hall
    · exact Or.inr ⟨hpre, hal, Or.inr rfl⟩
  | succ n ih =>
    obtain ⟨h1, h2⟩ := h
    by_cases hc : current_time ≥
        self.bucket_start_time_milliseconds_ + self.bucket_milliseconds_
    · simp only [advance, advanceZeroed, if_pos hc]
      have hassoc : ∀ l : List Nat,
          zeroed ++ (self.NextBucketIndex self.current_bucket_ :: l) =
            (zeroed ++ [self.NextBucketIndex self.current_bucket_]) ++ l := by
        intro l
        simp
      rw [hassoc]
      by_cases hcur : self.current_bucket_ < self.bucket_count_
      · have hnext : self.NextBucketIndex self.current_bucket_ = self.current_bucket_ + 1 := by
          unfold NextBucketIndex
          exact Nat.mod_eq_of_lt (by omega)
        have hinv1 : ZeroedInvariant
            { self with
              bucket_start_time_milliseconds_ :=
                self.bucket_start_time_milliseconds_ + self.bucket_milliseconds_,
              current_bucket_ := self.NextBucketIndex self.current_bucket_,
              sample_buckets_ :=
                Function.update self.sample_buckets_
                  (self.NextBucketIndex self.current_bucket_) 0 }
            (zeroed ++ [self.NextBucketIndex self.current_bucket_]) := by
          refine ⟨?_, ?_⟩
          · show self.NextBucketIndex self.current_bucket_ ≤ self.bucket_count_
            omega
          · rcases h2 with hall | ⟨hpre, hal⟩
            · exact Or.inl (fun i hi => List.mem_append_left _ (hall i hi))
            · right
              refine ⟨?_, ?_⟩
              · intro i hi
                have hi' : i ≤ self.current_bucket_ + 1 := by rw [← hnext]; exact hi
                by_cases hlast : i = self.current_bucket_ + 1
                · apply List.mem_append_right
                  rw [hnext, hlast]
                  exact List.mem_singleton_self _
                · exact List.mem_append_left _ (hpre i (by omega))
              · show self.bucket_start_time_milliseconds_ + self.bucket_milliseconds_ =
                  self.initialization_time_milliseconds_ +
                    ((self.NextBucketIndex self.current_bucket_ : Nat) : Int) *
                      self.bucket_milliseconds_
                rw [hnext, hal]
                push_cast
                ring
        obtain ⟨r1, r2⟩ := ih
          { self with
            bucket_start_time_milliseconds_ :=
              self.bucket_start_time_milliseconds_ + self.bucket_milliseconds_,
            current_bucket_ := self.NextBucketIndex self.current_bucket_,
            sample_buckets_ :=
              Function.update self.sample_buckets_
                (self.NextBucketIndex self.current_bucket_) 0 }
          (zeroed ++ [self.NextBucketIndex self.current_bucket_]) hd hinv1
        refine ⟨r1, ?_⟩
        rcases r2 with hall | ⟨hpre, hal, hend⟩
        · exact Or.inl hall
        · refine Or.inr ⟨hpre, hal, ?_⟩
          rcases hend with hlt | heq
          · exact Or.inl hlt
          · right
            rw [heq]
            show self.NextBucketIndex self.current_bucket_ + n = _
            omega
      · have hall : ∀ i, i ≤ self.bucket_count_ → i ∈ zeroed := by
          rcases h2 with hall | ⟨hpre, _⟩
          · exact hall
          · intro i hi
            exact hpre i (by omega)
        obtain ⟨_, _, _, a4⟩ := advance_fields current_time n
          { self with
            bucket_start_time_milliseconds_ :=
              self.bucket_start_time_milliseconds_ + self.bucket_milliseconds_,
            current_bucket_ := self.NextBucketIndex self.current_bucket_,
            sample_buckets_ :=
              Function.update self.sample_buckets_
                (self.NextBucketIndex self.current_bucket_) 0 }
        refine ⟨a4 (Nat.lt_succ_iff.1 (NextBucketIndex_lt self _)), Or.inl ?_⟩
        intro i hi
        exact List.mem_append_left _ (List.mem_append_left _ (hall i hi))
    · simp only [advance, advanceZeroed, if_neg hc, List.append_nil]
      refine ⟨h1, ?_⟩
      rcases h2 with hall | ⟨hpre, hal⟩
      · exact Or.inl hall
      · exact Or.inr ⟨hpre, hal, Or.inl (by omega)⟩

theorem AddSamples_current_bucket (self : RateTracker) (sample_count current_time : Int) :
    (self.AddSamples sample_count current_time).current_bucket_ =
      (advance current_time ((self.EnsureInitialized current_time).bucket_count_ + 1)
        (self.EnsureInitialized current_time)).current_bucket_ := rfl

/-- An `AddSamples` call at a time `now` that is not before the time `prev` of the previous
call keeps the invariant of the slots set to 0. -/
theorem AddSamples_ZeroedInvariant (self : RateTracker) (zeroed : List Nat)
    (sample_count prev now : Int) (hd : 0 < self.bucket_milliseconds_) (hclock : prev ≤ now)
    (hpre : self.bucket_start_time_milliseconds_ = kTimeUnset ∨
      (ZeroedInvariant self zeroed ∧ self.bucket_start_time_milliseconds_ ≤ prev)) :
    ZeroedInvariant (self.AddSamples sample_count now) (zeroed ++ self.zeroedBy now) ∧
      (self.AddSamples sample_count now).bucket_start_time_milliseconds_ ≤ now ∧
      (self.AddSamples sample_count now).bucket_milliseconds_ = self.bucket_milliseconds_ ∧
      (self.AddSamples sample_count now).bucket_count_ = self.bucket_count_ := by
  obtain ⟨f1, f2, f3, _⟩ := AddSamples_fields self sample_count now
  obtain ⟨e1, e2, e3, _⟩ := EnsureInitialized_fields self now
  have hinit : ZeroedInvariant (self.EnsureInitialized now)
      (zeroed ++ (if self.bucket_start_time_milliseconds_ = kTimeUnset then [0] else [])) ∧
      (self.EnsureInitialized now).bucket_start_time_milliseconds_ ≤ now := by
    by_cases hu : self.bucket_start_time_milliseconds_ = kTimeUnset
    · rw [if_pos hu]
      unfold EnsureInitialized
      rw [if_pos hu]
      refine ⟨⟨Nat.zero_le _, Or.inr ⟨?_, ?_⟩⟩, le_refl _⟩
      · intro i hi
        have : i = 0 := Nat.le_zero.1 hi
        rw [this]
        simp
      · simp
    · rw [if_neg hu, List.append_nil]
      unfold EnsureInitialized
      rw [if_neg hu]
      rcases hpre with h | ⟨h1, h2⟩
      · exact absurd h hu
      · exact ⟨h1, by omega⟩
  obtain ⟨hinv, hle⟩ := hinit
  obtain ⟨a1, a2⟩ := advance_ZeroedInvariant now
    ((self.EnsureInitialized now).bucket_count_ + 1) (self.EnsureInitialized now) _
    (by rw [e1]; exact hd) hinv
  obtain ⟨_, b2, _⟩ := advance_bucket_start now
    ((self.EnsureInitialized now).bucket_count_ + 1) (self.EnsureInitialized now)
    (by rw [e1]; exact hd)
  have hstart := b2 hle
  obtain ⟨m1, m2, m3⟩ := mul_tdiv_bounds_of_nonneg
    (now - (advance now ((self.EnsureInitialized now).bucket_count_ + 1)
      (self.EnsureInitialized now)).bucket_start_time_milliseconds_)
    self.bucket_milliseconds_ hd (by omega)
  have hlist : zeroed ++ self.zeroedBy now =
      (zeroed ++ (if self.bucket_start_time_milliseconds_ = kTimeUnset then [0] else [])) ++
        advanceZeroed now ((self.EnsureInitialized now).bucket_count_ + 1)
          (self.EnsureInitialized now) := by
    unfold zeroedBy
    rw [List.append_assoc]
  rw [hlist]
  have hinit2 : (self.AddSamples sample_count now).initialization_time_milliseconds_ =
      (self.EnsureInitialized now).initialization_time_milliseconds_ := f3.trans e3.symm
  refine ⟨⟨?_, ?_⟩, ?_, f1, f2⟩
  · rw [AddSamples_current_bucket, f2]
    exact le_of_le_of_eq a1 e2
  · rcases a2 with hall | ⟨hpre2, hal, hend⟩
    · left
      intro i hi
      apply hall i
      rw [e2]
      rw [f2] at hi
      exact hi
    · right
      rw [AddSamples_current_bucket]
      refine ⟨hpre2, ?_⟩
      rw [AddSamples_bucket_start_eq, f1, hinit2]
      rw [e1] at hal hend
      rcases hend with hlt | heq
      · have hq0 : Int.tdiv
            (now - (advance now ((self.EnsureInitialized now).bucket_count_ + 1)
              (self.EnsureInitialized now)).bucket_start_time_milliseconds_)
            self.bucket_milliseconds_ = 0 := by
          by_contra hne
          have hpos : 1 ≤ Int.tdiv
              (now - (advance now ((self.EnsureInitialized now).bucket_count_ + 1)
                (self.EnsureInitialized now)).bucket_start_time_milliseconds_)
              self.bucket_milliseconds_ := by omega
          have := mul_le_mul_of_nonneg_left hpos (le_of_lt hd)
          omega
        rw [hq0, hal]
        ring
      · exfalso
        have hz : (self.EnsureInitialized now).current_bucket_ ≤
            (self.EnsureInitialized now).bucket_count_ := hinv.1
        omega
  · rw [AddSamples_bucket_start_eq]
    omega


/-- Under a clock that never goes back, after every `AddSamples` call the invariant of the
slots set to 0 holds for all the slots set to 0 so far, and the current bucket does not
start after the time of the call. -/
theorem addAll_ZeroedInvariant (bucket_milliseconds : Int) (bucket_count : Nat)
    (uninitialized : Nat → Int) (hd : 0 < bucket_milliseconds)
    (samples : List (Int × Int)) (sample_count now : Int)
    (hclock : List.Pairwise (fun p q : Int × Int => p.2 ≤ q.2)
      (samples ++ [(sample_count, now)])) :
    ZeroedInvariant
        ((new bucket_milliseconds bucket_count uninitialized).addAll
          (samples ++ [(sample_count, now)]))
        (zeroedAll (new bucket_milliseconds bucket_count uninitialized)
          (samples ++ [(sample_count, now)])) ∧
      ((new bucket_milliseconds bucket_count uninitialized).addAll
        (samples ++ [(sample_count, now)])).bucket_start_time_milliseconds_ ≤ now ∧
      ((new bucket_milliseconds bucket_count uninitialized).addAll
        (samples ++ [(sample_count, now)])).bucket_milliseconds_ = bucket_milliseconds ∧
      ((new bucket_milliseconds bucket_count uninitialized).addAll
        (samples ++ [(sample_count, now)])).bucket_count_ = bucket_count := by
  induction samples using List.reverseRecOn generalizing sample_count now with
  | nil =>
    rw [addAll_append, zeroedAll_append]
    exact AddSamples_ZeroedInvariant (new bucket_milliseconds bucket_count uninitialized) []
      sample_count now now hd (le_refl _) (Or.inl rfl)
  | append_singleton rest p ih =>
    obtain ⟨hp1, _, hp3⟩ := List.pairwise_append.1 hclock
    have hpt : p.2 ≤ now := hp3 p (by simp) (sample_count, now) (by simp)
    obtain ⟨i1, i2, i3, i4⟩ := ih p.1 p.2 hp1
    rw [addAll_append, zeroedAll_append]
    obtain ⟨s1, s2, s3, s4⟩ := AddSamples_ZeroedInvariant
      ((new bucket_milliseconds bucket_count uninitialized).addAll (rest ++ [p]))
      (zeroedAll (new bucket_milliseconds bucket_count uninitialized) (rest ++ [p]))
      sample_count p.2 now (by rw [i3]; exact hd) hpt (Or.inr ⟨i1, i2⟩)
    exact ⟨s1, s2, s3.trans i3, s4.trans i4⟩

/-- Every slot that the loop of `ComputeRateForInterval` reads is an index of the ring. -/
theorem readLoop_lt (self : RateTracker) (stop fuel : Nat) (i : Nat)
    (hi : i < self.bucket_count_ + 1) :
    ∀ k ∈ readLoop self stop fuel i, k < self.bucket_count_ + 1 := by
  induction fuel generalizing i with
  | zero => intro k hk; exact absurd hk (List.not_mem_nil k)
  | succ n ih =>
    intro k hk
    unfold readLoop at hk
    split_ifs at hk with h
    · exact absurd hk (List.not_mem_nil k)
    · rcases List.mem_cons.1 hk with rfl | hk
      · exact hi
      · exact ih _ (NextBucketIndex_lt self i) k hk

/-- When the loop starts at or before the index where it stops and does not pass the end
of the ring, every slot that it reads lies before that index. -/
theorem readLoop_lt_stop (self : RateTracker) (stop fuel : Nat) (i : Nat) (his : i ≤ stop)
    (hs : stop ≤ self.bucket_count_) :
    ∀ k ∈ readLoop self stop fuel i, k < stop := by
  induction fuel generalizing i with
  | zero => intro k hk; exact absurd hk (List.not_mem_nil k)
  | succ n ih =>
    intro k hk
    unfold readLoop at hk
    split_ifs at hk with h
    · exact absurd hk (List.not_mem_nil k)
    · have hnext : self.NextBucketIndex i = i + 1 := by
        unfold NextBucketIndex
        exact Nat.mod_eq_of_lt (by omega)
      rcases List.mem_cons.1 hk with rfl | hk
      · omega
      · exact ih (self.NextBucketIndex i) (by omega) k hk

theorem toSizeT_of_nonneg (x : Int) (h : 0 ≤ x) : toSizeT x = x.toNat := by
  unfold toSizeT
  rw [if_pos h]

/-- When the ring has not wrapped and the time is not before the start of the current
bucket, the number of buckets that `ComputeRateForInterval` skips is at least the number
of slots behind the current bucket, and at most `bucket_count`. -/
theorem skip_bounds (self : RateTracker) (interval_milliseconds current_time : Int)
    (buckets_to_skip : Nat) (milliseconds_to_skip available : Int)
    (hd : 0 < self.bucket_milliseconds_) (hcur : self.current_bucket_ ≤ self.bucket_count_)
    (hal : self.bucket_start_time_milliseconds_ =
      self.initialization_time_milliseconds_ +
        (self.current_bucket_ : Int) * self.bucket_milliseconds_)
    (hskip : self.skip interval_milliseconds current_time =
      some (buckets_to_skip, milliseconds_to_skip, available)) :
    self.bucket_count_ - self.current_bucket_ ≤ buckets_to_skip ∧
      buckets_to_skip ≤ self.bucket_count_ := by
  unfold skip at hskip
  by_cases hu : self.bucket_start_time_milliseconds_ = kTimeUnset
  · rw [if_pos hu] at hskip
    exact absurd hskip (by simp)
  · rw [if_neg hu] at hskip
    simp only at hskip
    by_cases hb : current_time > self.initialization_time_milliseconds_ +
        min interval_milliseconds (self.bucket_milliseconds_ * (self.bucket_count_ : Int))
    · rw [if_pos hb] at hskip
      split_ifs at hskip with hret
      simp only [Option.some.injEq, Prod.mk.injEq] at hskip
      obtain ⟨hb1, _, _⟩ := hskip
      rw [not_or, not_lt] at hret
      refine ⟨?_, by rw [← hb1]; exact hret.1⟩
      have hge : ((self.bucket_count_ : Int) - (self.current_bucket_ : Int)) *
          self.bucket_milliseconds_ ≤
          current_time - self.bucket_start_time_milliseconds_ +
            (self.bucket_count_ : Int) * self.bucket_milliseconds_ -
            min interval_milliseconds
              (self.bucket_milliseconds_ * (self.bucket_count_ : Int)) := by
        rw [hal, sub_mul]
        linarith
      have hnn : 0 ≤ ((self.bucket_count_ : Int) - (self.current_bucket_ : Int)) *
          self.bucket_milliseconds_ :=
        mul_nonneg (by omega) (le_of_lt hd)
      have hq := Int.le_ediv_of_mul_le hd hge
      rw [← Int.tdiv_eq_ediv (le_trans hnn hge) (le_of_lt hd)] at hq
      rw [← hb1, toSizeT_of_nonneg _ (by omega)]
      omega
    · rw [if_neg hb] at hskip
      split_ifs at hskip with h1 h2
      simp only [Option.some.injEq, Prod.mk.injEq] at hskip
      obtain ⟨hb1, _, _⟩ := hskip
      have hss : sizeSub self.bucket_count_ self.current_bucket_ =
          self.bucket_count_ - self.current_bucket_ := by
        unfold sizeSub
        rw [if_pos hcur]
      rw [← hb1, hss]
      omega

/-- Every slot that `ComputeRateForInterval` reads is an index of the ring and has been set
to 0, when the invariant of the slots set to 0 holds. -/
theorem readSlots_zeroed (self : RateTracker) (zeroed : List Nat)
    (hd : 0 < self.bucket_milliseconds_) (hinv : ZeroedInvariant self zeroed)
    (interval_milliseconds current_time : Int) :
    ∀ i ∈ self.readSlots interval_milliseconds current_time,
      i ≤ self.bucket_count_ ∧ i ∈ zeroed := by
  intro i hi
  unfold readSlots at hi
  cases hskip : self.skip interval_milliseconds current_time with
  | none =>
    rw [hskip] at hi
    exact absurd hi (List.not_mem_nil i)
  | some p =>
    obtain ⟨b, ms, av⟩ := p
    rw [hskip] at hi
    simp only at hi
    have hstart := NextBucketIndex_lt self (self.current_bucket_ + b)
    have hle : i ≤ self.bucket_count_ := by
      rcases List.mem_cons.1 hi with rfl | hi
      · omega
      · have := readLoop_lt self _ _ _ (NextBucketIndex_lt self _) i hi
        omega
    refine ⟨hle, ?_⟩
    obtain ⟨hcur, hz⟩ := hinv
    rcases hz with hall | ⟨hpre, hal⟩
    · exact hall i hle
    · by_cases hfull : self.current_bucket_ = self.bucket_count_
      · exact hpre i (by omega)
      · obtain ⟨hb1, hb2⟩ := skip_bounds self _ _ b ms av hd hcur hal hskip
        have hsb : self.NextBucketIndex (self.current_bucket_ + b) =
            self.current_bucket_ + b - self.bucket_count_ := by
          unfold NextBucketIndex
          rw [mod_of_lt_two_mul _ _ (by omega), if_neg (by omega)]
          omega
        have hstop : self.NextBucketIndex self.current_bucket_ = self.current_bucket_ + 1 := by
          unfold NextBucketIndex
          exact Nat.mod_eq_of_lt (by omega)
        have hfrom : self.NextBucketIndex (self.NextBucketIndex (self.current_bucket_ + b)) =
            self.current_bucket_ + b - self.bucket_count_ + 1 := by
          rw [hsb]
          unfold NextBucketIndex
          exact Nat.mod_eq_of_lt (by omega)
        apply hpre
        rcases List.mem_cons.1 hi with h0 | hi
        · rw [h0, hsb]
          omega
        · rw [hstop, hfrom] at hi
          have := readLoop_lt_stop self _ _ _ (by omega) (by omega) i hi
          omega


/-- The loop of `AddSamples` on a tracker with another content of the array: the other
members come out the same, and so does every slot that the loop sets to 0 or that had the
same content before. -/
theorem advance_withBuckets (current_time : Int) (remaining : Nat) (self : RateTracker)
    (other : Nat → Int) :
    ∃ result : Nat → Int,
      advance current_time remaining (self.withBuckets other) =
          (advance current_time remaining self).withBuckets result ∧
        ∀ i, (i ∈ advanceZeroed current_time remaining self ∨
            other i = self.sample_buckets_ i) →
          result i = (advance current_time remaining self).sample_buckets_ i := by
  induction remaining generalizing self other with
  | zero =>
    refine ⟨other, rfl, ?_⟩
    intro i hi
    rcases hi with hi | hi
    · exact absurd hi (List.not_mem_nil i)
    · exact hi
  | succ n ih =>
    by_cases hc : current_time ≥
        self.bucket_start_time_milliseconds_ + self.bucket_milliseconds_
    · obtain ⟨result, h1, h2⟩ := ih
        { self with
          bucket_start_time_milliseconds_ :=
            self.bucket_start_time_milliseconds_ + self.bucket_milliseconds_,
          current_bucket_ := self.NextBucketIndex self.current_bucket_,
          sample_buckets_ :=
            Function.update self.sample_buckets_
              (self.NextBucketIndex self.current_bucket_) 0 }
        (Function.update other (self.NextBucketIndex self.current_bucket_) 0)
      refine ⟨result, ?_, ?_⟩
      · have hc' : current_time ≥
            (self.withBuckets other).bucket_start_time_milliseconds_ +
              (self.withBuckets other).bucket_milliseconds_ := hc
        rw [advance, if_pos hc', advance, if_pos hc]
        exact h1
      · intro i hi
        rw [advance, if_pos hc]
        apply h2
        rw [advanceZeroed, if_pos hc] at hi
        by_cases hik : i = self.NextBucketIndex self.current_bucket_
        · right
          rw [hik]
          simp
        · rcases hi with hi | hi
          · rcases List.mem_cons.1 hi with hi | hi
            · exact absurd hi hik
            · exact Or.inl hi
          · right
            show Function.update other _ 0 i = Function.update self.sample_buckets_ _ 0 i
            rw [Function.update_noteq hik, Function.update_noteq hik]
            exact hi
    · refine ⟨other, ?_, ?_⟩
      · have hc' : ¬ (current_time ≥
            (self.withBuckets other).bucket_start_time_milliseconds_ +
              (self.withBuckets other).bucket_milliseconds_) := hc
        rw [advance, if_neg hc', advance, if_neg hc]
      · intro i hi
        rw [advance, if_neg hc]
        rw [advanceZeroed, if_neg hc] at hi
        rcases hi with hi | hi
        · exact absurd hi (List.not_mem_nil i)
        · exact hi

theorem EnsureInitialized_withBuckets (self : RateTracker) (current_time : Int)
    (other : Nat → Int) :
    ∃ result : Nat → Int,
      (self.withBuckets other).EnsureInitialized current_time =
          (self.EnsureInitialized current_time).withBuckets result ∧
        ∀ i, (i ∈ (if self.bucket_start_time_milliseconds_ = kTimeUnset then [0] else []) ∨
            other i = self.sample_buckets_ i) →
          result i = (self.EnsureInitialized current_time).sample_buckets_ i := by
  by_cases hu : self.bucket_start_time_milliseconds_ = kTimeUnset
  · have hu' : (self.withBuckets other).bucket_start_time_milliseconds_ = kTimeUnset := hu
    refine ⟨Function.update other 0 0, ?_, ?_⟩
    · rw [EnsureInitialized, if_pos hu', EnsureInitialized, if_pos hu]
      rfl
    · intro i hi
      rw [EnsureInitialized, if_pos hu]
      show Function.update other 0 0 i = Function.update self.sample_buckets_ 0 0 i
      by_cases h0 : i = 0
      · rw [h0]
        simp
      · rw [Function.update_noteq h0, Function.update_noteq h0]
        rcases hi with hi | hi
        · rw [if_pos hu, List.mem_singleton] at hi
          exact absurd hi h0
        · exact hi
  · have hu' : ¬ ((self.withBuckets other).bucket_start_time_milliseconds_ = kTimeUnset) := hu
    refine ⟨other, ?_, ?_⟩
    · rw [EnsureInitialized, if_neg hu', EnsureInitialized, if_neg hu]
    · intro i hi
      rw [EnsureInitialized, if_neg hu]
      rcases hi with hi | hi
      · rw [if_neg hu] at hi
        exact absurd hi (List.not_mem_nil i)
      · exact hi

/-- An `AddSamples` call on a tracker with another content of the array: the other members
come out the same, and so does every slot that the call sets to 0 or that had the same
content before. -/
theorem AddSamples_withBuckets (self : RateTracker) (sample_count current_time : Int)
    (other : Nat → Int) :
    ∃ result : Nat → Int,
      (self.withBuckets other).AddSamples sample_count current_time =
          (self.AddSamples sample_count current_time).withBuckets result ∧
        ∀ i, (i ∈ self.zeroedBy current_time ∨ other i = self.sample_buckets_ i) →
          result i = (self.AddSamples sample_count current_time).sample_buckets_ i := by
  obtain ⟨b1, e1, a1⟩ := EnsureInitialized_withBuckets self current_time other
  obtain ⟨b2, e2, a2⟩ := advance_withBuckets current_time
    ((self.EnsureInitialized current_time).bucket_count_ + 1)
    (self.EnsureInitialized current_time) b1
  have hcount : ((self.EnsureInitialized current_time).withBuckets b1).bucket_count_ =
      (self.EnsureInitialized current_time).bucket_count_ := rfl
  refine ⟨Function.update b2
    (advance current_time ((self.EnsureInitialized current_time).bucket_count_ + 1)
      (self.EnsureInitialized current_time)).current_bucket_
    (b2 (advance current_time ((self.EnsureInitialized current_time).bucket_count_ + 1)
      (self.EnsureInitialized current_time)).current_bucket_ + sample_count), ?_, ?_⟩
  · unfold AddSamples
    simp only
    rw [e1, hcount, e2]
    rfl
  · have key : ∀ i, (i ∈ self.zeroedBy current_time ∨ other i = self.sample_buckets_ i) →
        b2 i = (advance current_time ((self.EnsureInitialized current_time).bucket_count_ + 1)
          (self.EnsureInitialized current_time)).sample_buckets_ i := by
      intro i hi
      apply a2
      rcases hi with hi | hi
      · unfold zeroedBy at hi
        rcases List.mem_append.1 hi with hi | hi
        · exact Or.inr (a1 i (Or.inl hi))
        · exact Or.inl hi
      · exact Or.inr (a1 i (Or.inr hi))
    intro i hi
    show _ = Function.update
      (advance current_time ((self.EnsureInitialized current_time).bucket_count_ + 1)
        (self.EnsureInitialized current_time)).sample_buckets_
      (advance current_time ((self.EnsureInitialized current_time).bucket_count_ + 1)
        (self.EnsureInitialized current_time)).current_bucket_
      ((advance current_time ((self.EnsureInitialized current_time).bucket_count_ + 1)
        (self.EnsureInitialized current_time)).sample_buckets_
        (advance current_time ((self.EnsureInitialized current_time).bucket_count_ + 1)
          (self.EnsureInitialized current_time)).current_bucket_ + sample_count) i
    by_cases hic : i = (advance current_time
        ((self.EnsureInitialized current_time).bucket_count_ + 1)
        (self.EnsureInitialized current_time)).current_bucket_
    · rw [hic, Function.update_same, Function.update_same]
      rw [hic] at hi
      rw [key _ hi]
    · rw [Function.update_noteq hic, Function.update_noteq hic]
      exact key i hi

/-- A sequence of `AddSamples` calls on a tracker with another content of the array: the
other members come out the same, and so does every slot that a call has set to 0. -/
theorem addAll_withBuckets (samples : List (Int × Int)) (self : RateTracker)
    (other : Nat → Int) :
    ∃ result : Nat → Int,
      (self.withBuckets other).addAll samples = (self.addAll samples).withBuckets result ∧
        ∀ i, (i ∈ zeroedAll self samples ∨ other i = self.sample_buckets_ i) →
          result i = (self.addAll samples).sample_buckets_ i := by
  induction samples generalizing self other with
  | nil =>
    refine ⟨other, rfl, ?_⟩
    intro i hi
    rcases hi with hi | hi
    · exact absurd hi (List.not_mem_nil i)
    · exact hi
  | cons p rest ih =>
    obtain ⟨b1, e1, a1⟩ := AddSamples_withBuckets self p.1 p.2 other
    obtain ⟨b2, e2, a2⟩ := ih (self.AddSamples p.1 p.2) b1
    refine ⟨b2, ?_, ?_⟩
    · show ((self.withBuckets other).AddSamples p.1 p.2).addAll rest = _
      rw [e1, e2]
      rfl
    · intro i hi
      show b2 i = ((self.AddSamples p.1 p.2).addAll rest).sample_buckets_ i
      apply a2
      rcases hi with hi | hi
      · rcases List.mem_append.1 hi with hi | hi
        · exact Or.inr (a1 i (Or.inl hi))
        · exact Or.inl hi
      · exact Or.inr (a1 i (Or.inr hi))

theorem sumLoop_withBuckets (self : RateTracker) (other : Nat → Int) (stop fuel : Nat)
    (i : Nat)
    (h : ∀ k ∈ readLoop self stop fuel i, other k = self.sample_buckets_ k) :
    sumLoop (self.withBuckets other) stop fuel i = sumLoop self stop fuel i := by
  induction fuel generalizing i with
  | zero => rfl
  | succ n ih =>
    unfold readLoop at h
    by_cases hs : i = stop
    · simp only [sumLoop, if_pos hs]
    · rw [if_neg hs] at h
      simp only [sumLoop, if_neg hs]
      have hnext : (self.withBuckets other).NextBucketIndex i = self.NextBucketIndex i := rfl
      rw [hnext, ih _ (fun k hk => h k (List.mem_cons_of_mem _ hk))]
      have hi : (self.withBuckets other).sample_buckets_ i = self.sample_buckets_ i :=
        h i (List.mem_cons_self _ _)
      rw [hi]

/-- The result of `ComputeRateForInterval` depends on the array only through the slots
that `readSlots` lists. -/
theorem ComputeRateForInterval_withBuckets (self : RateTracker) (other : Nat → Int)
    (interval_milliseconds current_time : Int)
    (h : ∀ i ∈ self.readSlots interval_milliseconds current_time,
      other i = self.sample_buckets_ i) :
    (self.withBuckets other).ComputeRateForInterval interval_milliseconds current_time =
      self.ComputeRateForInterval interval_milliseconds current_time := by
  have hskip : (self.withBuckets other).skip interval_milliseconds current_time =
      self.skip interval_milliseconds current_time := rfl
  unfold ComputeRateForInterval
  rw [hskip]
  unfold readSlots at h
  cases hs : self.skip interval_milliseconds current_time with
  | none => rfl
  | some p =>
    obtain ⟨b, ms, av⟩ := p
    rw [hs] at h
    simp only at h
    have htotal : (self.withBuckets other).total_samples b ms = self.total_samples b ms := by
      unfold total_samples
      simp only
      have e1 : (self.withBuckets other).NextBucketIndex
          ((self.withBuckets other).current_bucket_ + b) =
          self.NextBucketIndex (self.current_bucket_ + b) := rfl
      have e2 : (self.withBuckets other).NextBucketIndex
          (self.withBuckets other).current_bucket_ =
          self.NextBucketIndex self.current_bucket_ := rfl
      have e3 : (self.withBuckets other).bucket_count_ = self.bucket_count_ := rfl
      have e4 : (self.withBuckets other).bucket_milliseconds_ = self.bucket_milliseconds_ :=
        rfl
      have e5 : ∀ k, (self.withBuckets other).NextBucketIndex k = self.NextBucketIndex k :=
        fun _ => rfl
      have e6 : (self.withBuckets other).sample_buckets_
          (self.NextBucketIndex (self.current_bucket_ + b)) =
          self.sample_buckets_ (self.NextBucketIndex (self.current_bucket_ + b)) :=
        h _ (List.mem_cons_self _ _)
      rw [e1, e2, e3, e4, e5, e6,
        sumLoop_withBuckets self other _ _ _ (fun k hk => h k (List.mem_cons_of_mem _ hk))]
    simp only [htotal]


/-- C32: for a tracker with buckets of `d > 0` ms whose `AddSamples` calls are made under
a clock that never goes back, after at least one call `current_bucket` is an index in
`[0, bucket_count]`; for every `interval_ms` and every query time, every slot that
`ComputeRateForInterval` reads (the start bucket and the slots of the loop up to the
current bucket) is an index in `[0, bucket_count]` and has been set to 0 by the
initialisation or by the loop of an earlier `AddSamples` call; so the result is the same
whatever the array held when it was allocated. -/
theorem ComputeRateForInterval_reads_zeroed (bucket_milliseconds : Int) (bucket_count : Nat)
    (uninitialized : Nat → Int) (hd : 0 < bucket_milliseconds)
    (samples : List (Int × Int))
    (hclock : List.Pairwise (fun p q : Int × Int => p.2 ≤ q.2) samples)
    (interval_milliseconds current_time : Int) :
    (samples ≠ [] →
        ((new bucket_milliseconds bucket_count uninitialized).addAll
          samples).current_bucket_ ≤ bucket_count) ∧
      (∀ i ∈ ((new bucket_milliseconds bucket_count uninitialized).addAll samples).readSlots
          interval_milliseconds current_time,
        i ≤ bucket_count ∧
          i ∈ zeroedAll (new bucket_milliseconds bucket_count uninitialized) samples) ∧
      (∀ other : Nat → Int,
        ((new bucket_milliseconds bucket_count other).addAll samples).ComputeRateForInterval
            interval_milliseconds current_time =
          ((new bucket_milliseconds bucket_count uninitialized).addAll
            samples).ComputeRateForInterval interval_milliseconds current_time) := by
  have hreads : ∀ i ∈ ((new bucket_milliseconds bucket_count uninitialized).addAll
      samples).readSlots interval_milliseconds current_time,
      i ≤ bucket_count ∧
        i ∈ zeroedAll (new bucket_milliseconds bucket_count uninitialized) samples := by
    rcases List.eq_nil_or_concat samples with hnil | ⟨rest, p, hp⟩
    · rw [hnil]
      intro i hi
      exact absurd hi (List.not_mem_nil i)
    · rw [List.concat_eq_append] at hp
      rw [hp] at hclock ⊢
      obtain ⟨hinv, _, hdd, hcount⟩ := addAll_ZeroedInvariant bucket_milliseconds
        bucket_count uninitialized hd rest p.1 p.2 hclock
      intro i hi
      have := readSlots_zeroed _ _ (by rw [hdd]; exact hd) hinv interval_milliseconds
        current_time i hi
      rw [hcount] at this
      exact this
  refine ⟨?_, hreads, ?_⟩
  · intro hne
    rcases List.eq_nil_or_concat samples with hnil | ⟨rest, p, hp⟩
    · exact absurd hnil hne
    · rw [List.concat_eq_append] at hp
      rw [hp] at hclock ⊢
      obtain ⟨hinv, _, _, hcount⟩ := addAll_ZeroedInvariant bucket_milliseconds
        bucket_count uninitialized hd rest p.1 p.2 hclock
      exact le_of_le_of_eq hinv.1 hcount
  · intro other
    obtain ⟨result, e1, a1⟩ := addAll_withBuckets samples
      (new bucket_milliseconds bucket_count uninitialized) other
    have hnew : new bucket_milliseconds bucket_count other =
        (new bucket_milliseconds bucket_count uninitialized).withBuckets other := rfl
    rw [hnew, e1]
    apply ComputeRateForInterval_withBuckets
    intro i hi
    exact a1 i (Or.inl (hreads i hi).2)

theorem ComputeRateForInterval_reads_zeroed_witness :
    ((0 : Int) < 10 ∧
      List.Pairwise (fun p q : Int × Int => p.2 ≤ q.2) [((5 : Int), (0 : Int)), (7, 10)]) ∧
    (exampleGarbage.sample_buckets_ 2 = 99 ∧ exampleGarbage.sample_buckets_ 3 = 99 ∧
      exampleGarbage.readSlots 30 25 = [0, 1] ∧
      zeroedAll (new 10 3 (fun _ => 99)) [(5, 0), (7, 10)] = [0, 1] ∧
      exampleGarbage.ComputeRateForInterval 30 25 = some 480) ∧
    (([((5 : Int), (0 : Int)), (7, 10)] ≠ [] →
        ((new 10 3 (fun _ => 99)).addAll [(5, 0), (7, 10)]).current_bucket_ ≤ 3) ∧
      (∀ i ∈ ((new 10 3 (fun _ => 99)).addAll [(5, 0), (7, 10)]).readSlots 30 25,
        i ≤ 3 ∧ i ∈ zeroedAll (new 10 3 (fun _ => 99)) [(5, 0), (7, 10)]) ∧
      (∀ other : Nat → Int,
        ((new 10 3 other).addAll [(5, 0), (7, 10)]).ComputeRateForInterval 30 25 =
          ((new 10 3 (fun _ => 99)).addAll [(5, 0), (7, 10)]).ComputeRateForInterval
            30 25)) := by
  have hs : exampleGarbage.skip 30 25 = some (2, 0, 25) := by decide
  have ht : exampleGarbage.total_samples 2 0 = some 12 := by decide
  refine ⟨⟨by decide, by decide⟩, ⟨by decide, by decide, by decide, by decide, ?_⟩,
    ComputeRateForInterval_reads_zeroed 10 3 (fun _ => 99) (by decide) [(5, 0), (7, 10)]
      (by decide) 30 25⟩
  rw [ComputeRateForInterval_of_skip _ _ _ _ _ _ _ hs ht]
  norm_num

end RateTracker

end webrtc
